import Mathlib

/-! Geolocation privacy policy and request lifecycle (dom/geolocation)

A shallow embedding of `nsGeoBlurSettings.cpp` and of the policy, transform and
request-lifecycle code of `nsGeolocation.cpp`.

Conventions of the embedding

* `nsString` is a list of characters; `Find`, `CharAt` and `Cut` follow the
  calls that `SetCoords` makes.
* A C++ `double` is a value of `Double K`: `some x` is the finite number `x`,
  carried exactly in an ordered field `K` (rounding and overflow are not
  modelled); `none` is a result that is not a finite number (an infinity or a
  NaN), which is what a division by zero produces.  `K` is left generic so
  that the definitions run over `ℚ` and the theorems hold over `ℝ`.
* A nullable pointer is an `Option`.
* 32-bit unsigned arithmetic is written with an explicit `% 2 ^ 32`.
-/

namespace Gecko

/-! ## Strings -/

/-- The string type of the settings code, as its sequence of characters. -/
abbrev nsString := List Char

/-- The value `kNotFound` returned by `Find` when there is no occurrence. -/
def kNotFound : Int := -1

/-- Embedding of `aString.Find(c)` for a one-character pattern: index of the first
occurrence, `kNotFound` when there is none. -/
def nsString.Find (s : nsString) (c : Char) : Int :=
  if c ∈ s then (s.indexOf c : Int) else kNotFound

/-- Embedding of `aString.CharAt(i)`; the callers only read inside the string. -/
def nsString.CharAt (s : nsString) (i : Nat) : Option Char := s.get? i

/-- Embedding of `aString.Cut(aCutStart, aCutLength)`: removes `aCutLength` characters
starting at `aCutStart`. -/
def nsString.Cut (s : nsString) (aCutStart aCutLength : Nat) : nsString :=
  s.take aCutStart ++ s.drop (aCutStart + aCutLength)

/-- Conversion of a signed result to `uint32_t`. -/
def toUint32 (i : Int) : Nat := (i % (2 ^ 32 : Int)).toNat

/-- Subtraction of `uint32_t` values. -/
def subUint32 (a b : Nat) : Nat := (a + 2 ^ 32 - b % 2 ^ 32) % 2 ^ 32

/-! ## Doubles -/

/-- A C++ `double`: `some x` is the finite value `x`, `none` is a value that
is not a finite number. -/
abbrev Double (K : Type) := Option K

section DoubleOps
variable {K : Type} [LinearOrderedField K] [FloorRing K]

/-- Product of doubles. -/
def Double.mul (a b : Double K) : Double K :=
  match a, b with
  | some x, some y => some (x * y)
  | _, _ => none

/-- Sum of doubles. -/
def Double.add (a b : Double K) : Double K :=
  match a, b with
  | some x, some y => some (x + y)
  | _, _ => none

/-- Quotient of doubles; a zero divisor gives a value that is not finite. -/
def Double.div (a b : Double K) : Double K :=
  match a, b with
  | some x, some y => if y = 0 then none else some (x / y)
  | _, _ => none

/-- The C library `floor`. -/
def Double.floor (a : Double K) : Double K :=
  a.map (fun x => ((⌊x⌋ : Int) : K))

/-- The C library `ceil`. -/
def Double.ceil (a : Double K) : Double K :=
  a.map (fun x => ((⌈x⌉ : Int) : K))

/-- Conversion of an `int32_t` to `double`. -/
def Double.ofInt (i : Int) : Double K := some (i : K)

end DoubleOps

/-! ## Blur settings (`nsGeoBlurSettings`) -/

def GEO_BLUR_TYPE_PRECISE : Int := 1
def GEO_BLUR_TYPE_BLUR : Int := 2
def GEO_BLUR_TYPE_CUSTOM : Int := 3

/-- Simple object that holds a single settings for location. -/
structure nsGeoBlurSettings (K : Type) where
  mManifestURL : nsString
  mBlurType : Int
  mRadius : Int
  mHasValidCoords : Bool
  mLatitude : Double K
  mLongitude : Double K
deriving DecidableEq

section Settings
variable {K : Type} [LinearOrderedField K] [FloorRing K]

/-- The constructor `nsGeoBlurSettings::nsGeoBlurSettings()`. -/
def nsGeoBlurSettings.new : nsGeoBlurSettings K :=
  { mManifestURL := [], mBlurType := GEO_BLUR_TYPE_PRECISE, mRadius := 0,
    mHasValidCoords := false, mLatitude := some 0, mLongitude := some 0 }

def nsGeoBlurSettings.GetRadius (self : nsGeoBlurSettings K) : Int := self.mRadius
def nsGeoBlurSettings.GetLatitude (self : nsGeoBlurSettings K) : Double K := self.mLatitude
def nsGeoBlurSettings.GetLongitude (self : nsGeoBlurSettings K) : Double K := self.mLongitude
def nsGeoBlurSettings.GetManifestURL (self : nsGeoBlurSettings K) : nsString := self.mManifestURL

def nsGeoBlurSettings.SetRadius (self : nsGeoBlurSettings K) (aRadius : Int) :
    nsGeoBlurSettings K :=
  { self with mRadius := aRadius }

def nsGeoBlurSettings.SetBlurType (self : nsGeoBlurSettings K) (aBlurType : Int) :
    nsGeoBlurSettings K :=
  { self with mBlurType := aBlurType }

def nsGeoBlurSettings.ClearCoords (self : nsGeoBlurSettings K) : nsGeoBlurSettings K :=
  { self with mHasValidCoords := false, mLatitude := some 0, mLongitude := some 0 }

/-- Embedding of `nsGeoBlurSettings::SetCoords`.  `ToDouble` is `nsString::ToDouble`, which
lives outside these sources: it returns the converted value together with
whether the result code is `NS_OK`. -/
def nsGeoBlurSettings.SetCoords (ToDouble : nsString → Double K × Bool)
    (self : nsGeoBlurSettings K) (aCoords : nsString) : nsGeoBlurSettings K :=
  let self := self.ClearCoords
  if aCoords.isEmpty then self
  else
    let middle : Nat := toUint32 (aCoords.Find ',')
    if aCoords.CharAt 0 = some '@' ∧ middle > 0 ∧ middle < subUint32 aCoords.length 1 then
      let val := aCoords
      let val := val.Cut middle (subUint32 aCoords.length middle)
      let val := val.Cut 0 1
      let self := { self with mLatitude := (ToDouble val).1 }
      if (ToDouble val).2 = false then
        { self with mLatitude := some 0 }
      else
        let val := aCoords
        let val := val.Cut 0 (middle + 1)
        let self := { self with mLongitude := (ToDouble val).1 }
        if (ToDouble val).2 = false then
          { self with mLatitude := some 0, mLongitude := some 0 }
        else
          { self with mHasValidCoords := true }
    else self

def nsGeoBlurSettings.IsExactLoaction (self : nsGeoBlurSettings K) : Bool :=
  self.mBlurType == GEO_BLUR_TYPE_PRECISE

def nsGeoBlurSettings.IsFakeLocation (self : nsGeoBlurSettings K) : Bool :=
  self.mBlurType == GEO_BLUR_TYPE_CUSTOM

def nsGeoBlurSettings.IsBluredLocation (self : nsGeoBlurSettings K) : Bool :=
  self.mBlurType == GEO_BLUR_TYPE_BLUR

/-- Embedding of `nsGeoBlurSettings::IsNoLocation`.  The header under these sources does
not define `GEO_BLUR_TYPE_NO_LOCATION`; its value is a parameter. -/
def nsGeoBlurSettings.IsNoLocation (GEO_BLUR_TYPE_NO_LOCATION : Int)
    (self : nsGeoBlurSettings K) : Bool :=
  self.mBlurType == GEO_BLUR_TYPE_NO_LOCATION

def nsGeoBlurSettings.HasValidCoords (self : nsGeoBlurSettings K) : Bool :=
  self.mHasValidCoords

end Settings

/-! ## Decimal literals -/

/-- Value of a sequence of decimal digits. -/
def digitsValue (ds : List Char) : Nat :=
  ds.foldl (fun acc c => 10 * acc + (c.toNat - 48)) 0

section Decimal
variable {K : Type} [LinearOrderedField K] [FloorRing K]

/-- Modelled from the spec: `nsString::ToDouble` is not among these sources.
The spec has both halves parsed "as decimal floating point", a parse failure
giving no valid coordinates: an optional sign, digits, an optional fraction;
the result code is `NS_OK` (`true`) when at least one digit was read and the
whole string was consumed.  The value is exact. -/
def decimalToDouble (s : nsString) : Double K × Bool :=
  let negative : Bool := s.head? = some '-'
  let body := if s.head? = some '-' ∨ s.head? = some '+' then s.drop 1 else s
  let intDigits := body.takeWhile Char.isDigit
  let afterInt := body.dropWhile Char.isDigit
  let fracDigits :=
    if afterInt.head? = some '.' then (afterInt.drop 1).takeWhile Char.isDigit else []
  let rest :=
    if afterInt.head? = some '.' then (afterInt.drop 1).dropWhile Char.isDigit else afterInt
  let magnitude : K := (digitsValue (intDigits ++ fracDigits) : K) / 10 ^ fracDigits.length
  let value : K := if negative then -magnitude else magnitude
  if (intDigits ++ fracDigits).isEmpty then (some 0, false)
  else (some value, rest.isEmpty)

end Decimal

/-! ## Positions -/

/-- The coordinates object of a position (`nsIDOMGeoPositionCoords`). -/
structure nsGeoPositionCoords (K : Type) where
  latitude : Double K
  longitude : Double K
  altitude : Double K
  accuracy : Double K
  altitudeAccuracy : Double K
  heading : Double K
  speed : Double K
deriving DecidableEq

/-- A position (`nsIDOMGeoPosition`): `GetCoords` may hand out a null
pointer; the timestamp is a `DOMTimeStamp` (unsigned 64-bit milliseconds). -/
structure nsGeoPosition (K : Type) where
  coords : Option (nsGeoPositionCoords K)
  timestamp : Nat
deriving DecidableEq

section Transform
variable {K : Type} [LinearOrderedField K] [FloorRing K]

/-- The constructor `nsGeoPosition(lat, long, alt, hError, vError, heading,
speed, timestamp)`. -/
def nsGeoPosition.new (aLat aLong aAlt aHError aVError aHeading aSpeed : Double K)
    (aTimestamp : Nat) : nsGeoPosition K :=
  { coords := some { latitude := aLat, longitude := aLong, altitude := aAlt,
                     accuracy := aHError, altitudeAccuracy := aVError,
                     heading := aHeading, speed := aSpeed },
    timestamp := aTimestamp }

/-- The local `gridSize` of `GridAlgorithm`: `(aKmSize * aRadius) / 3600`. -/
def GridAlgorithm.gridSize (aRadius : Int) (aKmSize : Double K) : Double K :=
  (aKmSize.mul (Double.ofInt aRadius)).div (some 3600)

/-- Embedding of `nsGeolocationRequest::GridAlgorithm`. -/
def GridAlgorithm (aRadius : Int) (aKmSize aCoord : Double K) : Double K :=
  let gridSize := GridAlgorithm.gridSize aRadius aKmSize
  let belongsTo := aCoord.div gridSize
  ((belongsTo.floor.mul gridSize).add (belongsTo.ceil.mul gridSize)).div (some 2)

/-- Embedding of `nsGeolocationRequest::CalcLatByGridAlgorithm`. -/
def CalcLatByGridAlgorithm (aRadius : Int) (aLatitude : Double K) : Double K :=
  let kmSize : Double K := some 32.39
  GridAlgorithm aRadius kmSize aLatitude

/-- The `kmSize` that `CalcLonByGridAlgorithm` computes from the latitude;
`cos` is the C library cosine.  The arithmetic is that of the field `K`,
without rounding; `Binary64.CalcLonKmSize` is the same computation in
binary64. -/
def CalcLonKmSize (cos : K → K) (aLatitude : Double K) : Double K :=
  let fi := (aLatitude.mul (some 3.14)).div (some 180)
  Double.div (some 3600) (Double.mul (fi.map cos) (some 111.27))

/-- Embedding of `nsGeolocationRequest::CalcLonByGridAlgorithm`. -/
def CalcLonByGridAlgorithm (cos : K → K) (aRadius : Int) (aLongitude aLatitude : Double K) :
    Double K :=
  let kmSize := CalcLonKmSize cos aLatitude
  GridAlgorithm aRadius kmSize aLongitude

/-- Embedding of `nsGeolocationRequest::FakeLocation`. -/
def FakeLocation (aPosition : Option (nsGeoPosition K)) (aLatitude aLongitude : Double K) :
    Option (nsGeoPosition K) :=
  match aPosition with
  | none => none
  | some p =>
    match p.coords with
    | none => some p
    | some coords =>
      some (nsGeoPosition.new aLatitude aLongitude coords.altitude coords.accuracy
        coords.altitudeAccuracy coords.heading coords.speed p.timestamp)

/-- Embedding of `nsGeolocationRequest::BlurLocation`. -/
def BlurLocation (cos : K → K) (aPosition : Option (nsGeoPosition K)) (aRadius : Int) :
    Option (nsGeoPosition K) :=
  match aPosition with
  | some p =>
    match p.coords with
    | some coords =>
      let latitude := coords.latitude
      let longitude := coords.longitude
      let longitude := CalcLonByGridAlgorithm cos aRadius longitude latitude
      let latitude := CalcLatByGridAlgorithm aRadius latitude
      FakeLocation (some p) latitude longitude
    | none => some p
  | none => none

end Transform

/-! ## Policy resolution -/

/-- The process kinds that `XRE_GetProcessType()` can report. -/
inductive GeckoProcessType where
  | GeckoProcessType_Default
  | GeckoProcessType_Plugin
  | GeckoProcessType_Content
  | GeckoProcessType_IPDLUnitTest
deriving DecidableEq

/-- The three file-level statics that hold the privacy policy:
`sGlobalBlurSettings`, `sExceptionsAppBlurSettings` and `sUnbluredApps`. -/
structure BlurStatics (K : Type) where
  sGlobalBlurSettings : nsGeoBlurSettings K
  sExceptionsAppBlurSettings : List (nsGeoBlurSettings K)
  sUnbluredApps : List nsString

section Policy
variable {K : Type} [LinearOrderedField K] [FloorRing K]

/-- Embedding of `nsGeolocationRequest::GetAppManifestURL`: the manifest URL of the
request's locator, `none` standing for `NS_ERROR_FAILURE`. -/
def GetAppManifestURL (mLocatorManifestURL : nsString) : Option nsString :=
  let aAppManifestURL := mLocatorManifestURL
  if aAppManifestURL.isEmpty then none else some aAppManifestURL

/-- The `for` loop of `GetBlurSettings` over the exception array, from the
current element on; it stops at the first element whose manifest URL equals
`appManifestURL`. -/
def GetBlurSettings.search (appManifestURL : nsString) (blurSettings : nsGeoBlurSettings K) :
    List (nsGeoBlurSettings K) → nsGeoBlurSettings K
  | [] => blurSettings
  | appSettings :: rest =>
    if appManifestURL = appSettings.GetManifestURL then appSettings
    else GetBlurSettings.search appManifestURL blurSettings rest

/-- Embedding of `nsGeolocationRequest::GetBlurSettings`.  The result is the settings
object the returned pointer designates; the pointer is never null. -/
def GetBlurSettings (st : BlurStatics K) (mLocatorManifestURL : nsString) :
    nsGeoBlurSettings K :=
  let blurSettings := st.sGlobalBlurSettings
  match GetAppManifestURL mLocatorManifestURL with
  | some appManifestURL =>
    GetBlurSettings.search appManifestURL blurSettings st.sExceptionsAppBlurSettings
  | none => blurSettings

/-- Embedding of `nsGeolocationRequest::ChangeLocation`. -/
def ChangeLocation (XRE_GetProcessType : GeckoProcessType) (cos : K → K) (st : BlurStatics K)
    (mLocatorManifestURL : nsString) (aPosition : Option (nsGeoPosition K)) :
    Option (nsGeoPosition K) :=
  if XRE_GetProcessType = GeckoProcessType.GeckoProcessType_Content then aPosition
  else
    let blurSettings := GetBlurSettings st mLocatorManifestURL
    if blurSettings.IsExactLoaction then aPosition
    else if blurSettings.IsBluredLocation then
      BlurLocation cos aPosition blurSettings.GetRadius
    else if blurSettings.IsFakeLocation && blurSettings.HasValidCoords then
      FakeLocation aPosition blurSettings.GetLatitude blurSettings.GetLongitude
    else none

end Policy

/-! ## Requests, session and service

One session (`Geolocation`) and the service it registers with are kept in one
state record, together with the heap of request objects, the main-thread
queue of dispatched runnables and the record of what the outside observes:
callbacks invoked on consumers and calls made on the provider.  A request is
designated by its index in the heap.  Everything the code reads from outside
(clock, process type, preferences, provider results, window liveness) is an
`Env`, given anew at every step. -/

def PERMISSION_DENIED : Nat := 1
def POSITION_UNAVAILABLE : Nat := 2
def TIMEOUT : Nat := 3

def MAX_GEO_REQUESTS_PER_WINDOW : Nat := 1500

/-- Result codes used by the session and the service. -/
inductive nsresult where
  | NS_OK
  | NS_ERROR_FAILURE
  | NS_ERROR_NOT_AVAILABLE
deriving DecidableEq

/-- The options dictionary of a request. -/
structure PositionOptions where
  mEnableHighAccuracy : Bool
  mTimeout : Int
  mMaximumAge : Nat
deriving DecidableEq

/-- The mutable members of `nsGeolocationRequest`.  `mTimeoutTimer` is the
delay of the armed one-shot timer, `none` for a null timer.  The callback
pair is designated by the index of the request. -/
structure nsGeolocationRequest where
  mIsWatchPositionRequest : Bool
  mTimeoutTimer : Option Int
  mOptions : Option PositionOptions
  mWatchId : Int
  mShutdown : Bool
deriving DecidableEq

/-- A call on the callback pair of a request: the success callback with a
position, or `PositionError::NotifyCallback` on the error callback with a
code. -/
inductive CallbackEvent (K : Type) where
  | success (request : Nat) (position : nsGeoPosition K)
  | error (request : Nat) (code : Nat)
deriving DecidableEq

/-- The runnables that the code dispatches to the main thread. -/
inductive Runnable (K : Type) where
  | RequestPromptEvent (request : Nat)
  | RequestAllowEvent (allow : Bool) (request : Nat)
  | RequestSendLocationEvent (position : Option (nsGeoPosition K)) (request : Nat)
deriving DecidableEq

/-- Calls that the service makes on its collaborators. -/
inductive ServiceEffect where
  | ProviderStartup
  | ProviderWatch
  | ProviderShutdown
  | ProviderSetHighAccuracy (value : Bool)
  | NotifyObserversStarting
  | NotifyObserversShutdown
  | SendAddGeolocationListener (highAccuracy : Bool)
  | SendRemoveGeolocationListener
  | SendSetGeolocationHigherAccuracy (value : Bool)
deriving DecidableEq

/-- The service's cache entry `CachedPositionAndAccuracy`. -/
structure CachedPositionAndAccuracy (K : Type) where
  position : Option (nsGeoPosition K)
  isHighAccuracy : Bool

/-- What a step reads from outside the modelled code. -/
structure Env (K : Type) where
  XRE_GetProcessType : GeckoProcessType
  cos : K → K
  /-- `PR_Now()`, in microseconds. -/
  PR_Now : Int
  /-- `services::GetObserverService()` is not null. -/
  hasObserverService : Bool
  /-- `mProvider` is not null. -/
  mProvider : Bool
  /-- `mProvider->Startup()` succeeds. -/
  providerStartup : Bool
  /-- `mProvider->Watch(this)` succeeds. -/
  providerWatch : Bool
  /-- The preference `geo.prompt.testing`. -/
  promptTesting : Bool
  /-- The preference `geo.prompt.testing.allow`. -/
  promptTestingAllow : Bool
  IsCallerChrome : Bool
  /-- The window behind `mOwner` is still referenced and is closed or no
  longer the current inner window of its outer window. -/
  ownerWindowGone : Bool

/-- State of the session, the service, the statics and the main thread. -/
structure Sys (K : Type) where
  requests : List nsGeolocationRequest
  mPendingCallbacks : List Nat
  mWatchingCallbacks : List Nat
  mPendingRequests : List Nat
  mLastWatchId : Int
  mManifestURL : nsString
  /-- `mOwner` is not null. -/
  mOwner : Bool
  /-- `mService` is not null; the session is then in `mGeolocators`. -/
  mService : Bool
  mLastPosition : CachedPositionAndAccuracy K
  mHigherAccuracy : Bool
  /-- The disconnect timer is armed. -/
  mDisconnectTimer : Bool
  sGeoEnabled : Bool
  sGeoInitPending : Bool
  blur : BlurStatics K
  /-- Runnables dispatched to the main thread and not yet run, oldest first. -/
  queue : List (Runnable K)
  /-- Requests handed to the permission prompt and not yet decided. -/
  prompting : List Nat
  /-- The callbacks invoked so far, oldest first. -/
  callbacks : List (CallbackEvent K)
  /-- The calls made on the provider and its observers, oldest first. -/
  effects : List ServiceEffect
  /-- A null pointer or an index out of range was dereferenced. -/
  crashed : Bool

section Lifecycle
variable {K : Type} [LinearOrderedField K] [FloorRing K]

/-- Conversion to `DOMTimeStamp` (unsigned 64-bit). -/
def DOMTimeStamp (i : Int) : Nat := (i % (2 ^ 64 : Int)).toNat

def PR_USEC_PER_MSEC : Int := 1000

/-- Overwrites the request object at index `r`. -/
def Sys.setRequest (s : Sys K) (r : Nat) (q : nsGeolocationRequest) : Sys K :=
  { s with requests := s.requests.set r q }

/-- Applies `f` to the request object at index `r`. -/
def Sys.modifyRequest (s : Sys K) (r : Nat) (f : nsGeolocationRequest → nsGeolocationRequest) :
    Sys K :=
  match s.requests[r]? with
  | some q => s.setRequest r (f q)
  | none => { s with crashed := true }

def Sys.effect (s : Sys K) (e : ServiceEffect) : Sys K :=
  { s with effects := s.effects ++ [e] }

/-- Embedding of `NS_DispatchToMainThread`. -/
def NS_DispatchToMainThread (s : Sys K) (ev : Runnable K) : Sys K :=
  { s with queue := s.queue ++ [ev] }

/-- Embedding of `nsGeolocationRequest::WantsHighAccuracy`. -/
def nsGeolocationRequest.WantsHighAccuracy (q : nsGeolocationRequest) : Bool :=
  !q.mShutdown && (match q.mOptions with
    | some o => o.mEnableHighAccuracy
    | none => false)

/-- Value of `WantsHighAccuracy` of the request at index `r`. -/
def Sys.WantsHighAccuracy (s : Sys K) (r : Nat) : Bool :=
  match s.requests[r]? with
  | some q => q.WantsHighAccuracy
  | none => false

/-- Embedding of `Geolocation::HighAccuracyRequested`. -/
def Geolocation.HighAccuracyRequested (s : Sys K) : Bool :=
  s.mWatchingCallbacks.any (fun r => s.WantsHighAccuracy r) ||
    s.mPendingCallbacks.any (fun r => s.WantsHighAccuracy r)

/-- Embedding of `nsGeolocationService::HighAccuracyRequested`: the loop over
`mGeolocators`, which holds the session while `mService` is set. -/
def nsGeolocationService.HighAccuracyRequested (s : Sys K) : Bool :=
  s.mService && Geolocation.HighAccuracyRequested s

/-- The call `mProvider->SetHighAccuracy(value)`. -/
def ProviderSetHighAccuracy (env : Env K) (s : Sys K) (value : Bool) : Sys K :=
  if env.mProvider then s.effect (ServiceEffect.ProviderSetHighAccuracy value)
  else { s with crashed := true }

/-- Embedding of `nsGeolocationService::UpdateAccuracy`. -/
def nsGeolocationService.UpdateAccuracy (env : Env K) (s : Sys K) (aForceHigh : Bool) : Sys K :=
  let highRequired := aForceHigh || nsGeolocationService.HighAccuracyRequested s
  if env.XRE_GetProcessType = GeckoProcessType.GeckoProcessType_Content then
    s.effect (ServiceEffect.SendSetGeolocationHigherAccuracy highRequired)
  else
    let mHigherAccuracy := s.mHigherAccuracy
    let s :=
      if !mHigherAccuracy && highRequired then ProviderSetHighAccuracy env s true else s
    let s :=
      if mHigherAccuracy && !highRequired then ProviderSetHighAccuracy env s false else s
    { s with mHigherAccuracy := highRequired }

/-- Embedding of `nsGeolocationRequest::StopTimeoutTimer`. -/
def nsGeolocationRequest.StopTimeoutTimer (s : Sys K) (r : Nat) : Sys K :=
  s.modifyRequest r (fun q => { q with mTimeoutTimer := none })

/-- Embedding of `nsGeolocationRequest::SetTimeoutTimer`. -/
def nsGeolocationRequest.SetTimeoutTimer (s : Sys K) (r : Nat) : Sys K :=
  let s := nsGeolocationRequest.StopTimeoutTimer s r
  s.modifyRequest r (fun q =>
    match q.mOptions with
    | some o =>
      if o.mTimeout ≠ 0 then
        let timeout := o.mTimeout
        let timeout := if timeout < 0 then 0 else if timeout < 10 then 10 else timeout
        { q with mTimeoutTimer := some timeout }
      else q
    | none => q)

/-- Embedding of `nsGeolocationRequest::NotifyError`. -/
def nsGeolocationRequest.NotifyError (s : Sys K) (r : Nat) (aErrorCode : Nat) : Sys K :=
  { s with callbacks := s.callbacks ++ [CallbackEvent.error r aErrorCode] }

/-- Embedding of `nsGeolocationRequest::Shutdown`. -/
def nsGeolocationRequest.Shutdown (env : Env K) (s : Sys K) (r : Nat) : Sys K :=
  match s.requests[r]? with
  | none => { s with crashed := true }
  | some q =>
    let s := s.setRequest r { q with mShutdown := true, mTimeoutTimer := none }
    match q.mOptions with
    | some o =>
      if o.mEnableHighAccuracy then nsGeolocationService.UpdateAccuracy env s false else s
    | none => s

/-- Embedding of `Geolocation::RemoveRequest`: `RemoveElement` on both arrays. -/
def Geolocation.RemoveRequest (s : Sys K) (r : Nat) : Sys K :=
  { s with mPendingCallbacks := s.mPendingCallbacks.erase r,
           mWatchingCallbacks := s.mWatchingCallbacks.erase r }

/-- Embedding of `nsGeolocationRequest::NotifyErrorAndShutdown`. -/
def nsGeolocationRequest.NotifyErrorAndShutdown (env : Env K) (s : Sys K) (r : Nat)
    (aErrorCode : Nat) : Sys K :=
  match s.requests[r]? with
  | none => { s with crashed := true }
  | some q =>
    let s :=
      if !q.mIsWatchPositionRequest then
        Geolocation.RemoveRequest (nsGeolocationRequest.Shutdown env s r) r
      else s
    nsGeolocationRequest.NotifyError s r aErrorCode

/-- Embedding of `nsGeolocationRequest::Notify`, the timer callback. -/
def nsGeolocationRequest.Notify (env : Env K) (s : Sys K) (r : Nat) : Sys K :=
  let s := nsGeolocationRequest.StopTimeoutTimer s r
  nsGeolocationRequest.NotifyErrorAndShutdown env s r TIMEOUT

/-- Embedding of `nsGeolocationRequest::Cancel`. -/
def nsGeolocationRequest.Cancel (s : Sys K) (r : Nat) : Sys K :=
  nsGeolocationRequest.NotifyError s r PERMISSION_DENIED

/-- Embedding of `nsGeolocationRequest::Update`. -/
def nsGeolocationRequest.Update (s : Sys K) (r : Nat) (aPosition : Option (nsGeoPosition K)) :
    Sys K :=
  NS_DispatchToMainThread s (Runnable.RequestSendLocationEvent aPosition r)

/-- Embedding of `nsGeolocationRequest::SendLocation`. -/
def nsGeolocationRequest.SendLocation (env : Env K) (s : Sys K) (r : Nat)
    (aPosition : Option (nsGeoPosition K)) : Sys K :=
  match s.requests[r]? with
  | none => { s with crashed := true }
  | some q =>
    if q.mShutdown then s
    else
      let checkAge : Option Bool :=
        match q.mOptions with
        | some o =>
          if o.mMaximumAge > 0 then
            match aPosition with
            | some p =>
              some (decide (DOMTimeStamp (env.PR_Now.tdiv PR_USEC_PER_MSEC - o.mMaximumAge)
                > p.timestamp))
            | none => none
          else some false
        | none => some false
      match checkAge with
      | none => { s with crashed := true }
      | some true => s
      | some false =>
        let wrapped : Option (nsGeoPosition K) :=
          match aPosition with
          | some p =>
            match p.coords with
            | some _ =>
              ChangeLocation env.XRE_GetProcessType env.cos s.blur s.mManifestURL (some p)
            | none => none
          | none => none
        match wrapped with
        | none => nsGeolocationRequest.NotifyError s r POSITION_UNAVAILABLE
        | some w =>
          let s :=
            if !q.mIsWatchPositionRequest then nsGeolocationRequest.Shutdown env s r else s
          let s := { s with callbacks := s.callbacks ++ [CallbackEvent.success r w] }
          nsGeolocationRequest.StopTimeoutTimer s r

/-! ### Loops over the request arrays -/

/-- The loop `for (i = n; i > 0; i--) body(arr[i-1])`; the array is read anew
at every turn. -/
def forDown (arr : Sys K → List Nat) (body : Sys K → Nat → Sys K) : Nat → Sys K → Sys K
  | 0, s => s
  | i + 1, s =>
    match (arr s)[i]? with
    | some r => forDown arr body i (body s r)
    | none => { s with crashed := true }

/-- The loop `for (i = start; i < arr.Length(); i++) body(arr[i])`; the array
and its length are read anew at every turn, and `fuel` bounds the number of
turns. -/
def forUp (arr : Sys K → List Nat) (body : Sys K → Nat → Sys K) : Nat → Nat → Sys K → Sys K
  | 0, _, s => s
  | fuel + 1, i, s =>
    match (arr s)[i]? with
    | some r => forUp arr body fuel (i + 1) (body s r)
    | none => s

/-! ### The session (`Geolocation`) -/

/-- Embedding of `Geolocation::WindowOwnerStillExists`. -/
def Geolocation.WindowOwnerStillExists (env : Env K) (s : Sys K) : Bool :=
  if !s.mOwner then true else !env.ownerWindowGone

/-- Embedding of `Geolocation::Shutdown`. -/
def Geolocation.Shutdown (env : Env K) (s : Sys K) : Sys K :=
  let s := { s with mPendingCallbacks := [], mWatchingCallbacks := [] }
  let s :=
    if s.mService then nsGeolocationService.UpdateAccuracy env { s with mService := false } false
    else s
  { s with mService := false }

/-- Embedding of `Geolocation::HasActiveCallbacks`. -/
def Geolocation.HasActiveCallbacks (s : Sys K) : Bool :=
  s.mPendingCallbacks.length != 0 || s.mWatchingCallbacks.length != 0

/-- Embedding of `Geolocation::Update`. -/
def Geolocation.Update (env : Env K) (s : Sys K) (aSomewhere : Option (nsGeoPosition K)) :
    Sys K :=
  if !Geolocation.WindowOwnerStillExists env s then Geolocation.Shutdown env s
  else
    let s := forDown (fun s => s.mPendingCallbacks)
      (fun s r => Geolocation.RemoveRequest (nsGeolocationRequest.Update s r aSomewhere) r)
      s.mPendingCallbacks.length s
    forUp (fun s => s.mWatchingCallbacks)
      (fun s r => nsGeolocationRequest.Update s r aSomewhere)
      s.mWatchingCallbacks.length 0 s

/-- Embedding of `nsGeolocationRequest::LocationUpdatePending`. -/
def nsGeolocationRequest.LocationUpdatePending (s : Sys K) (r : Nat) : Sys K :=
  match s.requests[r]? with
  | none => { s with crashed := true }
  | some q => if q.mTimeoutTimer.isNone then nsGeolocationRequest.SetTimeoutTimer s r else s

/-- Embedding of `Geolocation::LocationUpdatePending`. -/
def Geolocation.LocationUpdatePending (s : Sys K) : Sys K :=
  forUp (fun s => s.mWatchingCallbacks) nsGeolocationRequest.LocationUpdatePending
    s.mWatchingCallbacks.length 0 s

/-- Embedding of `Geolocation::NotifyError`. -/
def Geolocation.NotifyError (env : Env K) (s : Sys K) (aErrorCode : Nat) : Sys K :=
  if !Geolocation.WindowOwnerStillExists env s then Geolocation.Shutdown env s
  else
    let s := forDown (fun s => s.mPendingCallbacks)
      (fun s r => nsGeolocationRequest.NotifyErrorAndShutdown env s r aErrorCode)
      s.mPendingCallbacks.length s
    forUp (fun s => s.mWatchingCallbacks)
      (fun s r => nsGeolocationRequest.NotifyErrorAndShutdown env s r aErrorCode)
      s.mWatchingCallbacks.length 0 s

/-- Embedding of `Geolocation::NotifyAllowedRequest`. -/
def Geolocation.NotifyAllowedRequest (s : Sys K) (r : Nat) : Sys K :=
  match s.requests[r]? with
  | none => { s with crashed := true }
  | some q =>
    if q.mIsWatchPositionRequest then
      { s with mWatchingCallbacks := s.mWatchingCallbacks ++ [r] }
    else
      { s with mPendingCallbacks := s.mPendingCallbacks ++ [r] }

/-- Embedding of `Geolocation::RegisterRequestWithPrompt`; it always returns `true`. -/
def Geolocation.RegisterRequestWithPrompt (env : Env K) (s : Sys K) (r : Nat) : Sys K :=
  if env.promptTesting then
    NS_DispatchToMainThread s (Runnable.RequestAllowEvent env.promptTestingAllow r)
  else
    NS_DispatchToMainThread s (Runnable.RequestPromptEvent r)

/-! ### The service (`nsGeolocationService`) -/

/-- Embedding of `nsGeolocationService::SetCachedPosition`. -/
def nsGeolocationService.SetCachedPosition (s : Sys K) (aPosition : Option (nsGeoPosition K)) :
    Sys K :=
  { s with mLastPosition := { position := aPosition, isHighAccuracy := s.mHigherAccuracy } }

/-- Embedding of `nsGeolocationService::Update`. -/
def nsGeolocationService.Update (env : Env K) (s : Sys K)
    (aSomewhere : Option (nsGeoPosition K)) : Sys K :=
  let s := nsGeolocationService.SetCachedPosition s aSomewhere
  if s.mService then Geolocation.Update env s aSomewhere else s

/-- Embedding of `nsGeolocationService::LocationUpdatePending`. -/
def nsGeolocationService.LocationUpdatePending (s : Sys K) : Sys K :=
  if s.mService then Geolocation.LocationUpdatePending s else s

/-- Embedding of `nsGeolocationService::NotifyError`. -/
def nsGeolocationService.NotifyError (env : Env K) (s : Sys K) (aErrorCode : Nat) : Sys K :=
  if s.mService then Geolocation.NotifyError env s aErrorCode else s

/-- Embedding of `nsGeolocationService::SetDisconnectTimer`. -/
def nsGeolocationService.SetDisconnectTimer (s : Sys K) : Sys K :=
  { s with mDisconnectTimer := true }

/-- Embedding of `nsGeolocationService::StartDevice`. -/
def nsGeolocationService.StartDevice (env : Env K) (s : Sys K) : Sys K × nsresult :=
  if !s.sGeoEnabled || s.sGeoInitPending then (s, nsresult.NS_ERROR_NOT_AVAILABLE)
  else
    let s := nsGeolocationService.SetDisconnectTimer s
    if env.XRE_GetProcessType = GeckoProcessType.GeckoProcessType_Content then
      (s.effect (ServiceEffect.SendAddGeolocationListener
        (nsGeolocationService.HighAccuracyRequested s)), nsresult.NS_OK)
    else if !env.hasObserverService then (s, nsresult.NS_ERROR_FAILURE)
    else if !env.mProvider then (s, nsresult.NS_ERROR_FAILURE)
    else
      let s := s.effect ServiceEffect.ProviderStartup
      if !env.providerStartup then
        (nsGeolocationService.NotifyError env s POSITION_UNAVAILABLE, nsresult.NS_ERROR_FAILURE)
      else
        let s := s.effect ServiceEffect.ProviderWatch
        if !env.providerWatch then
          (nsGeolocationService.NotifyError env s POSITION_UNAVAILABLE,
            nsresult.NS_ERROR_FAILURE)
        else (s.effect ServiceEffect.NotifyObserversStarting, nsresult.NS_OK)

/-- Embedding of `nsGeolocationService::StopDevice`. -/
def nsGeolocationService.StopDevice (env : Env K) (s : Sys K) : Sys K :=
  let s := { s with mDisconnectTimer := false }
  if env.XRE_GetProcessType = GeckoProcessType.GeckoProcessType_Content then
    s.effect ServiceEffect.SendRemoveGeolocationListener
  else if !env.hasObserverService then s
  else if !env.mProvider then s
  else
    let s := { s with mHigherAccuracy := false }
    let s := s.effect ServiceEffect.ProviderShutdown
    s.effect ServiceEffect.NotifyObserversShutdown

/-! ### Permission decision -/

/-- The local `canUseCache` of `nsGeolocationRequest::Allow`. -/
def nsGeolocationRequest.Allow.canUseCache (env : Env K) (s : Sys K)
    (q : nsGeolocationRequest) : Bool :=
  match s.mLastPosition.position with
  | some p =>
    let cachedPositionTime_ms := p.timestamp
    match q.mOptions with
    | some o =>
      if o.mMaximumAge > 0 then
        let maximumAge_ms := o.mMaximumAge
        let isCachedWithinRequestedAccuracy : Bool :=
          decide (q.WantsHighAccuracy ≤ s.mLastPosition.isHighAccuracy)
        let isCachedWithinRequestedTime : Bool :=
          decide (DOMTimeStamp (env.PR_Now.tdiv PR_USEC_PER_MSEC - maximumAge_ms)
            ≤ cachedPositionTime_ms)
        isCachedWithinRequestedAccuracy && isCachedWithinRequestedTime
      else false
    | none => false
  | none => false

/-- Embedding of `nsGeolocationRequest::Allow`. -/
def nsGeolocationRequest.Allow (env : Env K) (s : Sys K) (r : Nat) : Sys K :=
  match s.requests[r]? with
  | none => { s with crashed := true }
  | some q =>
    let (s, rv) := nsGeolocationService.StartDevice env s
    if rv ≠ nsresult.NS_OK then nsGeolocationRequest.NotifyError s r POSITION_UNAVAILABLE
    else
      let canUseCache := nsGeolocationRequest.Allow.canUseCache env s q
      let lastPosition := s.mLastPosition
      let s := nsGeolocationService.UpdateAccuracy env s (s.WantsHighAccuracy r)
      let s := if canUseCache then nsGeolocationRequest.Update s r lastPosition.position else s
      let s :=
        if q.mIsWatchPositionRequest || !canUseCache then Geolocation.NotifyAllowedRequest s r
        else s
      nsGeolocationRequest.SetTimeoutTimer s r

/-! ### Consumer calls -/

/-- Embedding of `Geolocation::GetCurrentPositionReady`. -/
def Geolocation.GetCurrentPositionReady (env : Env K) (s : Sys K) (r : Nat) : Sys K × nsresult :=
  if s.mOwner then (Geolocation.RegisterRequestWithPrompt env s r, nsresult.NS_OK)
  else if !env.IsCallerChrome then (s, nsresult.NS_ERROR_FAILURE)
  else (NS_DispatchToMainThread s (Runnable.RequestAllowEvent true r), nsresult.NS_OK)

/-- Embedding of `Geolocation::GetCurrentPosition`. -/
def Geolocation.GetCurrentPosition (env : Env K) (s : Sys K) (options : Option PositionOptions) :
    Sys K × nsresult :=
  if s.mPendingCallbacks.length > MAX_GEO_REQUESTS_PER_WINDOW then
    (s, nsresult.NS_ERROR_NOT_AVAILABLE)
  else
    let request := s.requests.length
    let s := { s with requests := s.requests ++
      [{ mIsWatchPositionRequest := false, mTimeoutTimer := none, mOptions := options,
         mWatchId := 0, mShutdown := false }] }
    if !s.sGeoEnabled then
      (NS_DispatchToMainThread s (Runnable.RequestAllowEvent false request), nsresult.NS_OK)
    else if !s.mOwner && !env.IsCallerChrome then (s, nsresult.NS_ERROR_FAILURE)
    else if s.sGeoInitPending then
      ({ s with mPendingRequests := s.mPendingRequests ++ [request] }, nsresult.NS_OK)
    else Geolocation.GetCurrentPositionReady env s request

/-- Embedding of `Geolocation::WatchPositionReady`. -/
def Geolocation.WatchPositionReady (env : Env K) (s : Sys K) (r : Nat) : Sys K × nsresult :=
  if s.mOwner then (Geolocation.RegisterRequestWithPrompt env s r, nsresult.NS_OK)
  else if !env.IsCallerChrome then (s, nsresult.NS_ERROR_FAILURE)
  else (nsGeolocationRequest.Allow env s r, nsresult.NS_OK)

/-- Embedding of `Geolocation::WatchPosition`; the watch id handed out is the value of
`mLastWatchId` before the call. -/
def Geolocation.WatchPosition (env : Env K) (s : Sys K) (options : Option PositionOptions) :
    Sys K × nsresult :=
  if s.mWatchingCallbacks.length > MAX_GEO_REQUESTS_PER_WINDOW then
    (s, nsresult.NS_ERROR_NOT_AVAILABLE)
  else
    let aRv := s.mLastWatchId
    let request := s.requests.length
    let s := { s with mLastWatchId := s.mLastWatchId + 1, requests := s.requests ++
      [{ mIsWatchPositionRequest := true, mTimeoutTimer := none, mOptions := options,
         mWatchId := aRv, mShutdown := false }] }
    if !s.sGeoEnabled then
      (NS_DispatchToMainThread s (Runnable.RequestAllowEvent false request), nsresult.NS_OK)
    else if !s.mOwner && !env.IsCallerChrome then (s, nsresult.NS_ERROR_FAILURE)
    else if s.sGeoInitPending then
      ({ s with mPendingRequests := s.mPendingRequests ++ [request] }, nsresult.NS_OK)
    else Geolocation.WatchPositionReady env s request

/-- Value of `WatchId()` of the request at index `r`. -/
def Sys.WatchId (s : Sys K) (r : Nat) : Option Int :=
  (s.requests[r]?).map (fun q => q.mWatchId)

/-- Value of `IsWatch()` of the request at index `r`. -/
def Sys.IsWatch (s : Sys K) (r : Nat) : Bool :=
  match s.requests[r]? with
  | some q => q.mIsWatchPositionRequest
  | none => false

/-- Embedding of `Geolocation::ClearWatch`. -/
def Geolocation.ClearWatch (env : Env K) (s : Sys K) (aWatchId : Int) : Sys K :=
  if aWatchId < 0 then s
  else
    let s :=
      match s.mWatchingCallbacks.find? (fun r => s.WatchId r == some aWatchId) with
      | some r => Geolocation.RemoveRequest (nsGeolocationRequest.Shutdown env s r) r
      | none => s
    match s.mPendingRequests.findIdx? (fun r => s.IsWatch r && s.WatchId r == some aWatchId) with
    | some i =>
      match s.mPendingRequests[i]? with
      | some r =>
        let s := nsGeolocationRequest.Shutdown env s r
        { s with mPendingRequests := s.mPendingRequests.eraseIdx i }
      | none => s
    | none => s

/-- The loop of `Geolocation::ServiceReady`, `n` turns left. -/
def Geolocation.ServiceReady.loop (env : Env K) : Nat → Sys K → Sys K
  | 0, s => s
  | n + 1, s =>
    match s.mPendingRequests with
    | [] => { s with crashed := true }
    | r :: _ =>
      let s :=
        if s.IsWatch r then (Geolocation.WatchPositionReady env s r).1
        else (Geolocation.GetCurrentPositionReady env s r).1
      Geolocation.ServiceReady.loop env n { s with mPendingRequests := s.mPendingRequests.eraseIdx 0 }

/-- Embedding of `Geolocation::ServiceReady`. -/
def Geolocation.ServiceReady (env : Env K) (s : Sys K) : Sys K :=
  Geolocation.ServiceReady.loop env s.mPendingRequests.length s

/-- Embedding of `nsGeolocationService::HandleMozsettingValue`. -/
def nsGeolocationService.HandleMozsettingValue (env : Env K) (s : Sys K) (aValue : Bool) :
    Sys K :=
  let s :=
    if !aValue then
      let s := nsGeolocationService.StopDevice env s
      let s := nsGeolocationService.Update env s none
      { s with mLastPosition := { s.mLastPosition with position := none }, sGeoEnabled := false }
    else { s with sGeoEnabled := true }
  if s.sGeoInitPending then
    let s := { s with sGeoInitPending := false }
    if s.mService then Geolocation.ServiceReady env s else s
  else s

/-- The `timer-callback` branch of `nsGeolocationService::Observe`: the
disconnect timer fired. -/
def nsGeolocationService.ObserveTimerCallback (env : Env K) (s : Sys K) : Sys K :=
  if s.mService && Geolocation.HasActiveCallbacks s then
    nsGeolocationService.SetDisconnectTimer s
  else
    let s := nsGeolocationService.StopDevice env s
    nsGeolocationService.Update env s none

/-- The `quit-application` branch of `nsGeolocationService::Observe`. -/
def nsGeolocationService.ObserveQuitApplication (env : Env K) (s : Sys K) : Sys K :=
  let s := if s.mService then Geolocation.Shutdown env s else s
  nsGeolocationService.StopDevice env s

/-! ### Steps of the system -/

/-- What can happen next: a call of the consumer, the main thread running the
oldest dispatched runnable, the permission prompt answering, a timer firing,
the provider reporting, a settings change, a teardown. -/
inductive Action (K : Type) where
  | GetCurrentPosition (options : Option PositionOptions)
  | WatchPosition (options : Option PositionOptions)
  | ClearWatch (aWatchId : Int)
  | RunNextRunnable
  | PromptAllow (request : Nat)
  | PromptCancel (request : Nat)
  | TimeoutTimerFires (request : Nat)
  | ProviderUpdate (position : Option (nsGeoPosition K))
  | ProviderLocationUpdatePending
  | ProviderNotifyError (aErrorCode : Nat)
  | MozsettingEnabled (aValue : Bool)
  | MozsettingPolicy (blur : BlurStatics K)
  | DisconnectTimerFires
  | SessionShutdown
  | QuitApplication

/-- Embedding of `Run()` of a dispatched runnable.  `RequestPromptEvent` hands the request
to the permission prompt, which answers later with `Allow` or `Cancel`. -/
def Runnable.Run (env : Env K) (s : Sys K) : Runnable K → Sys K
  | Runnable.RequestPromptEvent r => { s with prompting := s.prompting ++ [r] }
  | Runnable.RequestAllowEvent allow r =>
    if allow then nsGeolocationRequest.Allow env s r else nsGeolocationRequest.Cancel s r
  | Runnable.RequestSendLocationEvent position r =>
    nsGeolocationRequest.SendLocation env s r position

/-- One step of the system.  Nothing happens after a crash.  The prompt
answers only requests that were handed to it, once each; a timer fires only
while it is armed. -/
def step (env : Env K) (s : Sys K) (a : Action K) : Sys K :=
  if s.crashed then s
  else
    match a with
    | Action.GetCurrentPosition options => (Geolocation.GetCurrentPosition env s options).1
    | Action.WatchPosition options => (Geolocation.WatchPosition env s options).1
    | Action.ClearWatch aWatchId => Geolocation.ClearWatch env s aWatchId
    | Action.RunNextRunnable =>
      match s.queue with
      | [] => s
      | ev :: rest => Runnable.Run env { s with queue := rest } ev
    | Action.PromptAllow r =>
      if r ∈ s.prompting then
        nsGeolocationRequest.Allow env { s with prompting := s.prompting.erase r } r
      else s
    | Action.PromptCancel r =>
      if r ∈ s.prompting then
        nsGeolocationRequest.Cancel { s with prompting := s.prompting.erase r } r
      else s
    | Action.TimeoutTimerFires r =>
      match s.requests[r]? with
      | some q => if q.mTimeoutTimer.isSome then nsGeolocationRequest.Notify env s r else s
      | none => s
    | Action.ProviderUpdate position => nsGeolocationService.Update env s position
    | Action.ProviderLocationUpdatePending => nsGeolocationService.LocationUpdatePending s
    | Action.ProviderNotifyError aErrorCode => nsGeolocationService.NotifyError env s aErrorCode
    | Action.MozsettingEnabled aValue => nsGeolocationService.HandleMozsettingValue env s aValue
    | Action.MozsettingPolicy blur => { s with blur := blur }
    | Action.DisconnectTimerFires =>
      if s.mDisconnectTimer then
        nsGeolocationService.ObserveTimerCallback env { s with mDisconnectTimer := false }
      else s
    | Action.SessionShutdown => if s.mService then Geolocation.Shutdown env s else s
    | Action.QuitApplication => nsGeolocationService.ObserveQuitApplication env s

/-- A run: each action is taken in the environment that comes with it. -/
def run (s : Sys K) : List (Env K × Action K) → Sys K
  | [] => s
  | (env, a) :: rest => run (step env s a) rest

/-- A freshly initialised session and service: no request, nothing
dispatched, nothing observed; the policy statics, the manifest URL of the
session and the flags set by `Init` are arbitrary. -/
def Sys.init (blur : BlurStatics K) (mManifestURL : nsString)
    (mOwner mService sGeoEnabled sGeoInitPending : Bool) : Sys K :=
  { requests := [], mPendingCallbacks := [], mWatchingCallbacks := [], mPendingRequests := [],
    mLastWatchId := 0, mManifestURL := mManifestURL, mOwner := mOwner, mService := mService,
    mLastPosition := { position := none, isHighAccuracy := false }, mHigherAccuracy := false,
    mDisconnectTimer := false, sGeoEnabled := sGeoEnabled, sGeoInitPending := sGeoInitPending,
    blur := blur, queue := [], prompting := [], callbacks := [], effects := [],
    crashed := false }

/-! ### Vocabulary for the lifecycle properties -/

/-- The request whose callback pair an event is delivered to. -/
def CallbackEvent.request : CallbackEvent K → Nat
  | CallbackEvent.success r _ => r
  | CallbackEvent.error r _ => r

/-- A success delivery, a `TIMEOUT` error or a `PERMISSION_DENIED` error. -/
def CallbackEvent.isTerminal : CallbackEvent K → Bool
  | CallbackEvent.success _ _ => true
  | CallbackEvent.error _ code => code == TIMEOUT || code == PERMISSION_DENIED

/-- The callbacks invoked so far on the callback pair of request `r`. -/
def Sys.callbacksOf (s : Sys K) (r : Nat) : List (CallbackEvent K) :=
  s.callbacks.filter (fun e => e.request == r)

/-- Request `r` has received a success delivery, a timeout or a permission
denial. -/
def Sys.hasTerminal (s : Sys K) (r : Nat) : Bool :=
  (s.callbacksOf r).any CallbackEvent.isTerminal

/-- The runnable is a pending permission decision for request `r`. -/
def Runnable.isDecisionFor (r : Nat) : Runnable K → Bool
  | Runnable.RequestPromptEvent r' => r' == r
  | Runnable.RequestAllowEvent _ r' => r' == r
  | Runnable.RequestSendLocationEvent _ _ => false

/-- The runnable is a dispatched delivery to request `r`. -/
def Runnable.isSendFor (r : Nat) : Runnable K → Bool
  | Runnable.RequestSendLocationEvent _ r' => r' == r
  | _ => false

/-- Number of outstanding permission decisions for request `r`: deferred
until the service is ready, dispatched, or with the prompt. -/
def Sys.decisions (s : Sys K) (r : Nat) : Nat :=
  s.mPendingRequests.count r + s.prompting.count r + s.queue.countP (Runnable.isDecisionFor r)

/-- Number of dispatched deliveries to request `r`. -/
def Sys.sends (s : Sys K) (r : Nat) : Nat :=
  s.queue.countP (Runnable.isSendFor r)

/-- What the state holds about one request index: the request object, the
numbers of outstanding decisions, of dispatched deliveries and of entries in
the pending and watching arrays, and the callbacks invoked on it. -/
structure View (K : Type) where
  req : Option nsGeolocationRequest
  decisions : Nat
  sends : Nat
  pending : Nat
  watching : Nat
  callbacks : List (CallbackEvent K)

/-- The view of request index `r` in state `s`. -/
def Sys.view (s : Sys K) (r : Nat) : View K :=
  { req := s.requests[r]?, decisions := s.decisions r, sends := s.sends r,
    pending := s.mPendingCallbacks.count r, watching := s.mWatchingCallbacks.count r,
    callbacks := s.callbacksOf r }

/-- The request of the view exists and is a one-shot request. -/
def View.oneShot (v : View K) : Prop :=
  ∃ q, v.req = some q ∧ q.mIsWatchPositionRequest = false

/-- The request of the view has had a terminal callback. -/
def View.hasTerminal (v : View K) : Bool := v.callbacks.any CallbackEvent.isTerminal

/-- The invariant of a one-shot request `q`. -/
structure View.OneShotInv (v : View K) (q : nsGeolocationRequest) : Prop where
  decided : v.decisions + v.pending ≤ 1
  undecided : v.decisions = 1 →
    q.mTimeoutTimer = none ∧ v.sends = 0 ∧ v.hasTerminal = false
  notWatching : v.watching = 0
  sent : 1 ≤ v.sends → v.pending = 0
  terminal : v.hasTerminal = true →
    v.pending = 0 ∧ q.mTimeoutTimer = none ∧ (q.mShutdown = true ∨ v.sends = 0)

/-- The invariant of a request index: nothing mentions a request that does
not exist yet, and a one-shot request satisfies `OneShotInv`. -/
def View.Inv (v : View K) : Prop :=
  match v.req with
  | none =>
    v.decisions = 0 ∧ v.sends = 0 ∧ v.pending = 0 ∧ v.watching = 0 ∧ v.callbacks = []
  | some q => q.mIsWatchPositionRequest = false → v.OneShotInv q

/-- The request of view `v`, if there is one, is still there in view `w`, of
the same kind. -/
def View.KindStable (v w : View K) : Prop :=
  ∀ q, v.req = some q →
    ∃ q', w.req = some q' ∧ q'.mIsWatchPositionRequest = q.mIsWatchPositionRequest

/-- From view `v` to view `w` the request keeps its kind, the invariant is
kept, and once a one-shot request has had its terminal callback no callback is
added. -/
def View.Keeps (v w : View K) : Prop :=
  v.KindStable w ∧
    (v.Inv → w.Inv ∧ (v.oneShot → v.hasTerminal = true → w.callbacks = v.callbacks))

/-- The relation `Keeps` with the part about the invariant relying on a side condition `P`. -/
def View.KeepsIf (P : Prop) (v w : View K) : Prop :=
  v.KindStable w ∧
    (P → v.Inv → w.Inv ∧ (v.oneShot → v.hasTerminal = true → w.callbacks = v.callbacks))

/-- The request, whose object is `q`, is mentioned nowhere: no outstanding
decision, no dispatched delivery, not pending, no timer, no terminal callback. -/
def View.Limbo (v : View K) (q : nsGeolocationRequest) : Prop :=
  v.decisions = 0 ∧ v.sends = 0 ∧ v.pending = 0 ∧ q.mTimeoutTimer = none ∧
    v.hasTerminal = false

/-- From `s` to `t` the view of `r` is kept in the sense of `View.Keeps`. -/
def Sys.Keeps (r : Nat) (s t : Sys K) : Prop := (s.view r).Keeps (t.view r)

/-- View `w` comes from view `v` by changes that cannot harm the invariant:
the kind of the request is kept, its timer is kept or disarmed, it is kept or
shut down, no count grows and no callback is added. -/
def View.Le (v w : View K) : Prop :=
  (match v.req, w.req with
    | none, none => True
    | some q, some q' =>
      q'.mIsWatchPositionRequest = q.mIsWatchPositionRequest ∧
        (q'.mTimeoutTimer = none ∨ q'.mTimeoutTimer = q.mTimeoutTimer) ∧
        (q'.mShutdown = true ∨ q'.mShutdown = q.mShutdown)
    | _, _ => False) ∧
    w.decisions ≤ v.decisions ∧ w.sends ≤ v.sends ∧ w.pending ≤ v.pending ∧
    w.watching ≤ v.watching ∧ w.callbacks = v.callbacks

/-- Two states agree on what the views read. -/
def SameViews (s t : Sys K) : Prop :=
  t.requests = s.requests ∧ t.mPendingCallbacks = s.mPendingCallbacks ∧
    t.mWatchingCallbacks = s.mWatchingCallbacks ∧ t.mPendingRequests = s.mPendingRequests ∧
    t.prompting = s.prompting ∧ t.queue = s.queue ∧ t.callbacks = s.callbacks

end Lifecycle

/-! ## Concrete inputs -/

/-- A position at latitude 12.5, longitude -71.25, captured at time 1000. -/
def examplePosition : nsGeoPosition ℚ :=
  nsGeoPosition.new (some 12.5) (some (-71.25)) (some 30) (some 5) (some 2) (some 90) (some 1) 1000

/-- Default global policy, no exception, and `app://a` in the allowlist. -/
def allowlistedStatics : BlurStatics ℚ :=
  { sGlobalBlurSettings := nsGeoBlurSettings.new,
    sExceptionsAppBlurSettings := [],
    sUnbluredApps := ["app://a".toList] }

/-- A settings object that already holds valid coordinates. -/
def priorSettings : nsGeoBlurSettings ℚ :=
  { mManifestURL := "app://a".toList, mBlurType := GEO_BLUR_TYPE_CUSTOM, mRadius := 7,
    mHasValidCoords := true, mLatitude := some 1, mLongitude := some 2 }

/-- The default environment of the parent process at time 5500 ms, with a
working provider. -/
def exampleEnv : Env ℚ :=
  { XRE_GetProcessType := GeckoProcessType.GeckoProcessType_Default, cos := fun _ => 1,
    PR_Now := 5500000, hasObserverService := true, mProvider := true,
    providerStartup := true, providerWatch := true, promptTesting := false,
    promptTestingAllow := false, IsCallerChrome := false, ownerWindowGone := false }

/-- A global policy of blur type 4 (no location), no exception. -/
def noLocationStatics : BlurStatics ℚ :=
  { sGlobalBlurSettings := { (nsGeoBlurSettings.new : nsGeoBlurSettings ℚ) with mBlurType := 4 },
    sExceptionsAppBlurSettings := [],
    sUnbluredApps := [] }

/-- A session of `app://a` under `noLocationStatics` holding one live one-shot
request with `maximumAge` 5000. -/
def noLocationSys : Sys ℚ :=
  { (Sys.init noLocationStatics "app://a".toList true true true false) with
    requests := [{ mIsWatchPositionRequest := false, mTimeoutTimer := none,
                   mOptions := some { mEnableHighAccuracy := false, mTimeout := 0,
                                      mMaximumAge := 5000 },
                   mWatchId := 0, mShutdown := false }] }

/-- A session of `app://a` with a window, registered with an enabled and
initialised service, under the default policy. -/
def exampleInit : Sys ℚ := Sys.init allowlistedStatics "app://a".toList true true true false

/-- A one-shot request is made, prompted for and allowed; the provider reports
a position, which is delivered to it. -/
def exampleDelivered : List (Env ℚ × Action ℚ) :=
  [(exampleEnv, Action.GetCurrentPosition
      (some { mEnableHighAccuracy := false, mTimeout := 1000, mMaximumAge := 0 })),
   (exampleEnv, Action.RunNextRunnable),
   (exampleEnv, Action.PromptAllow 0),
   (exampleEnv, Action.ProviderUpdate (some examplePosition)),
   (exampleEnv, Action.RunNextRunnable)]

/-- Later events: another provider update and its delivery, an error reported
by the provider, the timeout timer. -/
def exampleLater : List (Env ℚ × Action ℚ) :=
  [(exampleEnv, Action.ProviderUpdate (some examplePosition)),
   (exampleEnv, Action.RunNextRunnable),
   (exampleEnv, Action.ProviderNotifyError POSITION_UNAVAILABLE),
   (exampleEnv, Action.TimeoutTimerFires 0)]
/-- The environment of `exampleEnv` at time 10000 ms. -/
def cacheEnv : Env ℚ := { exampleEnv with PR_Now := 10000000 }

/-- The position of `examplePosition` captured at time `t`. -/
def positionAt (t : Nat) : nsGeoPosition ℚ := { examplePosition with timestamp := t }

/-- A one-shot request with `maximumAge` 5000 and no timeout. -/
def maxAgeRequest : nsGeolocationRequest :=
  { mIsWatchPositionRequest := false, mTimeoutTimer := none,
    mOptions := some { mEnableHighAccuracy := false, mTimeout := 0, mMaximumAge := 5000 },
    mWatchId := 0, mShutdown := false }

/-- The session of `exampleInit` holding `maxAgeRequest`, undecided, while the
cache of the service holds the position captured at time `t`. -/
def cachedSys (t : Nat) : Sys ℚ :=
  { exampleInit with
    requests := [maxAgeRequest]
    mLastPosition := { position := some (positionAt t), isHighAccuracy := false } }

/-- The session of `exampleInit` with 1501 entries in both request arrays. -/
def fullSys : Sys ℚ :=
  { exampleInit with
    mPendingCallbacks := List.replicate 1501 0
    mWatchingCallbacks := List.replicate 1501 0 }

/-- A request whose timer is armed with delay 77 and whose timeout option is
`timeout`. -/
def armedRequest (timeout : Int) : nsGeolocationRequest :=
  { mIsWatchPositionRequest := true, mTimeoutTimer := some 77,
    mOptions := some { mEnableHighAccuracy := false, mTimeout := timeout, mMaximumAge := 0 },
    mWatchId := 0, mShutdown := false }


/-- The event is a call of the success callback. -/
def CallbackEvent.isSuccess {K : Type} : CallbackEvent K → Bool
  | CallbackEvent.success _ _ => true
  | CallbackEvent.error _ _ => false

/-- Two one-shot requests are made, one after the other, and each is prompted
for and allowed in that order. -/
def twoPending : List (Env ℚ × Action ℚ) :=
  [(exampleEnv, Action.GetCurrentPosition none),
   (exampleEnv, Action.GetCurrentPosition none),
   (exampleEnv, Action.RunNextRunnable),
   (exampleEnv, Action.RunNextRunnable),
   (exampleEnv, Action.PromptAllow 0),
   (exampleEnv, Action.PromptAllow 1)]

/-- One provider update, then the main thread runs the two runnables it
dispatched. -/
def fanOut : List (Env ℚ × Action ℚ) :=
  [(exampleEnv, Action.ProviderUpdate (some examplePosition)),
   (exampleEnv, Action.RunNextRunnable),
   (exampleEnv, Action.RunNextRunnable)]

/-! ## Policy settings -/

section PolicySettings
variable {K : Type} [LinearOrderedField K] [FloorRing K]

/-- Embedding of `nsGeolocationService::HandleMozsettingBlurTypeValue`. -/
def nsGeolocationService.HandleMozsettingBlurTypeValue (st : BlurStatics K) (aValue : Int) :
    BlurStatics K :=
  { st with sGlobalBlurSettings := st.sGlobalBlurSettings.SetBlurType aValue }

/-- Embedding of `nsGeolocationService::HandleMozsettingRadiusValue`. -/
def nsGeolocationService.HandleMozsettingRadiusValue (st : BlurStatics K) (aValue : Int) :
    BlurStatics K :=
  { st with sGlobalBlurSettings := (st.sGlobalBlurSettings.ClearCoords).SetRadius aValue }

end PolicySettings

/-- The members of a `Geolocation` object that the loop of the service reads
and writes. -/
structure Fleet.Geolocation (K : Type) where
  /-- `mOwner` is not null. -/
  mOwner : Bool
  /-- The window behind `mOwner` is still referenced and is closed or no
  longer the current inner window of its outer window. -/
  ownerWindowGone : Bool
  /-- `mService` is not null. -/
  mService : Bool
  /-- The positions that `Update` went on to hand to the requests of the
  session, oldest first. -/
  updates : List (Option (nsGeoPosition K))

/-- The service and the session objects. -/
structure Fleet.nsGeolocationService (K : Type) where
  sessions : List (Fleet.Geolocation K)
  mGeolocators : List Nat
  mLastPosition : CachedPositionAndAccuracy K
  mHigherAccuracy : Bool
  /-- The sessions whose `Update` went on to their requests, in the order of
  the calls. -/
  forwarded : List Nat
  /-- A null pointer or an index out of range was dereferenced. -/
  crashed : Bool

section FleetModel
variable {K : Type} [LinearOrderedField K] [FloorRing K]

/-- Embedding of `Geolocation::WindowOwnerStillExists`. -/
def Fleet.Geolocation.WindowOwnerStillExists (self : Fleet.Geolocation K) : Bool :=
  if !self.mOwner then true else !self.ownerWindowGone

/-- Embedding of `nsGeolocationService::AddLocator`. -/
def Fleet.nsGeolocationService.AddLocator (s : Fleet.nsGeolocationService K) (aLocator : Nat) :
    Fleet.nsGeolocationService K :=
  { s with mGeolocators := s.mGeolocators ++ [aLocator] }

/-- Embedding of `nsGeolocationService::RemoveLocator`. -/
def Fleet.nsGeolocationService.RemoveLocator (s : Fleet.nsGeolocationService K)
    (aLocator : Nat) : Fleet.nsGeolocationService K :=
  { s with mGeolocators := s.mGeolocators.erase aLocator }

/-- Embedding of `Geolocation::Shutdown` on the session at index `g`; the call of
`UpdateAccuracy` reaches the provider only. -/
def Fleet.Geolocation.Shutdown (s : Fleet.nsGeolocationService K) (g : Nat) :
    Fleet.nsGeolocationService K :=
  match s.sessions[g]? with
  | none => { s with crashed := true }
  | some self =>
    let s := if self.mService then s.RemoveLocator g else s
    { s with sessions := s.sessions.set g { self with mService := false } }

/-- Embedding of `Geolocation::Update` on the session at index `g`, up to the loops over
its requests. -/
def Fleet.Geolocation.Update (s : Fleet.nsGeolocationService K) (g : Nat)
    (aSomewhere : Option (nsGeoPosition K)) : Fleet.nsGeolocationService K :=
  match s.sessions[g]? with
  | none => { s with crashed := true }
  | some self =>
    if !self.WindowOwnerStillExists then Fleet.Geolocation.Shutdown s g
    else
      { s with
        sessions := s.sessions.set g { self with updates := self.updates ++ [aSomewhere] }
        forwarded := s.forwarded ++ [g] }

/-- Embedding of `nsGeolocationService::SetCachedPosition`. -/
def Fleet.nsGeolocationService.SetCachedPosition (s : Fleet.nsGeolocationService K)
    (aPosition : Option (nsGeoPosition K)) : Fleet.nsGeolocationService K :=
  { s with mLastPosition := { position := aPosition, isHighAccuracy := s.mHigherAccuracy } }

/-- The loop `for (i = 0; i < mGeolocators.Length(); i++)` of
`nsGeolocationService::Update`, from index `i` on; the array and its length
are read anew at every turn, and `fuel` bounds the number of turns. -/
def Fleet.nsGeolocationService.Update.loop (aSomewhere : Option (nsGeoPosition K)) :
    Nat → Nat → Fleet.nsGeolocationService K → Fleet.nsGeolocationService K
  | 0, _, s => s
  | fuel + 1, i, s =>
    match s.mGeolocators[i]? with
    | some g =>
      Fleet.nsGeolocationService.Update.loop aSomewhere fuel (i + 1)
        (Fleet.Geolocation.Update s g aSomewhere)
    | none => s

/-- Embedding of `nsGeolocationService::Update`.  The array never grows during the loop,
so its length at the start is enough fuel. -/
def Fleet.nsGeolocationService.Update (s : Fleet.nsGeolocationService K)
    (aSomewhere : Option (nsGeoPosition K)) : Fleet.nsGeolocationService K :=
  let s := s.SetCachedPosition aSomewhere
  Fleet.nsGeolocationService.Update.loop aSomewhere s.mGeolocators.length 0 s

end FleetModel

/-- A service with two registered sessions: session 0, whose window is gone,
registered before session 1, whose window is there. -/
def exampleFleet : Fleet.nsGeolocationService ℚ :=
  { sessions := [{ mOwner := true, ownerWindowGone := true, mService := true, updates := [] },
                 { mOwner := true, ownerWindowGone := false, mService := true, updates := [] }],
    mGeolocators := [0, 1],
    mLastPosition := { position := none, isHighAccuracy := false },
    mHigherAccuracy := false,
    forwarded := [],
    crashed := false }

/-- A watch is requested and cleared at once, with the id 0 that
`WatchPosition` handed out; then the prompt is shown and answered with
`Allow`, the provider reports a position and the delivery runs. -/
def clearedBeforeAllow : List (Env ℚ × Action ℚ) :=
  [(exampleEnv, Action.WatchPosition none),
   (exampleEnv, Action.ClearWatch 0),
   (exampleEnv, Action.RunNextRunnable),
   (exampleEnv, Action.PromptAllow 0),
   (exampleEnv, Action.ProviderUpdate (some examplePosition)),
   (exampleEnv, Action.RunNextRunnable)]

/-- A one-shot request with timeout 1000 is made, prompted for and allowed:
it is pending with its timer armed. -/
def armedPending : List (Env ℚ × Action ℚ) :=
  [(exampleEnv, Action.GetCurrentPosition
      (some { mEnableHighAccuracy := false, mTimeout := 1000, mMaximumAge := 0 })),
   (exampleEnv, Action.RunNextRunnable),
   (exampleEnv, Action.PromptAllow 0)]

/-- The session is torn down, then the timeout timer of request 0 fires. -/
def teardownThenTimer : List (Env ℚ × Action ℚ) :=
  [(exampleEnv, Action.SessionShutdown),
   (exampleEnv, Action.TimeoutTimerFires 0)]

/-- The provider reports a position, the session is torn down, then the
dispatched delivery runs. -/
def teardownThenDelivery : List (Env ℚ × Action ℚ) :=
  [(exampleEnv, Action.ProviderUpdate (some examplePosition)),
   (exampleEnv, Action.SessionShutdown),
   (exampleEnv, Action.RunNextRunnable)]

section WatchVocabulary
variable {K : Type} [LinearOrderedField K] [FloorRing K]

end WatchVocabulary

section ReachableStates
variable {K : Type} [LinearOrderedField K] [FloorRing K]

/-- The state is reached from a freshly initialised session and service by
some sequence of steps. -/
def Sys.Reachable (s : Sys K) : Prop :=
  ∃ (blur : BlurStatics K) (url : nsString) (mOwner mService sGeoEnabled sGeoInitPending : Bool)
    (acts : List (Env K × Action K)),
    s = run (Sys.init blur url mOwner mService sGeoEnabled sGeoInitPending) acts

end ReachableStates

section WatchPersistenceVocabulary
variable {K : Type} [LinearOrderedField K] [FloorRing K]

end WatchPersistenceVocabulary

/-- A call made on the device of the service. -/
inductive DeviceCall where
  | StartDevice
  | StopDevice
deriving DecidableEq

section DeviceCalls
variable {K : Type} [LinearOrderedField K] [FloorRing K]

/-- The calls are made one after the other, each in the environment that
comes with it. -/
def runDevice (s : Sys K) : List (Env K × DeviceCall) → Sys K
  | [] => s
  | (env, DeviceCall.StartDevice) :: rest =>
    runDevice (nsGeolocationService.StartDevice env s).1 rest
  | (env, DeviceCall.StopDevice) :: rest =>
    runDevice (nsGeolocationService.StopDevice env s) rest

/-- The process is not a content process, the observer service and the
provider are there, and `Startup` and `Watch` of the provider succeed. -/
def Env.deviceWorks (env : Env K) : Prop :=
  env.XRE_GetProcessType ≠ GeckoProcessType.GeckoProcessType_Content ∧
    env.hasObserverService = true ∧ env.mProvider = true ∧
    env.providerStartup = true ∧ env.providerWatch = true

end DeviceCalls

/-! ## The accuracy mode of the service

For `UpdateAccuracy` the service is kept with any number of registered
sessions, each as the request objects in its two arrays. -/

/-- The members of a `Geolocation` object that `HighAccuracyRequested` reads. -/
structure Accuracy.Geolocation where
  mPendingCallbacks : List nsGeolocationRequest
  mWatchingCallbacks : List nsGeolocationRequest

/-- The members of the service that `UpdateAccuracy` reads and writes, and the
calls it makes on the provider and on the parent process. -/
structure Accuracy.nsGeolocationService where
  mGeolocators : List Accuracy.Geolocation
  mHigherAccuracy : Bool
  /-- The calls made so far, oldest first. -/
  effects : List ServiceEffect
  /-- A null pointer was dereferenced. -/
  crashed : Bool

/-- Embedding of `Geolocation::HighAccuracyRequested`. -/
def Accuracy.Geolocation.HighAccuracyRequested (self : Accuracy.Geolocation) : Bool :=
  self.mWatchingCallbacks.any (fun q => q.WantsHighAccuracy) ||
    self.mPendingCallbacks.any (fun q => q.WantsHighAccuracy)

/-- Embedding of `nsGeolocationService::HighAccuracyRequested`. -/
def Accuracy.nsGeolocationService.HighAccuracyRequested
    (self : Accuracy.nsGeolocationService) : Bool :=
  self.mGeolocators.any (fun g => g.HighAccuracyRequested)

/-- The call `mProvider->SetHighAccuracy(value)`; `mProvider` tells whether the
pointer is not null. -/
def Accuracy.nsGeolocationService.ProviderSetHighAccuracy (mProvider : Bool)
    (self : Accuracy.nsGeolocationService) (value : Bool) : Accuracy.nsGeolocationService :=
  if mProvider then
    { self with effects := self.effects ++ [ServiceEffect.ProviderSetHighAccuracy value] }
  else { self with crashed := true }

/-- Embedding of `nsGeolocationService::UpdateAccuracy`. -/
def Accuracy.nsGeolocationService.UpdateAccuracy (XRE_GetProcessType : GeckoProcessType)
    (mProvider : Bool) (self : Accuracy.nsGeolocationService) (aForceHigh : Bool) :
    Accuracy.nsGeolocationService :=
  let highRequired := aForceHigh || self.HighAccuracyRequested
  if XRE_GetProcessType = GeckoProcessType.GeckoProcessType_Content then
    { self with
      effects := self.effects ++ [ServiceEffect.SendSetGeolocationHigherAccuracy highRequired] }
  else
    let mHigherAccuracy := self.mHigherAccuracy
    let self :=
      if !mHigherAccuracy && highRequired then self.ProviderSetHighAccuracy mProvider true
      else self
    let self :=
      if mHigherAccuracy && !highRequired then self.ProviderSetHighAccuracy mProvider false
      else self
    { self with mHigherAccuracy := highRequired }

/-- A one-shot request with `maximumAge` 5000 is made, prompted for and
allowed; the service is then disabled and the delivery it dispatched runs. -/
def disabledWithMaxAge : List (Env ℚ × Action ℚ) :=
  [(cacheEnv, Action.GetCurrentPosition
      (some { mEnableHighAccuracy := false, mTimeout := 0, mMaximumAge := 5000 })),
   (cacheEnv, Action.RunNextRunnable),
   (cacheEnv, Action.PromptAllow 0),
   (cacheEnv, Action.MozsettingEnabled false),
   (cacheEnv, Action.RunNextRunnable)]

section LiveVocabulary
variable {K : Type} [LinearOrderedField K] [FloorRing K]

/-- The invariant of an existing request `q`, whatever its kind: once it is
shut down it has no timer, no outstanding decision and is in neither array;
a watch request is counted at most once among the outstanding decisions and
the watching array, and is not in the pending array. -/
structure View.LiveInv (v : View K) (q : nsGeolocationRequest) : Prop where
  shut : q.mShutdown = true →
    q.mTimeoutTimer = none ∧ v.decisions = 0 ∧ v.pending = 0 ∧ v.watching = 0
  watch : q.mIsWatchPositionRequest = true → v.decisions + v.watching ≤ 1 ∧ v.pending = 0

/-- The request of the view, if it exists, satisfies `LiveInv`. -/
def View.Live (v : View K) : Prop := ∀ q, v.req = some q → v.LiveInv q

/-- Both invariants of a request index. -/
def View.Sound (v : View K) : Prop := v.Inv ∧ v.Live

/-- Every request index of the state satisfies both invariants. -/
def Sys.Sound (s : Sys K) : Prop := ∀ r, (s.view r).Sound

/-- The condition that `NotifyErrorAndShutdown` and `Shutdown` assert on
entry (`MOZ_ASSERT(!mShutdown, ...)`), for the request at index `r`. -/
def Sys.NotShutdown (s : Sys K) (r : Nat) : Prop :=
  ∃ q, s.requests[r]? = some q ∧ q.mShutdown = false

/-- The turns of the loop `forDown`: the state at the start of each turn and
the entry the body is called on. -/
def forDown.calls (arr : Sys K → List Nat) (body : Sys K → Nat → Sys K) :
    Nat → Sys K → List (Sys K × Nat)
  | 0, _ => []
  | i + 1, s =>
    match (arr s)[i]? with
    | some r => (s, r) :: forDown.calls arr body i (body s r)
    | none => []

/-- The turns of the loop `forUp`: the state at the start of each turn and
the entry the body is called on. -/
def forUp.calls (arr : Sys K → List Nat) (body : Sys K → Nat → Sys K) :
    Nat → Nat → Sys K → List (Sys K × Nat)
  | 0, _, _ => []
  | fuel + 1, i, s =>
    match (arr s)[i]? with
    | some r => (s, r) :: forUp.calls arr body fuel (i + 1) (body s r)
    | none => []

end LiveVocabulary

section StaticsVocabulary
variable {K : Type} [LinearOrderedField K] [FloorRing K]

/-- What the operations on requests, and the fan-outs of the session and the
service, never write: the deferred requests, the requests with the prompt,
the settings flags, the owner, the policy and the manifest URL. -/
def Sys.SameStatics (s t : Sys K) : Prop :=
  t.mPendingRequests = s.mPendingRequests ∧ t.prompting = s.prompting ∧
    t.sGeoEnabled = s.sGeoEnabled ∧ t.sGeoInitPending = s.sGeoInitPending ∧
    t.mOwner = s.mOwner ∧ t.blur = s.blur ∧ t.mManifestURL = s.mManifestURL ∧
    t.mLastWatchId = s.mLastWatchId

end StaticsVocabulary

section ApartVocabulary
variable {K : Type} [LinearOrderedField K] [FloorRing K]

/-- The request that a runnable is for. -/
def Runnable.request : Runnable K → Nat
  | Runnable.RequestPromptEvent r => r
  | Runnable.RequestAllowEvent _ r => r
  | Runnable.RequestSendLocationEvent _ r => r

/-- The dispatched runnables that are for request `r`, oldest first. -/
def Sys.runnablesOf (s : Sys K) (r : Nat) : List (Runnable K) :=
  s.queue.filter (fun ev => ev.request == r)

/-- Request `r` exists, has no timer, and is neither in an array of the
session, nor deferred, nor with the prompt: only a runnable of its own can
reach it. -/
def Sys.Isolated (s : Sys K) (r : Nat) : Prop :=
  (∃ q, s.requests[r]? = some q ∧ q.mTimeoutTimer = none) ∧
    r ∉ s.mPendingCallbacks ∧ r ∉ s.mWatchingCallbacks ∧
    r ∉ s.mPendingRequests ∧ r ∉ s.prompting

/-- From `s` to `t` nothing that mentions request `r` changes: its view, its
entries among the deferred requests and with the prompt, and the dispatched
runnables that are for it. -/
def Sys.Apart (r : Nat) (s t : Sys K) : Prop :=
  t.view r = s.view r ∧ t.mPendingRequests.count r = s.mPendingRequests.count r ∧
    t.prompting.count r = s.prompting.count r ∧ t.runnablesOf r = s.runnablesOf r

/-- Request `r` is out of reach for good: it is isolated, no decision is
outstanding for it, and it is shut down or no delivery is dispatched to it. -/
def Sys.Gone (s : Sys K) (r : Nat) : Prop :=
  s.Isolated r ∧ (s.view r).decisions = 0 ∧
    ((∃ q, s.requests[r]? = some q ∧ q.mShutdown = true) ∨ (s.view r).sends = 0)

/-- Request `r` is isolated and the one runnable dispatched for it is the
denial `RequestAllowEvent(false)`, which has not run yet: no callback of the
request has been invoked. -/
def Sys.Denied (s : Sys K) (r : Nat) : Prop :=
  s.Isolated r ∧ s.runnablesOf r = [Runnable.RequestAllowEvent false r] ∧ s.callbacksOf r = []

end ApartVocabulary

/-! ## Concrete runs for the error paths -/

/-- A one-shot request with timeout 1000 is allowed and pending; the service
is then disabled, and the delivery that this dispatched runs. -/
def disabledInFlight : List (Env ℚ × Action ℚ) :=
  armedPending ++
    [(exampleEnv, Action.MozsettingEnabled false),
     (exampleEnv, Action.RunNextRunnable)]

/-- The service is disabled. -/
def disabledOnly : List (Env ℚ × Action ℚ) :=
  [(exampleEnv, Action.MozsettingEnabled false)]

/-- While the service is disabled a one-shot request is made, and its
dispatched runnable runs. -/
def disabledThenNew : List (Env ℚ × Action ℚ) :=
  disabledOnly ++
    [(exampleEnv, Action.GetCurrentPosition none),
     (exampleEnv, Action.RunNextRunnable)]

/-- A one-shot request with timeout 1000 is allowed and pending; the policy
becomes "no location". -/
def blockedPending : List (Env ℚ × Action ℚ) :=
  armedPending ++ [(exampleEnv, Action.MozsettingPolicy noLocationStatics)]

/-- The run `blockedPending`, after which the provider reports a position and
its delivery runs. -/
def unavailableDelivery : List (Env ℚ × Action ℚ) :=
  blockedPending ++
    [(exampleEnv, Action.ProviderUpdate (some examplePosition)),
     (exampleEnv, Action.RunNextRunnable)]

/-- The one-shot request of `armedPending`: timeout 1000, timer armed. -/
def armedOneShot : nsGeolocationRequest :=
  { mIsWatchPositionRequest := false, mTimeoutTimer := some 1000,
    mOptions := some { mEnableHighAccuracy := false, mTimeout := 1000, mMaximumAge := 0 },
    mWatchId := 0, mShutdown := false }

/-- The run `unavailableDelivery`, after which the timeout timer of the
request fires. -/
def unavailableThenTimeout : List (Env ℚ × Action ℚ) :=
  unavailableDelivery ++ [(exampleEnv, Action.TimeoutTimerFires 0)]

section ErrorTerminationVocabulary
variable {K : Type} [LinearOrderedField K] [FloorRing K]

/-- Modelled from the spec: from `s` to `t` the error callback of request `r`
was invoked with `code` and the request was terminated: it is marked shut
down, its timeout timer is cancelled, it is in neither array of the session,
and whatever happens afterwards no further callback of it is invoked. -/
def Sys.ErrorTerminates (s t : Sys K) (r code : Nat) : Prop :=
  (∃ q, t.requests[r]? = some q ∧ q.mShutdown = true ∧ q.mTimeoutTimer = none) ∧
    r ∉ t.mPendingCallbacks ∧ r ∉ t.mWatchingCallbacks ∧
    t.callbacksOf r = s.callbacksOf r ++ [CallbackEvent.error r code] ∧
    ∀ acts : List (Env K × Action K), (run t acts).callbacksOf r = t.callbacksOf r

end ErrorTerminationVocabulary

/-! ## Binary64 arithmetic of the longitude grid size

The C type `double` is IEEE 754 binary64: every arithmetic operation returns
the representable value nearest to the exact result, ties going to the value
with an even significand, and a result of magnitude `2^1024` or more is not
finite.  Values are kept as rationals; a value that is not finite is `none`. -/

/-- Rounding to the nearest integer, ties to the even one. -/
def Binary64.roundEven (m : ℚ) : Int :=
  if m - ⌊m⌋ < 1 / 2 then ⌊m⌋
  else if 1 / 2 < m - ⌊m⌋ then ⌊m⌋ + 1
  else if ⌊m⌋ % 2 = 0 then ⌊m⌋ else ⌊m⌋ + 1

/-- The spacing of the binary64 values around `x`: `2^(e-52)` for `x` of
magnitude in `[2^e, 2^(e+1))`, and `2^(-1074)` below `2^(-1022)`. -/
def Binary64.ulp (x : ℚ) : ℚ := (2 : ℚ) ^ max (Int.log 2 |x| - 52) (-1074)

/-- The binary64 value nearest to `x`, ties to even, the exponent not bounded
above. -/
def Binary64.rnd (x : ℚ) : ℚ := (Binary64.roundEven (x / Binary64.ulp x) : ℚ) * Binary64.ulp x

/-- The double that an operation with exact result `x` returns. -/
def Binary64.round (x : ℚ) : Double ℚ :=
  if |Binary64.rnd x| < 2 ^ 1024 then some (Binary64.rnd x) else none

/-- Product of doubles, rounded. -/
def Binary64.mul (a b : Double ℚ) : Double ℚ := (Double.mul a b).bind Binary64.round

/-- Quotient of doubles, rounded; division by zero is not finite. -/
def Binary64.div (a b : Double ℚ) : Double ℚ := (Double.div a b).bind Binary64.round

/-- The local `fi` of `CalcLonByGridAlgorithm`, `(aLatitude * 3.14) / 180`, in
binary64; the literal `3.14` is the double nearest to it. -/
def Binary64.fi (aLatitude : Double ℚ) : Double ℚ :=
  Binary64.div (Binary64.mul aLatitude (Binary64.round 3.14)) (some 180)

/-- The local `kmSize` of `CalcLonByGridAlgorithm`,
`3600 / (cos(fi) * 111.27)`, in binary64; `cos` is the C library cosine, which
takes a finite double to a finite double. -/
def Binary64.CalcLonKmSize (cos : ℚ → ℚ) (aLatitude : Double ℚ) : Double ℚ :=
  let fi := Binary64.fi aLatitude
  Binary64.div (some 3600) (Binary64.mul (fi.map cos) (Binary64.round 111.27))

/-- The local `gridSize` of `GridAlgorithm`, `(aKmSize * aRadius) / 3600`, in
binary64; the `int32_t` radius converts to a double exactly. -/
def Binary64.gridSize (aRadius : Int) (aKmSize : Double ℚ) : Double ℚ :=
  Binary64.div (Binary64.mul aKmSize (Double.ofInt aRadius)) (some 3600)

/-- A stand-in for the C library cosine, which is not among these sources, on
arguments of magnitude at most `2^(-27)`: there the cosine is within `2^(-55)`
of 1, so the double nearest to it is 1.  On larger arguments the stand-in is
one half; it is even, not increasing on the non-negative arguments, and
between `2^(-11)` and 1. -/
def Binary64.cosNearZero (x : ℚ) : ℚ := if |x| ≤ 2 ^ (-27 : Int) then 1 else 1 / 2

/-- The longitude grid size as one expression: the value of
`Binary64.gridSize` of `Binary64.CalcLonKmSize` when every intermediate
result is finite. -/
def Binary64.lonWidth (cos : ℚ → ℚ) (aRadius : Int) (aLatitude : ℚ) : ℚ :=
  Binary64.rnd (Binary64.rnd (Binary64.rnd (3600 /
    Binary64.rnd (cos (Binary64.rnd (Binary64.rnd (aLatitude * Binary64.rnd 3.14) / 180)) *
      Binary64.rnd 111.27)) * aRadius) / 3600)

/-! # Properties -/

set_option linter.unusedSectionVars false

section DoubleLemmas
variable {K : Type} [LinearOrderedField K] [FloorRing K]

@[simp] theorem Double.mul_some (x y : K) : Double.mul (some x) (some y) = some (x * y) := rfl
@[simp] theorem Double.mul_none_left (b : Double K) : Double.mul none b = none := rfl
@[simp] theorem Double.mul_none_right (a : Double K) : Double.mul a none = none := by
  cases a <;> rfl
@[simp] theorem Double.add_some (x y : K) : Double.add (some x) (some y) = some (x + y) := rfl
@[simp] theorem Double.add_none_left (b : Double K) : Double.add none b = none := rfl
@[simp] theorem Double.add_none_right (a : Double K) : Double.add a none = none := by
  cases a <;> rfl
@[simp] theorem Double.div_some (x y : K) :
    Double.div (some x) (some y) = if y = 0 then none else some (x / y) := rfl
@[simp] theorem Double.div_none_left (b : Double K) : Double.div none b = none := rfl
@[simp] theorem Double.div_none_right (a : Double K) : Double.div a none = none := by
  cases a <;> rfl
@[simp] theorem Double.div_zero (a : Double K) : Double.div a (some 0) = none := by
  cases a <;> simp [Double.div]
@[simp] theorem Double.floor_some (x : K) : Double.floor (some x) = some ((⌊x⌋ : Int) : K) := rfl
@[simp] theorem Double.floor_none : Double.floor (none : Double K) = none := rfl
@[simp] theorem Double.ceil_some (x : K) : Double.ceil (some x) = some ((⌈x⌉ : Int) : K) := rfl
@[simp] theorem Double.ceil_none : Double.ceil (none : Double K) = none := rfl

end DoubleLemmas

section PolicyTheorems
variable {K : Type} [LinearOrderedField K] [FloorRing K]

/-- C4: on a position that has coordinates, `FakeLocation` returns a new
position whose latitude and longitude are the two arguments and whose
altitude, accuracy, altitudeAccuracy, heading, speed and timestamp are those
of the input. -/
theorem FakeLocation_frame (c : nsGeoPositionCoords K) (ts : Nat) (fixedLat fixedLon : Double K) :
    FakeLocation (some { coords := some c, timestamp := ts }) fixedLat fixedLon =
      some { coords := some { latitude := fixedLat, longitude := fixedLon,
                              altitude := c.altitude, accuracy := c.accuracy,
                              altitudeAccuracy := c.altitudeAccuracy,
                              heading := c.heading, speed := c.speed },
             timestamp := ts } := rfl

end PolicyTheorems

/-! ## Grid snapping -/

section GridTheorems
variable {K : Type} [LinearOrderedField K] [FloorRing K]

theorem GridAlgorithm.gridSize_some (aRadius : Int) (aKmSize : K) :
    GridAlgorithm.gridSize aRadius (some aKmSize) = some (aKmSize * (aRadius : K) / 3600) := by
  simp [GridAlgorithm.gridSize, Double.ofInt]

end GridTheorems
theorem CalcLonKmSize_real (x : ℝ) (hx : |x| < 90) :
    0 < Real.cos (x * 3.14 / 180) ∧
    CalcLonKmSize Real.cos (some x) = some (3600 / (Real.cos (x * 3.14 / 180) * 111.27)) := by
  have hpi : (3.14 : ℝ) < Real.pi := Real.pi_gt_d2
  have habs := abs_lt.mp hx
  have hcos : 0 < Real.cos (x * 3.14 / 180) := by
    apply Real.cos_pos_of_mem_Ioo
    constructor <;> nlinarith [habs.1, habs.2]
  refine ⟨hcos, ?_⟩
  have hne : Real.cos (x * 3.14 / 180) * 111.27 ≠ 0 := by positivity
  simp [CalcLonKmSize, hne]

/-- The formula of the longitude grid size over the real numbers, without
rounding: for a fixed radius above zero and two latitudes `a`, `b` with
`|a| < |b| < 90`, the value `kmSize * radius / 3600`, `kmSize` derived from the
latitude with the real cosine, is finite at both latitudes and strictly
smaller at `a` than at `b`.  The doubles that the code computes are compared
further down, in binary64 arithmetic. -/
theorem lonGridSize_strictMono (aRadius : Int) (a b : ℝ) (hr : 0 < aRadius)
    (hab : |a| < |b|) (hb : |b| < 90) :
    ∃ wa wb : ℝ,
      GridAlgorithm.gridSize aRadius (CalcLonKmSize Real.cos (some a)) = some wa ∧
      GridAlgorithm.gridSize aRadius (CalcLonKmSize Real.cos (some b)) = some wb ∧
      wa < wb := by
  have ha : |a| < 90 := lt_trans hab hb
  obtain ⟨hca, hka⟩ := CalcLonKmSize_real a ha
  obtain ⟨hcb, hkb⟩ := CalcLonKmSize_real b hb
  have hpi : (3.14 : ℝ) < Real.pi := Real.pi_gt_d2
  have hcos : Real.cos (b * 3.14 / 180) < Real.cos (a * 3.14 / 180) := by
    rw [← Real.cos_abs (b * 3.14 / 180), ← Real.cos_abs (a * 3.14 / 180)]
    have e1 : |a * 3.14 / 180| = |a| * 3.14 / 180 := by
      rw [abs_div, abs_mul]; norm_num [abs_of_pos]
    have e2 : |b * 3.14 / 180| = |b| * 3.14 / 180 := by
      rw [abs_div, abs_mul]; norm_num [abs_of_pos]
    rw [e1, e2]
    apply Real.cos_lt_cos_of_nonneg_of_le_pi_div_two
    · have := abs_nonneg a; positivity
    · nlinarith
    · nlinarith
  have hR : (0 : ℝ) < (aRadius : ℝ) := by exact_mod_cast hr
  refine ⟨3600 / (Real.cos (a * 3.14 / 180) * 111.27) * (aRadius : ℝ) / 3600,
    3600 / (Real.cos (b * 3.14 / 180) * 111.27) * (aRadius : ℝ) / 3600, ?_, ?_, ?_⟩
  · rw [hka, GridAlgorithm.gridSize_some]
  · rw [hkb, GridAlgorithm.gridSize_some]
  · have h1 : 3600 / (Real.cos (a * 3.14 / 180) * 111.27)
        < 3600 / (Real.cos (b * 3.14 / 180) * 111.27) := by
      apply div_lt_div_of_pos_left (by norm_num) (by positivity)
      nlinarith
    have h2 := mul_lt_mul_of_pos_right h1 hR
    exact div_lt_div_of_pos_right h2 (by norm_num)

theorem lonGridSize_strictMono_witness :
    (0 : Int) < 1 ∧ |(0 : ℝ)| < |(60 : ℝ)| ∧ |(60 : ℝ)| < 90 ∧
      ∃ wa wb : ℝ,
        GridAlgorithm.gridSize 1 (CalcLonKmSize Real.cos (some 0)) = some wa ∧
        GridAlgorithm.gridSize 1 (CalcLonKmSize Real.cos (some 60)) = some wb ∧
        wa < wb :=
  ⟨by norm_num, by norm_num, by norm_num,
    lonGridSize_strictMono 1 0 60 (by norm_num) (by norm_num) (by norm_num)⟩

section BlurTheorems
variable {K : Type} [LinearOrderedField K] [FloorRing K]

theorem GridAlgorithm_radius_zero (aKmSize aCoord : Double K) :
    GridAlgorithm 0 aKmSize aCoord = none := by
  cases aKmSize <;> simp [GridAlgorithm, GridAlgorithm.gridSize, Double.ofInt]

theorem BlurLocation_radius_zero (cos : K → K) (c : nsGeoPositionCoords K) (ts : Nat) :
    BlurLocation cos (some { coords := some c, timestamp := ts }) 0 =
      some { coords := some { c with latitude := none, longitude := none },
             timestamp := ts } := by
  simp [BlurLocation, CalcLonByGridAlgorithm, CalcLatByGridAlgorithm, GridAlgorithm_radius_zero,
    FakeLocation, nsGeoPosition.new]

theorem BlurLocation_ne_none (cos : K → K) (p : nsGeoPosition K) (aRadius : Int) :
    BlurLocation cos (some p) aRadius ≠ none := by
  obtain ⟨coords, ts⟩ := p
  cases coords <;> simp [BlurLocation, FakeLocation]

theorem FakeLocation_ne_none (p : nsGeoPosition K) (lat lon : Double K) :
    FakeLocation (some p) lat lon ≠ none := by
  obtain ⟨coords, ts⟩ := p
  cases coords <;> simp [FakeLocation]

end BlurTheorems

/-- C7 (the code at the failing input): with radius 0 the position at
latitude 12.5, longitude -71.25 comes back from `BlurLocation` with a latitude
and a longitude that are not finite numbers, whatever the cosine; the other
fields are those of the input. -/
theorem BlurLocation_radius_zero_at_input (cos : ℚ → ℚ) :
    BlurLocation cos (some examplePosition) 0 =
      some { coords := some { latitude := none, longitude := none, altitude := some 30,
                              accuracy := some 5, altitudeAccuracy := some 2,
                              heading := some 90, speed := some 1 },
             timestamp := 1000 } :=
  BlurLocation_radius_zero cos _ 1000

/-! ## The allowlist -/

/-- C1 (counterexample): the origin `app://a` is in the allowlist, the global
policy is the default (precise) one, and `ChangeLocation` in the parent
process hands the position back instead of yielding none. -/
theorem ChangeLocation_allowlisted_counterexample :
    "app://a".toList ∈ allowlistedStatics.sUnbluredApps ∧
      ChangeLocation GeckoProcessType.GeckoProcessType_Default (fun _ => (1 : ℚ))
        allowlistedStatics "app://a".toList (some examplePosition) = some examplePosition := by
  constructor
  · simp [allowlistedStatics]
  · simp [ChangeLocation, allowlistedStatics, GetBlurSettings, GetAppManifestURL,
      GetBlurSettings.search, nsGeoBlurSettings.new, nsGeoBlurSettings.IsExactLoaction,
      GEO_BLUR_TYPE_PRECISE]

section AllowlistTheorems
variable {K : Type} [LinearOrderedField K] [FloorRing K]

/-- C1 (amended): for an origin identity present in the allowlist
`sUnbluredApps`, `ChangeLocation` is decided by the policy that
`GetBlurSettings` resolves from the global policy and the exception list: on a
delivered position it yields no position exactly when the process is not a
content process and that policy is neither precise, nor blur, nor fake with
valid coordinates; the content of the allowlist does not change the result. -/
theorem ChangeLocation_allowlist_ignored (pt : GeckoProcessType) (cos : K → K)
    (st : BlurStatics K) (origin : nsString) (p : nsGeoPosition K)
    (_hAllow : origin ∈ st.sUnbluredApps) :
    (ChangeLocation pt cos st origin (some p) = none ↔
        pt ≠ GeckoProcessType.GeckoProcessType_Content ∧
        (GetBlurSettings st origin).IsExactLoaction = false ∧
        (GetBlurSettings st origin).IsBluredLocation = false ∧
        ¬ ((GetBlurSettings st origin).IsFakeLocation = true ∧
            (GetBlurSettings st origin).HasValidCoords = true)) ∧
      ChangeLocation pt cos st origin (some p) =
        ChangeLocation pt cos { st with sUnbluredApps := [] } origin (some p) := by
  refine ⟨?_, rfl⟩
  unfold ChangeLocation
  by_cases hpt : pt = GeckoProcessType.GeckoProcessType_Content
  · simp [hpt]
  · simp only [hpt, if_false]
    cases hE : (GetBlurSettings st origin).IsExactLoaction
    · cases hB : (GetBlurSettings st origin).IsBluredLocation
      · cases hF : (GetBlurSettings st origin).IsFakeLocation
        · simp [hpt]
        · cases hV : (GetBlurSettings st origin).HasValidCoords
          · simp [hpt]
          · simpa using FakeLocation_ne_none p _ _
      · simpa using BlurLocation_ne_none cos p _
    · simp

end AllowlistTheorems

theorem ChangeLocation_allowlist_ignored_witness :
    "app://a".toList ∈ allowlistedStatics.sUnbluredApps ∧
      ChangeLocation GeckoProcessType.GeckoProcessType_Default (fun _ => (1 : ℚ))
          allowlistedStatics "app://a".toList (some examplePosition) =
        ChangeLocation GeckoProcessType.GeckoProcessType_Default (fun _ => (1 : ℚ))
          { allowlistedStatics with sUnbluredApps := [] } "app://a".toList
          (some examplePosition) :=
  ⟨by simp [allowlistedStatics],
    (ChangeLocation_allowlist_ignored GeckoProcessType.GeckoProcessType_Default
      (fun _ => (1 : ℚ)) allowlistedStatics "app://a".toList examplePosition
      (by simp [allowlistedStatics])).2⟩
/-! ## Coordinate strings -/

theorem toUint32_natCast (n : Nat) (h : n < 2 ^ 32) : toUint32 (n : Int) = n := by
  unfold toUint32
  have : ((n : Int) % (2 ^ 32 : Int)) = (n : Int) := by
    apply Int.emod_eq_of_lt <;> omega
  rw [this]; simp

theorem toUint32_kNotFound : toUint32 kNotFound = 2 ^ 32 - 1 := by decide

theorem subUint32_of_le (a b : Nat) (ha : a < 2 ^ 32) (hb : b ≤ a) : subUint32 a b = a - b := by
  unfold subUint32
  have hb' : b % 2 ^ 32 = b := Nat.mod_eq_of_lt (by omega)
  rw [hb']
  have : a + 2 ^ 32 - b = (a - b) + 2 ^ 32 := by omega
  rw [this, Nat.add_mod_right]
  exact Nat.mod_eq_of_lt (by omega)

theorem subUint32_le (a b : Nat) : subUint32 a b ≤ 2 ^ 32 - 1 := by
  unfold subUint32
  have := Nat.mod_lt (a + 2 ^ 32 - b % 2 ^ 32) (by norm_num : 2 ^ 32 > 0)
  omega

theorem nsString.Cut_to_end (s : nsString) (m : Nat) (hm : m ≤ s.length) :
    nsString.Cut s m (s.length - m) = s.take m := by
  unfold nsString.Cut
  have : m + (s.length - m) = s.length := by omega
  rw [this, List.drop_length, List.append_nil]

theorem nsString.Cut_front (s : nsString) (n : Nat) : nsString.Cut s 0 n = s.drop n := by
  simp [nsString.Cut]

theorem middle_of_mem (s : nsString) (hlen : s.length < 2 ^ 32) (h : ',' ∈ s) :
    toUint32 (nsString.Find s ',') = s.indexOf ',' := by
  unfold nsString.Find
  rw [if_pos h]
  exact toUint32_natCast _ (lt_of_le_of_lt List.indexOf_le_length hlen)

theorem middle_of_not_mem (s : nsString) (h : ',' ∉ s) :
    toUint32 (nsString.Find s ',') = 2 ^ 32 - 1 := by
  unfold nsString.Find
  rw [if_neg h]
  exact toUint32_kNotFound

section CoordsTheorems
variable {K : Type} [LinearOrderedField K] [FloorRing K]

/-- What `SetCoords` does once the guard on `@` and on the position of the
comma has been passed. -/
theorem SetCoords_of_guard (ToDouble : nsString → Double K × Bool) (self : nsGeoBlurSettings K)
    (s : nsString) (hlen : s.length < 2 ^ 32) (hat : s.head? = some '@') (hmem : ',' ∈ s)
    (hlast : s.indexOf ',' < s.length - 1) :
    nsGeoBlurSettings.SetCoords ToDouble self s =
      if (ToDouble ((s.take (s.indexOf ',')).drop 1)).2 = false then
        { self with mHasValidCoords := false, mLatitude := some 0, mLongitude := some 0 }
      else if (ToDouble (s.drop (s.indexOf ',' + 1))).2 = false then
        { self with mHasValidCoords := false, mLatitude := some 0, mLongitude := some 0 }
      else
        { self with mHasValidCoords := true,
                    mLatitude := (ToDouble ((s.take (s.indexOf ',')).drop 1)).1,
                    mLongitude := (ToDouble (s.drop (s.indexOf ',' + 1))).1 } := by
  have hne : s ≠ [] := by rintro rfl; simp at hmem
  have hpos : 0 < s.indexOf ',' := by
    cases s with
    | nil => exact absurd rfl hne
    | cons c cs =>
      simp only [List.head?_cons, Option.some.injEq] at hat
      subst hat
      rw [List.indexOf_cons_ne _ (by decide)]
      exact Nat.succ_pos _
  have hmid := middle_of_mem s hlen hmem
  have hsub1 : subUint32 s.length 1 = s.length - 1 :=
    subUint32_of_le _ _ hlen (by cases s with | nil => exact absurd rfl hne | cons _ _ => simp)
  have hsubm : subUint32 s.length (s.indexOf ',') = s.length - s.indexOf ',' :=
    subUint32_of_le _ _ hlen List.indexOf_le_length
  have hchar : nsString.CharAt s 0 = some '@' := by
    cases s with
    | nil => exact absurd rfl hne
    | cons c cs => simpa [nsString.CharAt] using hat
  have hempty : s.isEmpty = false := by
    cases s with
    | nil => exact absurd rfl hne
    | cons _ _ => rfl
  unfold nsGeoBlurSettings.SetCoords
  simp only [hempty, hmid, hsub1, hsubm, hchar, hpos, hlast, Bool.false_eq_true, if_false,
    true_and, and_self, if_true, gt_iff_lt,
    nsString.Cut_to_end s _ List.indexOf_le_length, nsString.Cut_front,
    nsGeoBlurSettings.ClearCoords]

/-- What `SetCoords` does when the guard fails: the coordinates are cleared. -/
theorem SetCoords_of_not_guard (ToDouble : nsString → Double K × Bool)
    (self : nsGeoBlurSettings K) (s : nsString) (hlen : s.length < 2 ^ 32)
    (h : s = [] ∨ s.head? ≠ some '@' ∨ ',' ∉ s ∨ s.indexOf ',' = s.length - 1) :
    nsGeoBlurSettings.SetCoords ToDouble self s =
      { self with mHasValidCoords := false, mLatitude := some 0, mLongitude := some 0 } := by
  unfold nsGeoBlurSettings.SetCoords
  by_cases hne : s = []
  · subst hne; simp [nsGeoBlurSettings.ClearCoords]
  · have hempty : s.isEmpty = false := by
      cases s with
      | nil => exact absurd rfl hne
      | cons _ _ => rfl
    have hsub1 : subUint32 s.length 1 = s.length - 1 :=
      subUint32_of_le _ _ hlen (by cases s with | nil => exact absurd rfl hne | cons _ _ => simp)
    have hguard : ¬ (nsString.CharAt s 0 = some '@' ∧ toUint32 (nsString.Find s ',') > 0 ∧
        toUint32 (nsString.Find s ',') < subUint32 s.length 1) := by
      rintro ⟨hc, _, hlt⟩
      rcases h with h | h | h | h
      · exact hne h
      · apply h
        cases s with
        | nil => exact absurd rfl hne
        | cons c cs => simpa [nsString.CharAt] using hc
      · rw [middle_of_not_mem s h, hsub1] at hlt
        omega
      · by_cases hmem : ',' ∈ s
        · rw [middle_of_mem s hlen hmem, hsub1, h] at hlt
          omega
        · rw [middle_of_not_mem s hmem, hsub1] at hlt
          omega
    simp only [hempty, Bool.false_eq_true, if_false, hguard, nsGeoBlurSettings.ClearCoords]

end CoordsTheorems

section CoordsClaims
variable {K : Type} [LinearOrderedField K] [FloorRing K]

/-- C8: for every prior settings state and every two strings `a` and `b` that
`ToDouble` converts completely (result code `NS_OK`) to `x` and `y`, `a`
holding no comma and `b` not empty, `SetCoords("@" + a + "," + b)` leaves
`HasValidCoords = true`, latitude `x` and longitude `y`, and no other field
changed. -/
theorem SetCoords_parses (ToDouble : nsString → Double K × Bool) (self : nsGeoBlurSettings K)
    (a b : nsString) (x y : Double K) (ha : ',' ∉ a) (hb : b ≠ [])
    (hlen : ('@' :: (a ++ ',' :: b)).length < 2 ^ 32)
    (hx : ToDouble a = (x, true)) (hy : ToDouble b = (y, true)) :
    nsGeoBlurSettings.SetCoords ToDouble self ('@' :: (a ++ ',' :: b)) =
      { self with mHasValidCoords := true, mLatitude := x, mLongitude := y } := by
  have hidx : ('@' :: (a ++ ',' :: b)).indexOf ',' = a.length + 1 := by
    rw [List.indexOf_cons_ne _ (by decide), List.indexOf_append_of_not_mem ha,
      List.indexOf_cons_self]
  have hbl : 0 < b.length := List.length_pos.mpr hb
  have hlat : (('@' :: (a ++ ',' :: b)).take (a.length + 1)).drop 1 = a := by
    simp [List.take_append_eq_append_take]
  have hlon : ('@' :: (a ++ ',' :: b)).drop (a.length + 1 + 1) = b := by
    simp [List.drop_append_eq_append_drop]
  rw [SetCoords_of_guard ToDouble self _ hlen rfl (by simp)
    (by rw [hidx]; simp only [List.length_cons, List.length_append]; omega)]
  rw [hidx, hlat, hlon, hx, hy]
  simp

/-- C9: for every prior settings state and every input string that is empty,
does not start with `@`, holds no comma, has its first comma as the last
character, or has a latitude half or a longitude half for which `ToDouble`
does not report `NS_OK`, `SetCoords` ends with `HasValidCoords = false`,
latitude 0 and longitude 0, and no other field changed. -/
theorem SetCoords_rejects (ToDouble : nsString → Double K × Bool) (self : nsGeoBlurSettings K)
    (s : nsString) (hlen : s.length < 2 ^ 32)
    (h : s = [] ∨ s.head? ≠ some '@' ∨ ',' ∉ s ∨ s.indexOf ',' = s.length - 1 ∨
      (ToDouble ((s.take (s.indexOf ',')).drop 1)).2 = false ∨
      (ToDouble (s.drop (s.indexOf ',' + 1))).2 = false) :
    nsGeoBlurSettings.SetCoords ToDouble self s =
      { self with mHasValidCoords := false, mLatitude := some 0, mLongitude := some 0 } := by
  by_cases hg : s = [] ∨ s.head? ≠ some '@' ∨ ',' ∉ s ∨ s.indexOf ',' = s.length - 1
  · exact SetCoords_of_not_guard ToDouble self s hlen hg
  · simp only [not_or, not_not] at hg
    obtain ⟨_, hat, hmem, hlast⟩ := hg
    have hlt : s.indexOf ',' < s.length := List.indexOf_lt_length.mpr hmem
    rw [SetCoords_of_guard ToDouble self s hlen hat hmem (by omega)]
    rcases h with h | h | h | h | h | h
    · subst h; simp at hmem
    · exact absurd hat h
    · exact absurd hmem h
    · exact absurd h hlast
    · rw [if_pos h]
    · by_cases h1 : (ToDouble ((s.take (s.indexOf ',')).drop 1)).2 = false
      · rw [if_pos h1]
      · rw [if_neg h1, if_pos h]

end CoordsClaims
theorem decimalToDouble_lat : (decimalToDouble "12.5".toList : Double ℚ × Bool) = (some 12.5, true) := by
  simp [decimalToDouble, digitsValue, Char.isDigit]
  norm_num

theorem decimalToDouble_lon :
    (decimalToDouble "-71.25".toList : Double ℚ × Bool) = (some (-71.25), true) := by
  simp [decimalToDouble, digitsValue, Char.isDigit]
  norm_num

theorem decimalToDouble_nil : ((decimalToDouble [] : Double ℚ × Bool)).2 = false := by
  simp [decimalToDouble]

theorem SetCoords_parses_witness :
    ',' ∉ "12.5".toList ∧ "-71.25".toList ≠ [] ∧
      ('@' :: ("12.5".toList ++ ',' :: "-71.25".toList)).length < 2 ^ 32 ∧
      (decimalToDouble "12.5".toList : Double ℚ × Bool) = (some 12.5, true) ∧
      (decimalToDouble "-71.25".toList : Double ℚ × Bool) = (some (-71.25), true) ∧
      nsGeoBlurSettings.SetCoords decimalToDouble priorSettings "@12.5,-71.25".toList =
        { priorSettings with mHasValidCoords := true, mLatitude := some 12.5,
                             mLongitude := some (-71.25) } :=
  ⟨by decide, by decide, by decide, decimalToDouble_lat, decimalToDouble_lon,
    SetCoords_parses decimalToDouble priorSettings "12.5".toList "-71.25".toList _ _
      (by decide) (by decide) (by decide) decimalToDouble_lat decimalToDouble_lon⟩

theorem SetCoords_rejects_witness :
    nsGeoBlurSettings.SetCoords decimalToDouble priorSettings "".toList =
        { priorSettings with mHasValidCoords := false, mLatitude := some 0,
                             mLongitude := some 0 } ∧
      nsGeoBlurSettings.SetCoords decimalToDouble priorSettings "12.5,-71.25".toList =
        { priorSettings with mHasValidCoords := false, mLatitude := some 0,
                             mLongitude := some 0 } ∧
      nsGeoBlurSettings.SetCoords decimalToDouble priorSettings "@12.5".toList =
        { priorSettings with mHasValidCoords := false, mLatitude := some 0,
                             mLongitude := some 0 } ∧
      nsGeoBlurSettings.SetCoords decimalToDouble priorSettings "@,-71.25".toList =
        { priorSettings with mHasValidCoords := false, mLatitude := some 0,
                             mLongitude := some 0 } :=
  ⟨SetCoords_rejects decimalToDouble priorSettings "".toList (by decide) (Or.inl rfl),
    SetCoords_rejects decimalToDouble priorSettings "12.5,-71.25".toList (by decide)
      (Or.inr (Or.inl (by decide))),
    SetCoords_rejects decimalToDouble priorSettings "@12.5".toList (by decide)
      (Or.inr (Or.inr (Or.inl (by decide)))),
    SetCoords_rejects decimalToDouble priorSettings "@,-71.25".toList (by decide)
      (Or.inr (Or.inr (Or.inr (Or.inr (Or.inl decimalToDouble_nil)))))⟩
/-! ## Delivery -/

section DeliveryTheorems
variable {K : Type} [LinearOrderedField K] [FloorRing K]

/-- C3: for a request that is not shut down and a delivered position that has
coordinates and is not older than `maximumAge`, in a process that applies the
policy (not a content process), if the resolved policy is no-location, or is
fake without valid coordinates, `SendLocation` invokes the error callback
with `POSITION_UNAVAILABLE` and does nothing else: the success callback is not
invoked and the rest of the state is unchanged.  `GEO_BLUR_TYPE_NO_LOCATION`
is any value other than the three blur types of the header. -/
theorem SendLocation_no_position (GEO_BLUR_TYPE_NO_LOCATION : Int)
    (hconst : GEO_BLUR_TYPE_NO_LOCATION ≠ GEO_BLUR_TYPE_PRECISE ∧
      GEO_BLUR_TYPE_NO_LOCATION ≠ GEO_BLUR_TYPE_BLUR ∧
      GEO_BLUR_TYPE_NO_LOCATION ≠ GEO_BLUR_TYPE_CUSTOM)
    (env : Env K) (s : Sys K) (r : Nat) (q : nsGeolocationRequest) (p : nsGeoPosition K)
    (c : nsGeoPositionCoords K)
    (hq : s.requests[r]? = some q) (hlive : q.mShutdown = false) (hcoords : p.coords = some c)
    (hage : ∀ o, q.mOptions = some o → 0 < o.mMaximumAge →
      DOMTimeStamp (env.PR_Now.tdiv PR_USEC_PER_MSEC - o.mMaximumAge) ≤ p.timestamp)
    (hproc : env.XRE_GetProcessType ≠ GeckoProcessType.GeckoProcessType_Content)
    (hpolicy : (GetBlurSettings s.blur s.mManifestURL).IsNoLocation GEO_BLUR_TYPE_NO_LOCATION
        = true ∨
      ((GetBlurSettings s.blur s.mManifestURL).IsFakeLocation = true ∧
        (GetBlurSettings s.blur s.mManifestURL).HasValidCoords = false)) :
    nsGeolocationRequest.SendLocation env s r (some p) =
      { s with callbacks := s.callbacks ++ [CallbackEvent.error r POSITION_UNAVAILABLE] } := by
  have hchange : ChangeLocation env.XRE_GetProcessType env.cos s.blur s.mManifestURL (some p)
      = none := by
    unfold ChangeLocation
    rw [if_neg hproc]
    rcases hpolicy with h | ⟨h1, h2⟩
    · have ht : (GetBlurSettings s.blur s.mManifestURL).mBlurType = GEO_BLUR_TYPE_NO_LOCATION := by
        simpa [nsGeoBlurSettings.IsNoLocation] using h
      simp [nsGeoBlurSettings.IsExactLoaction, nsGeoBlurSettings.IsBluredLocation,
        nsGeoBlurSettings.IsFakeLocation, ht, hconst.1, hconst.2.1, hconst.2.2]
    · have ht : (GetBlurSettings s.blur s.mManifestURL).mBlurType = GEO_BLUR_TYPE_CUSTOM := by
        simpa [nsGeoBlurSettings.IsFakeLocation] using h1
      simp [nsGeoBlurSettings.IsExactLoaction, nsGeoBlurSettings.IsBluredLocation,
        nsGeoBlurSettings.IsFakeLocation, ht, h2, GEO_BLUR_TYPE_CUSTOM, GEO_BLUR_TYPE_PRECISE,
        GEO_BLUR_TYPE_BLUR]
  unfold nsGeolocationRequest.SendLocation
  simp only [hq, hlive, Bool.false_eq_true, if_false, hcoords, hchange]
  cases ho : q.mOptions with
  | none => simp [nsGeolocationRequest.NotifyError]
  | some o =>
    by_cases hm : 0 < o.mMaximumAge
    · have := hage o ho hm
      simp [hm, Nat.not_lt.mpr this, nsGeolocationRequest.NotifyError]
    · simp [hm, nsGeolocationRequest.NotifyError]

end DeliveryTheorems

theorem SendLocation_no_position_witness :
    nsGeolocationRequest.SendLocation exampleEnv noLocationSys 0 (some examplePosition) =
      { noLocationSys with
        callbacks := noLocationSys.callbacks ++ [CallbackEvent.error 0 POSITION_UNAVAILABLE] } :=
  SendLocation_no_position 4 (by decide) exampleEnv noLocationSys 0 _ examplePosition _
    rfl rfl rfl
    (by
      intro o ho _
      have : o.mMaximumAge = 5000 := by
        simp [noLocationSys, Sys.init] at ho
        rw [← ho]
      rw [this]
      decide)
    (by decide)
    (Or.inl (by decide))
/-! ## One-shot requests: the invariant -/

section KeepsBasics
variable {K : Type} [LinearOrderedField K] [FloorRing K]

theorem View.req_cases (v : View K) : v.req = none ∨ ∃ q, v.req = some q := by
  cases v.req with
  | none => exact Or.inl rfl
  | some q => exact Or.inr ⟨q, rfl⟩

theorem View.Inv_some {v : View K} {q : nsGeolocationRequest} (hv : v.req = some q) :
    v.Inv ↔ (q.mIsWatchPositionRequest = false → v.OneShotInv q) := by
  simp [View.Inv, hv]

theorem View.Inv_none {v : View K} (hv : v.req = none) :
    v.Inv ↔ (v.decisions = 0 ∧ v.sends = 0 ∧ v.pending = 0 ∧ v.watching = 0 ∧
      v.callbacks = []) := by
  simp [View.Inv, hv]

theorem View.oneShot_some {v : View K} {q : nsGeolocationRequest} (hv : v.req = some q) :
    v.oneShot ↔ q.mIsWatchPositionRequest = false := by
  simp [View.oneShot, hv]

theorem View.not_oneShot_none {v : View K} (hv : v.req = none) : ¬ v.oneShot := by
  simp [View.oneShot, hv]

theorem View.hasTerminal_congr {v w : View K} (h : w.callbacks = v.callbacks) :
    w.hasTerminal = v.hasTerminal := by
  simp [View.hasTerminal, h]

theorem View.KindStable.kind_refl (v : View K) : v.KindStable v := fun q hq => ⟨q, hq, rfl⟩

theorem View.KindStable.kind_trans {u v w : View K} (h1 : u.KindStable v) (h2 : v.KindStable w) :
    u.KindStable w := by
  intro q hq
  obtain ⟨q1, hq1, hk1⟩ := h1 q hq
  obtain ⟨q2, hq2, hk2⟩ := h2 q1 hq1
  exact ⟨q2, hq2, hk2.trans hk1⟩

theorem View.KindStable.of_req_eq {v w : View K} (h : w.req = v.req) : v.KindStable w :=
  fun q hq => ⟨q, by rw [h, hq], rfl⟩

theorem View.KindStable.oneShot {v w : View K} (h : v.KindStable w) (ho : v.oneShot) :
    w.oneShot := by
  obtain ⟨q, hq, hone⟩ := ho
  obtain ⟨q', hq', hk⟩ := h q hq
  exact ⟨q', hq', by rw [hk]; exact hone⟩

/-- How `Keeps` is shown: the kind is stable, a request that does not exist
stays unmentioned, and the invariant of a one-shot request carries over
without a callback added after its terminal one. -/
theorem View.Keeps.keeps_intro {v w : View K} (hk : v.KindStable w)
    (hnone : v.req = none → v.Inv → w.Inv)
    (hone : ∀ q q', v.req = some q → w.req = some q' → q.mIsWatchPositionRequest = false →
      v.OneShotInv q →
      w.OneShotInv q' ∧ (v.hasTerminal = true → w.callbacks = v.callbacks)) : v.Keeps w := by
  refine ⟨hk, fun hinv => ?_⟩
  rcases v.req_cases with hv | ⟨q, hv⟩
  · exact ⟨hnone hv hinv, fun ho => absurd ho (View.not_oneShot_none hv)⟩
  · obtain ⟨q', hw, hkind⟩ := hk q hv
    cases hq : q.mIsWatchPositionRequest with
    | true =>
      refine ⟨(View.Inv_some hw).mpr (fun h => ?_), fun ho => ?_⟩
      · rw [hkind, hq] at h; cases h
      · rw [View.oneShot_some hv, hq] at ho; cases ho
    | false =>
      have I := (View.Inv_some hv).mp hinv hq
      obtain ⟨I', hst⟩ := hone q q' hv hw hq I
      exact ⟨(View.Inv_some hw).mpr (fun _ => I'), fun _ => hst⟩

theorem View.Keeps.keeps_refl (v : View K) : v.Keeps v :=
  ⟨View.KindStable.kind_refl v, fun h => ⟨h, fun _ _ => rfl⟩⟩

theorem View.Keeps.keeps_trans {u v w : View K} (h1 : u.Keeps v) (h2 : v.Keeps w) : u.Keeps w := by
  refine ⟨h1.1.kind_trans h2.1, fun hu => ?_⟩
  obtain ⟨hv, hs1⟩ := h1.2 hu
  obtain ⟨hw, hs2⟩ := h2.2 hv
  refine ⟨hw, fun ho ht => ?_⟩
  have e1 := hs1 ho ht
  have htv : v.hasTerminal = true := by rw [View.hasTerminal_congr e1]; exact ht
  rw [hs2 (h1.1.oneShot ho) htv, e1]

theorem Sys.Keeps.sys_refl (r : Nat) (s : Sys K) : Sys.Keeps r s s := View.Keeps.keeps_refl _

theorem Sys.Keeps.sys_trans {r : Nat} {s t u : Sys K} (h1 : Sys.Keeps r s t) (h2 : Sys.Keeps r t u) :
    Sys.Keeps r s u := View.Keeps.keeps_trans h1 h2

theorem Sys.Keeps.of_view_eq {r : Nat} {s t : Sys K} (h : t.view r = s.view r) :
    Sys.Keeps r s t := by
  unfold Sys.Keeps; rw [h]; exact View.Keeps.keeps_refl _

/-- The view reads seven fields of the state. -/
theorem Sys.view_congr (s t : Sys K) (r : Nat) (h1 : t.requests = s.requests)
    (h2 : t.mPendingCallbacks = s.mPendingCallbacks)
    (h3 : t.mWatchingCallbacks = s.mWatchingCallbacks)
    (h4 : t.mPendingRequests = s.mPendingRequests) (h5 : t.prompting = s.prompting)
    (h6 : t.queue = s.queue) (h7 : t.callbacks = s.callbacks) : t.view r = s.view r := by
  simp [Sys.view, Sys.decisions, Sys.sends, Sys.callbacksOf, h1, h2, h3, h4, h5, h6, h7]

end KeepsBasics

section SameViewsLemmas
variable {K : Type} [LinearOrderedField K] [FloorRing K]

theorem SameViews.same_refl (s : Sys K) : SameViews s s := ⟨rfl, rfl, rfl, rfl, rfl, rfl, rfl⟩

theorem SameViews.same_trans {s t u : Sys K} (h1 : SameViews s t) (h2 : SameViews t u) :
    SameViews s u := by
  obtain ⟨a1, a2, a3, a4, a5, a6, a7⟩ := h1
  obtain ⟨b1, b2, b3, b4, b5, b6, b7⟩ := h2
  exact ⟨b1.trans a1, b2.trans a2, b3.trans a3, b4.trans a4, b5.trans a5, b6.trans a6,
    b7.trans a7⟩

theorem SameViews.view_eq {s t : Sys K} (h : SameViews s t) (r : Nat) : t.view r = s.view r :=
  Sys.view_congr s t r h.1 h.2.1 h.2.2.1 h.2.2.2.1 h.2.2.2.2.1 h.2.2.2.2.2.1 h.2.2.2.2.2.2

theorem SameViews.same_keeps {s t : Sys K} (h : SameViews s t) (r : Nat) : Sys.Keeps r s t :=
  Sys.Keeps.of_view_eq (h.view_eq r)

theorem SameViews.crashed (s : Sys K) : SameViews s { s with crashed := true } :=
  ⟨rfl, rfl, rfl, rfl, rfl, rfl, rfl⟩

theorem SameViews.effect (s : Sys K) (e : ServiceEffect) : SameViews s (s.effect e) :=
  ⟨rfl, rfl, rfl, rfl, rfl, rfl, rfl⟩

theorem SameViews.ProviderSetHighAccuracy (env : Env K) (s : Sys K) (b : Bool) :
    SameViews s (ProviderSetHighAccuracy env s b) := by
  unfold Gecko.ProviderSetHighAccuracy
  split
  · exact SameViews.effect _ _
  · exact SameViews.crashed _

theorem SameViews.UpdateAccuracy (env : Env K) (s : Sys K) (b : Bool) :
    SameViews s (nsGeolocationService.UpdateAccuracy env s b) := by
  unfold nsGeolocationService.UpdateAccuracy
  simp only
  split
  · exact SameViews.effect _ _
  · have h1 : ∀ (c : Bool) (t : Sys K), SameViews s t →
        SameViews s (if c then Gecko.ProviderSetHighAccuracy env t true else t) := by
      intro c t ht
      split
      · exact ht.same_trans (SameViews.ProviderSetHighAccuracy _ _ _)
      · exact ht
    have h2 : ∀ (c : Bool) (t : Sys K), SameViews s t →
        SameViews s (if c then Gecko.ProviderSetHighAccuracy env t false else t) := by
      intro c t ht
      split
      · exact ht.same_trans (SameViews.ProviderSetHighAccuracy _ _ _)
      · exact ht
    have := h2 (s.mHigherAccuracy && !(b || nsGeolocationService.HighAccuracyRequested s)) _
      (h1 (!s.mHigherAccuracy && (b || nsGeolocationService.HighAccuracyRequested s)) s
        (SameViews.same_refl s))
    exact ⟨this.1, this.2.1, this.2.2.1, this.2.2.2.1, this.2.2.2.2.1, this.2.2.2.2.2.1,
      this.2.2.2.2.2.2⟩

theorem SameViews.SetCachedPosition (s : Sys K) (p : Option (nsGeoPosition K)) :
    SameViews s (nsGeolocationService.SetCachedPosition s p) :=
  ⟨rfl, rfl, rfl, rfl, rfl, rfl, rfl⟩

theorem SameViews.SetDisconnectTimer (s : Sys K) :
    SameViews s (nsGeolocationService.SetDisconnectTimer s) :=
  ⟨rfl, rfl, rfl, rfl, rfl, rfl, rfl⟩

theorem SameViews.StopDevice (env : Env K) (s : Sys K) :
    SameViews s (nsGeolocationService.StopDevice env s) := by
  unfold nsGeolocationService.StopDevice
  simp only
  split
  · exact ⟨rfl, rfl, rfl, rfl, rfl, rfl, rfl⟩
  · split
    · exact ⟨rfl, rfl, rfl, rfl, rfl, rfl, rfl⟩
    · split <;> exact ⟨rfl, rfl, rfl, rfl, rfl, rfl, rfl⟩

end SameViewsLemmas

section ViewLe
variable {K : Type} [LinearOrderedField K] [FloorRing K]

theorem View.Le.view_refl (v : View K) : v.Le v := by
  unfold View.Le
  refine ⟨?_, le_rfl, le_rfl, le_rfl, le_rfl, rfl⟩
  cases v.req <;> simp

theorem View.Le.kindStable {v w : View K} (h : v.Le w) : v.KindStable w := by
  intro q hq
  have hreq := h.1
  rcases w.req_cases with hw | ⟨q', hw⟩
  · simp [hq, hw] at hreq
  · simp only [hq, hw] at hreq
    exact ⟨q', hw, hreq.1⟩

theorem View.Le.le_keeps {v w : View K} (h : v.Le w) : v.Keeps w := by
  have hks := h.kindStable
  obtain ⟨hreq, hd, hs, hp, hw, hc⟩ := h
  have hterm : w.hasTerminal = v.hasTerminal := View.hasTerminal_congr hc
  refine View.Keeps.keeps_intro hks ?_ ?_
  · intro hv hinv
    rcases w.req_cases with hw' | ⟨q', hw'⟩
    · obtain ⟨a, b, c, d, e⟩ := (View.Inv_none hv).mp hinv
      exact (View.Inv_none hw').mpr ⟨by omega, by omega, by omega, by omega, by rw [hc, e]⟩
    · simp [hv, hw'] at hreq
  · intro q q' hv hw' hone I
    simp only [hv, hw'] at hreq
    obtain ⟨_, ht, hsh⟩ := hreq
    refine ⟨⟨by have := I.decided; omega, ?_, by have := I.notWatching; omega, ?_, ?_⟩,
      fun _ => hc⟩
    · intro h1
      have hd1 : v.decisions = 1 := by have := I.decided; omega
      obtain ⟨a, b, c⟩ := I.undecided hd1
      refine ⟨?_, by omega, by rw [hterm]; exact c⟩
      rcases ht with ht | ht
      · exact ht
      · rw [ht]; exact a
    · intro h1
      have := I.sent (by omega)
      omega
    · intro h1
      obtain ⟨a, b, c⟩ := I.terminal (by rw [← hterm]; exact h1)
      refine ⟨by omega, ?_, ?_⟩
      · rcases ht with ht | ht
        · exact ht
        · rw [ht]; exact b
      · rcases c with c | c
        · left
          rcases hsh with hsh | hsh
          · exact hsh
          · rw [hsh]; exact c
        · right; omega

end ViewLe

section HeapLemmas
variable {K : Type} [LinearOrderedField K] [FloorRing K]

theorem Sys.view_setRequest_ne (s : Sys K) {r' r : Nat} (q' : nsGeolocationRequest)
    (h : r' ≠ r) : (s.setRequest r' q').view r = s.view r := by
  simp [Sys.view, Sys.setRequest, Sys.decisions, Sys.sends, Sys.callbacksOf,
    List.getElem?_set, h]

theorem Sys.view_setRequest_self (s : Sys K) {r : Nat} {q : nsGeolocationRequest}
    (q' : nsGeolocationRequest) (hq : s.requests[r]? = some q) :
    (s.setRequest r q').view r = { s.view r with req := some q' } := by
  have hlt : r < s.requests.length := by
    by_contra hge
    rw [List.getElem?_eq_none (by omega)] at hq
    cases hq
  simp [Sys.view, Sys.setRequest, Sys.decisions, Sys.sends, Sys.callbacksOf,
    List.getElem?_set, hlt]

theorem Sys.view_modifyRequest_ne (s : Sys K) {r' r : Nat}
    (f : nsGeolocationRequest → nsGeolocationRequest) (h : r' ≠ r) :
    (s.modifyRequest r' f).view r = s.view r := by
  unfold Sys.modifyRequest
  split
  · exact Sys.view_setRequest_ne s _ h
  · exact (SameViews.crashed s).view_eq r

theorem Sys.view_modifyRequest_self (s : Sys K) {r : Nat} {q : nsGeolocationRequest}
    (f : nsGeolocationRequest → nsGeolocationRequest) (hq : s.requests[r]? = some q) :
    (s.modifyRequest r f).view r = { s.view r with req := some (f q) } := by
  unfold Sys.modifyRequest
  rw [hq]
  exact Sys.view_setRequest_self s _ hq

theorem Sys.view_modifyRequest_none (s : Sys K) {r : Nat}
    (f : nsGeolocationRequest → nsGeolocationRequest) (hq : s.requests[r]? = none) :
    (s.modifyRequest r f).view r = s.view r := by
  unfold Sys.modifyRequest
  rw [hq]
  exact (SameViews.crashed s).view_eq r

theorem Sys.view_req (s : Sys K) (r : Nat) : (s.view r).req = s.requests[r]? := rfl

/-- A change of the request object that keeps its kind and can only disarm
its timer or shut it down. -/
theorem View.Le.of_req (v : View K) (q q' : nsGeolocationRequest) (hv : v.req = some q)
    (hk : q'.mIsWatchPositionRequest = q.mIsWatchPositionRequest)
    (ht : q'.mTimeoutTimer = none ∨ q'.mTimeoutTimer = q.mTimeoutTimer)
    (hs : q'.mShutdown = true ∨ q'.mShutdown = q.mShutdown) :
    v.Le { v with req := some q' } := by
  unfold View.Le
  refine ⟨?_, le_rfl, le_rfl, le_rfl, le_rfl, rfl⟩
  simp only [hv]
  exact ⟨hk, ht, hs⟩

theorem StopTimeoutTimer_le (s : Sys K) (r' r : Nat) :
    (s.view r).Le ((nsGeolocationRequest.StopTimeoutTimer s r').view r) := by
  unfold nsGeolocationRequest.StopTimeoutTimer
  by_cases h : r' = r
  · subst h
    cases hq : s.requests[r']? with
    | none => rw [Sys.view_modifyRequest_none s _ hq]; exact View.Le.view_refl _
    | some q =>
      rw [Sys.view_modifyRequest_self s _ hq]
      exact View.Le.of_req _ q _ hq rfl (Or.inl rfl) (Or.inr rfl)
  · rw [Sys.view_modifyRequest_ne s _ h]; exact View.Le.view_refl _

theorem Shutdown_view (env : Env K) (s : Sys K) (r' r : Nat) :
    (nsGeolocationRequest.Shutdown env s r').view r =
      match s.requests[r']? with
      | none => s.view r
      | some q =>
        (s.setRequest r' { q with mShutdown := true, mTimeoutTimer := none }).view r := by
  unfold nsGeolocationRequest.Shutdown
  cases hq : s.requests[r']? with
  | none => exact (SameViews.crashed s).view_eq r
  | some q =>
    simp only
    cases q.mOptions with
    | none => rfl
    | some o =>
      simp only
      split
      · exact (SameViews.UpdateAccuracy env _ false).view_eq r
      · rfl

theorem Shutdown_le (env : Env K) (s : Sys K) (r' r : Nat) :
    (s.view r).Le ((nsGeolocationRequest.Shutdown env s r').view r) := by
  rw [Shutdown_view]
  cases hq : s.requests[r']? with
  | none => exact View.Le.view_refl _
  | some q =>
    simp only
    by_cases h : r' = r
    · subst h
      rw [Sys.view_setRequest_self s _ hq]
      exact View.Le.of_req _ q _ hq rfl (Or.inl rfl) (Or.inl rfl)
    · rw [Sys.view_setRequest_ne s _ h]; exact View.Le.view_refl _

theorem RemoveRequest_view (s : Sys K) (r' r : Nat) :
    (Geolocation.RemoveRequest s r').view r =
      { s.view r with
        pending := (s.view r).pending - (if r' = r then 1 else 0),
        watching := (s.view r).watching - (if r' = r then 1 else 0) } := by
  simp [Sys.view, Geolocation.RemoveRequest, Sys.decisions, Sys.sends, Sys.callbacksOf,
    List.count_erase]

theorem RemoveRequest_le (s : Sys K) (r' r : Nat) :
    (s.view r).Le ((Geolocation.RemoveRequest s r').view r) := by
  rw [RemoveRequest_view]
  unfold View.Le
  refine ⟨?_, le_rfl, le_rfl, Nat.sub_le _ _, Nat.sub_le _ _, rfl⟩
  cases (s.view r).req <;> simp

end HeapLemmas

section PrimitiveViews
variable {K : Type} [LinearOrderedField K] [FloorRing K]

theorem NotifyError_view (s : Sys K) (r' r code : Nat) :
    (nsGeolocationRequest.NotifyError s r' code).view r =
      { s.view r with
        callbacks := (s.view r).callbacks ++
          (if r' = r then [CallbackEvent.error r' code] else []) } := by
  by_cases h : r' = r <;>
    simp [Sys.view, nsGeolocationRequest.NotifyError, Sys.decisions, Sys.sends,
      Sys.callbacksOf, List.filter_append, CallbackEvent.request, h]

theorem Dispatch_view (s : Sys K) (ev : Runnable K) (r : Nat) :
    (NS_DispatchToMainThread s ev).view r =
      { s.view r with
        decisions := (s.view r).decisions + (if ev.isDecisionFor r then 1 else 0),
        sends := (s.view r).sends + (if ev.isSendFor r then 1 else 0) } := by
  simp only [Sys.view, NS_DispatchToMainThread, Sys.decisions, Sys.sends, Sys.callbacksOf,
    List.countP_append, List.countP_cons, List.countP_nil, Nat.zero_add, Nat.add_assoc]

theorem Update_view (s : Sys K) (r' r : Nat) (p : Option (nsGeoPosition K)) :
    (nsGeolocationRequest.Update s r' p).view r =
      { s.view r with sends := (s.view r).sends + (if r' = r then 1 else 0) } := by
  unfold nsGeolocationRequest.Update
  rw [Dispatch_view]
  by_cases h : r' = r <;> simp [Runnable.isDecisionFor, Runnable.isSendFor, h]

theorem NotifyAllowedRequest_view (s : Sys K) (r' r : Nat) :
    (Geolocation.NotifyAllowedRequest s r').view r =
      match s.requests[r']? with
      | none => s.view r
      | some q =>
        if q.mIsWatchPositionRequest then
          { s.view r with watching := (s.view r).watching + (if r' = r then 1 else 0) }
        else
          { s.view r with pending := (s.view r).pending + (if r' = r then 1 else 0) } := by
  unfold Geolocation.NotifyAllowedRequest
  cases hq : s.requests[r']? with
  | none => exact (SameViews.crashed s).view_eq r
  | some q =>
    simp only
    have hc : List.count r [r'] = if r' = r then 1 else 0 := by
      by_cases h : r' = r
      · simp [h]
      · simp [h, List.count_cons, Ne.symm]
    by_cases hw : q.mIsWatchPositionRequest <;>
      simp [Sys.view, Sys.decisions, Sys.sends, Sys.callbacksOf, List.count_append, hw, hc]

theorem SetTimeoutTimer_view_ne (s : Sys K) {r' r : Nat} (h : r' ≠ r) :
    (nsGeolocationRequest.SetTimeoutTimer s r').view r = s.view r := by
  unfold nsGeolocationRequest.SetTimeoutTimer nsGeolocationRequest.StopTimeoutTimer
  simp only
  rw [Sys.view_modifyRequest_ne _ _ h, Sys.view_modifyRequest_ne _ _ h]

theorem SetTimeoutTimer_view_self (s : Sys K) {r : Nat} {q : nsGeolocationRequest}
    (hq : s.requests[r]? = some q) :
    ∃ t, (nsGeolocationRequest.SetTimeoutTimer s r).view r =
      { s.view r with req := some { q with mTimeoutTimer := t } } := by
  unfold nsGeolocationRequest.SetTimeoutTimer nsGeolocationRequest.StopTimeoutTimer
  simp only
  have h1 := Sys.view_modifyRequest_self s (fun q => { q with mTimeoutTimer := none }) hq
  have hq1 : (s.modifyRequest r (fun q => { q with mTimeoutTimer := none })).requests[r]?
      = some { q with mTimeoutTimer := none } := by
    have := congrArg View.req h1
    simpa [Sys.view_req] using this
  rw [Sys.view_modifyRequest_self _ _ hq1, h1]
  cases ho : q.mOptions with
  | none => exact ⟨none, by simp [ho]⟩
  | some o =>
    by_cases hz : o.mTimeout = 0
    · exact ⟨none, by simp [ho, hz]⟩
    · exact ⟨some (if o.mTimeout < 0 then 0 else if o.mTimeout < 10 then 10 else o.mTimeout),
        by simp [ho, hz]⟩

theorem SetTimeoutTimer_view_none (s : Sys K) {r : Nat} (hq : s.requests[r]? = none) :
    (nsGeolocationRequest.SetTimeoutTimer s r).view r = s.view r := by
  unfold nsGeolocationRequest.SetTimeoutTimer nsGeolocationRequest.StopTimeoutTimer
  simp only
  have h1 := Sys.view_modifyRequest_none s (fun q => { q with mTimeoutTimer := none }) hq
  have hq1 : (s.modifyRequest r (fun q => { q with mTimeoutTimer := none })).requests[r]?
      = none := by
    have := congrArg View.req h1
    simpa [Sys.view_req, hq] using this
  rw [Sys.view_modifyRequest_none _ _ hq1, h1]

theorem GeolocationShutdown_le (env : Env K) (s : Sys K) (r : Nat) :
    (s.view r).Le ((Geolocation.Shutdown env s).view r) := by
  have hv : (Geolocation.Shutdown env s).view r =
      ({ s with mPendingCallbacks := [], mWatchingCallbacks := [] } : Sys K).view r := by
    unfold Geolocation.Shutdown
    simp only
    split
    · exact Sys.view_congr _ _ r
        (SameViews.UpdateAccuracy env _ false).1 (SameViews.UpdateAccuracy env _ false).2.1
        (SameViews.UpdateAccuracy env _ false).2.2.1
        (SameViews.UpdateAccuracy env _ false).2.2.2.1
        (SameViews.UpdateAccuracy env _ false).2.2.2.2.1
        (SameViews.UpdateAccuracy env _ false).2.2.2.2.2.1
        (SameViews.UpdateAccuracy env _ false).2.2.2.2.2.2
    · rfl
  rw [hv]
  unfold View.Le
  refine ⟨?_, le_rfl, le_rfl, by simp [Sys.view], by simp [Sys.view], rfl⟩
  show (match s.requests[r]?, s.requests[r]? with
    | none, none => True
    | some q, some q' => _
    | _, _ => False)
  cases s.requests[r]? <;> simp

end PrimitiveViews

section ViewSteps
variable {K : Type} [LinearOrderedField K] [FloorRing K]

/-- A watch request stays a watch request: nothing else to keep. -/
theorem View.keeps_of_watch {v w : View K} {q : nsGeolocationRequest} (hv : v.req = some q)
    (hq : q.mIsWatchPositionRequest = true) (hk : v.KindStable w) : v.Keeps w := by
  refine View.Keeps.keeps_intro hk (fun h => ?_) (fun q0 _ h0 _ hone _ => ?_)
  · rw [hv] at h; cases h
  · rw [hv] at h0; cases h0
    rw [hq] at hone; cases hone

/-- The one-shot request ends up shut down with its timer disarmed and out of
the arrays, after a state in which it had no outstanding decision and no
terminal callback. -/
theorem View.keeps_done {v w : View K} {q q' : nsGeolocationRequest} (hv : v.req = some q)
    (hw : w.req = some q') (hk : q'.mIsWatchPositionRequest = q.mIsWatchPositionRequest)
    (hshut : q'.mShutdown = true) (htimer : q'.mTimeoutTimer = none)
    (hd : w.decisions = v.decisions) (hwa : w.watching ≤ v.watching)
    (hpre : v.OneShotInv q → q.mIsWatchPositionRequest = false →
      v.decisions = 0 ∧ v.hasTerminal = false ∧ w.pending ≤ v.pending - 1) : v.Keeps w := by
  refine View.Keeps.keeps_intro (fun q0 h0 => ⟨q', hw, by rw [hv] at h0; cases h0; exact hk⟩)
    (fun h => ?_) (fun q0 q0' h0 h0' hone I => ?_)
  · rw [hv] at h; cases h
  · rw [hv] at h0; cases h0
    rw [hw] at h0'; cases h0'
    obtain ⟨hd0, ht, hp⟩ := hpre I hone
    have hp0 : w.pending = 0 := by have := I.decided; omega
    exact ⟨⟨by omega, fun h => by omega, by have := I.notWatching; omega, fun _ => hp0,
      fun _ => ⟨hp0, htimer, Or.inl hshut⟩⟩, fun h => by rw [ht] at h; cases h⟩

theorem View.hasTerminal_append (v : View K) (e : CallbackEvent K) :
    (v.callbacks ++ [e]).any CallbackEvent.isTerminal = (v.hasTerminal || e.isTerminal) := by
  simp [View.hasTerminal, List.any_append]

/-- A callback that is not terminal is added to an existing request that has
not had its terminal callback; counts may shrink. -/
theorem View.keeps_nonterminal {v w : View K} {q : nsGeolocationRequest} (hv : v.req = some q)
    (hw : w.req = some q) (e : CallbackEvent K) (he : e.isTerminal = false)
    (hd : w.decisions ≤ v.decisions) (hs : w.sends ≤ v.sends) (hp : w.pending ≤ v.pending)
    (hwa : w.watching ≤ v.watching) (hc : w.callbacks = v.callbacks ++ [e])
    (hpre : v.OneShotInv q → q.mIsWatchPositionRequest = false → v.hasTerminal = false) :
    v.Keeps w := by
  have hterm : w.hasTerminal = v.hasTerminal := by
    unfold View.hasTerminal
    rw [hc]
    rw [View.hasTerminal_append, he, Bool.or_false]
    rfl
  refine View.Keeps.keeps_intro (fun q0 h0 => ⟨q, hw, by rw [hv] at h0; cases h0; rfl⟩)
    (fun h => ?_) (fun q0 q0' h0 h0' hone I => ?_)
  · rw [hv] at h; cases h
  · rw [hv] at h0; cases h0
    rw [hw] at h0'; cases h0'
    have ht := hpre I hone
    refine ⟨⟨by have := I.decided; omega, ?_, by have := I.notWatching; omega, ?_, ?_⟩,
      fun h => by rw [ht] at h; cases h⟩
    · intro h1
      have hd1 : v.decisions = 1 := by have := I.decided; omega
      obtain ⟨a, b, c⟩ := I.undecided hd1
      exact ⟨a, by omega, by rw [hterm]; exact c⟩
    · intro h1
      have := I.sent (by omega)
      omega
    · intro h1
      rw [hterm, ht] at h1; cases h1

end ViewSteps

section RequestSteps
variable {K : Type} [LinearOrderedField K] [FloorRing K]

theorem NotifyError_view_ne (s : Sys K) {r' r : Nat} (code : Nat) (h : r' ≠ r) :
    (nsGeolocationRequest.NotifyError s r' code).view r = s.view r := by
  rw [NotifyError_view]; simp [h]

theorem StopTimeoutTimer_view_self (s : Sys K) {r : Nat} {q : nsGeolocationRequest}
    (hq : s.requests[r]? = some q) :
    (nsGeolocationRequest.StopTimeoutTimer s r).view r =
      { s.view r with req := some { q with mTimeoutTimer := none } } :=
  Sys.view_modifyRequest_self s _ hq

theorem NotifyErrorAndShutdown_view_ne (env : Env K) (s : Sys K) {r' r : Nat} (code : Nat)
    (h : r' ≠ r) : (nsGeolocationRequest.NotifyErrorAndShutdown env s r' code).view r
      = s.view r := by
  unfold nsGeolocationRequest.NotifyErrorAndShutdown
  cases hq : s.requests[r']? with
  | none => exact (SameViews.crashed s).view_eq r
  | some q =>
    simp only
    rw [NotifyError_view_ne _ _ h]
    split
    · rw [RemoveRequest_view, Shutdown_view, hq]
      simp [Sys.view_setRequest_ne s _ h, h]
    · rfl

theorem NotifyErrorAndShutdown_keeps (env : Env K) (s : Sys K) (r' r code : Nat)
    (hpre : r' = r → ∀ q, s.requests[r]? = some q → (s.view r).OneShotInv q →
      q.mIsWatchPositionRequest = false →
      (s.view r).decisions = 0 ∧ (s.view r).hasTerminal = false) :
    Sys.Keeps r s (nsGeolocationRequest.NotifyErrorAndShutdown env s r' code) := by
  by_cases hne : r' = r
  · subst hne
    unfold nsGeolocationRequest.NotifyErrorAndShutdown
    cases hq : s.requests[r']? with
    | none => exact (SameViews.crashed s).same_keeps r'
    | some q =>
      simp only
      cases hw : q.mIsWatchPositionRequest with
      | true =>
        simp only [Bool.not_true, Bool.false_eq_true, if_false]
        exact View.keeps_of_watch (v := s.view r') hq hw
          (View.KindStable.of_req_eq (by rw [NotifyError_view]))
      | false =>
        simp only [Bool.not_false, if_true]
        have hreq : ((nsGeolocationRequest.NotifyError
            (Geolocation.RemoveRequest (nsGeolocationRequest.Shutdown env s r') r') r' code).view
              r').req = some { q with mShutdown := true, mTimeoutTimer := none } := by
          rw [NotifyError_view, RemoveRequest_view, Shutdown_view, hq]
          simp only [Sys.view_setRequest_self s _ hq]
        refine View.keeps_done (v := s.view r') hq hreq rfl rfl rfl ?_ ?_ ?_
        · rw [NotifyError_view, RemoveRequest_view, Shutdown_view, hq]
          simp only [Sys.view_setRequest_self s _ hq]
        · rw [NotifyError_view, RemoveRequest_view, Shutdown_view, hq]
          simp only [Sys.view_setRequest_self s _ hq]
          exact Nat.sub_le _ _
        · intro I hone
          obtain ⟨a, b⟩ := hpre rfl q hq I hone
          refine ⟨a, b, ?_⟩
          rw [NotifyError_view, RemoveRequest_view, Shutdown_view, hq]
          simp only [Sys.view_setRequest_self s _ hq, if_true]
          exact le_rfl
  · exact Sys.Keeps.of_view_eq (NotifyErrorAndShutdown_view_ne env s code hne)

/-- With the timer of a one-shot request armed, the invariant leaves it no
outstanding decision and no terminal callback. -/
theorem View.armed_facts {v : View K} {q : nsGeolocationRequest} (I : v.OneShotInv q)
    (harmed : q.mTimeoutTimer ≠ none) : v.decisions = 0 ∧ v.hasTerminal = false := by
  constructor
  · by_contra hd
    have hd1 : v.decisions = 1 := by have := I.decided; omega
    exact harmed (I.undecided hd1).1
  · cases ht : v.hasTerminal with
    | false => rfl
    | true => exact absurd (I.terminal ht).2.1 harmed

/-- Composition in which the second step may rely on the invariant of the
state before the first step. -/
theorem View.Keeps.trans_inv {u v w : View K} (h1 : u.Keeps v) (hk : v.KindStable w)
    (h2 : u.Inv → v.Inv →
      w.Inv ∧ (v.oneShot → v.hasTerminal = true → w.callbacks = v.callbacks)) : u.Keeps w :=
  ⟨h1.1.kind_trans hk, fun hu =>
    (View.Keeps.keeps_trans h1 ⟨hk, fun hv => h2 hu hv⟩).2 hu⟩

theorem NotifyErrorAndShutdown_kindStable (env : Env K) (s : Sys K) (r' r code : Nat) :
    (s.view r).KindStable ((nsGeolocationRequest.NotifyErrorAndShutdown env s r' code).view r) := by
  by_cases hne : r' = r
  · subst hne
    unfold nsGeolocationRequest.NotifyErrorAndShutdown
    cases hq : s.requests[r']? with
    | none => exact View.KindStable.of_req_eq (congrArg View.req ((SameViews.crashed s).view_eq r'))
    | some q =>
      simp only
      intro q0 hq0
      have hq0' : q0 = q := by
        have : (s.view r').req = some q := hq
        rw [this] at hq0; exact (Option.some.inj hq0).symm
      subst hq0'
      split
      · refine ⟨{ q0 with mShutdown := true, mTimeoutTimer := none }, ?_, rfl⟩
        rw [NotifyError_view, RemoveRequest_view, Shutdown_view, hq]
        simp only [Sys.view_setRequest_self s _ hq]
      · exact ⟨q0, by rw [NotifyError_view]; exact hq, rfl⟩
  · rw [NotifyErrorAndShutdown_view_ne env s code hne]
    exact View.KindStable.kind_refl _

theorem Notify_keeps (env : Env K) (s : Sys K) (r' r : Nat)
    (harmed : ∀ q, s.requests[r']? = some q → q.mTimeoutTimer ≠ none) :
    Sys.Keeps r s (nsGeolocationRequest.Notify env s r') := by
  unfold nsGeolocationRequest.Notify
  simp only
  refine View.Keeps.trans_inv (StopTimeoutTimer_le s r' r).le_keeps
    (NotifyErrorAndShutdown_kindStable env _ r' r TIMEOUT) (fun hu hv => ?_)
  refine (NotifyErrorAndShutdown_keeps env _ r' r TIMEOUT ?_).2 hv
  intro hne q1 hq1 _ hone1
  subst hne
  rcases (s.view r').req_cases with hq | ⟨q, hq⟩
  · have hview : (nsGeolocationRequest.StopTimeoutTimer s r').view r' = s.view r' :=
      Sys.view_modifyRequest_none s _ hq
    have : (s.view r').req = some q1 := by rw [← hview]; exact hq1
    rw [hq] at this; cases this
  · have hview := StopTimeoutTimer_view_self s (show s.requests[r']? = some q from hq)
    have hq1' : ((nsGeolocationRequest.StopTimeoutTimer s r').view r').req = some q1 := hq1
    rw [hview] at hq1' ⊢
    have hk : q.mIsWatchPositionRequest = false := by
      rw [← Option.some.inj hq1'] at hone1
      exact hone1
    exact View.armed_facts (v := s.view r') ((View.Inv_some hq).mp hu hk) (harmed q hq)

end RequestSteps

section LoopSteps
variable {K : Type} [LinearOrderedField K] [FloorRing K]

/-- Induction over the turns of a downward loop. -/
theorem forDown_induct (arr : Sys K → List Nat) (body : Sys K → Nat → Sys K)
    (P : Sys K → Prop) (hcrash : ∀ s, P s → P { s with crashed := true })
    (hbody : ∀ s r', P s → r' ∈ arr s → P (body s r')) :
    ∀ n s, P s → P (forDown arr body n s) := by
  intro n
  induction n with
  | zero => intro s hs; exact hs
  | succ i ih =>
    intro s hs
    unfold forDown
    cases h : (arr s)[i]? with
    | none => exact hcrash s hs
    | some r' => exact ih _ (hbody s r' hs (List.getElem?_mem h))

/-- Induction over the turns of an upward loop. -/
theorem forUp_induct (arr : Sys K → List Nat) (body : Sys K → Nat → Sys K)
    (P : Sys K → Prop) (hbody : ∀ s r', P s → r' ∈ arr s → P (body s r')) :
    ∀ fuel i s, P s → P (forUp arr body fuel i s) := by
  intro fuel
  induction fuel with
  | zero => intro i s hs; exact hs
  | succ n ih =>
    intro i s hs
    unfold forUp
    cases h : (arr s)[i]? with
    | none => exact hs
    | some r' => exact ih _ _ (hbody s r' hs (List.getElem?_mem h))

theorem forDown_keeps (arr : Sys K → List Nat) (body : Sys K → Nat → Sys K) (r : Nat)
    (hbody : ∀ s r', r' ∈ arr s → Sys.Keeps r s (body s r')) (n : Nat) (s : Sys K) :
    Sys.Keeps r s (forDown arr body n s) :=
  forDown_induct arr body (fun t => Sys.Keeps r s t)
    (fun t ht => Sys.Keeps.sys_trans ht ((SameViews.crashed t).same_keeps r))
    (fun t r' ht hmem => Sys.Keeps.sys_trans ht (hbody t r' hmem)) n s (Sys.Keeps.sys_refl r s)

theorem forUp_keeps (arr : Sys K → List Nat) (body : Sys K → Nat → Sys K) (r : Nat)
    (hbody : ∀ s r', r' ∈ arr s → Sys.Keeps r s (body s r')) (fuel i : Nat) (s : Sys K) :
    Sys.Keeps r s (forUp arr body fuel i s) :=
  forUp_induct arr body (fun t => Sys.Keeps r s t)
    (fun t r' ht hmem => Sys.Keeps.sys_trans ht (hbody t r' hmem)) fuel i s (Sys.Keeps.sys_refl r s)

theorem count_pos_of_mem {l : List Nat} {r : Nat} (h : r ∈ l) : 1 ≤ l.count r :=
  List.count_pos_iff.mpr h

theorem ne_of_mem_of_count_zero {l : List Nat} {r r' : Nat} (h : r' ∈ l) (h0 : l.count r = 0) :
    r' ≠ r := by
  rintro rfl
  have := count_pos_of_mem h
  omega

/-- Under the invariant a one-shot request that is in the pending array has
no outstanding decision and no terminal callback. -/
theorem View.pending_facts {v : View K} {q : nsGeolocationRequest} (I : v.OneShotInv q)
    (hp : 1 ≤ v.pending) : v.decisions = 0 ∧ v.hasTerminal = false := by
  constructor
  · have := I.decided; omega
  · cases ht : v.hasTerminal with
    | false => rfl
    | true => have := (I.terminal ht).1; omega

/-- A step on a request found in the watching array that leaves the kind of
the request alone: nothing to keep for a one-shot request. -/
theorem View.keeps_of_watching {v w : View K} (hw : 1 ≤ v.watching) (hk : v.KindStable w) :
    v.Keeps w := by
  refine View.Keeps.keeps_intro hk (fun hv hinv => ?_) (fun q _ _ _ _ I => ?_)
  · have := ((View.Inv_none hv).mp hinv).2.2.2.1; omega
  · have := I.notWatching; omega

/-- The body of the pending loop of `Geolocation::Update` on a request of the
pending array: a delivery is dispatched and the request leaves the arrays. -/
theorem View.keeps_dispatch_pending {v w : View K} (hp : 1 ≤ v.pending) (hreq : w.req = v.req)
    (hd : w.decisions = v.decisions) (hp' : w.pending = v.pending - 1)
    (hw : w.watching = v.watching - 1) (hc : w.callbacks = v.callbacks) : v.Keeps w := by
  have hterm : w.hasTerminal = v.hasTerminal := View.hasTerminal_congr hc
  refine View.Keeps.keeps_intro (View.KindStable.of_req_eq hreq) (fun hv hinv => ?_)
    (fun q q' _ _ _ I => ?_)
  · have := ((View.Inv_none hv).mp hinv).2.2.1; omega
  · obtain ⟨hd0, ht⟩ := View.pending_facts I hp
    have hp1 : v.pending = 1 := by have := I.decided; omega
    refine ⟨⟨by omega, fun h1 => by omega, by have := I.notWatching; omega,
      fun _ => by omega, fun h1 => ?_⟩, fun h => by rw [ht] at h; cases h⟩
    rw [hterm, ht] at h1; cases h1

theorem GeolocationUpdate_keeps (env : Env K) (s : Sys K) (p : Option (nsGeoPosition K))
    (r : Nat) : Sys.Keeps r s (Geolocation.Update env s p) := by
  unfold Geolocation.Update
  split
  · exact (GeolocationShutdown_le env s r).le_keeps
  · simp only
    refine Sys.Keeps.sys_trans (forDown_keeps _ _ r ?_ _ _) (forUp_keeps _ _ r ?_ _ _ _)
    · intro t r' hmem
      by_cases hne : r' = r
      · subst hne
        unfold Sys.Keeps
        refine View.keeps_dispatch_pending (count_pos_of_mem hmem) ?_ ?_ ?_ ?_ ?_ <;>
          simp [RemoveRequest_view, Update_view]
      · apply Sys.Keeps.of_view_eq
        rw [RemoveRequest_view, Update_view]
        simp [hne]
    · intro t r' hmem
      by_cases hne : r' = r
      · subst hne
        exact View.keeps_of_watching (count_pos_of_mem hmem)
          (View.KindStable.of_req_eq (by rw [Update_view]))
      · apply Sys.Keeps.of_view_eq
        rw [Update_view]
        simp [hne]

theorem GeolocationNotifyError_keeps (env : Env K) (s : Sys K) (code r : Nat) :
    Sys.Keeps r s (Geolocation.NotifyError env s code) := by
  unfold Geolocation.NotifyError
  split
  · exact (GeolocationShutdown_le env s r).le_keeps
  · simp only
    refine Sys.Keeps.sys_trans (forDown_keeps _ _ r ?_ _ _) (forUp_keeps _ _ r ?_ _ _ _)
    · intro t r' hmem
      refine NotifyErrorAndShutdown_keeps env t r' r code ?_
      intro hne q _ I _
      subst hne
      exact View.pending_facts I (count_pos_of_mem hmem)
    · intro t r' hmem
      refine NotifyErrorAndShutdown_keeps env t r' r code ?_
      intro hne q _ I _
      subst hne
      have h0 := I.notWatching
      have h1 : 1 ≤ (t.view r').watching := count_pos_of_mem hmem
      omega

/-- A request that is in neither array is not reached by the error fan-out of
the session. -/
theorem GeolocationNotifyError_view_eq (env : Env K) (s : Sys K) (code r : Nat)
    (hp : (s.view r).pending = 0) (hw : (s.view r).watching = 0) :
    (Geolocation.NotifyError env s code).view r = s.view r := by
  unfold Geolocation.NotifyError
  split
  · have hle := GeolocationShutdown_le env s r
    -- the arrays are emptied, where the request was not
    have hv : (Geolocation.Shutdown env s).view r =
        ({ s with mPendingCallbacks := [], mWatchingCallbacks := [] } : Sys K).view r := by
      unfold Geolocation.Shutdown
      simp only
      split
      · exact (SameViews.UpdateAccuracy env _ false).view_eq r
      · rfl
    rw [hv]
    have hp' : s.mPendingCallbacks.count r = 0 := hp
    have hw' : s.mWatchingCallbacks.count r = 0 := hw
    simp [Sys.view, Sys.decisions, Sys.sends, Sys.callbacksOf, hp', hw']
  · simp only
    have h1 : (forDown (fun s => s.mPendingCallbacks)
        (fun s r => nsGeolocationRequest.NotifyErrorAndShutdown env s r code)
        s.mPendingCallbacks.length s).view r = s.view r := by
      refine forDown_induct _ _ (fun t => t.view r = s.view r)
        (fun t ht => ((SameViews.crashed t).view_eq r).trans ht) ?_ _ s rfl
      intro t r' ht hmem
      have : t.mPendingCallbacks.count r = 0 := by
        have := congrArg View.pending ht
        simpa [Sys.view, hp] using this.trans hp
      rw [NotifyErrorAndShutdown_view_ne env t code (ne_of_mem_of_count_zero hmem this)]
      exact ht
    refine forUp_induct _ _ (fun t => t.view r = s.view r) ?_ _ _ _ h1
    intro t r' ht hmem
    have : t.mWatchingCallbacks.count r = 0 := by
      have := congrArg View.watching ht
      exact this.trans hw
    rw [NotifyErrorAndShutdown_view_ne env t code (ne_of_mem_of_count_zero hmem this)]
    exact ht

end LoopSteps

section ServiceSteps
variable {K : Type} [LinearOrderedField K] [FloorRing K]

theorem View.KeepsIf.of_keeps {P : Prop} {v w : View K} (h : v.Keeps w) : View.KeepsIf P v w :=
  ⟨h.1, fun _ => h.2⟩

theorem View.KeepsIf.if_keeps {P : Prop} {v w : View K} (h : View.KeepsIf P v w) (hP : P) :
    v.Keeps w := ⟨h.1, h.2 hP⟩

/-- Composition in which the side condition of the second step follows from
the invariant before the first step. -/
theorem View.Keeps.trans_if {P : Prop} {u v w : View K} (h1 : u.Keeps v)
    (h2 : View.KeepsIf P v w) (hP : u.Inv → P) : u.Keeps w :=
  View.Keeps.trans_inv h1 h2.1 (fun hu hv => h2.2 (hP hu) hv)

theorem View.KeepsIf.if_intro {P : Prop} {v w : View K} (hk : v.KindStable w)
    (hnone : P → v.req = none → v.Inv → w.Inv)
    (hone : P → ∀ q q', v.req = some q → w.req = some q' →
      q.mIsWatchPositionRequest = false → v.OneShotInv q →
      w.OneShotInv q' ∧ (v.hasTerminal = true → w.callbacks = v.callbacks)) :
    View.KeepsIf P v w :=
  ⟨hk, fun hP => (View.Keeps.keeps_intro hk (hnone hP) (hone hP)).2⟩

theorem View.KeepsIf.of_imp {P : Prop} {v w : View K} (hk : v.KindStable w)
    (h : P → v.Keeps w) : View.KeepsIf P v w :=
  ⟨hk, fun hP => (h hP).2⟩

theorem serviceNotifyError_keeps (env : Env K) (s : Sys K) (code r : Nat) :
    Sys.Keeps r s (nsGeolocationService.NotifyError env s code) := by
  unfold nsGeolocationService.NotifyError
  split
  · exact GeolocationNotifyError_keeps env s code r
  · exact Sys.Keeps.sys_refl r s

theorem serviceNotifyError_view_eq (env : Env K) (s : Sys K) (code r : Nat)
    (hp : (s.view r).pending = 0) (hw : (s.view r).watching = 0) :
    (nsGeolocationService.NotifyError env s code).view r = s.view r := by
  unfold nsGeolocationService.NotifyError
  split
  · exact GeolocationNotifyError_view_eq env s code r hp hw
  · rfl

theorem serviceUpdate_keeps (env : Env K) (s : Sys K) (p : Option (nsGeoPosition K)) (r : Nat) :
    Sys.Keeps r s (nsGeolocationService.Update env s p) := by
  unfold nsGeolocationService.Update
  simp only
  refine Sys.Keeps.sys_trans ((SameViews.SetCachedPosition s p).same_keeps r) ?_
  split
  · exact GeolocationUpdate_keeps env _ p r
  · exact Sys.Keeps.sys_refl r _

/-- The call `StartDevice` changes the views only through the error fan-out. -/
theorem StartDevice_cases (env : Env K) (s : Sys K) :
    SameViews s (nsGeolocationService.StartDevice env s).1 ∨
      ∃ t, SameViews s t ∧
        (nsGeolocationService.StartDevice env s).1 =
          nsGeolocationService.NotifyError env t POSITION_UNAVAILABLE ∧
        (nsGeolocationService.StartDevice env s).2 ≠ nsresult.NS_OK := by
  unfold nsGeolocationService.StartDevice
  split
  · exact Or.inl (SameViews.same_refl s)
  · simp only
    split
    · exact Or.inl ((SameViews.SetDisconnectTimer s).same_trans (SameViews.effect _ _))
    · split
      · exact Or.inl (SameViews.SetDisconnectTimer s)
      · split
        · exact Or.inl (SameViews.SetDisconnectTimer s)
        · split
          · exact Or.inr ⟨_, (SameViews.SetDisconnectTimer s).same_trans (SameViews.effect _ _),
              rfl, by simp⟩
          · split
            · exact Or.inr ⟨_, ((SameViews.SetDisconnectTimer s).same_trans
                (SameViews.effect _ _)).same_trans (SameViews.effect _ _), rfl, by simp⟩
            · exact Or.inl ((((SameViews.SetDisconnectTimer s).same_trans
                (SameViews.effect _ _)).same_trans (SameViews.effect _ _)).same_trans
                (SameViews.effect _ _))

theorem StartDevice_keeps (env : Env K) (s : Sys K) (r : Nat) :
    Sys.Keeps r s (nsGeolocationService.StartDevice env s).1 := by
  rcases StartDevice_cases env s with h | ⟨t, ht, heq, _⟩
  · exact h.same_keeps r
  · rw [heq]
    exact Sys.Keeps.sys_trans (ht.same_keeps r) (serviceNotifyError_keeps env t _ r)

theorem StartDevice_view_eq (env : Env K) (s : Sys K) (r : Nat)
    (hp : (s.view r).pending = 0) (hw : (s.view r).watching = 0) :
    (nsGeolocationService.StartDevice env s).1.view r = s.view r := by
  rcases StartDevice_cases env s with h | ⟨t, ht, heq, _⟩
  · exact h.view_eq r
  · rw [heq, serviceNotifyError_view_eq env t _ r (by rw [ht.view_eq r]; exact hp)
      (by rw [ht.view_eq r]; exact hw)]
    exact ht.view_eq r

end ServiceSteps

section DeliverySteps
variable {K : Type} [LinearOrderedField K] [FloorRing K]

theorem appendCallback_view (s : Sys K) (e : CallbackEvent K) (r : Nat) :
    ({ s with callbacks := s.callbacks ++ [e] } : Sys K).view r =
      { s.view r with
        callbacks := (s.view r).callbacks ++ (if e.request = r then [e] else []) } := by
  by_cases h : e.request = r <;>
    simp [Sys.view, Sys.decisions, Sys.sends, Sys.callbacksOf, List.filter_append, h]

theorem StopTimeoutTimer_view_ne (s : Sys K) {r' r : Nat} (h : r' ≠ r) :
    (nsGeolocationRequest.StopTimeoutTimer s r').view r = s.view r :=
  Sys.view_modifyRequest_ne s _ h

theorem Shutdown_view_ne (env : Env K) (s : Sys K) {r' r : Nat} (h : r' ≠ r) :
    (nsGeolocationRequest.Shutdown env s r').view r = s.view r := by
  rw [Shutdown_view]
  cases s.requests[r']? with
  | none => rfl
  | some q => exact Sys.view_setRequest_ne s _ h

theorem Shutdown_view_self (env : Env K) (s : Sys K) {r : Nat} {q : nsGeolocationRequest}
    (hq : s.requests[r]? = some q) :
    (nsGeolocationRequest.Shutdown env s r).view r =
      { s.view r with req := some { q with mShutdown := true, mTimeoutTimer := none } } := by
  rw [Shutdown_view, hq]
  exact Sys.view_setRequest_self s _ hq

theorem SendLocation_view_ne (env : Env K) (s : Sys K) {r' r : Nat}
    (p : Option (nsGeoPosition K)) (h : r' ≠ r) :
    (nsGeolocationRequest.SendLocation env s r' p).view r = s.view r := by
  unfold nsGeolocationRequest.SendLocation
  split
  · exact (SameViews.crashed s).view_eq r
  · split
    · rfl
    · simp only
      split
      · exact (SameViews.crashed s).view_eq r
      · rfl
      · split
        · exact NotifyError_view_ne s _ h
        · rw [StopTimeoutTimer_view_ne _ h, appendCallback_view]
          simp only [CallbackEvent.request, h, if_false, List.append_nil]
          split
          · exact Shutdown_view_ne env s h
          · rfl

theorem SendLocation_keepsIf (env : Env K) (s : Sys K) (r : Nat) (p : Option (nsGeoPosition K)) :
    View.KeepsIf
      (∀ q, s.requests[r]? = some q → q.mIsWatchPositionRequest = false → q.mShutdown = false →
        (s.view r).decisions = 0 ∧ (s.view r).pending = 0 ∧ (s.view r).hasTerminal = false)
      (s.view r) ((nsGeolocationRequest.SendLocation env s r p).view r) := by
  unfold nsGeolocationRequest.SendLocation
  cases hq : s.requests[r]? with
  | none =>
    exact View.KeepsIf.of_keeps ((SameViews.crashed s).same_keeps r)
  | some q =>
    simp only
    cases hsh : q.mShutdown with
    | true => simp only [if_true]; exact View.KeepsIf.of_keeps (View.Keeps.keeps_refl _)
    | false =>
      simp only [Bool.false_eq_true, if_false]
      split
      · exact View.KeepsIf.of_keeps ((SameViews.crashed s).same_keeps r)
      · exact View.KeepsIf.of_keeps (View.Keeps.keeps_refl _)
      · split
        · -- no position after the transform: the error callback
          refine View.KeepsIf.of_imp (View.KindStable.of_req_eq (by rw [NotifyError_view]))
            (fun hP => ?_)
          refine View.keeps_nonterminal (v := s.view r) (q := q) hq
            (by rw [NotifyError_view]; exact hq)
            (CallbackEvent.error r POSITION_UNAVAILABLE) rfl
            (by rw [NotifyError_view]) (by rw [NotifyError_view]) (by rw [NotifyError_view])
            (by rw [NotifyError_view]) (by rw [NotifyError_view]; simp) ?_
          intro _ hone
          exact (hP q rfl hone hsh).2.2
        · rename_i w _
          cases hw : q.mIsWatchPositionRequest with
          | true =>
            simp only [Bool.not_true, Bool.false_eq_true, if_false]
            refine View.KeepsIf.of_keeps (View.keeps_of_watch (v := s.view r) hq hw ?_)
            intro q0 hq0
            have : q0 = q := by
              have h' : (s.view r).req = some q := hq
              rw [h'] at hq0; exact (Option.some.inj hq0).symm
            subst this
            refine ⟨{ q0 with mTimeoutTimer := none }, ?_, rfl⟩
            have hq3 : ({ s with callbacks := s.callbacks ++ [CallbackEvent.success r w] }
                : Sys K).requests[r]? = some q0 := hq
            rw [StopTimeoutTimer_view_self _ hq3]
          | false =>
            simp only [Bool.not_false, if_true]
            have hv2 := Shutdown_view_self env s hq
            have hq2 : (nsGeolocationRequest.Shutdown env s r).requests[r]?
                = some { q with mShutdown := true, mTimeoutTimer := none } := by
              have := congrArg View.req hv2
              exact this
            have hq3 : ({ nsGeolocationRequest.Shutdown env s r with
                callbacks := (nsGeolocationRequest.Shutdown env s r).callbacks ++
                  [CallbackEvent.success r w] } : Sys K).requests[r]?
                = some { q with mShutdown := true, mTimeoutTimer := none } := hq2
            have hfinal := StopTimeoutTimer_view_self _ hq3
            rw [appendCallback_view, hv2] at hfinal
            rw [hfinal]
            refine View.KeepsIf.of_imp (fun q0 hq0 => ⟨_, rfl, by
              have h' : (s.view r).req = some q := hq
              rw [h'] at hq0; cases hq0; rfl⟩) (fun hP => ?_)
            refine View.keeps_done (v := s.view r) (q := q) hq rfl rfl rfl rfl rfl le_rfl ?_
            intro _ hone
            obtain ⟨a, b, c⟩ := hP q rfl hone hsh
            refine ⟨a, c, ?_⟩
            show (s.view r).pending ≤ (s.view r).pending - 1
            omega

end DeliverySteps

section DecisionSteps
variable {K : Type} [LinearOrderedField K] [FloorRing K]

theorem View.Keeps.oneShotInv {v w : View K} (h : v.Keeps w) {q q' : nsGeolocationRequest}
    (hv : v.req = some q) (hw : w.req = some q') (hone : q.mIsWatchPositionRequest = false)
    (I : v.OneShotInv q) :
    w.OneShotInv q' ∧ (v.hasTerminal = true → w.callbacks = v.callbacks) := by
  obtain ⟨hinv, hst⟩ := h.2 ((View.Inv_some hv).mpr (fun _ => I))
  obtain ⟨q1, hq1, hk⟩ := h.1 q hv
  rw [hw] at hq1
  cases hq1
  exact ⟨(View.Inv_some hw).mp hinv (by rw [hk]; exact hone),
    hst ((View.oneShot_some hv).mpr hone)⟩

/-- A decision of the request is consumed and a callback is invoked on it:
what `Cancel` does once its runnable or the prompt is gone. -/
theorem View.keeps_cancel {v w : View K} (hdec : 1 ≤ v.decisions) (hreq : w.req = v.req)
    (hd : w.decisions = v.decisions - 1) (hs : w.sends = v.sends) (hp : w.pending = v.pending)
    (hw : w.watching = v.watching) : v.Keeps w := by
  refine View.Keeps.keeps_intro (View.KindStable.of_req_eq hreq) (fun hv hinv => ?_)
    (fun q q' hv hw' _ I => ?_)
  · have := ((View.Inv_none hv).mp hinv).1; omega
  · have hq' : q' = q := by
      rw [hreq, hv] at hw'; exact (Option.some.inj hw').symm
    subst hq'
    have hd1 : v.decisions = 1 := by have := I.decided; omega
    obtain ⟨a, b, c⟩ := I.undecided hd1
    have hp0 : v.pending = 0 := by have := I.decided; omega
    exact ⟨⟨by omega, fun h => by omega, by have := I.notWatching; omega, fun _ => by omega,
      fun _ => ⟨by omega, a, Or.inr (by omega)⟩⟩, fun h => by rw [c] at h; cases h⟩

theorem Cancel_keeps_of_consumed (s s1 : Sys K) (r' r : Nat)
    (hself : r' = r → 1 ≤ (s.view r).decisions ∧
      s1.view r = { s.view r with decisions := (s.view r).decisions - 1 })
    (hother : r' ≠ r → s1.view r = s.view r) :
    Sys.Keeps r s (nsGeolocationRequest.Cancel s1 r') := by
  unfold nsGeolocationRequest.Cancel
  by_cases hne : r' = r
  · subst hne
    obtain ⟨hdec, hv1⟩ := hself rfl
    unfold Sys.Keeps
    refine View.keeps_cancel hdec ?_ ?_ ?_ ?_ ?_ <;> simp [NotifyError_view, hv1]
  · apply Sys.Keeps.of_view_eq
    rw [NotifyError_view_ne _ _ hne, hother hne]

/-- The part of `Allow` after a successful `StartDevice`, on the views. -/
theorem Allow_rest_view (env : Env K) (s2 : Sys K) (r' r : Nat) (q2 : nsGeolocationRequest)
    (hq2 : s2.requests[r']? = some q2) (b c : Bool) (pos : Option (nsGeoPosition K)) :
    ∃ tm, (nsGeolocationRequest.SetTimeoutTimer
        (if (q2.mIsWatchPositionRequest || !c) = true then
          Geolocation.NotifyAllowedRequest
            (if c = true then
              nsGeolocationRequest.Update (nsGeolocationService.UpdateAccuracy env s2 b) r' pos
            else nsGeolocationService.UpdateAccuracy env s2 b) r'
        else
          (if c = true then
            nsGeolocationRequest.Update (nsGeolocationService.UpdateAccuracy env s2 b) r' pos
          else nsGeolocationService.UpdateAccuracy env s2 b)) r').view r =
      if r' = r then
        { req := some { q2 with mTimeoutTimer := tm },
          decisions := (s2.view r).decisions,
          sends := (s2.view r).sends + (if c = true then 1 else 0),
          pending := (s2.view r).pending +
            (if q2.mIsWatchPositionRequest = false ∧ c = false then 1 else 0),
          watching := (s2.view r).watching +
            (if q2.mIsWatchPositionRequest = true then 1 else 0),
          callbacks := (s2.view r).callbacks }
      else s2.view r := by
  have hS := SameViews.UpdateAccuracy env s2 b
  have hq3 : (nsGeolocationService.UpdateAccuracy env s2 b).requests[r']? = some q2 := by
    rw [hS.1]; exact hq2
  have hv3 := hS.view_eq r
  by_cases hne : r' = r
  · subst hne
    simp only [if_true]
    cases c with
    | true =>
      simp only [if_true, Bool.not_true, Bool.or_false]
      have hq4 : (nsGeolocationRequest.Update
          (nsGeolocationService.UpdateAccuracy env s2 b) r' pos).requests[r']? = some q2 := hq3
      cases hw : q2.mIsWatchPositionRequest with
      | true =>
        simp only [if_true]
        have hq5 : (Geolocation.NotifyAllowedRequest (nsGeolocationRequest.Update
            (nsGeolocationService.UpdateAccuracy env s2 b) r' pos) r').requests[r']?
            = some q2 := by
          have := congrArg View.req (NotifyAllowedRequest_view (nsGeolocationRequest.Update
            (nsGeolocationService.UpdateAccuracy env s2 b) r' pos) r' r')
          rw [hq4] at this
          simp only [hw, if_true] at this
          exact this.trans hq4
        obtain ⟨tm, htm⟩ := SetTimeoutTimer_view_self _ hq5
        refine ⟨tm, ?_⟩
        rw [htm, NotifyAllowedRequest_view, hq4]
        simp [hw, Update_view, hv3]
      | false =>
        simp only [Bool.false_eq_true, if_false]
        obtain ⟨tm, htm⟩ := SetTimeoutTimer_view_self _ hq4
        refine ⟨tm, ?_⟩
        rw [htm]
        simp [Update_view, hv3, hw]
    | false =>
      simp only [Bool.false_eq_true, if_false, Bool.not_false, Bool.or_true, if_true]
      have hq5 : (Geolocation.NotifyAllowedRequest
          (nsGeolocationService.UpdateAccuracy env s2 b) r').requests[r']? = some q2 := by
        have := congrArg View.req (NotifyAllowedRequest_view
          (nsGeolocationService.UpdateAccuracy env s2 b) r' r')
        rw [hq3] at this
        cases hw : q2.mIsWatchPositionRequest <;> simp only [hw] at this <;>
          exact this.trans hq3
      obtain ⟨tm, htm⟩ := SetTimeoutTimer_view_self _ hq5
      refine ⟨tm, ?_⟩
      rw [htm, NotifyAllowedRequest_view, hq3]
      cases hw : q2.mIsWatchPositionRequest <;> simp [hv3, hw]
  · refine ⟨none, ?_⟩
    simp only [hne, if_false]
    rw [SetTimeoutTimer_view_ne _ hne]
    have h4 : ∀ t : Sys K, t.view r = s2.view r →
        (if c = true then nsGeolocationRequest.Update t r' pos else t).view r = s2.view r := by
      intro t ht
      split
      · rw [Update_view]; simp [hne, ht]
      · exact ht
    have h5 : ∀ t : Sys K, t.requests = s2.requests → t.view r = s2.view r →
        (Geolocation.NotifyAllowedRequest t r').view r = s2.view r := by
      intro t hreq ht
      rw [NotifyAllowedRequest_view, hreq, hq2]
      simp [hne, ht]
    split
    · refine h5 _ ?_ (h4 _ hv3)
      split
      · exact hS.1
      · exact hS.1
    · exact h4 _ hv3

end DecisionSteps

section AllowSteps
variable {K : Type} [LinearOrderedField K] [FloorRing K]

/-- A one-shot request in limbo is registered or gets a delivery dispatched,
and its timer may be armed. -/
theorem View.keeps_allowed {v w : View K} {q q' : nsGeolocationRequest} (hv : v.req = some q)
    (hw : w.req = some q') (hk : q'.mIsWatchPositionRequest = q.mIsWatchPositionRequest)
    (hlimbo : v.Limbo q) (hd : w.decisions = 0) (hsp : w.sends + w.pending ≤ 1)
    (hwa : w.watching = v.watching) (hc : w.callbacks = v.callbacks) : v.Keeps w := by
  have hterm : w.hasTerminal = false := by
    rw [View.hasTerminal_congr hc]; exact hlimbo.2.2.2.2
  refine View.Keeps.keeps_intro (fun q0 h0 => ⟨q', hw, by rw [hv] at h0; cases h0; exact hk⟩)
    (fun h => ?_) (fun q0 q0' h0 h0' _ I => ?_)
  · rw [hv] at h; cases h
  · exact ⟨⟨by omega, fun h => by omega, by have := I.notWatching; omega, fun _ => by omega,
      fun h => by rw [hterm] at h; cases h⟩, fun _ => hc⟩

theorem Allow_keepsIf (env : Env K) (s : Sys K) (r' r : Nat) :
    View.KeepsIf
      (r' = r → ∀ q, s.requests[r]? = some q → q.mIsWatchPositionRequest = false →
        (s.view r).Limbo q)
      (s.view r) ((nsGeolocationRequest.Allow env s r').view r) := by
  unfold nsGeolocationRequest.Allow
  cases hq : s.requests[r']? with
  | none => exact View.KeepsIf.of_keeps ((SameViews.crashed s).same_keeps r)
  | some q =>
    simp only
    have hk2 : Sys.Keeps r s (nsGeolocationService.StartDevice env s).1 :=
      StartDevice_keeps env s r
    have hk2' : Sys.Keeps r' s (nsGeolocationService.StartDevice env s).1 :=
      StartDevice_keeps env s r'
    have hveq := StartDevice_view_eq env s r
    rcases hsd : nsGeolocationService.StartDevice env s with ⟨s2, rv⟩
    rw [hsd] at hk2 hk2' hveq
    simp only at hk2 hk2' hveq ⊢
    obtain ⟨q2, hq2, hkind⟩ := hk2'.1 q hq
    have hq2' : s2.requests[r']? = some q2 := hq2
    by_cases hrv : rv = nsresult.NS_OK
    · -- the provider runs
      simp only [hrv, ne_eq, not_true_eq_false, if_false]
      obtain ⟨tm, htm⟩ := Allow_rest_view env s2 r' r q2 hq2' (s2.WantsHighAccuracy r')
        (nsGeolocationRequest.Allow.canUseCache env s2 q) s2.mLastPosition.position
      rw [hkind] at htm
      rw [htm]
      by_cases hne : r' = r
      · subst hne
        simp only [if_true]
        refine View.KeepsIf.if_intro (hk2.1.kind_trans (fun q0 h0 => ⟨_, rfl, by
          have : (s2.view r').req = some q2 := hq2
          rw [this] at h0; cases h0; exact hkind.symm⟩)) (fun _ hv _ => ?_)
          (fun hP q0 q0' hv hw hone I => ?_)
        · have : (s.view r').req = some q := hq
          rw [hv] at this; cases this
        · have hq0 : q0 = q := by
            have : (s.view r').req = some q := hq
            rw [hv] at this; exact Option.some.inj this
          subst hq0
          have hlimbo := hP trivial q0 hq hone
          have hv2 := hveq hlimbo.2.2.1 I.notWatching
          have hq2q : q2 = q0 := by
            have h1 : (s2.view r').req = some q2 := hq2
            rw [hv2, hv] at h1
            exact (Option.some.inj h1).symm
          subst hq2q
          rw [hv2] at hw ⊢
          refine (View.keeps_allowed (v := s.view r') (q := q2) hv hw ?_ hlimbo ?_ ?_ ?_
            rfl).oneShotInv hv hw hone I
          · have := Option.some.inj hw
            rw [← this]
          · exact hlimbo.1
          · show (s.view r').sends + _ + ((s.view r').pending + _) ≤ 1
            rw [hlimbo.2.1, hlimbo.2.2.1]
            cases nsGeolocationRequest.Allow.canUseCache env s2 q2 <;> simp [hone]
          · show (s.view r').watching + _ = (s.view r').watching
            simp [hone]
      · simp only [hne, if_false]
        exact View.KeepsIf.of_keeps hk2
    · -- the provider could not be started
      simp only [hrv, ne_eq, not_false_eq_true, if_true]
      by_cases hne : r' = r
      · subst hne
        refine View.KeepsIf.if_intro
          (hk2.1.kind_trans (View.KindStable.of_req_eq (by rw [NotifyError_view])))
          (fun _ hv _ => ?_) (fun hP q0 q0' hv hw hone I => ?_)
        · have : (s.view r').req = some q := hq
          rw [hv] at this; cases this
        · have hlimbo := hP rfl q0 hv hone
          have hv2 := hveq hlimbo.2.2.1 I.notWatching
          have hw' : ((nsGeolocationRequest.NotifyError s2 r' POSITION_UNAVAILABLE).view r').req
              = some q0 := by rw [NotifyError_view, hv2]; exact hv
          have hq0' : q0' = q0 := by
            rw [hw'] at hw; exact (Option.some.inj hw).symm
          subst hq0'
          exact (View.keeps_nonterminal (v := s.view r') (q := q0') hv hw'
            (CallbackEvent.error r' POSITION_UNAVAILABLE) rfl
            (by rw [NotifyError_view, hv2]) (by rw [NotifyError_view, hv2])
            (by rw [NotifyError_view, hv2]) (by rw [NotifyError_view, hv2])
            (by rw [NotifyError_view, hv2]; simp)
            (fun _ _ => hlimbo.2.2.2.2)).oneShotInv hv hw' hone I
      · rw [NotifyError_view_ne _ _ hne]
        exact View.KeepsIf.of_keeps hk2

end AllowSteps

section RunSteps
variable {K : Type} [LinearOrderedField K] [FloorRing K]

/-- The view after the oldest runnable has been taken from the queue. -/
theorem pop_view (s : Sys K) (ev : Runnable K) (rest : List (Runnable K)) (r : Nat)
    (h : s.queue = ev :: rest) :
    ({ s with queue := rest } : Sys K).view r =
        { s.view r with
          decisions := (s.view r).decisions - (if ev.isDecisionFor r = true then 1 else 0),
          sends := (s.view r).sends - (if ev.isSendFor r = true then 1 else 0) } ∧
      (ev.isDecisionFor r = true → 1 ≤ (s.view r).decisions) ∧
      (ev.isSendFor r = true → 1 ≤ (s.view r).sends) := by
  refine ⟨?_, ?_, ?_⟩
  · simp only [Sys.view, Sys.decisions, Sys.sends, Sys.callbacksOf, h, List.countP_cons]
    cases ev.isDecisionFor r <;> cases ev.isSendFor r <;> simp
  · intro hd
    simp only [Sys.view, Sys.decisions, h, List.countP_cons, hd, if_true]
    omega
  · intro hs
    simp only [Sys.view, Sys.sends, h, List.countP_cons, hs, if_true]
    omega

theorem pop_le (s : Sys K) (ev : Runnable K) (rest : List (Runnable K)) (r : Nat)
    (h : s.queue = ev :: rest) : (s.view r).Le (({ s with queue := rest } : Sys K).view r) := by
  rw [(pop_view s ev rest r h).1]
  unfold View.Le
  refine ⟨?_, Nat.sub_le _ _, Nat.sub_le _ _, le_rfl, le_rfl, rfl⟩
  show (match (s.view r).req, (s.view r).req with
    | none, none => True
    | some q, some q' => _
    | _, _ => False)
  cases (s.view r).req <;> simp

/-- The view after the prompt has let go of a request. -/
theorem unprompt_view (s : Sys K) (r' r : Nat) (h : r' ∈ s.prompting) :
    ({ s with prompting := s.prompting.erase r' } : Sys K).view r =
        { s.view r with decisions := (s.view r).decisions - (if r' = r then 1 else 0) } ∧
      (r' = r → 1 ≤ (s.view r).decisions) := by
  constructor
  · by_cases hne : r' = r
    · subst hne
      have hc := count_pos_of_mem h
      simp only [Sys.view, Sys.decisions, Sys.sends, Sys.callbacksOf, List.count_erase_self,
        if_true]
      congr 1
      omega
    · have : (s.prompting.erase r').count r = s.prompting.count r :=
        List.count_erase_of_ne (Ne.symm hne) _
      simp [Sys.view, Sys.decisions, Sys.sends, Sys.callbacksOf, this, hne]
  · rintro rfl
    have hc := count_pos_of_mem h
    simp only [Sys.view, Sys.decisions]
    omega

theorem unprompt_le (s : Sys K) (r' r : Nat) (h : r' ∈ s.prompting) :
    (s.view r).Le (({ s with prompting := s.prompting.erase r' } : Sys K).view r) := by
  rw [(unprompt_view s r' r h).1]
  unfold View.Le
  refine ⟨?_, Nat.sub_le _ _, le_rfl, le_rfl, le_rfl, rfl⟩
  show (match (s.view r).req, (s.view r).req with
    | none, none => True
    | some q, some q' => _
    | _, _ => False)
  cases (s.view r).req <;> simp

/-- A one-shot request with an outstanding decision is in limbo once the
decision is taken away. -/
theorem View.limbo_of_decision {v w : View K} {q : nsGeolocationRequest} (I : v.OneShotInv q)
    (hdec : 1 ≤ v.decisions) (hd : w.decisions = v.decisions - 1) (hs : w.sends = v.sends)
    (hp : w.pending = v.pending) (hc : w.callbacks = v.callbacks) : w.Limbo q := by
  have hd1 : v.decisions = 1 := by have := I.decided; omega
  obtain ⟨a, b, c⟩ := I.undecided hd1
  refine ⟨by omega, by omega, by have := I.decided; omega, a, ?_⟩
  rw [View.hasTerminal_congr hc]; exact c

/-- The call `Allow` after one decision of the request has been consumed. -/
theorem Allow_keeps_of_consumed (env : Env K) (s s1 : Sys K) (r' r : Nat)
    (hle : (s.view r).Le (s1.view r))
    (hself : r' = r → 1 ≤ (s.view r).decisions ∧
      s1.view r = { s.view r with decisions := (s.view r).decisions - 1 }) :
    Sys.Keeps r s (nsGeolocationRequest.Allow env s1 r') := by
  refine View.Keeps.trans_if hle.le_keeps (Allow_keepsIf env s1 r' r) ?_
  intro hinv hne q hq hone
  obtain ⟨hdec, hv1⟩ := hself hne
  have hq' : (s.view r).req = some q := by
    have : (s1.view r).req = some q := hq
    rw [hv1] at this; exact this
  have I := (View.Inv_some hq').mp hinv hone
  exact View.limbo_of_decision I hdec (by rw [hv1]) (by rw [hv1]) (by rw [hv1]) (by rw [hv1])

/-- The call `SendLocation` run from the queue. -/
theorem SendLocation_keeps_of_popped (env : Env K) (s : Sys K) (rest : List (Runnable K))
    (p : Option (nsGeoPosition K)) (r' r : Nat)
    (h : s.queue = Runnable.RequestSendLocationEvent p r' :: rest) :
    Sys.Keeps r s (nsGeolocationRequest.SendLocation env { s with queue := rest } r' p) := by
  obtain ⟨hv1, _, hsend⟩ := pop_view s _ rest r h
  by_cases hne : r' = r
  · subst hne
    refine View.Keeps.trans_if (pop_le s _ rest r' h).le_keeps (SendLocation_keepsIf env _ r' p) ?_
    intro hinv q hq hone hlive
    have hq' : (s.view r').req = some q := hq
    have I := (View.Inv_some hq').mp hinv hone
    have hs1 : 1 ≤ (s.view r').sends := hsend (by simp [Runnable.isSendFor])
    have hp0 := I.sent hs1
    have hd0 : (s.view r').decisions = 0 := by
      by_contra hd
      have hd1 : (s.view r').decisions = 1 := by have := I.decided; omega
      have := (I.undecided hd1).2.1
      omega
    have ht : (s.view r').hasTerminal = false := by
      cases ht : (s.view r').hasTerminal with
      | false => rfl
      | true =>
        rcases (I.terminal ht).2.2 with h1 | h1
        · rw [hlive] at h1; cases h1
        · omega
    rw [hv1]
    exact ⟨by show (s.view r').decisions - _ = 0; omega, hp0, ht⟩
  · apply Sys.Keeps.sys_trans (pop_le s _ rest r h).le_keeps
    exact Sys.Keeps.of_view_eq (SendLocation_view_ne env _ p hne)

theorem Run_keeps (env : Env K) (s : Sys K) (ev : Runnable K) (rest : List (Runnable K))
    (r : Nat) (h : s.queue = ev :: rest) :
    Sys.Keeps r s (Runnable.Run env { s with queue := rest } ev) := by
  obtain ⟨hv1, hdec, _⟩ := pop_view s ev rest r h
  cases ev with
  | RequestPromptEvent r' =>
    apply Sys.Keeps.of_view_eq
    show ({ ({ s with queue := rest } : Sys K) with
      prompting := s.prompting ++ [r'] } : Sys K).view r = s.view r
    by_cases hne : r' = r
    · subst hne
      have hd := hdec (by simp [Runnable.isDecisionFor])
      have hd' : 1 ≤ s.decisions r' := hd
      simp only [Sys.decisions, h, List.countP_cons, Runnable.isDecisionFor, beq_self_eq_true,
        if_true] at hd' ⊢
      simp only [Sys.view, Sys.decisions, Sys.sends, Sys.callbacksOf, h, List.countP_cons,
        Runnable.isDecisionFor, Runnable.isSendFor, beq_self_eq_true, if_true,
        List.count_append, List.count_singleton_self]
      congr 1
      omega
    · have : List.count r [r'] = 0 := by simp [List.count_cons, Ne.symm hne]
      simp [Sys.view, Sys.decisions, Sys.sends, Sys.callbacksOf, h, List.countP_cons,
        Runnable.isDecisionFor, Runnable.isSendFor, hne, List.count_append, this]
  | RequestAllowEvent allow r' =>
    have hself : r' = r → 1 ≤ (s.view r).decisions ∧
        ({ s with queue := rest } : Sys K).view r =
          { s.view r with decisions := (s.view r).decisions - 1 } := by
      rintro rfl
      refine ⟨hdec (by simp [Runnable.isDecisionFor]), ?_⟩
      rw [hv1]
      simp [Runnable.isDecisionFor, Runnable.isSendFor]
    have hother : r' ≠ r → ({ s with queue := rest } : Sys K).view r = s.view r := by
      intro hne
      rw [hv1]
      simp [Runnable.isDecisionFor, Runnable.isSendFor, hne]
    cases allow with
    | true => exact Allow_keeps_of_consumed env s _ r' r (pop_le s _ rest r h) hself
    | false => exact Cancel_keeps_of_consumed s _ r' r hself hother
  | RequestSendLocationEvent p r' => exact SendLocation_keeps_of_popped env s rest p r' r h

theorem PromptAllow_keeps (env : Env K) (s : Sys K) (r' r : Nat) (h : r' ∈ s.prompting) :
    Sys.Keeps r s
      (nsGeolocationRequest.Allow env { s with prompting := s.prompting.erase r' } r') := by
  obtain ⟨hv1, hdec⟩ := unprompt_view s r' r h
  refine Allow_keeps_of_consumed env s _ r' r (unprompt_le s r' r h) ?_
  rintro rfl
  exact ⟨hdec rfl, by rw [hv1]; simp⟩

theorem PromptCancel_keeps (s : Sys K) (r' r : Nat) (h : r' ∈ s.prompting) :
    Sys.Keeps r s
      (nsGeolocationRequest.Cancel { s with prompting := s.prompting.erase r' } r') := by
  obtain ⟨hv1, hdec⟩ := unprompt_view s r' r h
  refine Cancel_keeps_of_consumed s _ r' r ?_ ?_
  · rintro rfl
    exact ⟨hdec rfl, by rw [hv1]; simp⟩
  · intro hne
    rw [hv1]; simp [hne]

end RunSteps

section ConsumerSteps
variable {K : Type} [LinearOrderedField K] [FloorRing K]

theorem getElem?_append_singleton (l : List nsGeolocationRequest) (a : nsGeolocationRequest)
    (r : Nat) : (l ++ [a])[r]? = if r = l.length then some a else l[r]? := by
  by_cases h : r = l.length
  · subst h; simp
  · simp only [h, if_false]
    by_cases hlt : r < l.length
    · exact List.getElem?_append_left hlt
    · rw [List.getElem?_eq_none (by simp; omega), List.getElem?_eq_none (by omega)]

theorem create_view (s : Sys K) (a : nsGeolocationRequest) (r : Nat) :
    ({ s with requests := s.requests ++ [a] } : Sys K).view r =
      if r = s.requests.length then { s.view r with req := some a } else s.view r := by
  by_cases h : r = s.requests.length
  · simp [Sys.view, Sys.decisions, Sys.sends, Sys.callbacksOf, getElem?_append_singleton, h]
  · simp [Sys.view, Sys.decisions, Sys.sends, Sys.callbacksOf, getElem?_append_singleton, h]

theorem view_req_length (s : Sys K) : (s.view s.requests.length).req = none := by
  show s.requests[s.requests.length]? = none
  exact List.getElem?_eq_none (le_refl _)

/-- A one-shot request is created, with at most one decision outstanding. -/
theorem View.keeps_fresh {v w : View K} {n : nsGeolocationRequest} (hv : v.req = none)
    (hw : w.req = some n) (ht : n.mTimeoutTimer = none) (hd : w.decisions ≤ v.decisions + 1)
    (hs : w.sends = v.sends) (hp : w.pending = v.pending) (hwa : w.watching = v.watching)
    (hc : w.callbacks = v.callbacks) : v.Keeps w := by
  refine View.Keeps.keeps_intro (fun q h => by rw [hv] at h; cases h) (fun _ hinv => ?_)
    (fun q _ h => by rw [hv] at h; cases h)
  obtain ⟨a, b, c, d, e⟩ := (View.Inv_none hv).mp hinv
  have hterm : w.hasTerminal = false := by
    rw [View.hasTerminal_congr hc]; simp [View.hasTerminal, e]
  rw [View.Inv_some hw]
  intro _
  exact ⟨by omega, fun _ => ⟨ht, by omega, hterm⟩, by omega, fun _ => by omega,
    fun h => by rw [hterm] at h; cases h⟩

/-- A watch request is created. -/
theorem View.keeps_fresh_watch {v w : View K} {n : nsGeolocationRequest} (hv : v.req = none)
    (hw : w.req = some n) (hk : n.mIsWatchPositionRequest = true) : v.Keeps w := by
  refine View.Keeps.keeps_intro (fun q h => by rw [hv] at h; cases h) (fun _ _ => ?_)
    (fun q _ h => by rw [hv] at h; cases h)
  rw [View.Inv_some hw]
  intro h; rw [hk] at h; cases h

/-- A one-shot request object is appended to the heap and at most one
decision is recorded for it; nothing else that the views read changes. -/
theorem fresh_keeps (s t : Sys K) (a : nsGeolocationRequest) (r : Nat)
    (ha : a.mTimeoutTimer = none)
    (hreq : t.requests = s.requests ++ [a])
    (hpc : t.mPendingCallbacks = s.mPendingCallbacks)
    (hwc : t.mWatchingCallbacks = s.mWatchingCallbacks)
    (hcb : t.callbacks = s.callbacks)
    (hsend : t.sends r = s.sends r)
    (hdec : t.decisions r ≤ s.decisions r + 1)
    (hdec' : r ≠ s.requests.length → t.decisions r = s.decisions r) : Sys.Keeps r s t := by
  by_cases h : r = s.requests.length
  · subst h
    refine View.keeps_fresh (v := s.view s.requests.length) (n := a) (view_req_length s) ?_ ha
      hdec hsend ?_ ?_ ?_
    · show t.requests[s.requests.length]? = some a
      rw [hreq]; simp
    · show t.mPendingCallbacks.count _ = s.mPendingCallbacks.count _
      rw [hpc]
    · show t.mWatchingCallbacks.count _ = s.mWatchingCallbacks.count _
      rw [hwc]
    · show t.callbacksOf _ = s.callbacksOf _
      simp [Sys.callbacksOf, hcb]
  · apply Sys.Keeps.of_view_eq
    have hr : t.requests[r]? = s.requests[r]? := by
      rw [hreq, getElem?_append_singleton]; simp [h]
    simp only [Sys.view, hr, hdec' h, hsend, hpc, hwc, Sys.callbacksOf, hcb]

theorem dispatch_fields (s : Sys K) (ev : Runnable K) (r : Nat) :
    (NS_DispatchToMainThread s ev).sends r = s.sends r + (if ev.isSendFor r = true then 1 else 0) ∧
      (NS_DispatchToMainThread s ev).decisions r
        = s.decisions r + (if ev.isDecisionFor r = true then 1 else 0) := by
  constructor
  · simp [Sys.sends, NS_DispatchToMainThread, List.countP_append, List.countP_cons]
  · simp only [Sys.decisions, NS_DispatchToMainThread, List.countP_append, List.countP_cons,
      List.countP_nil]
    omega

/-- What `GetCurrentPositionReady` and the prompt path of `WatchPositionReady`
do: at most one decision for the request is dispatched. -/
theorem RegisterRequestWithPrompt_fields (env : Env K) (s : Sys K) (r' r : Nat) :
    (Geolocation.RegisterRequestWithPrompt env s r').sends r = s.sends r ∧
      (Geolocation.RegisterRequestWithPrompt env s r').decisions r
        = s.decisions r + (if r' = r then 1 else 0) := by
  unfold Geolocation.RegisterRequestWithPrompt
  split
  · have := dispatch_fields s (Runnable.RequestAllowEvent env.promptTestingAllow r') r
    simp only [Runnable.isSendFor, Runnable.isDecisionFor, beq_iff_eq] at this
    simpa using this
  · have := dispatch_fields s (Runnable.RequestPromptEvent r') r
    simp only [Runnable.isSendFor, Runnable.isDecisionFor, beq_iff_eq] at this
    simpa using this

theorem RegisterRequestWithPrompt_same (env : Env K) (s : Sys K) (r' : Nat) :
    (Geolocation.RegisterRequestWithPrompt env s r').requests = s.requests ∧
      (Geolocation.RegisterRequestWithPrompt env s r').mPendingCallbacks = s.mPendingCallbacks ∧
      (Geolocation.RegisterRequestWithPrompt env s r').mWatchingCallbacks
        = s.mWatchingCallbacks ∧
      (Geolocation.RegisterRequestWithPrompt env s r').callbacks = s.callbacks ∧
      (Geolocation.RegisterRequestWithPrompt env s r').mPendingRequests = s.mPendingRequests := by
  unfold Geolocation.RegisterRequestWithPrompt
  split <;> exact ⟨rfl, rfl, rfl, rfl, rfl⟩

theorem GetCurrentPositionReady_fields (env : Env K) (s : Sys K) (r' r : Nat) :
    (Geolocation.GetCurrentPositionReady env s r').1.requests = s.requests ∧
      (Geolocation.GetCurrentPositionReady env s r').1.mPendingCallbacks
        = s.mPendingCallbacks ∧
      (Geolocation.GetCurrentPositionReady env s r').1.mWatchingCallbacks
        = s.mWatchingCallbacks ∧
      (Geolocation.GetCurrentPositionReady env s r').1.callbacks = s.callbacks ∧
      (Geolocation.GetCurrentPositionReady env s r').1.mPendingRequests = s.mPendingRequests ∧
      (Geolocation.GetCurrentPositionReady env s r').1.sends r = s.sends r ∧
      (Geolocation.GetCurrentPositionReady env s r').1.decisions r ≤ s.decisions r + 1 ∧
      s.decisions r ≤ (Geolocation.GetCurrentPositionReady env s r').1.decisions r ∧
      (r' ≠ r → (Geolocation.GetCurrentPositionReady env s r').1.decisions r = s.decisions r) ∧
      (s.mOwner = true →
        (Geolocation.GetCurrentPositionReady env s r').1.decisions r
          = s.decisions r + (if r' = r then 1 else 0)) := by
  unfold Geolocation.GetCurrentPositionReady
  split
  · obtain ⟨a, b, c, d, e⟩ := RegisterRequestWithPrompt_same env s r'
    obtain ⟨f, g⟩ := RegisterRequestWithPrompt_fields env s r' r
    refine ⟨a, b, c, d, e, f, ?_, ?_, ?_, fun _ => g⟩
    · rw [g]; split <;> omega
    · rw [g]; omega
    · intro hne; rw [g]; simp [hne]
  · split
    · exact ⟨rfl, rfl, rfl, rfl, rfl, rfl, by simp, le_rfl, fun _ => rfl,
        fun h => by simp_all⟩
    · have := dispatch_fields s (Runnable.RequestAllowEvent true r') r
      simp only [Runnable.isSendFor, Runnable.isDecisionFor, beq_iff_eq] at this
      refine ⟨rfl, rfl, rfl, rfl, rfl, by simpa using this.1, ?_, ?_, ?_, fun h => by simp_all⟩
      · rw [this.2]; split <;> omega
      · rw [this.2]; omega
      · intro hne; rw [this.2]; simp [hne]

theorem GetCurrentPosition_keeps (env : Env K) (s : Sys K) (options : Option PositionOptions)
    (r : Nat) : Sys.Keeps r s (Geolocation.GetCurrentPosition env s options).1 := by
  unfold Geolocation.GetCurrentPosition
  split
  · exact Sys.Keeps.sys_refl r s
  · simp only
    split
    · have := dispatch_fields ({ s with requests := s.requests ++
        [{ mIsWatchPositionRequest := false, mTimeoutTimer := none, mOptions := options,
           mWatchId := 0, mShutdown := false }] } : Sys K)
        (Runnable.RequestAllowEvent false s.requests.length) r
      simp only [Runnable.isSendFor, Runnable.isDecisionFor, beq_iff_eq] at this
      refine fresh_keeps s _ _ r rfl rfl rfl rfl rfl (by simpa using this.1) ?_ ?_
      · rw [this.2]; show s.decisions r + _ ≤ _; split <;> omega
      · intro hne; rw [this.2]; show s.decisions r + _ = _; simp [Ne.symm hne]
    · split
      · exact fresh_keeps s _ _ r rfl rfl rfl rfl rfl rfl (Nat.le_succ _) (fun _ => rfl)
      · split
        · have hc : List.count r [s.requests.length]
              = if s.requests.length = r then 1 else 0 := by
            by_cases h : s.requests.length = r
            · simp [h]
            · simp [h, List.count_cons, Ne.symm]
          refine fresh_keeps s _ _ r rfl rfl rfl rfl rfl rfl ?_ ?_
          · simp only [Sys.decisions, List.count_append, hc]
            split <;> omega
          · intro hne
            simp only [Sys.decisions, List.count_append, hc, Ne.symm hne, if_false]
            omega
        · obtain ⟨a, b, c, d, _, f, g, _, h, _⟩ := GetCurrentPositionReady_fields env
            ({ s with requests := s.requests ++
              [{ mIsWatchPositionRequest := false, mTimeoutTimer := none, mOptions := options,
                 mWatchId := 0, mShutdown := false }] } : Sys K) s.requests.length r
          exact fresh_keeps s _ _ r rfl a b c d f g (fun hne => h (Ne.symm hne))

end ConsumerSteps

section WatchSteps
variable {K : Type} [LinearOrderedField K] [FloorRing K]

/-- A watch request object is appended to the heap; decisions may be recorded
for it only. -/
theorem fresh_watch_keeps (s t : Sys K) (a : nsGeolocationRequest) (r : Nat)
    (ha : a.mIsWatchPositionRequest = true)
    (hreq : t.requests = s.requests ++ [a])
    (hpc : t.mPendingCallbacks = s.mPendingCallbacks)
    (hwc : t.mWatchingCallbacks = s.mWatchingCallbacks)
    (hcb : t.callbacks = s.callbacks)
    (hsend : t.sends r = s.sends r)
    (hdec' : r ≠ s.requests.length → t.decisions r = s.decisions r) : Sys.Keeps r s t := by
  by_cases h : r = s.requests.length
  · subst h
    refine View.keeps_fresh_watch (v := s.view s.requests.length) (n := a)
      (view_req_length s) ?_ ha
    show t.requests[s.requests.length]? = some a
    rw [hreq]; simp
  · apply Sys.Keeps.of_view_eq
    have hr : t.requests[r]? = s.requests[r]? := by
      rw [hreq, getElem?_append_singleton]; simp [h]
    simp only [Sys.view, hr, hdec' h, hsend, hpc, hwc, Sys.callbacksOf, hcb]

/-- The call `Allow` on another request, or on a watch request. -/
theorem Allow_keeps_of_other (env : Env K) (s : Sys K) (r' r : Nat)
    (h : r' ≠ r ∨ ∃ q, s.requests[r']? = some q ∧ q.mIsWatchPositionRequest = true) :
    Sys.Keeps r s (nsGeolocationRequest.Allow env s r') := by
  refine (Allow_keepsIf env s r' r).if_keeps ?_
  intro hne q hq hone
  rcases h with h | ⟨q', hq', hw⟩
  · exact absurd hne h
  · subst hne
    rw [hq] at hq'; cases hq'
    rw [hw] at hone; cases hone

theorem WatchPositionReady_keeps (env : Env K) (s : Sys K) (r' r : Nat)
    (h : r' ≠ r ∨ ∃ q, s.requests[r']? = some q ∧ q.mIsWatchPositionRequest = true) :
    Sys.Keeps r s (Geolocation.WatchPositionReady env s r').1 := by
  unfold Geolocation.WatchPositionReady
  split
  · obtain ⟨a, b, c, d, e⟩ := RegisterRequestWithPrompt_same env s r'
    obtain ⟨f, g⟩ := RegisterRequestWithPrompt_fields env s r' r
    rcases h with h | ⟨q, hq, hw⟩
    · apply Sys.Keeps.of_view_eq
      simp only [Sys.view, a, b, c, f, g, h, if_false, Nat.add_zero, Sys.callbacksOf, d]
    · by_cases hne : r' = r
      · subst hne
        exact View.keeps_of_watch (v := s.view r') hq hw
          (View.KindStable.of_req_eq (by show _ = s.requests[r']?; rw [← a]; rfl))
      · apply Sys.Keeps.of_view_eq
        simp only [Sys.view, a, b, c, f, g, hne, if_false, Nat.add_zero, Sys.callbacksOf, d]
  · split
    · exact Sys.Keeps.sys_refl r s
    · exact Allow_keeps_of_other env s r' r h

theorem WatchPosition_keeps (env : Env K) (s : Sys K) (options : Option PositionOptions)
    (r : Nat) : Sys.Keeps r s (Geolocation.WatchPosition env s options).1 := by
  unfold Geolocation.WatchPosition
  split
  · exact Sys.Keeps.sys_refl r s
  · simp only
    split
    · have := dispatch_fields
        ({ s with
            mLastWatchId := s.mLastWatchId + 1,
            requests := s.requests ++
              [{ mIsWatchPositionRequest := true, mTimeoutTimer := none, mOptions := options,
                 mWatchId := s.mLastWatchId, mShutdown := false }] } : Sys K)
        (Runnable.RequestAllowEvent false s.requests.length) r
      simp only [Runnable.isSendFor, Runnable.isDecisionFor, beq_iff_eq] at this
      refine fresh_watch_keeps s _ _ r rfl rfl rfl rfl rfl (by simpa using this.1) ?_
      intro hne; rw [this.2]; show s.decisions r + _ = _; simp [Ne.symm hne]
    · split
      · exact fresh_watch_keeps s _ _ r rfl rfl rfl rfl rfl rfl (fun _ => rfl)
      · split
        · have hc : List.count r [s.requests.length]
              = if s.requests.length = r then 1 else 0 := by
            by_cases h : s.requests.length = r
            · simp [h]
            · simp [h, List.count_cons, Ne.symm]
          refine fresh_watch_keeps s _ _ r rfl rfl rfl rfl rfl rfl ?_
          intro hne
          simp only [Sys.decisions, List.count_append, hc, Ne.symm hne, if_false]
          omega
        · refine Sys.Keeps.sys_trans
            (fresh_watch_keeps s
              ({ s with
                  mLastWatchId := s.mLastWatchId + 1,
                  requests := s.requests ++
                    [{ mIsWatchPositionRequest := true, mTimeoutTimer := none,
                       mOptions := options, mWatchId := s.mLastWatchId,
                       mShutdown := false }] } : Sys K) _ r rfl rfl rfl
              rfl rfl rfl (fun _ => rfl))
            (WatchPositionReady_keeps env _ s.requests.length r
              (Or.inr ⟨{ mIsWatchPositionRequest := true, mTimeoutTimer := none,
                         mOptions := options, mWatchId := s.mLastWatchId,
                         mShutdown := false }, ?_, rfl⟩))
          show (s.requests ++ _)[s.requests.length]? = _
          simp

theorem eraseIdx_count_le (l : List Nat) (i r : Nat) : (l.eraseIdx i).count r ≤ l.count r :=
  (List.eraseIdx_sublist l i).count_le r

theorem ClearWatch_keeps (env : Env K) (s : Sys K) (aWatchId : Int) (r : Nat) :
    Sys.Keeps r s (Geolocation.ClearWatch env s aWatchId) := by
  unfold Geolocation.ClearWatch
  split
  · exact Sys.Keeps.sys_refl r s
  · simp only
    have h1 : Sys.Keeps r s
        (match s.mWatchingCallbacks.find? (fun r => s.WatchId r == some aWatchId) with
          | some r => Geolocation.RemoveRequest (nsGeolocationRequest.Shutdown env s r) r
          | none => s) := by
      split
      · exact Sys.Keeps.sys_trans (Shutdown_le env s _ r).le_keeps (RemoveRequest_le _ _ r).le_keeps
      · exact Sys.Keeps.sys_refl r s
    refine Sys.Keeps.sys_trans h1 ?_
    generalize (match s.mWatchingCallbacks.find? (fun r => s.WatchId r == some aWatchId) with
          | some r => Geolocation.RemoveRequest (nsGeolocationRequest.Shutdown env s r) r
          | none => s) = t
    split
    next i _ =>
      split
      next r' _ =>
        refine Sys.Keeps.sys_trans (Shutdown_le env t r' r).le_keeps (View.Le.le_keeps ?_)
        unfold View.Le
        refine ⟨?_, ?_, le_rfl, le_rfl, le_rfl, rfl⟩
        · show (match (nsGeolocationRequest.Shutdown env t r').requests[r]?,
              (nsGeolocationRequest.Shutdown env t r').requests[r]? with
            | none, none => True
            | some q, some q' => _
            | _, _ => False)
          cases (nsGeolocationRequest.Shutdown env t r').requests[r]? <;> simp
        · have := eraseIdx_count_le (nsGeolocationRequest.Shutdown env t r').mPendingRequests i r
          simp only [Sys.view, Sys.decisions]
          omega
      next => exact Sys.Keeps.sys_refl r t
    next => exact Sys.Keeps.sys_refl r t

theorem SetTimeoutTimer_kindStable (s : Sys K) (r' r : Nat) :
    (s.view r).KindStable ((nsGeolocationRequest.SetTimeoutTimer s r').view r) := by
  by_cases hne : r' = r
  · subst hne
    rcases (s.view r').req_cases with hq | ⟨q, hq⟩
    · rw [SetTimeoutTimer_view_none s hq]; exact View.KindStable.kind_refl _
    · obtain ⟨tm, htm⟩ := SetTimeoutTimer_view_self s (show s.requests[r']? = some q from hq)
      rw [htm]
      intro q0 h0
      rw [hq] at h0; cases h0
      exact ⟨_, rfl, rfl⟩
  · rw [SetTimeoutTimer_view_ne s hne]; exact View.KindStable.kind_refl _

theorem LocationUpdatePending_keeps (s : Sys K) (r : Nat) :
    Sys.Keeps r s (nsGeolocationService.LocationUpdatePending s) := by
  unfold nsGeolocationService.LocationUpdatePending
  split
  · unfold Geolocation.LocationUpdatePending
    refine forUp_keeps _ _ r ?_ _ _ _
    intro t r' hmem
    have hk : (t.view r).KindStable
        ((nsGeolocationRequest.LocationUpdatePending t r').view r) := by
      unfold nsGeolocationRequest.LocationUpdatePending
      split
      · exact View.KindStable.of_req_eq
          (congrArg View.req ((SameViews.crashed t).view_eq r))
      · split
        · exact SetTimeoutTimer_kindStable t r' r
        · exact View.KindStable.kind_refl _
    by_cases hne : r' = r
    · subst hne
      exact View.keeps_of_watching (count_pos_of_mem hmem) hk
    · apply Sys.Keeps.of_view_eq
      unfold nsGeolocationRequest.LocationUpdatePending
      split
      · exact (SameViews.crashed t).view_eq r
      · split
        · exact SetTimeoutTimer_view_ne t hne
        · rfl
  · exact Sys.Keeps.sys_refl r s

end WatchSteps

section SettingsSteps
variable {K : Type} [LinearOrderedField K] [FloorRing K]

theorem Le_of_fields (s t : Sys K) (r : Nat) (hreq : t.requests = s.requests)
    (hpc : t.mPendingCallbacks = s.mPendingCallbacks)
    (hwc : t.mWatchingCallbacks = s.mWatchingCallbacks) (hcb : t.callbacks = s.callbacks)
    (hsend : t.sends r = s.sends r) (hdec : t.decisions r ≤ s.decisions r) :
    (s.view r).Le (t.view r) := by
  unfold View.Le
  refine ⟨?_, hdec, le_of_eq hsend, ?_, ?_, ?_⟩
  · show (match s.requests[r]?, t.requests[r]? with
      | none, none => True
      | some q, some q' => _
      | _, _ => False)
    rw [hreq]
    cases s.requests[r]? <;> simp
  · show t.mPendingCallbacks.count r ≤ s.mPendingCallbacks.count r
    rw [hpc]
  · show t.mWatchingCallbacks.count r ≤ s.mWatchingCallbacks.count r
    rw [hwc]
  · show t.callbacksOf r = s.callbacksOf r
    simp [Sys.callbacksOf, hcb]

theorem eraseDeferred_le (t : Sys K) (i r : Nat) :
    (t.view r).Le
      (({ t with mPendingRequests := t.mPendingRequests.eraseIdx i } : Sys K).view r) := by
  refine Le_of_fields t _ r rfl rfl rfl rfl rfl ?_
  have := eraseIdx_count_le t.mPendingRequests i r
  simp only [Sys.decisions]
  omega

theorem ServiceReady_loop_keeps (env : Env K) (r : Nat) :
    ∀ n (s : Sys K), Sys.Keeps r s (Geolocation.ServiceReady.loop env n s) := by
  intro n
  induction n with
  | zero => intro s; exact Sys.Keeps.sys_refl r s
  | succ n ih =>
    intro s
    unfold Geolocation.ServiceReady.loop
    split
    next => exact (SameViews.crashed s).same_keeps r
    next r' tl hpr =>
      simp only
      refine Sys.Keeps.sys_trans ?_ (ih _)
      cases hw : s.IsWatch r' with
      | true =>
        simp only [if_true]
        have hq : ∃ q, s.requests[r']? = some q ∧ q.mIsWatchPositionRequest = true := by
          unfold Sys.IsWatch at hw
          cases hq : s.requests[r']? with
          | none => rw [hq] at hw; cases hw
          | some q => rw [hq] at hw; exact ⟨q, rfl, hw⟩
        exact Sys.Keeps.sys_trans (WatchPositionReady_keeps env s r' r (Or.inr hq))
          (eraseDeferred_le _ 0 r).le_keeps
      | false =>
        simp only [Bool.false_eq_true, if_false]
        obtain ⟨a, b, c, d, e, f, g, _, h, _⟩ := GetCurrentPositionReady_fields env s r' r
        refine (Le_of_fields s
          ({ (Geolocation.GetCurrentPositionReady env s r').1 with
              mPendingRequests :=
                (Geolocation.GetCurrentPositionReady env s r').1.mPendingRequests.eraseIdx 0 }
            : Sys K) r a b c d f ?_).le_keeps
        show (List.eraseIdx (Geolocation.GetCurrentPositionReady env s r').1.mPendingRequests
            0).count r
          + (Geolocation.GetCurrentPositionReady env s r').1.prompting.count r
          + List.countP (Runnable.isDecisionFor r)
              (Geolocation.GetCurrentPositionReady env s r').1.queue ≤ s.decisions r
        rw [e, hpr, List.eraseIdx_cons_zero]
        by_cases hne : r' = r
        · subst hne
          have h1 : (Geolocation.GetCurrentPositionReady env s r').1.decisions r'
              = (r' :: tl).count r' + (Geolocation.GetCurrentPositionReady env s r').1.prompting.count r'
                + List.countP (Runnable.isDecisionFor r')
                    (Geolocation.GetCurrentPositionReady env s r').1.queue := by
            simp only [Sys.decisions, e, hpr]
          rw [List.count_cons_self] at h1
          omega
        · have h1 := h hne
          have h2 : (Geolocation.GetCurrentPositionReady env s r').1.decisions r
              = (r' :: tl).count r + (Geolocation.GetCurrentPositionReady env s r').1.prompting.count r
                + List.countP (Runnable.isDecisionFor r)
                    (Geolocation.GetCurrentPositionReady env s r').1.queue := by
            simp only [Sys.decisions, e, hpr]
          rw [List.count_cons_of_ne (Ne.symm hne)] at h2
          omega

theorem ServiceReady_keeps (env : Env K) (s : Sys K) (r : Nat) :
    Sys.Keeps r s (Geolocation.ServiceReady env s) :=
  ServiceReady_loop_keeps env r _ s

theorem HandleMozsettingValue_ready_keeps (env : Env K) (t : Sys K) (r : Nat) :
    Sys.Keeps r t
      (if t.sGeoInitPending = true then
        if ({ t with sGeoInitPending := false } : Sys K).mService = true then
          Geolocation.ServiceReady env { t with sGeoInitPending := false }
        else { t with sGeoInitPending := false }
      else t) := by
  split
  · split
    · refine Sys.Keeps.sys_trans ?_ (ServiceReady_keeps env _ r)
      exact Sys.Keeps.of_view_eq (Sys.view_congr _ _ r rfl rfl rfl rfl rfl rfl rfl)
    · exact Sys.Keeps.of_view_eq (Sys.view_congr _ _ r rfl rfl rfl rfl rfl rfl rfl)
  · exact Sys.Keeps.sys_refl r _

theorem HandleMozsettingValue_keeps (env : Env K) (s : Sys K) (aValue : Bool) (r : Nat) :
    Sys.Keeps r s (nsGeolocationService.HandleMozsettingValue env s aValue) := by
  unfold nsGeolocationService.HandleMozsettingValue
  simp only
  have h1 : Sys.Keeps r s
      (if (!aValue) = true then
        { nsGeolocationService.Update env (nsGeolocationService.StopDevice env s) none with
          mLastPosition :=
            { (nsGeolocationService.Update env (nsGeolocationService.StopDevice env s)
                none).mLastPosition with position := none },
          sGeoEnabled := false }
      else { s with sGeoEnabled := true }) := by
    split
    · refine Sys.Keeps.sys_trans ((SameViews.StopDevice env s).same_keeps r)
        (Sys.Keeps.sys_trans (serviceUpdate_keeps env _ none r) ?_)
      exact Sys.Keeps.of_view_eq (Sys.view_congr _ _ r rfl rfl rfl rfl rfl rfl rfl)
    · exact Sys.Keeps.of_view_eq (Sys.view_congr _ _ r rfl rfl rfl rfl rfl rfl rfl)
  exact Sys.Keeps.sys_trans h1 (HandleMozsettingValue_ready_keeps env _ r)

theorem ObserveTimerCallback_keeps (env : Env K) (s : Sys K) (r : Nat) :
    Sys.Keeps r s (nsGeolocationService.ObserveTimerCallback env s) := by
  unfold nsGeolocationService.ObserveTimerCallback
  split
  · exact (SameViews.SetDisconnectTimer s).same_keeps r
  · exact Sys.Keeps.sys_trans ((SameViews.StopDevice env s).same_keeps r)
      (serviceUpdate_keeps env _ none r)

theorem ObserveQuitApplication_keeps (env : Env K) (s : Sys K) (r : Nat) :
    Sys.Keeps r s (nsGeolocationService.ObserveQuitApplication env s) := by
  unfold nsGeolocationService.ObserveQuitApplication
  simp only
  refine Sys.Keeps.sys_trans ?_ ((SameViews.StopDevice env _).same_keeps r)
  split
  · exact (GeolocationShutdown_le env s r).le_keeps
  · exact Sys.Keeps.sys_refl r s

/-- Every step keeps the view of every request index. -/
theorem step_keeps (env : Env K) (s : Sys K) (a : Action K) (r : Nat) :
    Sys.Keeps r s (step env s a) := by
  unfold step
  split
  · exact Sys.Keeps.sys_refl r s
  · cases a with
    | GetCurrentPosition options => exact GetCurrentPosition_keeps env s options r
    | WatchPosition options => exact WatchPosition_keeps env s options r
    | ClearWatch aWatchId => exact ClearWatch_keeps env s aWatchId r
    | RunNextRunnable =>
      simp only
      cases hqueue : s.queue with
      | nil => exact Sys.Keeps.sys_refl r s
      | cons ev rest => exact Run_keeps env s ev rest r hqueue
    | PromptAllow r' =>
      simp only
      split
      · rename_i h; exact PromptAllow_keeps env s r' r h
      · exact Sys.Keeps.sys_refl r s
    | PromptCancel r' =>
      simp only
      split
      · rename_i h; exact PromptCancel_keeps s r' r h
      · exact Sys.Keeps.sys_refl r s
    | TimeoutTimerFires r' =>
      simp only
      cases hq : s.requests[r']? with
      | none => exact Sys.Keeps.sys_refl r s
      | some q =>
        simp only
        split
        · rename_i h
          refine Notify_keeps env s r' r ?_
          intro q0 hq0 hnone
          rw [hq] at hq0; cases hq0
          rw [hnone] at h; cases h
        · exact Sys.Keeps.sys_refl r s
    | ProviderUpdate position => exact serviceUpdate_keeps env s position r
    | ProviderLocationUpdatePending => exact LocationUpdatePending_keeps s r
    | ProviderNotifyError aErrorCode => exact serviceNotifyError_keeps env s aErrorCode r
    | MozsettingEnabled aValue => exact HandleMozsettingValue_keeps env s aValue r
    | MozsettingPolicy blur =>
      exact Sys.Keeps.of_view_eq (Sys.view_congr _ _ r rfl rfl rfl rfl rfl rfl rfl)
    | DisconnectTimerFires =>
      simp only
      split
      · refine Sys.Keeps.sys_trans ?_ (ObserveTimerCallback_keeps env _ r)
        exact Sys.Keeps.of_view_eq (Sys.view_congr _ _ r rfl rfl rfl rfl rfl rfl rfl)
      · exact Sys.Keeps.sys_refl r s
    | SessionShutdown =>
      simp only
      split
      · exact (GeolocationShutdown_le env s r).le_keeps
      · exact Sys.Keeps.sys_refl r s
    | QuitApplication => exact ObserveQuitApplication_keeps env s r

theorem run_keeps (r : Nat) : ∀ (acts : List (Env K × Action K)) (s : Sys K),
    Sys.Keeps r s (run s acts) := by
  intro acts
  induction acts with
  | nil => intro s; exact Sys.Keeps.sys_refl r s
  | cons ea rest ih =>
    intro s
    obtain ⟨env, a⟩ := ea
    exact Sys.Keeps.sys_trans (step_keeps env s a r) (ih _)

theorem init_inv (blur : BlurStatics K) (url : nsString) (o sv en ip : Bool) (r : Nat) :
    ((Sys.init blur url o sv en ip).view r).Inv := by
  simp [View.Inv, Sys.view, Sys.init, Sys.decisions, Sys.sends, Sys.callbacksOf]

end SettingsSteps

/-! ## One-shot requests: terminal exclusivity -/

section Exclusivity
variable {K : Type} [LinearOrderedField K] [FloorRing K]

/-- C10: in every state reached from a fresh session by any sequence of
steps, a one-shot request that has received a success delivery, a `TIMEOUT`
error or a `PERMISSION_DENIED` error has neither of its callbacks invoked by
any later sequence of steps (deliveries run from the queue, timer firings,
error fan-outs of the session, and every other step of the system). -/
theorem oneShot_terminal_exclusive (blur : BlurStatics K) (url : nsString)
    (mOwner mService sGeoEnabled sGeoInitPending : Bool)
    (before later : List (Env K × Action K)) (r : Nat) (q : nsGeolocationRequest)
    (hq : (run (Sys.init blur url mOwner mService sGeoEnabled sGeoInitPending)
      before).requests[r]? = some q)
    (hone : q.mIsWatchPositionRequest = false)
    (hterm : (run (Sys.init blur url mOwner mService sGeoEnabled sGeoInitPending)
      before).hasTerminal r = true) :
    (run (run (Sys.init blur url mOwner mService sGeoEnabled sGeoInitPending) before)
        later).callbacksOf r =
      (run (Sys.init blur url mOwner mService sGeoEnabled sGeoInitPending)
        before).callbacksOf r := by
  have hinv := ((run_keeps r before _).2
    (init_inv blur url mOwner mService sGeoEnabled sGeoInitPending r)).1
  exact ((run_keeps r later _).2 hinv).2 ⟨q, hq, hone⟩ hterm

end Exclusivity

/-- Witness for C10: in the example run the one-shot request 0 has received its
position, and a further position update and a late timer tick add nothing. -/
theorem oneShot_terminal_exclusive_witness :
    (run exampleInit exampleDelivered).requests[0]? =
        some { mIsWatchPositionRequest := false, mTimeoutTimer := none,
               mOptions := some { mEnableHighAccuracy := false, mTimeout := 1000,
                                  mMaximumAge := 0 },
               mWatchId := 0, mShutdown := true } ∧
      (run exampleInit exampleDelivered).hasTerminal 0 = true ∧
      (run (run exampleInit exampleDelivered) exampleLater).callbacksOf 0 =
        (run exampleInit exampleDelivered).callbacksOf 0 :=
  ⟨by decide, by decide,
    oneShot_terminal_exclusive allowlistedStatics "app://a".toList true true true false
      exampleDelivered exampleLater 0
      { mIsWatchPositionRequest := false, mTimeoutTimer := none,
        mOptions := some { mEnableHighAccuracy := false, mTimeout := 1000, mMaximumAge := 0 },
        mWatchId := 0, mShutdown := true }
      (by decide) rfl (by decide)⟩

/-! # Further properties -/

/-! ## Frames: the fields that each operation leaves alone -/

section Frames
variable {K : Type} [LinearOrderedField K] [FloorRing K]

@[simp] theorem setRequest_frame (s : Sys K) (r : Nat) (q : nsGeolocationRequest) :
    (s.setRequest r q).mPendingCallbacks = s.mPendingCallbacks ∧
      (s.setRequest r q).mWatchingCallbacks = s.mWatchingCallbacks ∧
      (s.setRequest r q).mPendingRequests = s.mPendingRequests ∧
      (s.setRequest r q).mLastWatchId = s.mLastWatchId ∧
      (s.setRequest r q).mManifestURL = s.mManifestURL ∧
      (s.setRequest r q).mOwner = s.mOwner ∧
      (s.setRequest r q).mService = s.mService ∧
      (s.setRequest r q).mLastPosition = s.mLastPosition ∧
      (s.setRequest r q).mHigherAccuracy = s.mHigherAccuracy ∧
      (s.setRequest r q).mDisconnectTimer = s.mDisconnectTimer ∧
      (s.setRequest r q).sGeoEnabled = s.sGeoEnabled ∧
      (s.setRequest r q).sGeoInitPending = s.sGeoInitPending ∧
      (s.setRequest r q).blur = s.blur ∧
      (s.setRequest r q).queue = s.queue ∧
      (s.setRequest r q).prompting = s.prompting ∧
      (s.setRequest r q).callbacks = s.callbacks ∧
      (s.setRequest r q).effects = s.effects ∧
      (s.setRequest r q).crashed = s.crashed := by
  exact ⟨rfl, rfl, rfl, rfl, rfl, rfl, rfl, rfl, rfl, rfl, rfl, rfl, rfl, rfl, rfl, rfl, rfl, rfl⟩

@[simp] theorem modifyRequest_frame (s : Sys K) (r : Nat) (f : nsGeolocationRequest → nsGeolocationRequest) :
    (s.modifyRequest r f).mPendingCallbacks = s.mPendingCallbacks ∧
      (s.modifyRequest r f).mWatchingCallbacks = s.mWatchingCallbacks ∧
      (s.modifyRequest r f).mPendingRequests = s.mPendingRequests ∧
      (s.modifyRequest r f).mLastWatchId = s.mLastWatchId ∧
      (s.modifyRequest r f).mManifestURL = s.mManifestURL ∧
      (s.modifyRequest r f).mOwner = s.mOwner ∧
      (s.modifyRequest r f).mService = s.mService ∧
      (s.modifyRequest r f).mLastPosition = s.mLastPosition ∧
      (s.modifyRequest r f).mHigherAccuracy = s.mHigherAccuracy ∧
      (s.modifyRequest r f).mDisconnectTimer = s.mDisconnectTimer ∧
      (s.modifyRequest r f).sGeoEnabled = s.sGeoEnabled ∧
      (s.modifyRequest r f).sGeoInitPending = s.sGeoInitPending ∧
      (s.modifyRequest r f).blur = s.blur ∧
      (s.modifyRequest r f).queue = s.queue ∧
      (s.modifyRequest r f).prompting = s.prompting ∧
      (s.modifyRequest r f).callbacks = s.callbacks ∧
      (s.modifyRequest r f).effects = s.effects := by
  unfold Sys.modifyRequest
  split <;> exact ⟨rfl, rfl, rfl, rfl, rfl, rfl, rfl, rfl, rfl, rfl, rfl, rfl, rfl, rfl, rfl, rfl, rfl⟩

@[simp] theorem effect_frame (s : Sys K) (e : ServiceEffect) :
    (s.effect e).requests = s.requests ∧
      (s.effect e).mPendingCallbacks = s.mPendingCallbacks ∧
      (s.effect e).mWatchingCallbacks = s.mWatchingCallbacks ∧
      (s.effect e).mPendingRequests = s.mPendingRequests ∧
      (s.effect e).mLastWatchId = s.mLastWatchId ∧
      (s.effect e).mManifestURL = s.mManifestURL ∧
      (s.effect e).mOwner = s.mOwner ∧
      (s.effect e).mService = s.mService ∧
      (s.effect e).mLastPosition = s.mLastPosition ∧
      (s.effect e).mHigherAccuracy = s.mHigherAccuracy ∧
      (s.effect e).mDisconnectTimer = s.mDisconnectTimer ∧
      (s.effect e).sGeoEnabled = s.sGeoEnabled ∧
      (s.effect e).sGeoInitPending = s.sGeoInitPending ∧
      (s.effect e).blur = s.blur ∧
      (s.effect e).queue = s.queue ∧
      (s.effect e).prompting = s.prompting ∧
      (s.effect e).callbacks = s.callbacks ∧
      (s.effect e).crashed = s.crashed := by
  exact ⟨rfl, rfl, rfl, rfl, rfl, rfl, rfl, rfl, rfl, rfl, rfl, rfl, rfl, rfl, rfl, rfl, rfl, rfl⟩

@[simp] theorem Dispatch_frame (s : Sys K) (ev : Runnable K) :
    (NS_DispatchToMainThread s ev).requests = s.requests ∧
      (NS_DispatchToMainThread s ev).mPendingCallbacks = s.mPendingCallbacks ∧
      (NS_DispatchToMainThread s ev).mWatchingCallbacks = s.mWatchingCallbacks ∧
      (NS_DispatchToMainThread s ev).mPendingRequests = s.mPendingRequests ∧
      (NS_DispatchToMainThread s ev).mLastWatchId = s.mLastWatchId ∧
      (NS_DispatchToMainThread s ev).mManifestURL = s.mManifestURL ∧
      (NS_DispatchToMainThread s ev).mOwner = s.mOwner ∧
      (NS_DispatchToMainThread s ev).mService = s.mService ∧
      (NS_DispatchToMainThread s ev).mLastPosition = s.mLastPosition ∧
      (NS_DispatchToMainThread s ev).mHigherAccuracy = s.mHigherAccuracy ∧
      (NS_DispatchToMainThread s ev).mDisconnectTimer = s.mDisconnectTimer ∧
      (NS_DispatchToMainThread s ev).sGeoEnabled = s.sGeoEnabled ∧
      (NS_DispatchToMainThread s ev).sGeoInitPending = s.sGeoInitPending ∧
      (NS_DispatchToMainThread s ev).blur = s.blur ∧
      (NS_DispatchToMainThread s ev).prompting = s.prompting ∧
      (NS_DispatchToMainThread s ev).callbacks = s.callbacks ∧
      (NS_DispatchToMainThread s ev).effects = s.effects ∧
      (NS_DispatchToMainThread s ev).crashed = s.crashed := by
  exact ⟨rfl, rfl, rfl, rfl, rfl, rfl, rfl, rfl, rfl, rfl, rfl, rfl, rfl, rfl, rfl, rfl, rfl, rfl⟩

@[simp] theorem NotifyError_frame (s : Sys K) (r code : Nat) :
    (nsGeolocationRequest.NotifyError s r code).requests = s.requests ∧
      (nsGeolocationRequest.NotifyError s r code).mPendingCallbacks = s.mPendingCallbacks ∧
      (nsGeolocationRequest.NotifyError s r code).mWatchingCallbacks = s.mWatchingCallbacks ∧
      (nsGeolocationRequest.NotifyError s r code).mPendingRequests = s.mPendingRequests ∧
      (nsGeolocationRequest.NotifyError s r code).mLastWatchId = s.mLastWatchId ∧
      (nsGeolocationRequest.NotifyError s r code).mManifestURL = s.mManifestURL ∧
      (nsGeolocationRequest.NotifyError s r code).mOwner = s.mOwner ∧
      (nsGeolocationRequest.NotifyError s r code).mService = s.mService ∧
      (nsGeolocationRequest.NotifyError s r code).mLastPosition = s.mLastPosition ∧
      (nsGeolocationRequest.NotifyError s r code).mHigherAccuracy = s.mHigherAccuracy ∧
      (nsGeolocationRequest.NotifyError s r code).mDisconnectTimer = s.mDisconnectTimer ∧
      (nsGeolocationRequest.NotifyError s r code).sGeoEnabled = s.sGeoEnabled ∧
      (nsGeolocationRequest.NotifyError s r code).sGeoInitPending = s.sGeoInitPending ∧
      (nsGeolocationRequest.NotifyError s r code).blur = s.blur ∧
      (nsGeolocationRequest.NotifyError s r code).queue = s.queue ∧
      (nsGeolocationRequest.NotifyError s r code).prompting = s.prompting ∧
      (nsGeolocationRequest.NotifyError s r code).effects = s.effects ∧
      (nsGeolocationRequest.NotifyError s r code).crashed = s.crashed := by
  exact ⟨rfl, rfl, rfl, rfl, rfl, rfl, rfl, rfl, rfl, rfl, rfl, rfl, rfl, rfl, rfl, rfl, rfl, rfl⟩

@[simp] theorem RemoveRequest_frame (s : Sys K) (r : Nat) :
    (Geolocation.RemoveRequest s r).requests = s.requests ∧
      (Geolocation.RemoveRequest s r).mPendingRequests = s.mPendingRequests ∧
      (Geolocation.RemoveRequest s r).mLastWatchId = s.mLastWatchId ∧
      (Geolocation.RemoveRequest s r).mManifestURL = s.mManifestURL ∧
      (Geolocation.RemoveRequest s r).mOwner = s.mOwner ∧
      (Geolocation.RemoveRequest s r).mService = s.mService ∧
      (Geolocation.RemoveRequest s r).mLastPosition = s.mLastPosition ∧
      (Geolocation.RemoveRequest s r).mHigherAccuracy = s.mHigherAccuracy ∧
      (Geolocation.RemoveRequest s r).mDisconnectTimer = s.mDisconnectTimer ∧
      (Geolocation.RemoveRequest s r).sGeoEnabled = s.sGeoEnabled ∧
      (Geolocation.RemoveRequest s r).sGeoInitPending = s.sGeoInitPending ∧
      (Geolocation.RemoveRequest s r).blur = s.blur ∧
      (Geolocation.RemoveRequest s r).queue = s.queue ∧
      (Geolocation.RemoveRequest s r).prompting = s.prompting ∧
      (Geolocation.RemoveRequest s r).callbacks = s.callbacks ∧
      (Geolocation.RemoveRequest s r).effects = s.effects ∧
      (Geolocation.RemoveRequest s r).crashed = s.crashed := by
  exact ⟨rfl, rfl, rfl, rfl, rfl, rfl, rfl, rfl, rfl, rfl, rfl, rfl, rfl, rfl, rfl, rfl, rfl⟩

@[simp] theorem StopTimeoutTimer_frame (s : Sys K) (r : Nat) :
    (nsGeolocationRequest.StopTimeoutTimer s r).mPendingCallbacks = s.mPendingCallbacks ∧
      (nsGeolocationRequest.StopTimeoutTimer s r).mWatchingCallbacks = s.mWatchingCallbacks ∧
      (nsGeolocationRequest.StopTimeoutTimer s r).mPendingRequests = s.mPendingRequests ∧
      (nsGeolocationRequest.StopTimeoutTimer s r).mLastWatchId = s.mLastWatchId ∧
      (nsGeolocationRequest.StopTimeoutTimer s r).mManifestURL = s.mManifestURL ∧
      (nsGeolocationRequest.StopTimeoutTimer s r).mOwner = s.mOwner ∧
      (nsGeolocationRequest.StopTimeoutTimer s r).mService = s.mService ∧
      (nsGeolocationRequest.StopTimeoutTimer s r).mLastPosition = s.mLastPosition ∧
      (nsGeolocationRequest.StopTimeoutTimer s r).mHigherAccuracy = s.mHigherAccuracy ∧
      (nsGeolocationRequest.StopTimeoutTimer s r).mDisconnectTimer = s.mDisconnectTimer ∧
      (nsGeolocationRequest.StopTimeoutTimer s r).sGeoEnabled = s.sGeoEnabled ∧
      (nsGeolocationRequest.StopTimeoutTimer s r).sGeoInitPending = s.sGeoInitPending ∧
      (nsGeolocationRequest.StopTimeoutTimer s r).blur = s.blur ∧
      (nsGeolocationRequest.StopTimeoutTimer s r).queue = s.queue ∧
      (nsGeolocationRequest.StopTimeoutTimer s r).prompting = s.prompting ∧
      (nsGeolocationRequest.StopTimeoutTimer s r).callbacks = s.callbacks ∧
      (nsGeolocationRequest.StopTimeoutTimer s r).effects = s.effects := by
  unfold nsGeolocationRequest.StopTimeoutTimer
  simp

@[simp] theorem SetTimeoutTimer_frame (s : Sys K) (r : Nat) :
    (nsGeolocationRequest.SetTimeoutTimer s r).mPendingCallbacks = s.mPendingCallbacks ∧
      (nsGeolocationRequest.SetTimeoutTimer s r).mWatchingCallbacks = s.mWatchingCallbacks ∧
      (nsGeolocationRequest.SetTimeoutTimer s r).mPendingRequests = s.mPendingRequests ∧
      (nsGeolocationRequest.SetTimeoutTimer s r).mLastWatchId = s.mLastWatchId ∧
      (nsGeolocationRequest.SetTimeoutTimer s r).mManifestURL = s.mManifestURL ∧
      (nsGeolocationRequest.SetTimeoutTimer s r).mOwner = s.mOwner ∧
      (nsGeolocationRequest.SetTimeoutTimer s r).mService = s.mService ∧
      (nsGeolocationRequest.SetTimeoutTimer s r).mLastPosition = s.mLastPosition ∧
      (nsGeolocationRequest.SetTimeoutTimer s r).mHigherAccuracy = s.mHigherAccuracy ∧
      (nsGeolocationRequest.SetTimeoutTimer s r).mDisconnectTimer = s.mDisconnectTimer ∧
      (nsGeolocationRequest.SetTimeoutTimer s r).sGeoEnabled = s.sGeoEnabled ∧
      (nsGeolocationRequest.SetTimeoutTimer s r).sGeoInitPending = s.sGeoInitPending ∧
      (nsGeolocationRequest.SetTimeoutTimer s r).blur = s.blur ∧
      (nsGeolocationRequest.SetTimeoutTimer s r).queue = s.queue ∧
      (nsGeolocationRequest.SetTimeoutTimer s r).prompting = s.prompting ∧
      (nsGeolocationRequest.SetTimeoutTimer s r).callbacks = s.callbacks ∧
      (nsGeolocationRequest.SetTimeoutTimer s r).effects = s.effects := by
  unfold nsGeolocationRequest.SetTimeoutTimer
  simp

@[simp] theorem ProviderSetHighAccuracy_frame (s : Sys K) (env : Env K) (v : Bool) :
    (ProviderSetHighAccuracy env s v).requests = s.requests ∧
      (ProviderSetHighAccuracy env s v).mPendingCallbacks = s.mPendingCallbacks ∧
      (ProviderSetHighAccuracy env s v).mWatchingCallbacks = s.mWatchingCallbacks ∧
      (ProviderSetHighAccuracy env s v).mPendingRequests = s.mPendingRequests ∧
      (ProviderSetHighAccuracy env s v).mLastWatchId = s.mLastWatchId ∧
      (ProviderSetHighAccuracy env s v).mManifestURL = s.mManifestURL ∧
      (ProviderSetHighAccuracy env s v).mOwner = s.mOwner ∧
      (ProviderSetHighAccuracy env s v).mService = s.mService ∧
      (ProviderSetHighAccuracy env s v).mLastPosition = s.mLastPosition ∧
      (ProviderSetHighAccuracy env s v).mHigherAccuracy = s.mHigherAccuracy ∧
      (ProviderSetHighAccuracy env s v).mDisconnectTimer = s.mDisconnectTimer ∧
      (ProviderSetHighAccuracy env s v).sGeoEnabled = s.sGeoEnabled ∧
      (ProviderSetHighAccuracy env s v).sGeoInitPending = s.sGeoInitPending ∧
      (ProviderSetHighAccuracy env s v).blur = s.blur ∧
      (ProviderSetHighAccuracy env s v).queue = s.queue ∧
      (ProviderSetHighAccuracy env s v).prompting = s.prompting ∧
      (ProviderSetHighAccuracy env s v).callbacks = s.callbacks := by
  unfold ProviderSetHighAccuracy
  split <;> simp

@[simp] theorem UpdateAccuracy_frame (s : Sys K) (env : Env K) (v : Bool) :
    (nsGeolocationService.UpdateAccuracy env s v).requests = s.requests ∧
      (nsGeolocationService.UpdateAccuracy env s v).mPendingCallbacks = s.mPendingCallbacks ∧
      (nsGeolocationService.UpdateAccuracy env s v).mWatchingCallbacks = s.mWatchingCallbacks ∧
      (nsGeolocationService.UpdateAccuracy env s v).mPendingRequests = s.mPendingRequests ∧
      (nsGeolocationService.UpdateAccuracy env s v).mLastWatchId = s.mLastWatchId ∧
      (nsGeolocationService.UpdateAccuracy env s v).mManifestURL = s.mManifestURL ∧
      (nsGeolocationService.UpdateAccuracy env s v).mOwner = s.mOwner ∧
      (nsGeolocationService.UpdateAccuracy env s v).mService = s.mService ∧
      (nsGeolocationService.UpdateAccuracy env s v).mLastPosition = s.mLastPosition ∧
      (nsGeolocationService.UpdateAccuracy env s v).mDisconnectTimer = s.mDisconnectTimer ∧
      (nsGeolocationService.UpdateAccuracy env s v).sGeoEnabled = s.sGeoEnabled ∧
      (nsGeolocationService.UpdateAccuracy env s v).sGeoInitPending = s.sGeoInitPending ∧
      (nsGeolocationService.UpdateAccuracy env s v).blur = s.blur ∧
      (nsGeolocationService.UpdateAccuracy env s v).queue = s.queue ∧
      (nsGeolocationService.UpdateAccuracy env s v).prompting = s.prompting ∧
      (nsGeolocationService.UpdateAccuracy env s v).callbacks = s.callbacks := by
  unfold nsGeolocationService.UpdateAccuracy
  simp only []
  split
  · simp
  · split <;> split <;> simp

@[simp] theorem RequestShutdown_frame (s : Sys K) (env : Env K) (r : Nat) :
    (nsGeolocationRequest.Shutdown env s r).mPendingCallbacks = s.mPendingCallbacks ∧
      (nsGeolocationRequest.Shutdown env s r).mWatchingCallbacks = s.mWatchingCallbacks ∧
      (nsGeolocationRequest.Shutdown env s r).mPendingRequests = s.mPendingRequests ∧
      (nsGeolocationRequest.Shutdown env s r).mLastWatchId = s.mLastWatchId ∧
      (nsGeolocationRequest.Shutdown env s r).mManifestURL = s.mManifestURL ∧
      (nsGeolocationRequest.Shutdown env s r).mOwner = s.mOwner ∧
      (nsGeolocationRequest.Shutdown env s r).mService = s.mService ∧
      (nsGeolocationRequest.Shutdown env s r).mLastPosition = s.mLastPosition ∧
      (nsGeolocationRequest.Shutdown env s r).mDisconnectTimer = s.mDisconnectTimer ∧
      (nsGeolocationRequest.Shutdown env s r).sGeoEnabled = s.sGeoEnabled ∧
      (nsGeolocationRequest.Shutdown env s r).sGeoInitPending = s.sGeoInitPending ∧
      (nsGeolocationRequest.Shutdown env s r).blur = s.blur ∧
      (nsGeolocationRequest.Shutdown env s r).queue = s.queue ∧
      (nsGeolocationRequest.Shutdown env s r).prompting = s.prompting ∧
      (nsGeolocationRequest.Shutdown env s r).callbacks = s.callbacks := by
  unfold nsGeolocationRequest.Shutdown
  split
  · simp
  · simp only []
    split
    · split <;> simp
    · simp

@[simp] theorem NotifyAllowedRequest_frame (s : Sys K) (r : Nat) :
    (Geolocation.NotifyAllowedRequest s r).requests = s.requests ∧
      (Geolocation.NotifyAllowedRequest s r).mPendingRequests = s.mPendingRequests ∧
      (Geolocation.NotifyAllowedRequest s r).mLastWatchId = s.mLastWatchId ∧
      (Geolocation.NotifyAllowedRequest s r).mManifestURL = s.mManifestURL ∧
      (Geolocation.NotifyAllowedRequest s r).mOwner = s.mOwner ∧
      (Geolocation.NotifyAllowedRequest s r).mService = s.mService ∧
      (Geolocation.NotifyAllowedRequest s r).mLastPosition = s.mLastPosition ∧
      (Geolocation.NotifyAllowedRequest s r).mHigherAccuracy = s.mHigherAccuracy ∧
      (Geolocation.NotifyAllowedRequest s r).mDisconnectTimer = s.mDisconnectTimer ∧
      (Geolocation.NotifyAllowedRequest s r).sGeoEnabled = s.sGeoEnabled ∧
      (Geolocation.NotifyAllowedRequest s r).sGeoInitPending = s.sGeoInitPending ∧
      (Geolocation.NotifyAllowedRequest s r).blur = s.blur ∧
      (Geolocation.NotifyAllowedRequest s r).queue = s.queue ∧
      (Geolocation.NotifyAllowedRequest s r).prompting = s.prompting ∧
      (Geolocation.NotifyAllowedRequest s r).callbacks = s.callbacks ∧
      (Geolocation.NotifyAllowedRequest s r).effects = s.effects := by
  unfold Geolocation.NotifyAllowedRequest
  split
  · simp
  · split <;> simp

@[simp] theorem RequestUpdate_frame (s : Sys K) (r : Nat) (p : Option (nsGeoPosition K)) :
    (nsGeolocationRequest.Update s r p).requests = s.requests ∧
      (nsGeolocationRequest.Update s r p).mPendingCallbacks = s.mPendingCallbacks ∧
      (nsGeolocationRequest.Update s r p).mWatchingCallbacks = s.mWatchingCallbacks ∧
      (nsGeolocationRequest.Update s r p).mPendingRequests = s.mPendingRequests ∧
      (nsGeolocationRequest.Update s r p).mLastWatchId = s.mLastWatchId ∧
      (nsGeolocationRequest.Update s r p).mManifestURL = s.mManifestURL ∧
      (nsGeolocationRequest.Update s r p).mOwner = s.mOwner ∧
      (nsGeolocationRequest.Update s r p).mService = s.mService ∧
      (nsGeolocationRequest.Update s r p).mLastPosition = s.mLastPosition ∧
      (nsGeolocationRequest.Update s r p).mHigherAccuracy = s.mHigherAccuracy ∧
      (nsGeolocationRequest.Update s r p).mDisconnectTimer = s.mDisconnectTimer ∧
      (nsGeolocationRequest.Update s r p).sGeoEnabled = s.sGeoEnabled ∧
      (nsGeolocationRequest.Update s r p).sGeoInitPending = s.sGeoInitPending ∧
      (nsGeolocationRequest.Update s r p).blur = s.blur ∧
      (nsGeolocationRequest.Update s r p).prompting = s.prompting ∧
      (nsGeolocationRequest.Update s r p).callbacks = s.callbacks ∧
      (nsGeolocationRequest.Update s r p).effects = s.effects ∧
      (nsGeolocationRequest.Update s r p).crashed = s.crashed := by
  exact ⟨rfl, rfl, rfl, rfl, rfl, rfl, rfl, rfl, rfl, rfl, rfl, rfl, rfl, rfl, rfl, rfl, rfl, rfl⟩

@[simp] theorem SetCachedPosition_frame (s : Sys K) (p : Option (nsGeoPosition K)) :
    (nsGeolocationService.SetCachedPosition s p).requests = s.requests ∧
      (nsGeolocationService.SetCachedPosition s p).mPendingCallbacks = s.mPendingCallbacks ∧
      (nsGeolocationService.SetCachedPosition s p).mWatchingCallbacks = s.mWatchingCallbacks ∧
      (nsGeolocationService.SetCachedPosition s p).mPendingRequests = s.mPendingRequests ∧
      (nsGeolocationService.SetCachedPosition s p).mLastWatchId = s.mLastWatchId ∧
      (nsGeolocationService.SetCachedPosition s p).mManifestURL = s.mManifestURL ∧
      (nsGeolocationService.SetCachedPosition s p).mOwner = s.mOwner ∧
      (nsGeolocationService.SetCachedPosition s p).mService = s.mService ∧
      (nsGeolocationService.SetCachedPosition s p).mHigherAccuracy = s.mHigherAccuracy ∧
      (nsGeolocationService.SetCachedPosition s p).mDisconnectTimer = s.mDisconnectTimer ∧
      (nsGeolocationService.SetCachedPosition s p).sGeoEnabled = s.sGeoEnabled ∧
      (nsGeolocationService.SetCachedPosition s p).sGeoInitPending = s.sGeoInitPending ∧
      (nsGeolocationService.SetCachedPosition s p).blur = s.blur ∧
      (nsGeolocationService.SetCachedPosition s p).queue = s.queue ∧
      (nsGeolocationService.SetCachedPosition s p).prompting = s.prompting ∧
      (nsGeolocationService.SetCachedPosition s p).callbacks = s.callbacks ∧
      (nsGeolocationService.SetCachedPosition s p).effects = s.effects ∧
      (nsGeolocationService.SetCachedPosition s p).crashed = s.crashed := by
  exact ⟨rfl, rfl, rfl, rfl, rfl, rfl, rfl, rfl, rfl, rfl, rfl, rfl, rfl, rfl, rfl, rfl, rfl, rfl⟩

@[simp] theorem SetDisconnectTimer_frame (s : Sys K) :
    (nsGeolocationService.SetDisconnectTimer s).requests = s.requests ∧
      (nsGeolocationService.SetDisconnectTimer s).mPendingCallbacks = s.mPendingCallbacks ∧
      (nsGeolocationService.SetDisconnectTimer s).mWatchingCallbacks = s.mWatchingCallbacks ∧
      (nsGeolocationService.SetDisconnectTimer s).mPendingRequests = s.mPendingRequests ∧
      (nsGeolocationService.SetDisconnectTimer s).mLastWatchId = s.mLastWatchId ∧
      (nsGeolocationService.SetDisconnectTimer s).mManifestURL = s.mManifestURL ∧
      (nsGeolocationService.SetDisconnectTimer s).mOwner = s.mOwner ∧
      (nsGeolocationService.SetDisconnectTimer s).mService = s.mService ∧
      (nsGeolocationService.SetDisconnectTimer s).mLastPosition = s.mLastPosition ∧
      (nsGeolocationService.SetDisconnectTimer s).mHigherAccuracy = s.mHigherAccuracy ∧
      (nsGeolocationService.SetDisconnectTimer s).sGeoEnabled = s.sGeoEnabled ∧
      (nsGeolocationService.SetDisconnectTimer s).sGeoInitPending = s.sGeoInitPending ∧
      (nsGeolocationService.SetDisconnectTimer s).blur = s.blur ∧
      (nsGeolocationService.SetDisconnectTimer s).queue = s.queue ∧
      (nsGeolocationService.SetDisconnectTimer s).prompting = s.prompting ∧
      (nsGeolocationService.SetDisconnectTimer s).callbacks = s.callbacks ∧
      (nsGeolocationService.SetDisconnectTimer s).effects = s.effects ∧
      (nsGeolocationService.SetDisconnectTimer s).crashed = s.crashed := by
  exact ⟨rfl, rfl, rfl, rfl, rfl, rfl, rfl, rfl, rfl, rfl, rfl, rfl, rfl, rfl, rfl, rfl, rfl, rfl⟩

@[simp] theorem StopDevice_frame (s : Sys K) (env : Env K) :
    (nsGeolocationService.StopDevice env s).requests = s.requests ∧
      (nsGeolocationService.StopDevice env s).mPendingCallbacks = s.mPendingCallbacks ∧
      (nsGeolocationService.StopDevice env s).mWatchingCallbacks = s.mWatchingCallbacks ∧
      (nsGeolocationService.StopDevice env s).mPendingRequests = s.mPendingRequests ∧
      (nsGeolocationService.StopDevice env s).mLastWatchId = s.mLastWatchId ∧
      (nsGeolocationService.StopDevice env s).mManifestURL = s.mManifestURL ∧
      (nsGeolocationService.StopDevice env s).mOwner = s.mOwner ∧
      (nsGeolocationService.StopDevice env s).mService = s.mService ∧
      (nsGeolocationService.StopDevice env s).mLastPosition = s.mLastPosition ∧
      (nsGeolocationService.StopDevice env s).sGeoEnabled = s.sGeoEnabled ∧
      (nsGeolocationService.StopDevice env s).sGeoInitPending = s.sGeoInitPending ∧
      (nsGeolocationService.StopDevice env s).blur = s.blur ∧
      (nsGeolocationService.StopDevice env s).queue = s.queue ∧
      (nsGeolocationService.StopDevice env s).prompting = s.prompting ∧
      (nsGeolocationService.StopDevice env s).callbacks = s.callbacks ∧
      (nsGeolocationService.StopDevice env s).crashed = s.crashed := by
  unfold nsGeolocationService.StopDevice
  simp only []
  split
  · simp
  · split
    · simp
    · split <;> simp

@[simp] theorem GeolocationShutdown_frame (s : Sys K) (env : Env K) :
    (Geolocation.Shutdown env s).requests = s.requests ∧
      (Geolocation.Shutdown env s).mPendingRequests = s.mPendingRequests ∧
      (Geolocation.Shutdown env s).mLastWatchId = s.mLastWatchId ∧
      (Geolocation.Shutdown env s).mManifestURL = s.mManifestURL ∧
      (Geolocation.Shutdown env s).mOwner = s.mOwner ∧
      (Geolocation.Shutdown env s).mLastPosition = s.mLastPosition ∧
      (Geolocation.Shutdown env s).mDisconnectTimer = s.mDisconnectTimer ∧
      (Geolocation.Shutdown env s).sGeoEnabled = s.sGeoEnabled ∧
      (Geolocation.Shutdown env s).sGeoInitPending = s.sGeoInitPending ∧
      (Geolocation.Shutdown env s).blur = s.blur ∧
      (Geolocation.Shutdown env s).queue = s.queue ∧
      (Geolocation.Shutdown env s).prompting = s.prompting ∧
      (Geolocation.Shutdown env s).callbacks = s.callbacks := by
  unfold Geolocation.Shutdown
  simp only []
  split <;> simp

end Frames

section TimerTheorems
variable {K : Type} [LinearOrderedField K] [FloorRing K]

theorem StopTimeoutTimer_of_some (s : Sys K) (r : Nat) (q : nsGeolocationRequest)
    (hq : s.requests[r]? = some q) :
    nsGeolocationRequest.StopTimeoutTimer s r = s.setRequest r { q with mTimeoutTimer := none } := by
  simp [nsGeolocationRequest.StopTimeoutTimer, Sys.modifyRequest, hq]

theorem setRequest_getElem?_self (s : Sys K) (r : Nat) (q q' : nsGeolocationRequest)
    (hq : s.requests[r]? = some q) : (s.setRequest r q').requests[r]? = some q' := by
  have hlt : r < s.requests.length := by
    rcases Nat.lt_or_ge r s.requests.length with h | h
    · exact h
    · rw [List.getElem?_eq_none h] at hq; cases hq
  simp [Sys.setRequest, List.getElem?_set, hlt]

theorem modifyRequest_of_some (s : Sys K) (r : Nat) (q : nsGeolocationRequest)
    (f : nsGeolocationRequest → nsGeolocationRequest) (hq : s.requests[r]? = some q) :
    s.modifyRequest r f = s.setRequest r (f q) := by
  simp [Sys.modifyRequest, hq]

theorem setRequest_setRequest (s : Sys K) (r : Nat) (q q' : nsGeolocationRequest) :
    (s.setRequest r q).setRequest r q' = s.setRequest r q' := by
  simp [Sys.setRequest, List.set_set]

/-- C16: for a request with options, `SetTimeoutTimer` leaves the state as it
is except for the timer of the request, which ends up not armed when the
timeout option is 0 and armed once otherwise, with delay 0 for a negative
timeout, 10 for a timeout between 1 and 9, and the timeout itself from 10 on;
the timer armed before plays no part: it is cancelled first, the outcome being
that of the call made after `StopTimeoutTimer`. -/
theorem SetTimeoutTimer_arms (s : Sys K) (r : Nat) (q : nsGeolocationRequest)
    (o : PositionOptions) (hq : s.requests[r]? = some q) (ho : q.mOptions = some o) :
    ∃ timer : Option Int,
      nsGeolocationRequest.SetTimeoutTimer s r =
          s.setRequest r { q with mTimeoutTimer := timer } ∧
        (o.mTimeout = 0 → timer = none) ∧
        (o.mTimeout < 0 → timer = some 0) ∧
        (0 < o.mTimeout → o.mTimeout < 10 → timer = some 10) ∧
        (10 ≤ o.mTimeout → timer = some o.mTimeout) ∧
        nsGeolocationRequest.SetTimeoutTimer s r =
          nsGeolocationRequest.SetTimeoutTimer (nsGeolocationRequest.StopTimeoutTimer s r) r := by
  have hstop := StopTimeoutTimer_of_some s r q hq
  have hq1 := setRequest_getElem?_self s r q { q with mTimeoutTimer := none } hq
  have hstop2 : nsGeolocationRequest.StopTimeoutTimer
      (nsGeolocationRequest.StopTimeoutTimer s r) r = nsGeolocationRequest.StopTimeoutTimer s r := by
    rw [hstop, StopTimeoutTimer_of_some _ r _ hq1, setRequest_setRequest]
  have hidem : nsGeolocationRequest.SetTimeoutTimer s r =
      nsGeolocationRequest.SetTimeoutTimer (nsGeolocationRequest.StopTimeoutTimer s r) r := by
    unfold nsGeolocationRequest.SetTimeoutTimer
    simp only [hstop2]
  refine ⟨if o.mTimeout = 0 then none
      else some (if o.mTimeout < 0 then 0 else if o.mTimeout < 10 then 10 else o.mTimeout),
    ?_, ?_, ?_, ?_, ?_, hidem⟩
  · unfold nsGeolocationRequest.SetTimeoutTimer
    simp only []
    rw [hstop, modifyRequest_of_some _ r _ _ hq1, setRequest_setRequest]
    simp only [ho]
    by_cases h0 : o.mTimeout = 0
    · simp [h0]
    · simp [h0]
  · intro h; simp [h]
  · intro h; have : o.mTimeout ≠ 0 := by omega
    simp [this, h]
  · intro h1 h2
    have : o.mTimeout ≠ 0 := by omega
    have h3 : ¬ o.mTimeout < 0 := by omega
    simp [this, h3, h2]
  · intro h
    have : o.mTimeout ≠ 0 := by omega
    have h3 : ¬ o.mTimeout < 0 := by omega
    have h4 : ¬ o.mTimeout < 10 := by omega
    simp [this, h3, h4]

end TimerTheorems

/-- Witness for C16: a request whose timer is armed with delay 77 and whose
timeout option is 3 ends with its timer armed with delay 10. -/
theorem SetTimeoutTimer_arms_witness :
    ∃ timer : Option Int,
      nsGeolocationRequest.SetTimeoutTimer { exampleInit with requests := [armedRequest 3] } 0 =
          Sys.setRequest { exampleInit with requests := [armedRequest 3] } 0
            { armedRequest 3 with mTimeoutTimer := timer } ∧
        timer = some 10 := by
  obtain ⟨timer, h, _, _, h10, _, _⟩ :=
    SetTimeoutTimer_arms { exampleInit with requests := [armedRequest 3] } 0 (armedRequest 3)
      { mEnableHighAccuracy := false, mTimeout := 3, mMaximumAge := 0 } rfl rfl
  exact ⟨timer, h, h10 (by decide) (by decide)⟩

section CeilingTheorems
variable {K : Type} [LinearOrderedField K] [FloorRing K]

theorem GetCurrentPositionReady_ne_notAvailable (env : Env K) (s : Sys K) (r : Nat) :
    (Geolocation.GetCurrentPositionReady env s r).2 ≠ nsresult.NS_ERROR_NOT_AVAILABLE := by
  unfold Geolocation.GetCurrentPositionReady
  split
  · simp
  · split <;> simp

theorem WatchPositionReady_ne_notAvailable (env : Env K) (s : Sys K) (r : Nat) :
    (Geolocation.WatchPositionReady env s r).2 ≠ nsresult.NS_ERROR_NOT_AVAILABLE := by
  unfold Geolocation.WatchPositionReady
  split
  · simp
  · split <;> simp

/-- C17: `GetCurrentPosition` returns `NS_ERROR_NOT_AVAILABLE` and leaves the
state as it is when the pending array holds more than 1500 entries, and does
not return `NS_ERROR_NOT_AVAILABLE` when it holds 1500 or fewer; the same for
`WatchPosition` and the watching array.  After a rejection no request object
exists for the call, no watch id is used up, and every later run is the run
that would have happened without the call, so no callback is ever invoked for
it. -/
theorem requests_ceiling (env : Env K) (s : Sys K) (options : Option PositionOptions) :
    (1500 < s.mPendingCallbacks.length →
        Geolocation.GetCurrentPosition env s options = (s, nsresult.NS_ERROR_NOT_AVAILABLE) ∧
        ∀ later, run (step env s (Action.GetCurrentPosition options)) later = run s later) ∧
      (s.mPendingCallbacks.length ≤ 1500 →
        (Geolocation.GetCurrentPosition env s options).2 ≠ nsresult.NS_ERROR_NOT_AVAILABLE) ∧
      (1500 < s.mWatchingCallbacks.length →
        Geolocation.WatchPosition env s options = (s, nsresult.NS_ERROR_NOT_AVAILABLE) ∧
        ∀ later, run (step env s (Action.WatchPosition options)) later = run s later) ∧
      (s.mWatchingCallbacks.length ≤ 1500 →
        (Geolocation.WatchPosition env s options).2 ≠ nsresult.NS_ERROR_NOT_AVAILABLE) := by
  refine ⟨fun h => ?_, fun h => ?_, fun h => ?_, fun h => ?_⟩
  · have hg : Geolocation.GetCurrentPosition env s options =
        (s, nsresult.NS_ERROR_NOT_AVAILABLE) := by
      simp [Geolocation.GetCurrentPosition, MAX_GEO_REQUESTS_PER_WINDOW, h]
    refine ⟨hg, fun later => ?_⟩
    have : step env s (Action.GetCurrentPosition options) = s := by
      unfold step
      split
      · rfl
      · simp [hg]
    rw [this]
  · have hn : ¬ s.mPendingCallbacks.length > MAX_GEO_REQUESTS_PER_WINDOW := by
      simp [MAX_GEO_REQUESTS_PER_WINDOW]; omega
    unfold Geolocation.GetCurrentPosition
    rw [if_neg hn]
    simp only
    split
    · simp
    · split
      · simp
      · split
        · simp
        · exact GetCurrentPositionReady_ne_notAvailable _ _ _
  · have hg : Geolocation.WatchPosition env s options =
        (s, nsresult.NS_ERROR_NOT_AVAILABLE) := by
      simp [Geolocation.WatchPosition, MAX_GEO_REQUESTS_PER_WINDOW, h]
    refine ⟨hg, fun later => ?_⟩
    have : step env s (Action.WatchPosition options) = s := by
      unfold step
      split
      · rfl
      · simp [hg]
    rw [this]
  · have hn : ¬ s.mWatchingCallbacks.length > MAX_GEO_REQUESTS_PER_WINDOW := by
      simp [MAX_GEO_REQUESTS_PER_WINDOW]; omega
    unfold Geolocation.WatchPosition
    rw [if_neg hn]
    simp only
    split
    · simp
    · split
      · simp
      · split
        · simp
        · exact WatchPositionReady_ne_notAvailable _ _ _

end CeilingTheorems

/-- Witness for C17: with 1501 entries in each array both calls are rejected
and leave the state as it is; on the fresh session neither is rejected for
this reason. -/
theorem requests_ceiling_witness :
    Geolocation.GetCurrentPosition exampleEnv fullSys none =
        (fullSys, nsresult.NS_ERROR_NOT_AVAILABLE) ∧
      Geolocation.WatchPosition exampleEnv fullSys none =
        (fullSys, nsresult.NS_ERROR_NOT_AVAILABLE) ∧
      (Geolocation.GetCurrentPosition exampleEnv exampleInit none).2 ≠
        nsresult.NS_ERROR_NOT_AVAILABLE ∧
      (Geolocation.WatchPosition exampleEnv exampleInit none).2 ≠
        nsresult.NS_ERROR_NOT_AVAILABLE :=
  ⟨((requests_ceiling exampleEnv fullSys none).1
      (by show 1500 < (List.replicate 1501 0).length
          rw [List.length_replicate]; omega)).1,
    ((requests_ceiling exampleEnv fullSys none).2.2.1
      (by show 1500 < (List.replicate 1501 0).length
          rw [List.length_replicate]; omega)).1,
    (requests_ceiling exampleEnv exampleInit none).2.1 (by simp [exampleInit, Sys.init]),
    (requests_ceiling exampleEnv exampleInit none).2.2.2 (by simp [exampleInit, Sys.init])⟩
section CacheTheorems
variable {K : Type} [LinearOrderedField K] [FloorRing K]

theorem DOMTimeStamp_of_range (i : Int) (h0 : 0 ≤ i) (h1 : i < 2 ^ 64) :
    DOMTimeStamp i = i.toNat := by
  unfold DOMTimeStamp
  rw [Int.emod_eq_of_lt h0 h1]

theorem tdiv_msec_lt (t : Int) (h : t < 2 ^ 63) : t.tdiv PR_USEC_PER_MSEC < 2 ^ 64 := by
  unfold PR_USEC_PER_MSEC
  rcases Int.lt_or_le t 0 with hneg | hpos
  · have : t.tdiv 1000 ≤ 0 := by
      have h := Int.tdiv_nonneg (a := -t) (b := 1000) (by omega) (by omega)
      rw [Int.neg_tdiv] at h
      omega
    omega
  · have : t.tdiv 1000 ≤ t := by
      rw [Int.tdiv_eq_ediv hpos (by omega)]
      omega
    omega

/-- C12: for a request with options, at a time `now` (in ms) that is at least
`maximumAge`, when `maximumAge > 0` the local `canUseCache` of `Allow` is true
exactly when a cached position exists, the cache was captured at high accuracy
if the request wants high accuracy, and `now - cachedTimestamp ≤ maximumAge`;
when `maximumAge = 0` it is false. -/
theorem canUseCache_iff (env : Env K) (s : Sys K) (q : nsGeolocationRequest)
    (o : PositionOptions) (ho : q.mOptions = some o)
    (hnow : (o.mMaximumAge : Int) ≤ env.PR_Now.tdiv PR_USEC_PER_MSEC)
    (hclock : env.PR_Now < 2 ^ 63) :
    (0 < o.mMaximumAge →
        (nsGeolocationRequest.Allow.canUseCache env s q = true ↔
          ∃ p, s.mLastPosition.position = some p ∧
            (q.WantsHighAccuracy = true → s.mLastPosition.isHighAccuracy = true) ∧
            env.PR_Now.tdiv PR_USEC_PER_MSEC - (p.timestamp : Int) ≤ (o.mMaximumAge : Int))) ∧
      (o.mMaximumAge = 0 → nsGeolocationRequest.Allow.canUseCache env s q = false) := by
  constructor
  · intro hage
    have hlt := tdiv_msec_lt env.PR_Now hclock
    have hts : DOMTimeStamp (env.PR_Now.tdiv PR_USEC_PER_MSEC - (o.mMaximumAge : Int)) =
        (env.PR_Now.tdiv PR_USEC_PER_MSEC - (o.mMaximumAge : Int)).toNat :=
      DOMTimeStamp_of_range _ (by omega) (by omega)
    unfold nsGeolocationRequest.Allow.canUseCache
    cases hp : s.mLastPosition.position with
    | none => simp
    | some p =>
      simp only [ho, hage, if_true, hts, Bool.and_eq_true, decide_eq_true_eq]
      constructor
      · rintro ⟨hacc, htime⟩
        refine ⟨p, rfl, ?_, ?_⟩
        · intro hw
          rw [hw] at hacc
          exact hacc rfl
        · omega
      · rintro ⟨p', hp', hacc, htime⟩
        cases hp'
        refine ⟨?_, ?_⟩
        · intro hw
          exact hacc hw
        · omega
  · intro h0
    unfold nsGeolocationRequest.Allow.canUseCache
    cases hp : s.mLastPosition.position with
    | none => rfl
    | some p => simp [ho, h0]

end CacheTheorems

/-- Witness for C12: at time 10000 ms, with `maximumAge` 5000, a cached
position captured at 4000 (6000 ms ago) is not used and one captured at 6000
(4000 ms ago) is. -/
theorem canUseCache_iff_witness :
    nsGeolocationRequest.Allow.canUseCache cacheEnv (cachedSys 4000) maxAgeRequest = false ∧
      nsGeolocationRequest.Allow.canUseCache cacheEnv (cachedSys 6000) maxAgeRequest = true := by
  have h4 := (canUseCache_iff cacheEnv (cachedSys 4000) maxAgeRequest
    { mEnableHighAccuracy := false, mTimeout := 0, mMaximumAge := 5000 } rfl
    (by decide) (by decide)).1 (by decide)
  have h6 := (canUseCache_iff cacheEnv (cachedSys 6000) maxAgeRequest
    { mEnableHighAccuracy := false, mTimeout := 0, mMaximumAge := 5000 } rfl
    (by decide) (by decide)).1 (by decide)
  constructor
  · rw [Bool.eq_false_iff]
    intro h
    obtain ⟨p, hp, _, ht⟩ := h4.mp h
    have hp' : p = positionAt 4000 := by
      have : (cachedSys 4000).mLastPosition.position = some (positionAt 4000) := rfl
      rw [this] at hp
      exact (Option.some.inj hp).symm
    rw [hp'] at ht
    revert ht
    decide
  · exact h6.mpr ⟨positionAt 6000, rfl, by decide, by decide⟩
section CachedAllow
variable {K : Type} [LinearOrderedField K] [FloorRing K]

theorem ProviderSetHighAccuracy_effects (env : Env K) (s : Sys K) (v : Bool) :
    ∃ rest, (ProviderSetHighAccuracy env s v).effects = s.effects ++ rest := by
  unfold ProviderSetHighAccuracy
  split
  · exact ⟨[_], rfl⟩
  · exact ⟨[], by simp⟩

theorem UpdateAccuracy_effects (env : Env K) (s : Sys K) (v : Bool) :
    ∃ rest, (nsGeolocationService.UpdateAccuracy env s v).effects = s.effects ++ rest := by
  unfold nsGeolocationService.UpdateAccuracy
  simp only []
  split
  · exact ⟨_, rfl⟩
  · have h1 : ∃ rest, (if (!s.mHigherAccuracy &&
          (v || nsGeolocationService.HighAccuracyRequested s)) = true
        then ProviderSetHighAccuracy env s true else s).effects = s.effects ++ rest := by
      split
      · exact ProviderSetHighAccuracy_effects env s true
      · exact ⟨[], by simp⟩
    obtain ⟨rest1, hrest1⟩ := h1
    split
    · obtain ⟨rest2, hrest2⟩ := ProviderSetHighAccuracy_effects env
        (if (!s.mHigherAccuracy && (v || nsGeolocationService.HighAccuracyRequested s)) = true
          then ProviderSetHighAccuracy env s true else s) false
      exact ⟨rest1 ++ rest2, by simp only [hrest2, hrest1, List.append_assoc]⟩
    · exact ⟨rest1, hrest1⟩

/-- On an enabled and initialised service, in a process other than a content
process, with an observer service and a provider whose `Startup` and `Watch`
succeed, `StartDevice` arms the disconnect timer, calls both and notifies the
observers. -/
theorem StartDevice_started (env : Env K) (s : Sys K)
    (henabled : s.sGeoEnabled = true) (hinit : s.sGeoInitPending = false)
    (hproc : env.XRE_GetProcessType ≠ GeckoProcessType.GeckoProcessType_Content)
    (hobs : env.hasObserverService = true) (hprov : env.mProvider = true)
    (hstart : env.providerStartup = true) (hwatch : env.providerWatch = true) :
    nsGeolocationService.StartDevice env s =
      ((((nsGeolocationService.SetDisconnectTimer s).effect ServiceEffect.ProviderStartup).effect
        ServiceEffect.ProviderWatch).effect ServiceEffect.NotifyObserversStarting,
        nsresult.NS_OK) := by
  unfold nsGeolocationService.StartDevice
  simp [henabled, hinit, hproc, hobs, hprov, hstart, hwatch]

theorem canUseCache_of_fresh (env : Env K) (s : Sys K) (q : nsGeolocationRequest)
    (o : PositionOptions) (p : nsGeoPosition K) (ho : q.mOptions = some o)
    (hage : 0 < o.mMaximumAge) (hp : s.mLastPosition.position = some p)
    (hacc : q.WantsHighAccuracy = true → s.mLastPosition.isHighAccuracy = true)
    (hnow : (o.mMaximumAge : Int) ≤ env.PR_Now.tdiv PR_USEC_PER_MSEC)
    (hclock : env.PR_Now < 2 ^ 63)
    (hfresh : env.PR_Now.tdiv PR_USEC_PER_MSEC - (p.timestamp : Int) ≤ (o.mMaximumAge : Int)) :
    nsGeolocationRequest.Allow.canUseCache env s q = true := by
  have hlt := tdiv_msec_lt env.PR_Now hclock
  have hts : DOMTimeStamp (env.PR_Now.tdiv PR_USEC_PER_MSEC - (o.mMaximumAge : Int)) =
      (env.PR_Now.tdiv PR_USEC_PER_MSEC - (o.mMaximumAge : Int)).toNat :=
    DOMTimeStamp_of_range _ (by omega) (by omega)
  unfold nsGeolocationRequest.Allow.canUseCache
  simp only [hp, ho, hage, if_true, hts, Bool.and_eq_true, decide_eq_true_eq]
  refine ⟨?_, by omega⟩
  intro hw
  exact hacc hw

/-- C13 (amended): for a request with `maximumAge` 5000 that is allowed while
the cache holds a position of sufficient accuracy timestamped `now - 4000`,
on an enabled and initialised service in a process other than a content
process, `Allow` first calls `Startup` and `Watch` on the provider
(`StartDevice` runs before the cache is consulted); when both succeed the
cached position is dispatched to the request, a one-shot request is not added
to the pending array, and a watch request is added to the watching array. -/
theorem Allow_from_cache (env : Env K) (s : Sys K) (r : Nat) (q : nsGeolocationRequest)
    (o : PositionOptions) (p : nsGeoPosition K)
    (hq : s.requests[r]? = some q) (ho : q.mOptions = some o) (hage : o.mMaximumAge = 5000)
    (hp : s.mLastPosition.position = some p)
    (hts : (p.timestamp : Int) = env.PR_Now.tdiv PR_USEC_PER_MSEC - 4000)
    (hacc : q.WantsHighAccuracy = true → s.mLastPosition.isHighAccuracy = true)
    (hclock : env.PR_Now < 2 ^ 63) (hnow : 5000 ≤ env.PR_Now.tdiv PR_USEC_PER_MSEC)
    (henabled : s.sGeoEnabled = true) (hinit : s.sGeoInitPending = false)
    (hproc : env.XRE_GetProcessType ≠ GeckoProcessType.GeckoProcessType_Content)
    (hobs : env.hasObserverService = true) (hprov : env.mProvider = true)
    (hstart : env.providerStartup = true) (hwatch : env.providerWatch = true) :
    (∃ rest, (nsGeolocationRequest.Allow env s r).effects =
        s.effects ++ [ServiceEffect.ProviderStartup, ServiceEffect.ProviderWatch,
          ServiceEffect.NotifyObserversStarting] ++ rest) ∧
      (nsGeolocationRequest.Allow env s r).queue =
        s.queue ++ [Runnable.RequestSendLocationEvent (some p) r] ∧
      (nsGeolocationRequest.Allow env s r).callbacks = s.callbacks ∧
      (q.mIsWatchPositionRequest = false →
        (nsGeolocationRequest.Allow env s r).mPendingCallbacks = s.mPendingCallbacks ∧
        (nsGeolocationRequest.Allow env s r).mWatchingCallbacks = s.mWatchingCallbacks) ∧
      (q.mIsWatchPositionRequest = true →
        (nsGeolocationRequest.Allow env s r).mPendingCallbacks = s.mPendingCallbacks ∧
        (nsGeolocationRequest.Allow env s r).mWatchingCallbacks =
          s.mWatchingCallbacks ++ [r]) := by
  have hstarted := StartDevice_started env s henabled hinit hproc hobs hprov hstart hwatch
  have hcan : ∀ t : Sys K, t.mLastPosition = s.mLastPosition →
      nsGeolocationRequest.Allow.canUseCache env t q = true := by
    intro t ht
    refine canUseCache_of_fresh env t q o p ho (by omega) (by rw [ht]; exact hp)
      (by rw [ht]; exact hacc) (by rw [hage]; exact_mod_cast hnow) hclock ?_
    rw [hage, hts]
    push_cast
    omega
  unfold nsGeolocationRequest.Allow
  simp only [hq, hstarted, ne_eq, not_true_eq_false, if_false]
  rw [hcan _ (by simp)]
  simp only [if_true, Bool.not_true, Bool.or_false]
  refine ⟨?_, ?_, ?_, ?_, ?_⟩
  · obtain ⟨rest, hrest⟩ := UpdateAccuracy_effects env
      ((((nsGeolocationService.SetDisconnectTimer s).effect ServiceEffect.ProviderStartup).effect
        ServiceEffect.ProviderWatch).effect ServiceEffect.NotifyObserversStarting)
      (Sys.WantsHighAccuracy ((((nsGeolocationService.SetDisconnectTimer s).effect
        ServiceEffect.ProviderStartup).effect
        ServiceEffect.ProviderWatch).effect ServiceEffect.NotifyObserversStarting) r)
    refine ⟨rest, ?_⟩
    have hbase : ((((nsGeolocationService.SetDisconnectTimer s).effect
        ServiceEffect.ProviderStartup).effect ServiceEffect.ProviderWatch).effect
        ServiceEffect.NotifyObserversStarting).effects =
        s.effects ++ [ServiceEffect.ProviderStartup, ServiceEffect.ProviderWatch,
          ServiceEffect.NotifyObserversStarting] := by
      simp [Sys.effect, nsGeolocationService.SetDisconnectTimer]
    rw [hbase] at hrest
    cases hk : q.mIsWatchPositionRequest <;> simp <;> rw [hrest] <;> simp
  · cases hk : q.mIsWatchPositionRequest <;>
      simp [nsGeolocationRequest.Update, NS_DispatchToMainThread, hp]
  · cases hk : q.mIsWatchPositionRequest <;> simp
  · intro hk
    simp [hk]
  · intro hk
    simp [hk, Geolocation.NotifyAllowedRequest, hq, nsGeolocationRequest.Update,
      NS_DispatchToMainThread]

end CachedAllow

/-- C13 (counterexample): at time 10000 ms the cache holds a position captured
at 6000 and the one-shot request 0 has `maximumAge` 5000; `Allow` dispatches
the cached position to the request, and it calls `Startup` and `Watch` on the
provider. -/
theorem Allow_from_cache_counterexample :
    (nsGeolocationRequest.Allow cacheEnv (cachedSys 6000) 0).queue =
        [Runnable.RequestSendLocationEvent (some (positionAt 6000)) 0] ∧
      (nsGeolocationRequest.Allow cacheEnv (cachedSys 6000) 0).effects =
        [ServiceEffect.ProviderStartup, ServiceEffect.ProviderWatch,
          ServiceEffect.NotifyObserversStarting] := by
  constructor
  · rfl
  · decide

/-- Witness for C13 (amended), on the state of the counterexample. -/
theorem Allow_from_cache_witness :
    (∃ rest, (nsGeolocationRequest.Allow cacheEnv (cachedSys 6000) 0).effects =
        (cachedSys 6000).effects ++ [ServiceEffect.ProviderStartup, ServiceEffect.ProviderWatch,
          ServiceEffect.NotifyObserversStarting] ++ rest) ∧
      (nsGeolocationRequest.Allow cacheEnv (cachedSys 6000) 0).queue =
        (cachedSys 6000).queue ++
          [Runnable.RequestSendLocationEvent (some (positionAt 6000)) 0] :=
  have h := Allow_from_cache cacheEnv (cachedSys 6000) 0 maxAgeRequest
    { mEnableHighAccuracy := false, mTimeout := 0, mMaximumAge := 5000 } (positionAt 6000)
    rfl rfl rfl rfl (by decide) (by decide) (by decide) (by decide) rfl rfl (by decide) rfl rfl
    rfl rfl
  ⟨h.1, h.2.1⟩
section FanOut
variable {K : Type} [LinearOrderedField K] [FloorRing K]

theorem Sys.with_queue_self (s : Sys K) : { s with queue := s.queue ++ [] } = s := by
  cases s; simp

/-- The loop that forwards a position to the watching array dispatches one
delivery per entry, in the order of the array. -/
theorem forUp_dispatch (aSomewhere : Option (nsGeoPosition K)) :
    ∀ (fuel i : Nat) (s : Sys K),
      forUp (fun s => s.mWatchingCallbacks)
          (fun s r => nsGeolocationRequest.Update s r aSomewhere) fuel i s =
        { s with
          queue := s.queue ++ ((s.mWatchingCallbacks.drop i).take fuel).map
            (fun r => Runnable.RequestSendLocationEvent aSomewhere r) } := by
  intro fuel
  induction fuel with
  | zero => intro i s; simp [forUp, Sys.with_queue_self]
  | succ n ih =>
    intro i s
    unfold forUp
    cases h : s.mWatchingCallbacks[i]? with
    | none =>
      have hlen : s.mWatchingCallbacks.length ≤ i := by
        rcases Nat.lt_or_ge i s.mWatchingCallbacks.length with hlt | hge
        · rw [List.getElem?_eq_getElem hlt] at h; cases h
        · exact hge
      simp [h, List.drop_eq_nil_of_le hlen, Sys.with_queue_self]
    | some r =>
      have hlt : i < s.mWatchingCallbacks.length := by
        rcases Nat.lt_or_ge i s.mWatchingCallbacks.length with hlt | hge
        · exact hlt
        · rw [List.getElem?_eq_none hge] at h; cases h
      have hr : s.mWatchingCallbacks[i] = r := by
        rw [List.getElem?_eq_getElem hlt] at h
        exact Option.some.inj h
      simp only [h]
      rw [ih]
      have hdrop : s.mWatchingCallbacks.drop i = r :: s.mWatchingCallbacks.drop (i + 1) := by
        rw [← hr]
        exact List.drop_eq_getElem_cons hlt
      simp [nsGeolocationRequest.Update, NS_DispatchToMainThread, hdrop]

/-- With `R1` and then `R2` in the pending array, `Geolocation::Update`
dispatches the delivery to `R2`, then the one to `R1`, then those to the
watching array, and empties the pending array. -/
theorem GeolocationUpdate_two_pending (env : Env K) (s : Sys K) (R1 R2 : Nat)
    (aSomewhere : Option (nsGeoPosition K))
    (hwin : Geolocation.WindowOwnerStillExists env s = true)
    (hpend : s.mPendingCallbacks = [R1, R2]) (hne : R1 ≠ R2) :
    Geolocation.Update env s aSomewhere =
      { s with
        mPendingCallbacks := []
        mWatchingCallbacks := (s.mWatchingCallbacks.erase R2).erase R1
        queue := s.queue ++
          [Runnable.RequestSendLocationEvent aSomewhere R2,
            Runnable.RequestSendLocationEvent aSomewhere R1] ++
          ((s.mWatchingCallbacks.erase R2).erase R1).map
            (fun r => Runnable.RequestSendLocationEvent aSomewhere r) } := by
  unfold Geolocation.Update
  simp only [hwin, Bool.not_true, Bool.false_eq_true, if_false]
  rw [forUp_dispatch]
  have hne' : R2 ≠ R1 := fun h => hne h.symm
  simp [hpend, forDown, Geolocation.RemoveRequest, nsGeolocationRequest.Update,
    NS_DispatchToMainThread, hne, hne', List.erase_cons]

theorem ProviderSetHighAccuracy_crashed (env : Env K) (s : Sys K) (v : Bool)
    (hprov : env.mProvider = true) : (ProviderSetHighAccuracy env s v).crashed = s.crashed := by
  simp [ProviderSetHighAccuracy, hprov]

theorem UpdateAccuracy_crashed (env : Env K) (s : Sys K) (v : Bool)
    (hprov : env.mProvider = true) :
    (nsGeolocationService.UpdateAccuracy env s v).crashed = s.crashed := by
  unfold nsGeolocationService.UpdateAccuracy
  simp only []
  split
  · simp
  · split <;> split <;> simp [ProviderSetHighAccuracy_crashed, hprov]

theorem RequestShutdown_crashed (env : Env K) (s : Sys K) (r : Nat) (q : nsGeolocationRequest)
    (hq : s.requests[r]? = some q) (hprov : env.mProvider = true) :
    (nsGeolocationRequest.Shutdown env s r).crashed = s.crashed := by
  unfold nsGeolocationRequest.Shutdown
  simp only [hq]
  split
  · split
    · rw [UpdateAccuracy_crashed _ _ _ hprov]; simp
    · simp
  · simp

theorem UpdateAccuracy_requests (env : Env K) (s : Sys K) (v : Bool) :
    (nsGeolocationService.UpdateAccuracy env s v).requests = s.requests := by simp

theorem RequestShutdown_requests (env : Env K) (s : Sys K) (r : Nat) (q : nsGeolocationRequest)
    (hq : s.requests[r]? = some q) :
    (nsGeolocationRequest.Shutdown env s r).requests =
      s.requests.set r { q with mShutdown := true, mTimeoutTimer := none } := by
  unfold nsGeolocationRequest.Shutdown
  simp only [hq]
  split
  · split <;> simp [Sys.setRequest]
  · simp [Sys.setRequest]

/-- The outcome of `SendLocation` on a request that is not shut down, for a
position that has coordinates, is not too old and comes back from
`ChangeLocation` as `w`. -/
theorem SendLocation_delivers (env : Env K) (s : Sys K) (r : Nat) (q : nsGeolocationRequest)
    (p w : nsGeoPosition K) (c : nsGeoPositionCoords K)
    (hq : s.requests[r]? = some q) (hlive : q.mShutdown = false) (hcoords : p.coords = some c)
    (hage : ∀ o, q.mOptions = some o → 0 < o.mMaximumAge →
      DOMTimeStamp (env.PR_Now.tdiv PR_USEC_PER_MSEC - o.mMaximumAge) ≤ p.timestamp)
    (hchange : ChangeLocation env.XRE_GetProcessType env.cos s.blur s.mManifestURL (some p) =
      some w) :
    nsGeolocationRequest.SendLocation env s r (some p) =
      nsGeolocationRequest.StopTimeoutTimer
        { (if !q.mIsWatchPositionRequest then nsGeolocationRequest.Shutdown env s r else s) with
          callbacks := (if !q.mIsWatchPositionRequest then nsGeolocationRequest.Shutdown env s r
            else s).callbacks ++ [CallbackEvent.success r w] } r := by
  unfold nsGeolocationRequest.SendLocation
  simp only [hq, hlive, Bool.false_eq_true, if_false]
  cases ho : q.mOptions with
  | none => simp [hcoords, hchange]
  | some o =>
    by_cases hm : 0 < o.mMaximumAge
    · have := hage o ho hm
      simp [hm, Nat.not_lt.mpr this, hcoords, hchange]
    · simp [hm, hcoords, hchange]

end FanOut
section FanOutOrder
variable {K : Type} [LinearOrderedField K] [FloorRing K]

/-- What a successful delivery to a one-shot request changes: the callback is
recorded and the request is shut down; the queue, the policy and the other
requests are as before. -/
theorem SendLocation_delivers_oneShot (env : Env K) (s : Sys K) (r : Nat)
    (q : nsGeolocationRequest) (p w : nsGeoPosition K) (c : nsGeoPositionCoords K)
    (hq : s.requests[r]? = some q) (hone : q.mIsWatchPositionRequest = false)
    (hlive : q.mShutdown = false) (hcoords : p.coords = some c)
    (hage : ∀ o, q.mOptions = some o → 0 < o.mMaximumAge →
      DOMTimeStamp (env.PR_Now.tdiv PR_USEC_PER_MSEC - o.mMaximumAge) ≤ p.timestamp)
    (hchange : ChangeLocation env.XRE_GetProcessType env.cos s.blur s.mManifestURL (some p) =
      some w)
    (hprov : env.mProvider = true) :
    (nsGeolocationRequest.SendLocation env s r (some p)).callbacks =
        s.callbacks ++ [CallbackEvent.success r w] ∧
      (nsGeolocationRequest.SendLocation env s r (some p)).queue = s.queue ∧
      (nsGeolocationRequest.SendLocation env s r (some p)).crashed = s.crashed ∧
      (nsGeolocationRequest.SendLocation env s r (some p)).blur = s.blur ∧
      (nsGeolocationRequest.SendLocation env s r (some p)).mManifestURL = s.mManifestURL ∧
      ∀ r', r' ≠ r →
        (nsGeolocationRequest.SendLocation env s r (some p)).requests[r']? = s.requests[r']? := by
  rw [SendLocation_delivers env s r q p w c hq hlive hcoords hage hchange]
  simp only [hone, Bool.not_false, if_true]
  have hreq := RequestShutdown_requests env s r q hq
  have hlt : r < s.requests.length := by
    rcases Nat.lt_or_ge r s.requests.length with h | h
    · exact h
    · rw [List.getElem?_eq_none h] at hq; cases hq
  have hvalid : ({ (nsGeolocationRequest.Shutdown env s r) with
      callbacks := (nsGeolocationRequest.Shutdown env s r).callbacks ++
        [CallbackEvent.success r w] } : Sys K).requests[r]? =
      some { q with mShutdown := true, mTimeoutTimer := none } := by
    show (nsGeolocationRequest.Shutdown env s r).requests[r]? = _
    rw [hreq]
    simp [List.getElem?_set, hlt]
  rw [StopTimeoutTimer_of_some _ r _ hvalid]
  refine ⟨by simp [Sys.setRequest], by simp [Sys.setRequest], ?_, by simp [Sys.setRequest],
    by simp [Sys.setRequest], ?_⟩
  · show (nsGeolocationRequest.Shutdown env s r).crashed = s.crashed
    exact RequestShutdown_crashed env s r q hq hprov
  · intro r' hne
    show ((nsGeolocationRequest.Shutdown env s r).requests.set r _)[r']? = _
    rw [hreq]
    simp [List.getElem?_set, Ne.symm hne]

theorem step_run_next (env : Env K) (s : Sys K) (ev : Runnable K) (rest : List (Runnable K))
    (hcrash : s.crashed = false) (hqueue : s.queue = ev :: rest) :
    step env s Action.RunNextRunnable = Runnable.Run env { s with queue := rest } ev := by
  unfold step
  simp only [hcrash, Bool.false_eq_true, if_false]
  rw [hqueue]

/-- The main thread runs a delivery to a one-shot request that succeeds. -/
theorem step_delivers (env : Env K) (s : Sys K) (r : Nat)
    (q : nsGeolocationRequest) (p w : nsGeoPosition K) (c : nsGeoPositionCoords K)
    (rest : List (Runnable K)) (hcrash : s.crashed = false)
    (hqueue : s.queue = Runnable.RequestSendLocationEvent (some p) r :: rest)
    (hq : s.requests[r]? = some q) (hone : q.mIsWatchPositionRequest = false)
    (hlive : q.mShutdown = false) (hcoords : p.coords = some c)
    (hage : ∀ o, q.mOptions = some o → 0 < o.mMaximumAge →
      DOMTimeStamp (env.PR_Now.tdiv PR_USEC_PER_MSEC - o.mMaximumAge) ≤ p.timestamp)
    (hchange : ChangeLocation env.XRE_GetProcessType env.cos s.blur s.mManifestURL (some p) =
      some w)
    (hprov : env.mProvider = true) :
    (step env s Action.RunNextRunnable).callbacks =
        s.callbacks ++ [CallbackEvent.success r w] ∧
      (step env s Action.RunNextRunnable).queue = rest ∧
      (step env s Action.RunNextRunnable).crashed = false ∧
      (step env s Action.RunNextRunnable).blur = s.blur ∧
      (step env s Action.RunNextRunnable).mManifestURL = s.mManifestURL ∧
      ∀ r', r' ≠ r → (step env s Action.RunNextRunnable).requests[r']? = s.requests[r']? := by
  rw [step_run_next env s _ rest hcrash hqueue]
  obtain ⟨h1, h2, h3, h4, h5, h6⟩ := SendLocation_delivers_oneShot env
    ({ s with queue := rest } : Sys K) r q p w c hq hone hlive hcoords hage hchange hprov
  exact ⟨h1, h2, h3.trans hcrash, h4, h5, h6⟩

/-- C14 (amended): with two one-shot requests in the pending array, `R1`
before `R2`, a provider update through `Geolocation::Update` dispatches the
delivery to `R2` before the delivery to `R1` (the pending array is walked from
its last entry down); when the main thread then runs the two deliveries in
queue order and both succeed, the success callback of `R2` is invoked before
the success callback of `R1`. -/
theorem fanOut_newest_first (env : Env K) (s : Sys K) (R1 R2 : Nat)
    (q1 q2 : nsGeolocationRequest) (p w : nsGeoPosition K) (c : nsGeoPositionCoords K)
    (hcrash : s.crashed = false) (hqueue : s.queue = [])
    (hwin : Geolocation.WindowOwnerStillExists env s = true)
    (hpend : s.mPendingCallbacks = [R1, R2]) (hne : R1 ≠ R2)
    (hq1 : s.requests[R1]? = some q1) (hq2 : s.requests[R2]? = some q2)
    (hone1 : q1.mIsWatchPositionRequest = false) (hone2 : q2.mIsWatchPositionRequest = false)
    (hlive1 : q1.mShutdown = false) (hlive2 : q2.mShutdown = false)
    (hcoords : p.coords = some c)
    (hage1 : ∀ o, q1.mOptions = some o → 0 < o.mMaximumAge →
      DOMTimeStamp (env.PR_Now.tdiv PR_USEC_PER_MSEC - o.mMaximumAge) ≤ p.timestamp)
    (hage2 : ∀ o, q2.mOptions = some o → 0 < o.mMaximumAge →
      DOMTimeStamp (env.PR_Now.tdiv PR_USEC_PER_MSEC - o.mMaximumAge) ≤ p.timestamp)
    (hchange : ChangeLocation env.XRE_GetProcessType env.cos s.blur s.mManifestURL (some p) =
      some w)
    (hprov : env.mProvider = true) :
    (Geolocation.Update env s (some p)).queue =
        [Runnable.RequestSendLocationEvent (some p) R2,
          Runnable.RequestSendLocationEvent (some p) R1] ++
        ((s.mWatchingCallbacks.erase R2).erase R1).map
          (fun r => Runnable.RequestSendLocationEvent (some p) r) ∧
      (run (Geolocation.Update env s (some p))
          [(env, Action.RunNextRunnable), (env, Action.RunNextRunnable)]).callbacks =
        s.callbacks ++ [CallbackEvent.success R2 w, CallbackEvent.success R1 w] := by
  have hu := GeolocationUpdate_two_pending env s R1 R2 (some p) hwin hpend hne
  have huq : (Geolocation.Update env s (some p)).queue =
      Runnable.RequestSendLocationEvent (some p) R2 ::
        (Runnable.RequestSendLocationEvent (some p) R1 ::
          ((s.mWatchingCallbacks.erase R2).erase R1).map
            (fun r => Runnable.RequestSendLocationEvent (some p) r)) := by
    rw [hu]; simp [hqueue]
  have hucr : (Geolocation.Update env s (some p)).crashed = false := by rw [hu]; exact hcrash
  have hureq : (Geolocation.Update env s (some p)).requests = s.requests := by rw [hu]
  have hub : (Geolocation.Update env s (some p)).blur = s.blur := by rw [hu]
  have hum : (Geolocation.Update env s (some p)).mManifestURL = s.mManifestURL := by rw [hu]
  have huc : (Geolocation.Update env s (some p)).callbacks = s.callbacks := by rw [hu]
  refine ⟨by rw [huq]; simp, ?_⟩
  obtain ⟨hc1, hqu1, hcr1, hb1, hm1, hr1⟩ := step_delivers env
    (Geolocation.Update env s (some p)) R2 q2 p w c _ hucr huq (by rw [hureq]; exact hq2)
    hone2 hlive2 hcoords hage2 (by rw [hub, hum]; exact hchange) hprov
  obtain ⟨hc2, _, _, _, _, _⟩ := step_delivers env
    (step env (Geolocation.Update env s (some p)) Action.RunNextRunnable) R1 q1 p w c _
    hcr1 hqu1 (by rw [hr1 R1 hne, hureq]; exact hq1)
    hone1 hlive1 hcoords hage1 (by rw [hb1, hm1, hub, hum]; exact hchange) hprov
  simp only [run]
  rw [hc2, hc1, huc]
  simp

end FanOutOrder

/-- C14 (counterexample): request 0 becomes pending before request 1; after
one provider update and the two deliveries it dispatched, the success callback
of request 1 has been invoked first and that of request 0 second. -/
theorem fanOut_counterexample :
    (run exampleInit twoPending).mPendingCallbacks = [0, 1] ∧
      (run (run exampleInit twoPending) fanOut).callbacks.map
        (fun e => (e.request, e.isSuccess)) = [(1, true), (0, true)] := by
  constructor <;> decide
/-- Witness for C14 (amended): in the state reached by `twoPending`, where
request 0 is pending before request 1, the update and the two deliveries
invoke the success callback of request 1 and then that of request 0. -/
theorem fanOut_newest_first_witness :
    (run exampleInit twoPending).mPendingCallbacks = [0, 1] ∧
      (run (Geolocation.Update exampleEnv (run exampleInit twoPending) (some examplePosition))
          [(exampleEnv, Action.RunNextRunnable), (exampleEnv, Action.RunNextRunnable)]).callbacks =
        (run exampleInit twoPending).callbacks ++
          [CallbackEvent.success 1 examplePosition, CallbackEvent.success 0 examplePosition] :=
  ⟨by decide,
    (fanOut_newest_first exampleEnv (run exampleInit twoPending) 0 1
      { mIsWatchPositionRequest := false, mTimeoutTimer := none, mOptions := none,
        mWatchId := 0, mShutdown := false }
      { mIsWatchPositionRequest := false, mTimeoutTimer := none, mOptions := none,
        mWatchId := 0, mShutdown := false }
      examplePosition examplePosition
      { latitude := some 12.5, longitude := some (-71.25), altitude := some 30,
        accuracy := some 5, altitudeAccuracy := some 2, heading := some 90, speed := some 1 }
      (by decide) (by decide) (by decide) (by decide) (by decide) (by decide) (by decide)
      rfl rfl rfl rfl rfl
      (by intro o ho; cases ho) (by intro o ho; cases ho) rfl rfl).2⟩
section PolicyErrors
variable {K : Type} [LinearOrderedField K] [FloorRing K]

/-- A delivery for which `ChangeLocation` returns null ends in the error
callback with `POSITION_UNAVAILABLE`, and nothing else changes. -/
theorem SendLocation_unavailable (env : Env K) (s : Sys K) (r : Nat) (q : nsGeolocationRequest)
    (p : nsGeoPosition K)
    (hq : s.requests[r]? = some q) (hlive : q.mShutdown = false)
    (hage : ∀ o, q.mOptions = some o → 0 < o.mMaximumAge →
      DOMTimeStamp (env.PR_Now.tdiv PR_USEC_PER_MSEC - o.mMaximumAge) ≤ p.timestamp)
    (hchange : ChangeLocation env.XRE_GetProcessType env.cos s.blur s.mManifestURL (some p) =
      none) :
    nsGeolocationRequest.SendLocation env s r (some p) =
      { s with callbacks := s.callbacks ++ [CallbackEvent.error r POSITION_UNAVAILABLE] } := by
  unfold nsGeolocationRequest.SendLocation
  simp only [hq, hlive, Bool.false_eq_true, if_false, hchange]
  cases ho : q.mOptions with
  | none => cases p.coords <;> simp [nsGeolocationRequest.NotifyError]
  | some o =>
    by_cases hm : 0 < o.mMaximumAge
    · have := hage o ho hm
      cases p.coords <;> simp [hm, Nat.not_lt.mpr this, nsGeolocationRequest.NotifyError]
    · cases p.coords <;> simp [hm, nsGeolocationRequest.NotifyError]

end PolicyErrors
section FleetTheorems
variable {K : Type} [LinearOrderedField K] [FloorRing K]

/-- C15 (the code where the claim fails): session `a`, whose window is gone,
is registered right before session `b`, whose consumer is still valid.
`nsGeolocationService::Update` calls `Update` on `a`, which shuts itself down
and leaves `mGeolocators`; `b` moves to index 0, the loop goes on at index 1,
and the update is forwarded to no session: `b` is still registered and gets
nothing. -/
theorem Update_skips_next_session (s : Fleet.nsGeolocationService K) (a b : Nat)
    (la lb : Fleet.Geolocation K) (aSomewhere : Option (nsGeoPosition K))
    (hab : a ≠ b) (hgeo : s.mGeolocators = [a, b])
    (ha : s.sessions[a]? = some la) (hb : s.sessions[b]? = some lb)
    (hgone : la.WindowOwnerStillExists = false) (hreg : la.mService = true)
    (_hvalid : lb.WindowOwnerStillExists = true) :
    (s.Update aSomewhere).forwarded = s.forwarded ∧
      (s.Update aSomewhere).mGeolocators = [b] ∧
      (s.Update aSomewhere).sessions[b]? = some lb := by
  have hlt : a < s.sessions.length := by
    rcases Nat.lt_or_ge a s.sessions.length with h | h
    · exact h
    · rw [List.getElem?_eq_none h] at ha; cases ha
  unfold Fleet.nsGeolocationService.Update
  simp only [Fleet.nsGeolocationService.SetCachedPosition, hgeo, List.length_cons,
    List.length_nil, Fleet.nsGeolocationService.Update.loop, List.getElem?_cons_zero,
    Fleet.Geolocation.Update, ha, hgone, Bool.not_false, if_true, Fleet.Geolocation.Shutdown,
    hreg, Fleet.nsGeolocationService.RemoveLocator]
  simp [hab, List.getElem?_set, hb, Ne.symm hab]

/-- When the consumer of every registered session is still valid, the loop
from index `i` on forwards the update to the entries of `mGeolocators` from
index `i` on, once each and in order. -/
theorem Update_loop_all_valid (aSomewhere : Option (nsGeoPosition K)) :
    ∀ (fuel i : Nat) (s : Fleet.nsGeolocationService K),
      (∀ g ∈ s.mGeolocators, ∃ l, s.sessions[g]? = some l ∧ l.WindowOwnerStillExists = true) →
      s.mGeolocators.length ≤ i + fuel →
      (Fleet.nsGeolocationService.Update.loop aSomewhere fuel i s).forwarded =
          s.forwarded ++ s.mGeolocators.drop i ∧
        (Fleet.nsGeolocationService.Update.loop aSomewhere fuel i s).mGeolocators =
          s.mGeolocators := by
  intro fuel
  induction fuel with
  | zero =>
    intro i s _ hlen
    have hle : s.mGeolocators.length ≤ i := by omega
    simp [Fleet.nsGeolocationService.Update.loop, List.drop_eq_nil_of_le hle]
  | succ n ih =>
    intro i s hall hlen
    unfold Fleet.nsGeolocationService.Update.loop
    cases h : s.mGeolocators[i]? with
    | none =>
      have hle : s.mGeolocators.length ≤ i := by
        rcases Nat.lt_or_ge i s.mGeolocators.length with hlt | hge
        · rw [List.getElem?_eq_getElem hlt] at h; cases h
        · exact hge
      simp [List.drop_eq_nil_of_le hle]
    | some g =>
      have hlt : i < s.mGeolocators.length := by
        rcases Nat.lt_or_ge i s.mGeolocators.length with hlt | hge
        · exact hlt
        · rw [List.getElem?_eq_none hge] at h; cases h
      have hg : s.mGeolocators[i] = g := by
        rw [List.getElem?_eq_getElem hlt] at h
        exact Option.some.inj h
      have hmem : g ∈ s.mGeolocators := List.getElem?_mem h
      obtain ⟨l, hl, hv⟩ := hall g hmem
      have hstep : Fleet.Geolocation.Update s g aSomewhere =
          { s with
            sessions := s.sessions.set g { l with updates := l.updates ++ [aSomewhere] }
            forwarded := s.forwarded ++ [g] } := by
        simp [Fleet.Geolocation.Update, hl, hv]
      simp only []
      rw [hstep]
      have hall' : ∀ g' ∈ s.mGeolocators, ∃ l', (s.sessions.set g
          { l with updates := l.updates ++ [aSomewhere] })[g']? = some l' ∧
          l'.WindowOwnerStillExists = true := by
        intro g' hg'
        obtain ⟨l', hl', hv'⟩ := hall g' hg'
        by_cases hgg : g = g'
        · subst hgg
          have hlt' : g < s.sessions.length := by
            rcases Nat.lt_or_ge g s.sessions.length with h' | h'
            · exact h'
            · rw [List.getElem?_eq_none h'] at hl; cases hl
          exact ⟨{ l with updates := l.updates ++ [aSomewhere] },
            by simp [List.getElem?_set, hlt'],
            by simpa [Fleet.Geolocation.WindowOwnerStillExists] using hv⟩
        · exact ⟨l', by simp [List.getElem?_set, hgg, hl'], hv'⟩
      obtain ⟨h1, h2⟩ := ih (i + 1)
        ({ s with
            sessions := s.sessions.set g { l with updates := l.updates ++ [aSomewhere] }
            forwarded := s.forwarded ++ [g] } : Fleet.nsGeolocationService K) hall'
        (by show s.mGeolocators.length ≤ i + 1 + n; omega)
      refine ⟨?_, h2⟩
      rw [h1]
      have hdrop : s.mGeolocators.drop i = g :: s.mGeolocators.drop (i + 1) := by
        rw [← hg]
        exact List.drop_eq_getElem_cons hlt
      simp [hdrop]

/-- When the consumer of every registered session is still valid,
`nsGeolocationService::Update` forwards the update to every registered session
in registration order. -/
theorem Update_all_valid (s : Fleet.nsGeolocationService K)
    (aSomewhere : Option (nsGeoPosition K))
    (hall : ∀ g ∈ s.mGeolocators, ∃ l, s.sessions[g]? = some l ∧
      l.WindowOwnerStillExists = true) :
    (s.Update aSomewhere).forwarded = s.forwarded ++ s.mGeolocators := by
  unfold Fleet.nsGeolocationService.Update
  have := (Update_loop_all_valid aSomewhere (s.SetCachedPosition aSomewhere).mGeolocators.length 0
    (s.SetCachedPosition aSomewhere) hall (by omega)).1
  simpa [Fleet.nsGeolocationService.SetCachedPosition] using this

end FleetTheorems

/-- Witness for C15: in `exampleFleet` the update reaches no session, and
session 1, whose window is there, is still registered. -/
theorem Update_skips_next_session_witness :
    (exampleFleet.Update (some examplePosition)).forwarded = exampleFleet.forwarded ∧
      (exampleFleet.Update (some examplePosition)).mGeolocators = [1] ∧
      (exampleFleet.Update (some examplePosition)).sessions[1]? =
        some { mOwner := true, ownerWindowGone := false, mService := true, updates := [] } :=
  Update_skips_next_session exampleFleet 0 1
    { mOwner := true, ownerWindowGone := true, mService := true, updates := [] }
    { mOwner := true, ownerWindowGone := false, mService := true, updates := [] }
    (some examplePosition) (by decide) rfl rfl rfl rfl rfl rfl
/-- C18 (the code where the claim fails): `WatchPosition` hands out the id 0
for request 0 and dispatches the prompt; `ClearWatch(0)` then finds the request
neither in the watching array nor among the deferred requests and leaves the
state as it is; after the prompt is answered with `Allow` the request is in
the watching array, not shut down, and the next provider update invokes its
success callback. -/
theorem ClearWatch_misses_prompted_watch :
    (Geolocation.WatchPosition exampleEnv exampleInit none).1.requests =
        [{ mIsWatchPositionRequest := true, mTimeoutTimer := none, mOptions := none,
           mWatchId := 0, mShutdown := false }] ∧
      Geolocation.ClearWatch exampleEnv (Geolocation.WatchPosition exampleEnv exampleInit none).1 0 =
        (Geolocation.WatchPosition exampleEnv exampleInit none).1 ∧
      (run exampleInit clearedBeforeAllow).mWatchingCallbacks = [0] ∧
      (run exampleInit clearedBeforeAllow).requests =
        [{ mIsWatchPositionRequest := true, mTimeoutTimer := none, mOptions := none,
           mWatchId := 0, mShutdown := false }] ∧
      (run exampleInit clearedBeforeAllow).callbacks.map (fun e => (e.request, e.isSuccess)) =
        [(0, true)] := by
  refine ⟨by decide, rfl, by decide, by decide, by decide⟩

/-- C19 (the code where the claim fails): request 0 is pending with its
timer armed; `Geolocation::Shutdown` empties the arrays and leaves the
request as it is, not shut down and its timer armed; when the timer fires the
error callback of the request is invoked with `TIMEOUT`.  Likewise a delivery
dispatched before the teardown invokes the success callback after it. -/
theorem teardown_leaves_requests_live :
    (run exampleInit armedPending).mPendingCallbacks = [0] ∧
      (run exampleInit (armedPending ++ [(exampleEnv, Action.SessionShutdown)])).mPendingCallbacks
        = [] ∧
      (run exampleInit (armedPending ++ [(exampleEnv, Action.SessionShutdown)])).mService
        = false ∧
      (run exampleInit (armedPending ++ [(exampleEnv, Action.SessionShutdown)])).requests =
        [{ mIsWatchPositionRequest := false, mTimeoutTimer := some 1000,
           mOptions := some { mEnableHighAccuracy := false, mTimeout := 1000, mMaximumAge := 0 },
           mWatchId := 0, mShutdown := false }] ∧
      (run exampleInit (armedPending ++ teardownThenTimer)).callbacks =
        [CallbackEvent.error 0 TIMEOUT] ∧
      (run exampleInit (armedPending ++ teardownThenDelivery)).callbacks.map
        (fun e => (e.request, e.isSuccess)) = [(0, true)] := by
  refine ⟨by decide, by decide, by decide, by decide, by decide, by decide⟩

/-! ## Watch requests stay registered -/

section RetainsBasics
variable {K : Type} [LinearOrderedField K] [FloorRing K]

end RetainsBasics
section RetainsSteps
variable {K : Type} [LinearOrderedField K] [FloorRing K]

end RetainsSteps
section RetainsActions
variable {K : Type} [LinearOrderedField K] [FloorRing K]

end RetainsActions
section WellFormedStates
variable {K : Type} [LinearOrderedField K] [FloorRing K]

end WellFormedStates
section WatchPersistence
variable {K : Type} [LinearOrderedField K] [FloorRing K]

end WatchPersistence
section WatchPersistenceSteps
variable {K : Type} [LinearOrderedField K] [FloorRing K]

/-- What the pending loop of `Geolocation::Update` keeps of a registered
watch request `r`. -/
theorem GeolocationUpdate_pending_loop (t : Sys K) (r : Nat)
    (aSomewhere : Option (nsGeoPosition K)) (n : Nat)
    (hr : r ∈ t.mWatchingCallbacks) (hP : r ∉ t.mPendingCallbacks) :
    r ∈ (forDown (fun s => s.mPendingCallbacks)
        (fun s x => Geolocation.RemoveRequest (nsGeolocationRequest.Update s x aSomewhere) x)
        n t).mWatchingCallbacks ∧
      (forDown (fun s => s.mPendingCallbacks)
        (fun s x => Geolocation.RemoveRequest (nsGeolocationRequest.Update s x aSomewhere) x)
        n t).requests = t.requests ∧
      (forDown (fun s => s.mPendingCallbacks)
        (fun s x => Geolocation.RemoveRequest (nsGeolocationRequest.Update s x aSomewhere) x)
        n t).blur = t.blur ∧
      (forDown (fun s => s.mPendingCallbacks)
        (fun s x => Geolocation.RemoveRequest (nsGeolocationRequest.Update s x aSomewhere) x)
        n t).mManifestURL = t.mManifestURL ∧
      (forDown (fun s => s.mPendingCallbacks)
        (fun s x => Geolocation.RemoveRequest (nsGeolocationRequest.Update s x aSomewhere) x)
        n t).callbacks = t.callbacks := by
  have h := forDown_induct (fun s => s.mPendingCallbacks)
    (fun s x => Geolocation.RemoveRequest (nsGeolocationRequest.Update s x aSomewhere) x)
    (fun u => (r ∈ u.mWatchingCallbacks ∧ r ∉ u.mPendingCallbacks) ∧ u.requests = t.requests ∧
      u.blur = t.blur ∧ u.mManifestURL = t.mManifestURL ∧ u.callbacks = t.callbacks)
    (fun u hu => hu)
    (fun u x hu hx => by
      obtain ⟨⟨h1, h2⟩, h3, h4, h5, h6⟩ := hu
      have hne : x ≠ r := fun heq => h2 (heq ▸ hx)
      refine ⟨⟨?_, ?_⟩, h3, h4, h5, h6⟩
      · show r ∈ u.mWatchingCallbacks.erase x
        exact (List.mem_erase_of_ne (Ne.symm hne)).mpr h1
      · show r ∉ u.mPendingCallbacks.erase x
        exact fun hm => h2 (List.mem_of_mem_erase hm))
    n t ⟨⟨hr, hP⟩, rfl, rfl, rfl, rfl⟩
  exact ⟨h.1.1, h.2⟩

end WatchPersistenceSteps
section BlurRaw
variable {K : Type} [LinearOrderedField K] [FloorRing K]

/-- C23: for every position with coordinates `c` and every radius,
`BlurLocation` returns what `FakeLocation` returns for the latitude
`GridAlgorithm(radius, 32.39, c.latitude)` and the longitude
`GridAlgorithm(radius, kmSize, c.longitude)`, where `kmSize` is computed by
`CalcLonByGridAlgorithm` from the raw latitude `c.latitude`, not from the
snapped one; the result has these two coordinates and the other six fields
of the input. -/
theorem BlurLocation_raw_latitude (cos : K → K) (c : nsGeoPositionCoords K) (ts : Nat)
    (aRadius : Int) :
    BlurLocation cos (some { coords := some c, timestamp := ts }) aRadius =
        FakeLocation (some { coords := some c, timestamp := ts })
          (GridAlgorithm aRadius (some 32.39) c.latitude)
          (GridAlgorithm aRadius (CalcLonKmSize cos c.latitude) c.longitude) ∧
      BlurLocation cos (some { coords := some c, timestamp := ts }) aRadius =
        some { coords := some { c with
                 latitude := GridAlgorithm aRadius (some 32.39) c.latitude
                 longitude := GridAlgorithm aRadius (CalcLonKmSize cos c.latitude) c.longitude },
               timestamp := ts } := by
  constructor
  · rfl
  · rfl

end BlurRaw

/-! ## The longitude factor -/

/-- C24 (as the code has it): for every latitude `x` at which the cosine of
`x * 3.14 / 180` is not zero, the factor that `CalcLonByGridAlgorithm`
computes is `3600 / (cos(x * 3.14 / 180) * 111.27)`, with the constant 3.14
where the circle constant would stand, and the grid size that
`GridAlgorithm` derives from it is that factor times the radius divided by
3600. -/
theorem CalcLonKmSize_formula (aRadius : Int) (x : ℝ) (hx : Real.cos (x * 3.14 / 180) ≠ 0) :
    CalcLonKmSize Real.cos (some x) = some (3600 / (Real.cos (x * 3.14 / 180) * 111.27)) ∧
      GridAlgorithm.gridSize aRadius (CalcLonKmSize Real.cos (some x)) =
        some (3600 / (Real.cos (x * 3.14 / 180) * 111.27) * (aRadius : ℝ) / 3600) := by
  have hne : Real.cos (x * 3.14 / 180) * 111.27 ≠ 0 := mul_ne_zero hx (by norm_num)
  have h1 : CalcLonKmSize Real.cos (some x)
      = some (3600 / (Real.cos (x * 3.14 / 180) * 111.27)) := by
    simp [CalcLonKmSize, hne]
  exact ⟨h1, by rw [h1, GridAlgorithm.gridSize_some]⟩

/-- C24 (counterexample): at latitude 60 the factor computed by the code is
not `3600 / (cos(60 * π / 180) * 111.27)`. -/
theorem CalcLonKmSize_counterexample :
    CalcLonKmSize Real.cos (some 60) ≠
      some (3600 / (Real.cos (60 * Real.pi / 180) * 111.27)) := by
  have hpi : (3.14 : ℝ) < Real.pi := Real.pi_gt_d2
  have hpos := Real.pi_pos
  have hlt : Real.cos (60 * Real.pi / 180) < Real.cos (60 * 3.14 / 180) := by
    apply Real.cos_lt_cos_of_nonneg_of_le_pi
    · norm_num
    · nlinarith
    · nlinarith
  have hc2 : 0 < Real.cos (60 * Real.pi / 180) := by
    apply Real.cos_pos_of_mem_Ioo
    constructor <;> nlinarith
  have hc1 : 0 < Real.cos (60 * 3.14 / 180) := lt_trans hc2 hlt
  rw [(CalcLonKmSize_real 60 (by norm_num)).2]
  intro h
  have h' := Option.some.inj h
  have hA : Real.cos (60 * 3.14 / 180) * 111.27 ≠ 0 := by positivity
  have hB : Real.cos (60 * Real.pi / 180) * 111.27 ≠ 0 := by positivity
  have h3 : Real.cos (60 * 3.14 / 180) * 111.27 = Real.cos (60 * Real.pi / 180) * 111.27 := by
    have h4 := congrArg (fun z : ℝ => 3600 / z) h'
    simp only at h4
    rw [div_div_cancel₀ (by norm_num : (3600 : ℝ) ≠ 0),
      div_div_cancel₀ (by norm_num : (3600 : ℝ) ≠ 0)] at h4
    exact h4
  nlinarith

theorem CalcLonKmSize_formula_witness :
    Real.cos (0 * 3.14 / 180) ≠ 0 ∧
      CalcLonKmSize Real.cos (some 0) = some (3600 / (Real.cos (0 * 3.14 / 180) * 111.27)) ∧
      GridAlgorithm.gridSize 7 (CalcLonKmSize Real.cos (some 0)) =
        some (3600 / (Real.cos (0 * 3.14 / 180) * 111.27) * ((7 : Int) : ℝ) / 3600) :=
  ⟨by simp, CalcLonKmSize_formula 7 0 (by simp)⟩

/-! ## The accuracy mode after `UpdateAccuracy` -/

section DeviceTheorems
variable {K : Type} [LinearOrderedField K] [FloorRing K]

theorem StartDevice_works (env : Env K) (s : Sys K) (hen : s.sGeoEnabled = true)
    (hinit : s.sGeoInitPending = false) (henv : env.deviceWorks) :
    (nsGeolocationService.StartDevice env s).1 =
      { s with
        mDisconnectTimer := true
        effects := s.effects ++ [ServiceEffect.ProviderStartup, ServiceEffect.ProviderWatch,
          ServiceEffect.NotifyObserversStarting] } := by
  obtain ⟨h1, h2, h3, h4, h5⟩ := henv
  unfold nsGeolocationService.StartDevice
  simp [hen, hinit, h1, h2, h3, h4, h5, nsGeolocationService.SetDisconnectTimer, Sys.effect]

theorem StopDevice_works (env : Env K) (s : Sys K) (henv : env.deviceWorks) :
    nsGeolocationService.StopDevice env s =
      { s with
        mDisconnectTimer := false
        mHigherAccuracy := false
        effects := s.effects ++ [ServiceEffect.ProviderShutdown,
          ServiceEffect.NotifyObserversShutdown] } := by
  obtain ⟨h1, h2, h3, h4, h5⟩ := henv
  unfold nsGeolocationService.StopDevice
  simp [h1, h2, h3, Sys.effect]

/-- C26 (as the code has it): on an enabled, initialised service, in
environments where the device works, every call of `StartDevice` in a
sequence of `StartDevice` and `StopDevice` calls calls `Startup` and `Watch`
on the provider and emits the "starting" notification, whether or not the
provider is already running: the number of "starting" notifications emitted
is the number of `StartDevice` calls, and so is the number of `Startup`
calls. -/
theorem runDevice_starting (s : Sys K) (calls : List (Env K × DeviceCall))
    (hen : s.sGeoEnabled = true) (hinit : s.sGeoInitPending = false)
    (henv : ∀ c ∈ calls, c.1.deviceWorks) :
    (runDevice s calls).effects.count ServiceEffect.NotifyObserversStarting =
        s.effects.count ServiceEffect.NotifyObserversStarting +
          calls.countP (fun c => c.2 = DeviceCall.StartDevice) ∧
      (runDevice s calls).effects.count ServiceEffect.ProviderStartup =
        s.effects.count ServiceEffect.ProviderStartup +
          calls.countP (fun c => c.2 = DeviceCall.StartDevice) := by
  induction calls generalizing s with
  | nil => simp [runDevice]
  | cons c rest ih =>
    obtain ⟨env, call⟩ := c
    have hw : env.deviceWorks := henv (env, call) (List.mem_cons_self _ _)
    have hrest : ∀ c ∈ rest, c.1.deviceWorks := fun c hc => henv c (List.mem_cons_of_mem _ hc)
    cases call with
    | StartDevice =>
      have hs := StartDevice_works env s hen hinit hw
      have := ih (nsGeolocationService.StartDevice env s).1 (by rw [hs]; exact hen)
        (by rw [hs]; exact hinit) hrest
      simp only [runDevice]
      rw [this.1, this.2, hs]
      simp [List.count_append, List.countP_cons]
      constructor <;> omega
    | StopDevice =>
      have hs := StopDevice_works env s hw
      have := ih (nsGeolocationService.StopDevice env s) (by rw [hs]; exact hen)
        (by rw [hs]; exact hinit) hrest
      simp only [runDevice]
      rw [this.1, this.2, hs]
      simp [List.count_append, List.countP_cons]

end DeviceTheorems

theorem exampleEnv_deviceWorks : exampleEnv.deviceWorks :=
  ⟨by decide, rfl, rfl, rfl, rfl⟩

/-- C26 (counterexample): `StartDevice` is called twice in a row on the
stopped device of an enabled, initialised service.  The provider goes from
stopped to running once, and the "starting" notification is emitted twice:
the second call, made while the provider is running, calls `Startup` and
`Watch` and emits it again. -/
theorem runDevice_counterexample :
    (runDevice exampleInit
        [(exampleEnv, DeviceCall.StartDevice), (exampleEnv, DeviceCall.StartDevice)]).effects =
      [ServiceEffect.ProviderStartup, ServiceEffect.ProviderWatch,
        ServiceEffect.NotifyObserversStarting,
        ServiceEffect.ProviderStartup, ServiceEffect.ProviderWatch,
        ServiceEffect.NotifyObserversStarting] := by
  decide

theorem runDevice_starting_witness :
    exampleInit.sGeoEnabled = true ∧ exampleInit.sGeoInitPending = false ∧
      (∀ c ∈ [(exampleEnv, DeviceCall.StartDevice), (exampleEnv, DeviceCall.StartDevice),
          (exampleEnv, DeviceCall.StopDevice), (exampleEnv, DeviceCall.StartDevice)],
        c.1.deviceWorks) ∧
      (runDevice exampleInit
        [(exampleEnv, DeviceCall.StartDevice), (exampleEnv, DeviceCall.StartDevice),
          (exampleEnv, DeviceCall.StopDevice), (exampleEnv, DeviceCall.StartDevice)]).effects.count
          ServiceEffect.NotifyObserversStarting = 0 + 3 :=
  ⟨rfl, rfl, by
    intro c hc
    simp only [List.mem_cons, List.mem_singleton, List.not_mem_nil, or_false] at hc
    rcases hc with h | h | h | h <;> rw [h] <;> exact exampleEnv_deviceWorks,
    (runDevice_starting exampleInit _ rfl rfl (by
      intro c hc
      simp only [List.mem_cons, List.mem_singleton, List.not_mem_nil, or_false] at hc
      rcases hc with h | h | h | h <;> rw [h] <;> exact exampleEnv_deviceWorks)).1⟩

/-! ## Delivery of an absent position -/

section AbsentPosition
variable {K : Type} [LinearOrderedField K] [FloorRing K]

/-- C28 (the code on an absent position): for a request that is not shut
down, `SendLocation` called with an absent position reads the timestamp of
the position when the options ask for a positive `maximumAge`, which
dereferences the null pointer, and no callback is invoked; it invokes the
error callback with `POSITION_UNAVAILABLE`, and not the success callback,
only when there are no options or `maximumAge` is zero. -/
theorem SendLocation_absent (env : Env K) (s : Sys K) (r : Nat) (q : nsGeolocationRequest)
    (hq : s.requests[r]? = some q) (hlive : q.mShutdown = false) :
    (∀ o, q.mOptions = some o → 0 < o.mMaximumAge →
        nsGeolocationRequest.SendLocation env s r none = { s with crashed := true }) ∧
      ((q.mOptions = none ∨ ∃ o, q.mOptions = some o ∧ o.mMaximumAge = 0) →
        nsGeolocationRequest.SendLocation env s r none =
          { s with callbacks := s.callbacks ++ [CallbackEvent.error r POSITION_UNAVAILABLE] }) := by
  constructor
  · intro o ho hage
    unfold nsGeolocationRequest.SendLocation
    simp [hq, hlive, ho, hage]
  · rintro (ho | ⟨o, ho, hage⟩)
    · unfold nsGeolocationRequest.SendLocation
      simp [hq, hlive, ho, nsGeolocationRequest.NotifyError]
    · unfold nsGeolocationRequest.SendLocation
      simp [hq, hlive, ho, hage, nsGeolocationRequest.NotifyError]

end AbsentPosition

theorem SendLocation_absent_witness :
    (cachedSys 0).requests[0]? = some maxAgeRequest ∧ maxAgeRequest.mShutdown = false ∧
      (nsGeolocationRequest.SendLocation cacheEnv (cachedSys 0) 0 none).crashed = true ∧
      (nsGeolocationRequest.SendLocation cacheEnv (cachedSys 0) 0 none).callbacks = [] ∧
      (run exampleInit disabledWithMaxAge).crashed = true ∧
      (run exampleInit disabledWithMaxAge).callbacks = [] :=
  ⟨rfl, rfl,
    by rw [(SendLocation_absent cacheEnv (cachedSys 0) 0 maxAgeRequest rfl rfl).1
      { mEnableHighAccuracy := false, mTimeout := 0, mMaximumAge := 5000 } rfl (by decide)],
    by rw [(SendLocation_absent cacheEnv (cachedSys 0) 0 maxAgeRequest rfl rfl).1
      { mEnableHighAccuracy := false, mTimeout := 0, mMaximumAge := 5000 } rfl (by decide)]; rfl,
    by decide, by decide⟩

/-! ## Requests in the arrays are not shut down: the invariant -/

section LiveBasics
variable {K : Type} [LinearOrderedField K] [FloorRing K]

theorem View.Live_none {v : View K} (hv : v.req = none) : v.Live := by
  intro q hq
  rw [hv] at hq; cases hq

theorem View.Live_some {v : View K} {q : nsGeolocationRequest} (hv : v.req = some q) :
    v.Live ↔ v.LiveInv q := by
  constructor
  · intro h; exact h q hv
  · intro h q' hq'
    rw [hv] at hq'; cases hq'; exact h

/-- The invariant `Live` reads the request object and three counts. -/
theorem View.Live.of_core {v w : View K} (hreq : w.req = v.req) (hd : w.decisions ≤ v.decisions)
    (hp : w.pending ≤ v.pending) (hw : w.watching ≤ v.watching) (h : v.Live) : w.Live := by
  intro q hq
  rw [hreq] at hq
  have L := h q hq
  refine ⟨fun hs => ?_, fun hk => ?_⟩
  · obtain ⟨a, b, c, d⟩ := L.shut hs
    exact ⟨a, by omega, by omega, by omega⟩
  · obtain ⟨a, b⟩ := L.watch hk
    exact ⟨by omega, by omega⟩

/-- The request object changes, keeping its kind; no count grows; if it ends
up shut down it has no timer and is counted nowhere. -/
theorem View.Live.next {v w : View K} {q q' : nsGeolocationRequest} (hv : v.req = some q)
    (hw : w.req = some q') (hk : q'.mIsWatchPositionRequest = q.mIsWatchPositionRequest)
    (hd : w.decisions ≤ v.decisions) (hp : w.pending ≤ v.pending)
    (hwa : w.watching ≤ v.watching)
    (hsh : v.LiveInv q → q'.mShutdown = true →
      q'.mTimeoutTimer = none ∧ w.decisions = 0 ∧ w.pending = 0 ∧ w.watching = 0)
    (h : v.Live) : w.Live := by
  have L := h q hv
  rw [View.Live_some hw]
  refine ⟨hsh L, fun hk' => ?_⟩
  obtain ⟨a, b⟩ := L.watch (by rw [← hk]; exact hk')
  exact ⟨by omega, by omega⟩

theorem View.Sound.sound_of_view_eq {v w : View K} (h : w = v) (hs : v.Sound) : w.Sound := by
  rw [h]; exact hs

/-- A step that keeps the invariant of one-shot requests and does not touch
what `Live` reads. -/
theorem View.Sound.of_keeps_core {v w : View K} (hk : v.Keeps w) (hreq : w.req = v.req)
    (hd : w.decisions ≤ v.decisions) (hp : w.pending ≤ v.pending)
    (hw : w.watching ≤ v.watching) (hs : v.Sound) : w.Sound :=
  ⟨(hk.2 hs.1).1, hs.2.of_core hreq hd hp hw⟩

theorem SameViews.sound {s t : Sys K} (h : SameViews s t) {r : Nat} (hs : (s.view r).Sound) :
    (t.view r).Sound := by
  rw [h.view_eq r]; exact hs

theorem SameViews.live {s t : Sys K} (h : SameViews s t) {r : Nat} (hs : (s.view r).Live) :
    (t.view r).Live := by
  rw [h.view_eq r]; exact hs

/-- From the invariants: a request with an outstanding decision is not shut
down. -/
theorem View.Live.live_of_decision {v : View K} {q : nsGeolocationRequest} (h : v.LiveInv q)
    (hd : 1 ≤ v.decisions) : q.mShutdown = false := by
  cases hs : q.mShutdown with
  | false => rfl
  | true => have := (h.shut hs).2.1; omega

theorem View.Live.live_of_pending {v : View K} {q : nsGeolocationRequest} (h : v.LiveInv q)
    (hd : 1 ≤ v.pending) : q.mShutdown = false := by
  cases hs : q.mShutdown with
  | false => rfl
  | true => have := (h.shut hs).2.2.1; omega

theorem View.Live.live_of_watching {v : View K} {q : nsGeolocationRequest} (h : v.LiveInv q)
    (hd : 1 ≤ v.watching) : q.mShutdown = false := by
  cases hs : q.mShutdown with
  | false => rfl
  | true => have := (h.shut hs).2.2.2; omega

theorem View.Live.live_of_timer {v : View K} {q : nsGeolocationRequest} (h : v.LiveInv q)
    (hd : q.mTimeoutTimer ≠ none) : q.mShutdown = false := by
  cases hs : q.mShutdown with
  | false => rfl
  | true => exact absurd (h.shut hs).1 hd

/-- Under both invariants a request is counted at most once in the pending
array and at most once in the watching array. -/
theorem View.Sound.counts {v : View K} {q : nsGeolocationRequest} (hv : v.req = some q)
    (hs : v.Sound) : v.decisions + v.pending + v.watching ≤ 1 := by
  have L := hs.2 q hv
  cases hk : q.mIsWatchPositionRequest with
  | true => have := L.watch hk; omega
  | false =>
    have I := (View.Inv_some hv).mp hs.1 hk
    have := I.decided
    have := I.notWatching
    omega

end LiveBasics

section LiveRequestSteps
variable {K : Type} [LinearOrderedField K] [FloorRing K]

theorem StopTimeoutTimer_sound (s : Sys K) (r' r : Nat) (hs : (s.view r).Sound) :
    ((nsGeolocationRequest.StopTimeoutTimer s r').view r).Sound := by
  refine ⟨((StopTimeoutTimer_le s r' r).le_keeps.2 hs.1).1, ?_⟩
  by_cases hne : r' = r
  · subst hne
    cases hq : s.requests[r']? with
    | none =>
      have : (nsGeolocationRequest.StopTimeoutTimer s r').view r' = s.view r' :=
        Sys.view_modifyRequest_none s _ hq
      rw [this]; exact hs.2
    | some q =>
      rw [StopTimeoutTimer_view_self s hq]
      refine View.Live.next (v := s.view r') (q := q) hq rfl rfl le_rfl le_rfl le_rfl ?_ hs.2
      intro L hsh
      obtain ⟨_, b, c, d⟩ := L.shut hsh
      exact ⟨rfl, b, c, d⟩
  · rw [StopTimeoutTimer_view_ne s hne]; exact hs.2

theorem NotifyErrorAndShutdown_sound (env : Env K) (s : Sys K) (r' r code : Nat)
    (hpre : r' = r → ∀ q, s.requests[r]? = some q → (s.view r).OneShotInv q →
      q.mIsWatchPositionRequest = false →
      (s.view r).decisions = 0 ∧ (s.view r).hasTerminal = false)
    (hs : (s.view r).Sound) :
    ((nsGeolocationRequest.NotifyErrorAndShutdown env s r' code).view r).Sound := by
  refine ⟨((NotifyErrorAndShutdown_keeps env s r' r code hpre).2 hs.1).1, ?_⟩
  by_cases hne : r' = r
  · subst hne
    unfold nsGeolocationRequest.NotifyErrorAndShutdown
    cases hq : s.requests[r']? with
    | none =>
      rw [(SameViews.crashed s).view_eq r']; exact hs.2
    | some q =>
      simp only
      cases hw : q.mIsWatchPositionRequest with
      | true =>
        simp only [Bool.not_true, Bool.false_eq_true, if_false]
        rw [NotifyError_view]
        exact View.Live.of_core (v := s.view r') rfl le_rfl le_rfl le_rfl hs.2
      | false =>
        simp only [Bool.not_false, if_true]
        rw [NotifyError_view, RemoveRequest_view, Shutdown_view_self env s hq]
        have I := (View.Inv_some (v := s.view r') hq).mp hs.1 hw
        obtain ⟨hd0, _⟩ := hpre rfl q hq I hw
        refine View.Live.next (v := s.view r') (q := q) hq rfl rfl le_rfl (Nat.sub_le _ _)
          (Nat.sub_le _ _) ?_ hs.2
        intro _ _
        refine ⟨rfl, hd0, ?_, ?_⟩
        · show (s.view r').pending - _ = 0
          have := I.decided
          simp only [if_true]
          omega
        · show (s.view r').watching - _ = 0
          have := I.notWatching
          omega
  · rw [NotifyErrorAndShutdown_view_ne env s code hne]; exact hs.2

theorem Notify_sound (env : Env K) (s : Sys K) (r' r : Nat)
    (harmed : ∀ q, s.requests[r']? = some q → q.mTimeoutTimer ≠ none)
    (hs : (s.view r).Sound) : ((nsGeolocationRequest.Notify env s r').view r).Sound := by
  unfold nsGeolocationRequest.Notify
  simp only
  refine NotifyErrorAndShutdown_sound env _ r' r TIMEOUT ?_ (StopTimeoutTimer_sound s r' r hs)
  intro hne q1 hq1 _ hone1
  subst hne
  rcases (s.view r').req_cases with hq | ⟨q, hq⟩
  · have hview : (nsGeolocationRequest.StopTimeoutTimer s r').view r' = s.view r' :=
      Sys.view_modifyRequest_none s _ hq
    have : (s.view r').req = some q1 := by rw [← hview]; exact hq1
    rw [hq] at this; cases this
  · have hview := StopTimeoutTimer_view_self s (show s.requests[r']? = some q from hq)
    have hq1' : ((nsGeolocationRequest.StopTimeoutTimer s r').view r').req = some q1 := hq1
    rw [hview] at hq1' ⊢
    have hk : q.mIsWatchPositionRequest = false := by
      rw [← Option.some.inj hq1'] at hone1
      exact hone1
    exact View.armed_facts (v := s.view r') ((View.Inv_some hq).mp hs.1 hk) (harmed q hq)

end LiveRequestSteps

section LiveLoopSteps
variable {K : Type} [LinearOrderedField K] [FloorRing K]

theorem forDown_sound (arr : Sys K → List Nat) (body : Sys K → Nat → Sys K) (r : Nat)
    (hbody : ∀ s r', r' ∈ arr s → (s.view r).Sound → ((body s r').view r).Sound)
    (n : Nat) (s : Sys K) (hs : (s.view r).Sound) : ((forDown arr body n s).view r).Sound :=
  forDown_induct arr body (fun t => (t.view r).Sound)
    (fun t ht => (SameViews.crashed t).sound ht)
    (fun t r' ht hmem => hbody t r' hmem ht) n s hs

theorem forUp_sound (arr : Sys K → List Nat) (body : Sys K → Nat → Sys K) (r : Nat)
    (hbody : ∀ s r', r' ∈ arr s → (s.view r).Sound → ((body s r').view r).Sound)
    (fuel i : Nat) (s : Sys K) (hs : (s.view r).Sound) :
    ((forUp arr body fuel i s).view r).Sound :=
  forUp_induct arr body (fun t => (t.view r).Sound)
    (fun t r' ht hmem => hbody t r' hmem ht) fuel i s hs

theorem GeolocationShutdown_view (env : Env K) (s : Sys K) (r : Nat) :
    (Geolocation.Shutdown env s).view r = { s.view r with pending := 0, watching := 0 } := by
  have hv : (Geolocation.Shutdown env s).view r =
      ({ s with mPendingCallbacks := [], mWatchingCallbacks := [] } : Sys K).view r := by
    unfold Geolocation.Shutdown
    simp only
    split
    · exact (SameViews.UpdateAccuracy env _ false).view_eq r
    · rfl
  rw [hv]
  simp [Sys.view, Sys.decisions, Sys.sends, Sys.callbacksOf]

theorem GeolocationShutdown_sound (env : Env K) (s : Sys K) (r : Nat) (hs : (s.view r).Sound) :
    ((Geolocation.Shutdown env s).view r).Sound := by
  refine View.Sound.of_keeps_core (GeolocationShutdown_le env s r).le_keeps ?_ ?_ ?_ ?_ hs <;>
    simp [GeolocationShutdown_view]

theorem GeolocationUpdate_sound (env : Env K) (s : Sys K) (p : Option (nsGeoPosition K))
    (r : Nat) (hs : (s.view r).Sound) : ((Geolocation.Update env s p).view r).Sound := by
  refine ⟨((GeolocationUpdate_keeps env s p r).2 hs.1).1, ?_⟩
  unfold Geolocation.Update
  split
  · exact (GeolocationShutdown_sound env s r hs).2
  · simp only
    have h1 : ((forDown (fun s => s.mPendingCallbacks)
        (fun s r => Geolocation.RemoveRequest (nsGeolocationRequest.Update s r p) r)
        s.mPendingCallbacks.length s).view r).Live := by
      refine forDown_induct _ _ (fun t => (t.view r).Live)
        (fun t ht => (SameViews.crashed t).live ht) ?_ _ s hs.2
      intro t r' ht _
      refine View.Live.of_core (v := t.view r) ?_ ?_ ?_ ?_ ht <;>
        simp [RemoveRequest_view, Update_view]
    refine forUp_induct _ _ (fun t => (t.view r).Live) ?_ _ _ _ h1
    intro t r' ht _
    refine View.Live.of_core (v := t.view r) ?_ ?_ ?_ ?_ ht <;> simp [Update_view]

theorem GeolocationNotifyError_sound (env : Env K) (s : Sys K) (code r : Nat)
    (hs : (s.view r).Sound) : ((Geolocation.NotifyError env s code).view r).Sound := by
  unfold Geolocation.NotifyError
  split
  · exact GeolocationShutdown_sound env s r hs
  · simp only
    refine forUp_sound _ _ r ?_ _ _ _ (forDown_sound _ _ r ?_ _ _ hs)
    · intro t r' hmem ht
      refine NotifyErrorAndShutdown_sound env t r' r code ?_ ht
      intro hne q _ I _
      subst hne
      have h0 := I.notWatching
      have h1 : 1 ≤ (t.view r').watching := count_pos_of_mem hmem
      omega
    · intro t r' hmem ht
      refine NotifyErrorAndShutdown_sound env t r' r code ?_ ht
      intro hne q _ I _
      subst hne
      exact View.pending_facts I (count_pos_of_mem hmem)

theorem serviceNotifyError_sound (env : Env K) (s : Sys K) (code r : Nat)
    (hs : (s.view r).Sound) : ((nsGeolocationService.NotifyError env s code).view r).Sound := by
  unfold nsGeolocationService.NotifyError
  split
  · exact GeolocationNotifyError_sound env s code r hs
  · exact hs

theorem serviceUpdate_sound (env : Env K) (s : Sys K) (p : Option (nsGeoPosition K)) (r : Nat)
    (hs : (s.view r).Sound) : ((nsGeolocationService.Update env s p).view r).Sound := by
  unfold nsGeolocationService.Update
  simp only
  split
  · exact GeolocationUpdate_sound env _ p r ((SameViews.SetCachedPosition s p).sound hs)
  · exact (SameViews.SetCachedPosition s p).sound hs

theorem StartDevice_sound (env : Env K) (s : Sys K) (r : Nat) (hs : (s.view r).Sound) :
    ((nsGeolocationService.StartDevice env s).1.view r).Sound := by
  rcases StartDevice_cases env s with h | ⟨t, ht, heq, _⟩
  · exact h.sound hs
  · rw [heq]
    exact serviceNotifyError_sound env t _ r (ht.sound hs)

end LiveLoopSteps

section LiveDeliverySteps
variable {K : Type} [LinearOrderedField K] [FloorRing K]

theorem NotifyError_live (s : Sys K) (r' r code : Nat) (h : (s.view r).Live) :
    ((nsGeolocationRequest.NotifyError s r' code).view r).Live := by
  rw [NotifyError_view]
  exact View.Live.of_core (v := s.view r) rfl le_rfl le_rfl le_rfl h

theorem pop_live (s : Sys K) (ev : Runnable K) (rest : List (Runnable K)) (r : Nat)
    (hq : s.queue = ev :: rest) (h : (s.view r).Live) :
    (({ s with queue := rest } : Sys K).view r).Live := by
  rw [(pop_view s ev rest r hq).1]
  exact View.Live.of_core (v := s.view r) rfl (Nat.sub_le _ _) le_rfl le_rfl h

theorem unprompt_live (s : Sys K) (r' r : Nat) (hmem : r' ∈ s.prompting)
    (h : (s.view r).Live) :
    (({ s with prompting := s.prompting.erase r' } : Sys K).view r).Live := by
  rw [(unprompt_view s r' r hmem).1]
  exact View.Live.of_core (v := s.view r) rfl (Nat.sub_le _ _) le_rfl le_rfl h

/-- The call `SendLocation` keeps `Live` when a one-shot request that is not shut down
is reached with no outstanding decision and in neither array. -/
theorem SendLocation_live (env : Env K) (s : Sys K) (r : Nat) (p : Option (nsGeoPosition K))
    (hpre : ∀ q, s.requests[r]? = some q → q.mIsWatchPositionRequest = false →
      q.mShutdown = false →
      (s.view r).decisions = 0 ∧ (s.view r).pending = 0 ∧ (s.view r).watching = 0)
    (h : (s.view r).Live) : ((nsGeolocationRequest.SendLocation env s r p).view r).Live := by
  unfold nsGeolocationRequest.SendLocation
  cases hq : s.requests[r]? with
  | none => exact (SameViews.crashed s).live h
  | some q =>
    simp only
    cases hsh : q.mShutdown with
    | true => simp only [if_true]; exact h
    | false =>
      simp only [Bool.false_eq_true, if_false]
      split
      · exact (SameViews.crashed s).live h
      · exact h
      · split
        · exact NotifyError_live s r r _ h
        · rename_i w _
          cases hw : q.mIsWatchPositionRequest with
          | true =>
            simp only [Bool.not_true, Bool.false_eq_true, if_false]
            have hq3 : ({ s with callbacks := s.callbacks ++ [CallbackEvent.success r w] }
                : Sys K).requests[r]? = some q := hq
            rw [StopTimeoutTimer_view_self _ hq3, appendCallback_view]
            refine View.Live.next (v := s.view r) (q := q) hq rfl rfl le_rfl le_rfl le_rfl ?_ h
            intro _ hs'
            rw [hsh] at hs'; cases hs'
          | false =>
            simp only [Bool.not_false, if_true]
            have hv2 := Shutdown_view_self env s hq
            have hq2 : (nsGeolocationRequest.Shutdown env s r).requests[r]?
                = some { q with mShutdown := true, mTimeoutTimer := none } := by
              have := congrArg View.req hv2
              exact this
            have hq3 : ({ nsGeolocationRequest.Shutdown env s r with
                callbacks := (nsGeolocationRequest.Shutdown env s r).callbacks ++
                  [CallbackEvent.success r w] } : Sys K).requests[r]?
                = some { q with mShutdown := true, mTimeoutTimer := none } := hq2
            have hfinal := StopTimeoutTimer_view_self _ hq3
            rw [appendCallback_view, hv2] at hfinal
            rw [hfinal]
            obtain ⟨a, b, c⟩ := hpre q hq hw hsh
            refine View.Live.next (v := s.view r) (q := q) hq rfl rfl le_rfl le_rfl le_rfl ?_ h
            intro _ _
            exact ⟨rfl, a, b, c⟩

theorem SendLocation_sound_of_popped (env : Env K) (s : Sys K) (rest : List (Runnable K))
    (p : Option (nsGeoPosition K)) (r' r : Nat)
    (h : s.queue = Runnable.RequestSendLocationEvent p r' :: rest) (hs : (s.view r).Sound) :
    ((nsGeolocationRequest.SendLocation env { s with queue := rest } r' p).view r).Sound := by
  refine ⟨((SendLocation_keeps_of_popped env s rest p r' r h).2 hs.1).1, ?_⟩
  obtain ⟨hv1, _, hsend⟩ := pop_view s _ rest r h
  have hl1 := pop_live s _ rest r h hs.2
  by_cases hne : r' = r
  · subst hne
    refine SendLocation_live env _ r' p ?_ hl1
    intro q hq hone _
    have hq' : (s.view r').req = some q := hq
    have I := (View.Inv_some hq').mp hs.1 hone
    have hs1 : 1 ≤ (s.view r').sends := hsend (by simp [Runnable.isSendFor])
    have hp0 := I.sent hs1
    have hd0 : (s.view r').decisions = 0 := by
      by_contra hd
      have hd1 : (s.view r').decisions = 1 := by have := I.decided; omega
      have := (I.undecided hd1).2.1
      omega
    rw [hv1]
    exact ⟨by show (s.view r').decisions - _ = 0; omega, hp0, I.notWatching⟩
  · rw [SendLocation_view_ne env _ p hne]; exact hl1

theorem Cancel_sound_of_consumed (s s1 : Sys K) (r' r : Nat)
    (hself : r' = r → 1 ≤ (s.view r).decisions ∧
      s1.view r = { s.view r with decisions := (s.view r).decisions - 1 })
    (hother : r' ≠ r → s1.view r = s.view r) (hs : (s.view r).Sound) :
    ((nsGeolocationRequest.Cancel s1 r').view r).Sound := by
  refine ⟨((Cancel_keeps_of_consumed s s1 r' r hself hother).2 hs.1).1, ?_⟩
  unfold nsGeolocationRequest.Cancel
  refine NotifyError_live s1 r' r _ ?_
  by_cases hne : r' = r
  · rw [(hself hne).2]
    exact View.Live.of_core (v := s.view r) rfl (Nat.sub_le _ _) le_rfl le_rfl hs.2
  · rw [hother hne]; exact hs.2

end LiveDeliverySteps

section LiveAllowSteps
variable {K : Type} [LinearOrderedField K] [FloorRing K]

/-- The view of a request after `Allow` on it, when the request is in
neither array: either the provider could not be started and the error
callback is invoked, or the request is registered or sent the cached position
and its timer is set. -/
theorem Allow_view_self (env : Env K) (s : Sys K) (r : Nat) (q : nsGeolocationRequest)
    (hq : s.requests[r]? = some q) (hp : (s.view r).pending = 0)
    (hw : (s.view r).watching = 0) :
    (nsGeolocationRequest.Allow env s r).view r =
        { s.view r with
          callbacks := (s.view r).callbacks ++ [CallbackEvent.error r POSITION_UNAVAILABLE] } ∨
      ∃ (tm : Option Int) (c : Bool),
        (nsGeolocationRequest.Allow env s r).view r =
          { req := some { q with mTimeoutTimer := tm },
            decisions := (s.view r).decisions,
            sends := (s.view r).sends + (if c = true then 1 else 0),
            pending := (s.view r).pending +
              (if q.mIsWatchPositionRequest = false ∧ c = false then 1 else 0),
            watching := (s.view r).watching +
              (if q.mIsWatchPositionRequest = true then 1 else 0),
            callbacks := (s.view r).callbacks } := by
  unfold nsGeolocationRequest.Allow
  simp only [hq]
  have hveq := StartDevice_view_eq env s r hp hw
  rcases hsd : nsGeolocationService.StartDevice env s with ⟨s2, rv⟩
  rw [hsd] at hveq
  simp only at hveq ⊢
  have hq2 : s2.requests[r]? = some q := by
    have := congrArg View.req hveq
    exact this.trans hq
  by_cases hrv : rv = nsresult.NS_OK
  · right
    simp only [hrv, ne_eq, not_true_eq_false, if_false]
    obtain ⟨tm, htm⟩ := Allow_rest_view env s2 r r q hq2 (s2.WantsHighAccuracy r)
      (nsGeolocationRequest.Allow.canUseCache env s2 q) s2.mLastPosition.position
    refine ⟨tm, nsGeolocationRequest.Allow.canUseCache env s2 q, ?_⟩
    rw [htm]
    simp only [if_true, hveq]
  · left
    simp only [hrv, ne_eq, not_false_eq_true, if_true]
    rw [NotifyError_view, hveq]
    simp

/-- The call `Allow` on a request that is not shut down, has no outstanding decision
and is in neither array leaves it satisfying `Live`. -/
theorem Allow_live_self (env : Env K) (s : Sys K) (r : Nat) (q : nsGeolocationRequest)
    (hq : s.requests[r]? = some q) (hlive : q.mShutdown = false)
    (hd : (s.view r).decisions = 0) (hp : (s.view r).pending = 0)
    (hw : (s.view r).watching = 0) : ((nsGeolocationRequest.Allow env s r).view r).Live := by
  rcases Allow_view_self env s r q hq hp hw with h | ⟨tm, c, h⟩
  · rw [h]
    intro q' hq'
    have : q' = q := by
      have h1 : (s.view r).req = some q := hq
      have h2 : (s.view r).req = some q' := hq'
      rw [h1] at h2; exact (Option.some.inj h2).symm
    subst this
    refine ⟨fun hs => ?_, fun _ => ?_⟩
    · rw [hlive] at hs; cases hs
    · show (s.view r).decisions + (s.view r).watching ≤ 1 ∧ (s.view r).pending = 0
      omega
  · rw [h]
    intro q' hq'
    have hq2 : q' = { q with mTimeoutTimer := tm } := (Option.some.inj hq').symm
    subst hq2
    refine ⟨fun hs => ?_, fun hk => ?_⟩
    · have : q.mShutdown = true := hs
      rw [hlive] at this; cases this
    · have hk' : q.mIsWatchPositionRequest = true := hk
      show (s.view r).decisions + ((s.view r).watching + _) ≤ 1 ∧ (s.view r).pending + _ = 0
      simp [hk', hd, hp, hw]

theorem Allow_sound_of_other (env : Env K) (s : Sys K) (r' r : Nat) (hne : r' ≠ r)
    (hs : (s.view r).Sound) : ((nsGeolocationRequest.Allow env s r').view r).Sound := by
  refine ⟨((Allow_keeps_of_other env s r' r (Or.inl hne)).2 hs.1).1, ?_⟩
  unfold nsGeolocationRequest.Allow
  cases hq : s.requests[r']? with
  | none => exact (SameViews.crashed s).live hs.2
  | some q =>
    simp only
    have h2 := (StartDevice_sound env s r hs).2
    have hk2' : Sys.Keeps r' s (nsGeolocationService.StartDevice env s).1 :=
      StartDevice_keeps env s r'
    rcases hsd : nsGeolocationService.StartDevice env s with ⟨s2, rv⟩
    rw [hsd] at h2 hk2'
    simp only at h2 hk2' ⊢
    obtain ⟨q2, hq2, hkind⟩ := hk2'.1 q hq
    have hq2' : s2.requests[r']? = some q2 := hq2
    by_cases hrv : rv = nsresult.NS_OK
    · simp only [hrv, ne_eq, not_true_eq_false, if_false]
      obtain ⟨tm, htm⟩ := Allow_rest_view env s2 r' r q2 hq2' (s2.WantsHighAccuracy r')
        (nsGeolocationRequest.Allow.canUseCache env s2 q) s2.mLastPosition.position
      rw [hkind] at htm
      rw [htm]
      simp only [hne, if_false]
      exact h2
    · simp only [hrv, ne_eq, not_false_eq_true, if_true]
      rw [NotifyError_view_ne _ _ hne]
      exact h2

/-- The call `Allow` after one decision of the request has been consumed. -/
theorem Allow_sound_of_consumed (env : Env K) (s s1 : Sys K) (r' r : Nat)
    (hle : (s.view r).Le (s1.view r)) (hreq : (s1.view r).req = (s.view r).req)
    (hself : r' = r → 1 ≤ (s.view r).decisions ∧
      s1.view r = { s.view r with decisions := (s.view r).decisions - 1 })
    (hs : (s.view r).Sound) : ((nsGeolocationRequest.Allow env s1 r').view r).Sound := by
  refine ⟨((Allow_keeps_of_consumed env s s1 r' r hle hself).2 hs.1).1, ?_⟩
  have hs1 : (s1.view r).Sound :=
    ⟨(hle.le_keeps.2 hs.1).1, View.Live.of_core (v := s.view r) hreq hle.2.1 hle.2.2.2.1
      hle.2.2.2.2.1 hs.2⟩
  by_cases hne : r' = r
  · subst hne
    obtain ⟨hdec, hv1⟩ := hself rfl
    rcases (s.view r').req_cases with hq | ⟨q, hq⟩
    · have hq1 : s1.requests[r']? = none := by
        have : (s1.view r').req = none := by rw [hreq]; exact hq
        exact this
      unfold nsGeolocationRequest.Allow
      rw [hq1]
      exact (SameViews.crashed s1).live hs1.2
    · have hc := hs.counts hq
      have hlive := View.Live.live_of_decision (hs.2 q hq) hdec
      have hq1 : s1.requests[r']? = some q := by
        have : (s1.view r').req = some q := by rw [hreq]; exact hq
        exact this
      refine Allow_live_self env s1 r' q hq1 hlive ?_ ?_ ?_
      · rw [hv1]; show (s.view r').decisions - 1 = 0; omega
      · rw [hv1]; show (s.view r').pending = 0; omega
      · rw [hv1]; show (s.view r').watching = 0; omega
  · exact (Allow_sound_of_other env s1 r' r hne hs1).2

end LiveAllowSteps

section LiveRunSteps
variable {K : Type} [LinearOrderedField K] [FloorRing K]

/-- An existing request that is not shut down satisfies `Live` when, if it is
a watch request, it is counted at most once among the outstanding decisions
and the watching array and is not in the pending array. -/
theorem View.Live.of_fields {w : View K} {q : nsGeolocationRequest} (hw : w.req = some q)
    (hlive : q.mShutdown = false)
    (hwatch : q.mIsWatchPositionRequest = true → w.decisions + w.watching ≤ 1 ∧ w.pending = 0) :
    w.Live := by
  rw [View.Live_some hw]
  refine ⟨fun hs => ?_, hwatch⟩
  rw [hlive] at hs; cases hs

/-- Handing a request to the prompt moves its decision from the queue to the
prompt. -/
theorem RunPrompt_view (s : Sys K) (r' r : Nat) (rest : List (Runnable K))
    (h : s.queue = Runnable.RequestPromptEvent r' :: rest) :
    ({ ({ s with queue := rest } : Sys K) with prompting := s.prompting ++ [r'] } : Sys K).view r
      = s.view r := by
  obtain ⟨hv1, hdec, _⟩ := pop_view s _ rest r h
  by_cases hne : r' = r
  · subst hne
    have hd := hdec (by simp [Runnable.isDecisionFor])
    have hd' : 1 ≤ s.decisions r' := hd
    simp only [Sys.decisions, h, List.countP_cons, Runnable.isDecisionFor, beq_self_eq_true,
      if_true] at hd' ⊢
    simp only [Sys.view, Sys.decisions, Sys.sends, Sys.callbacksOf, h, List.countP_cons,
      Runnable.isDecisionFor, Runnable.isSendFor, beq_self_eq_true, if_true,
      List.count_append, List.count_singleton_self]
    congr 1
    omega
  · have : List.count r [r'] = 0 := by simp [List.count_cons, Ne.symm hne]
    simp [Sys.view, Sys.decisions, Sys.sends, Sys.callbacksOf, h, List.countP_cons,
      Runnable.isDecisionFor, Runnable.isSendFor, hne, List.count_append, this]

theorem Run_sound (env : Env K) (s : Sys K) (ev : Runnable K) (rest : List (Runnable K))
    (r : Nat) (h : s.queue = ev :: rest) (hs : (s.view r).Sound) :
    ((Runnable.Run env { s with queue := rest } ev).view r).Sound := by
  obtain ⟨hv1, hdec, _⟩ := pop_view s ev rest r h
  cases ev with
  | RequestPromptEvent r' =>
    show (({ ({ s with queue := rest } : Sys K) with
      prompting := s.prompting ++ [r'] } : Sys K).view r).Sound
    rw [RunPrompt_view s r' r rest h]; exact hs
  | RequestAllowEvent allow r' =>
    have hself : r' = r → 1 ≤ (s.view r).decisions ∧
        ({ s with queue := rest } : Sys K).view r =
          { s.view r with decisions := (s.view r).decisions - 1 } := by
      rintro rfl
      refine ⟨hdec (by simp [Runnable.isDecisionFor]), ?_⟩
      rw [hv1]
      simp [Runnable.isDecisionFor, Runnable.isSendFor]
    have hother : r' ≠ r → ({ s with queue := rest } : Sys K).view r = s.view r := by
      intro hne
      rw [hv1]
      simp [Runnable.isDecisionFor, Runnable.isSendFor, hne]
    cases allow with
    | true =>
      exact Allow_sound_of_consumed env s _ r' r (pop_le s _ rest r h) (by rw [hv1]) hself hs
    | false => exact Cancel_sound_of_consumed s _ r' r hself hother hs
  | RequestSendLocationEvent p r' => exact SendLocation_sound_of_popped env s rest p r' r h hs

theorem PromptAllow_sound (env : Env K) (s : Sys K) (r' r : Nat) (h : r' ∈ s.prompting)
    (hs : (s.view r).Sound) :
    ((nsGeolocationRequest.Allow env { s with prompting := s.prompting.erase r' } r').view
      r).Sound := by
  obtain ⟨hv1, hdec⟩ := unprompt_view s r' r h
  refine Allow_sound_of_consumed env s _ r' r (unprompt_le s r' r h) (by rw [hv1]) ?_ hs
  rintro rfl
  exact ⟨hdec rfl, by rw [hv1]; simp⟩

theorem PromptCancel_sound (s : Sys K) (r' r : Nat) (h : r' ∈ s.prompting)
    (hs : (s.view r).Sound) :
    ((nsGeolocationRequest.Cancel { s with prompting := s.prompting.erase r' } r').view
      r).Sound := by
  obtain ⟨hv1, hdec⟩ := unprompt_view s r' r h
  refine Cancel_sound_of_consumed s _ r' r ?_ ?_ hs
  · rintro rfl
    exact ⟨hdec rfl, by rw [hv1]; simp⟩
  · intro hne
    rw [hv1]; simp [hne]

end LiveRunSteps

section LiveConsumerSteps
variable {K : Type} [LinearOrderedField K] [FloorRing K]

/-- A request object that is not shut down is appended to the heap and at
most one decision is recorded for it; the arrays do not change. -/
theorem fresh_live (s t : Sys K) (a : nsGeolocationRequest) (r : Nat)
    (ha : a.mShutdown = false)
    (hreq : t.requests = s.requests ++ [a])
    (hpc : t.mPendingCallbacks = s.mPendingCallbacks)
    (hwc : t.mWatchingCallbacks = s.mWatchingCallbacks)
    (hdec : t.decisions r ≤ s.decisions r + 1)
    (hdec' : r ≠ s.requests.length → t.decisions r = s.decisions r)
    (hs : (s.view r).Sound) : (t.view r).Live := by
  by_cases h : r = s.requests.length
  · subst h
    obtain ⟨a1, _, c1, d1, _⟩ := (View.Inv_none (view_req_length s)).mp hs.1
    have hw : (t.view s.requests.length).req = some a := by
      show t.requests[s.requests.length]? = some a
      rw [hreq]; simp
    refine View.Live.of_fields hw ha (fun _ => ?_)
    have e1 : (t.view s.requests.length).decisions ≤ (s.view s.requests.length).decisions + 1 :=
      hdec
    have e2 : (t.view s.requests.length).watching = (s.view s.requests.length).watching := by
      show t.mWatchingCallbacks.count _ = s.mWatchingCallbacks.count _
      rw [hwc]
    have e3 : (t.view s.requests.length).pending = (s.view s.requests.length).pending := by
      show t.mPendingCallbacks.count _ = s.mPendingCallbacks.count _
      rw [hpc]
    omega
  · have hr : t.requests[r]? = s.requests[r]? := by
      rw [hreq, getElem?_append_singleton]; simp [h]
    refine View.Live.of_core (v := s.view r) hr (le_of_eq (hdec' h)) ?_ ?_ hs.2
    · show t.mPendingCallbacks.count _ ≤ s.mPendingCallbacks.count _
      rw [hpc]
    · show t.mWatchingCallbacks.count _ ≤ s.mWatchingCallbacks.count _
      rw [hwc]

theorem GetCurrentPosition_sound (env : Env K) (s : Sys K) (options : Option PositionOptions)
    (r : Nat) (hs : (s.view r).Sound) :
    ((Geolocation.GetCurrentPosition env s options).1.view r).Sound := by
  refine ⟨((GetCurrentPosition_keeps env s options r).2 hs.1).1, ?_⟩
  unfold Geolocation.GetCurrentPosition
  split
  · exact hs.2
  · simp only
    split
    · have := dispatch_fields ({ s with requests := s.requests ++
        [{ mIsWatchPositionRequest := false, mTimeoutTimer := none, mOptions := options,
           mWatchId := 0, mShutdown := false }] } : Sys K)
        (Runnable.RequestAllowEvent false s.requests.length) r
      simp only [Runnable.isSendFor, Runnable.isDecisionFor, beq_iff_eq] at this
      refine fresh_live s _ _ r rfl rfl rfl rfl ?_ ?_ hs
      · rw [this.2]; show s.decisions r + _ ≤ _; split <;> omega
      · intro hne; rw [this.2]; show s.decisions r + _ = _; simp [Ne.symm hne]
    · split
      · exact fresh_live s _ _ r rfl rfl rfl rfl (Nat.le_succ _) (fun _ => rfl) hs
      · split
        · have hc : List.count r [s.requests.length]
              = if s.requests.length = r then 1 else 0 := by
            by_cases h : s.requests.length = r
            · simp [h]
            · simp [h, List.count_cons, Ne.symm]
          refine fresh_live s _ _ r rfl rfl rfl rfl ?_ ?_ hs
          · simp only [Sys.decisions, List.count_append, hc]
            split <;> omega
          · intro hne
            simp only [Sys.decisions, List.count_append, hc, Ne.symm hne, if_false]
            omega
        · obtain ⟨a, b, c, d, _, f, g, _, h, _⟩ := GetCurrentPositionReady_fields env
            ({ s with requests := s.requests ++
              [{ mIsWatchPositionRequest := false, mTimeoutTimer := none, mOptions := options,
                 mWatchId := 0, mShutdown := false }] } : Sys K) s.requests.length r
          exact fresh_live s _ _ r rfl a b c g (fun hne => h (Ne.symm hne)) hs

/-- The view of a request after `WatchPositionReady` on it, when it is in
neither array: a decision is dispatched, or nothing happens, or `Allow` runs
on it. -/
theorem WatchPositionReady_view_self (env : Env K) (s : Sys K) (r : Nat) :
    (Geolocation.WatchPositionReady env s r).1.view r =
        { s.view r with decisions := (s.view r).decisions + 1 } ∨
      (Geolocation.WatchPositionReady env s r).1.view r = s.view r ∨
      (Geolocation.WatchPositionReady env s r).1.view r =
        (nsGeolocationRequest.Allow env s r).view r := by
  unfold Geolocation.WatchPositionReady
  split
  · left
    obtain ⟨a, b, c, d, e⟩ := RegisterRequestWithPrompt_same env s r
    obtain ⟨f, g⟩ := RegisterRequestWithPrompt_fields env s r r
    simp only [Sys.view, a, b, c, f, g, if_true, Sys.callbacksOf, d]
  · split
    · right; left; rfl
    · right; right; rfl

theorem WatchPositionReady_sound_of_other (env : Env K) (s : Sys K) (r' r : Nat) (hne : r' ≠ r)
    (hs : (s.view r).Sound) : ((Geolocation.WatchPositionReady env s r').1.view r).Sound := by
  unfold Geolocation.WatchPositionReady
  split
  · obtain ⟨a, b, c, d, e⟩ := RegisterRequestWithPrompt_same env s r'
    obtain ⟨f, g⟩ := RegisterRequestWithPrompt_fields env s r' r
    have : (Geolocation.RegisterRequestWithPrompt env s r').view r = s.view r := by
      simp only [Sys.view, a, b, c, f, g, hne, if_false, Nat.add_zero, Sys.callbacksOf, d]
    rw [this]; exact hs
  · split
    · exact hs
    · exact Allow_sound_of_other env s r' r hne hs

/-- The outcomes of `WatchPositionReady` on a watch request that is not shut down and
is in neither array: once the decisions that were outstanding before the call
are taken away, the request satisfies `Live`. -/
theorem WatchPositionReady_live_self (env : Env K) (s t : Sys K) (r : Nat)
    (q : nsGeolocationRequest) (hq : s.requests[r]? = some q) (hlive : q.mShutdown = false)
    (hp : (s.view r).pending = 0) (hw : (s.view r).watching = 0)
    (hk : q.mIsWatchPositionRequest = true)
    (hreq : (t.view r).req = ((Geolocation.WatchPositionReady env s r).1.view r).req)
    (hdec : (t.view r).decisions + (s.view r).decisions =
      ((Geolocation.WatchPositionReady env s r).1.view r).decisions)
    (hpen : (t.view r).pending = ((Geolocation.WatchPositionReady env s r).1.view r).pending)
    (hwat : (t.view r).watching = ((Geolocation.WatchPositionReady env s r).1.view r).watching) :
    (t.view r).Live := by
  rcases WatchPositionReady_view_self env s r with h | h | h
  · rw [h] at hreq hdec hpen hwat
    have a' : (t.view r).req = some q := by rw [hreq]; exact hq
    refine View.Live.of_fields a' hlive (fun _ => ?_)
    have b' : (t.view r).decisions + (s.view r).decisions = (s.view r).decisions + 1 := hdec
    have c' : (t.view r).pending = (s.view r).pending := hpen
    have d' : (t.view r).watching = (s.view r).watching := hwat
    omega
  · rw [h] at hreq hdec hpen hwat
    have a' : (t.view r).req = some q := by rw [hreq]; exact hq
    refine View.Live.of_fields a' hlive (fun _ => ?_)
    omega
  · rw [h] at hreq hdec hpen hwat
    rcases Allow_view_self env s r q hq hp hw with h2 | ⟨tm, c, h2⟩
    · rw [h2] at hreq hdec hpen hwat
      have a' : (t.view r).req = some q := by rw [hreq]; exact hq
      refine View.Live.of_fields a' hlive (fun _ => ?_)
      have b' : (t.view r).decisions + (s.view r).decisions = (s.view r).decisions := hdec
      have c' : (t.view r).pending = (s.view r).pending := hpen
      have d' : (t.view r).watching = (s.view r).watching := hwat
      omega
    · rw [h2] at hreq hdec hpen hwat
      have a' : (t.view r).req = some { q with mTimeoutTimer := tm } := hreq
      refine View.Live.of_fields a' hlive (fun _ => ?_)
      have b' : (t.view r).decisions + (s.view r).decisions = (s.view r).decisions := hdec
      have c2 : (t.view r).pending = (s.view r).pending +
          (if q.mIsWatchPositionRequest = false ∧ c = false then 1 else 0) := hpen
      have d' : (t.view r).watching = (s.view r).watching +
          (if q.mIsWatchPositionRequest = true then 1 else 0) := hwat
      simp only [hk, Bool.true_eq_false, false_and, if_false, if_true] at c2 d'
      omega

/-- The call `WatchPositionReady` on a watch request that is mentioned nowhere. -/
theorem WatchPositionReady_live_fresh (env : Env K) (s : Sys K) (r : Nat)
    (q : nsGeolocationRequest) (hq : s.requests[r]? = some q) (hlive : q.mShutdown = false)
    (hk : q.mIsWatchPositionRequest = true) (hd : (s.view r).decisions = 0)
    (hp : (s.view r).pending = 0) (hw : (s.view r).watching = 0) :
    ((Geolocation.WatchPositionReady env s r).1.view r).Live :=
  WatchPositionReady_live_self env s (Geolocation.WatchPositionReady env s r).1 r q hq hlive hp hw
    hk rfl (by rw [hd]; rfl) rfl rfl

end LiveConsumerSteps

section LiveWatchSteps
variable {K : Type} [LinearOrderedField K] [FloorRing K]

theorem WatchPosition_sound (env : Env K) (s : Sys K) (options : Option PositionOptions)
    (r : Nat) (hs : (s.view r).Sound) :
    ((Geolocation.WatchPosition env s options).1.view r).Sound := by
  refine ⟨((WatchPosition_keeps env s options r).2 hs.1).1, ?_⟩
  unfold Geolocation.WatchPosition
  split
  · exact hs.2
  · simp only
    split
    · have := dispatch_fields
        ({ s with
            mLastWatchId := s.mLastWatchId + 1,
            requests := s.requests ++
              [{ mIsWatchPositionRequest := true, mTimeoutTimer := none, mOptions := options,
                 mWatchId := s.mLastWatchId, mShutdown := false }] } : Sys K)
        (Runnable.RequestAllowEvent false s.requests.length) r
      simp only [Runnable.isSendFor, Runnable.isDecisionFor, beq_iff_eq] at this
      refine fresh_live s _ _ r rfl rfl rfl rfl ?_ ?_ hs
      · rw [this.2]; show s.decisions r + _ ≤ _; split <;> omega
      · intro hne; rw [this.2]; show s.decisions r + _ = _; simp [Ne.symm hne]
    · split
      · exact fresh_live s _ _ r rfl rfl rfl rfl (Nat.le_succ _) (fun _ => rfl) hs
      · split
        · have hc : List.count r [s.requests.length]
              = if s.requests.length = r then 1 else 0 := by
            by_cases h : s.requests.length = r
            · simp [h]
            · simp [h, List.count_cons, Ne.symm]
          refine fresh_live s _ _ r rfl rfl rfl rfl ?_ ?_ hs
          · simp only [Sys.decisions, List.count_append, hc]
            split <;> omega
          · intro hne
            simp only [Sys.decisions, List.count_append, hc, Ne.symm hne, if_false]
            omega
        · -- the request is appended, then `WatchPositionReady` runs on it
          have hk0 : Sys.Keeps r s
              ({ s with
                  mLastWatchId := s.mLastWatchId + 1,
                  requests := s.requests ++
                    [{ mIsWatchPositionRequest := true, mTimeoutTimer := none,
                       mOptions := options, mWatchId := s.mLastWatchId,
                       mShutdown := false }] } : Sys K) :=
            fresh_watch_keeps s _ _ r rfl rfl rfl rfl rfl rfl (fun _ => rfl)
          have hl0 : (({ s with
                  mLastWatchId := s.mLastWatchId + 1,
                  requests := s.requests ++
                    [{ mIsWatchPositionRequest := true, mTimeoutTimer := none,
                       mOptions := options, mWatchId := s.mLastWatchId,
                       mShutdown := false }] } : Sys K).view r).Live :=
            fresh_live s _ _ r rfl rfl rfl rfl (Nat.le_succ _) (fun _ => rfl) hs
          by_cases hne : s.requests.length = r
          · subst hne
            obtain ⟨a1, _, c1, d1, _⟩ := (View.Inv_none (view_req_length s)).mp hs.1
            refine WatchPositionReady_live_fresh env _ s.requests.length
              { mIsWatchPositionRequest := true, mTimeoutTimer := none,
                mOptions := options, mWatchId := s.mLastWatchId, mShutdown := false }
              ?_ rfl rfl a1 c1 d1
            show (s.requests ++ _)[s.requests.length]? = _
            simp
          · exact (WatchPositionReady_sound_of_other env _ s.requests.length r hne
              ⟨(hk0.2 hs.1).1, hl0⟩).2

theorem count_eraseIdx_of_getElem? (l : List Nat) (i y : Nat) (h : l[i]? = some y) :
    (l.eraseIdx i).count y + 1 = l.count y := by
  induction l generalizing i with
  | nil => simp at h
  | cons x tl ih =>
    cases i with
    | zero =>
      simp only [List.getElem?_cons_zero, Option.some.injEq] at h
      subst h
      simp
    | succ i =>
      simp only [List.getElem?_cons_succ] at h
      have := ih i h
      simp only [List.eraseIdx_cons_succ, List.count_cons]
      omega

/-- The first loop of `ClearWatch` on the entry it finds in the watching
array. -/
theorem ClearWatch_first_sound (env : Env K) (s : Sys K) (x r : Nat)
    (hx : x ∈ s.mWatchingCallbacks) (hs : (s.view r).Sound) :
    ((Geolocation.RemoveRequest (nsGeolocationRequest.Shutdown env s x) x).view r).Sound := by
  refine ⟨((Sys.Keeps.sys_trans (Shutdown_le env s x r).le_keeps
    (RemoveRequest_le _ x r).le_keeps).2 hs.1).1, ?_⟩
  by_cases hne : x = r
  · subst hne
    rcases (s.view x).req_cases with hq | ⟨q, hq⟩
    · -- nothing mentions a request that does not exist
      have := ((View.Inv_none hq).mp hs.1).2.2.2.1
      have h1 : 1 ≤ (s.view x).watching := count_pos_of_mem hx
      omega
    · rw [RemoveRequest_view, Shutdown_view_self env s hq]
      have hc := hs.counts hq
      have h1 : 1 ≤ (s.view x).watching := count_pos_of_mem hx
      refine View.Live.next (v := s.view x) (q := q) hq rfl rfl le_rfl (Nat.sub_le _ _)
        (Nat.sub_le _ _) ?_ hs.2
      intro _ _
      refine ⟨rfl, ?_, ?_, ?_⟩
      · show (s.view x).decisions = 0
        omega
      · show (s.view x).pending - _ = 0
        omega
      · show (s.view x).watching - _ = 0
        simp only [if_true]
        omega
  · rw [RemoveRequest_view, Shutdown_view_ne env s hne]
    refine View.Live.of_core (v := s.view r) rfl le_rfl ?_ ?_ hs.2 <;> simp [hne]

/-- The second loop of `ClearWatch` on the entry it finds among the deferred
requests. -/
theorem ClearWatch_second_sound (env : Env K) (t : Sys K) (i y r : Nat)
    (hy : t.mPendingRequests[i]? = some y) (hs : (t.view r).Sound) :
    (({ nsGeolocationRequest.Shutdown env t y with
        mPendingRequests :=
          (nsGeolocationRequest.Shutdown env t y).mPendingRequests.eraseIdx i } : Sys K).view
      r).Sound := by
  have hk : Sys.Keeps r t
      ({ nsGeolocationRequest.Shutdown env t y with
        mPendingRequests :=
          (nsGeolocationRequest.Shutdown env t y).mPendingRequests.eraseIdx i } : Sys K) :=
    Sys.Keeps.sys_trans (Shutdown_le env t y r).le_keeps (eraseDeferred_le _ i r).le_keeps
  refine ⟨(hk.2 hs.1).1, ?_⟩
  have hpr : (nsGeolocationRequest.Shutdown env t y).mPendingRequests = t.mPendingRequests :=
    (RequestShutdown_frame t env y).2.2.1
  have hview : ∀ v : View K, (nsGeolocationRequest.Shutdown env t y).view r = v →
      ({ nsGeolocationRequest.Shutdown env t y with
        mPendingRequests :=
          (nsGeolocationRequest.Shutdown env t y).mPendingRequests.eraseIdx i } : Sys K).view r
        = { v with decisions := v.decisions + (t.mPendingRequests.eraseIdx i).count r
              - t.mPendingRequests.count r } := by
    intro v hv
    rw [← hv]
    have hle := eraseIdx_count_le t.mPendingRequests i r
    simp only [Sys.view, Sys.decisions, Sys.sends, Sys.callbacksOf, hpr]
    congr 1
    omega
  by_cases hne : y = r
  · subst hne
    rcases (t.view y).req_cases with hq | ⟨q, hq⟩
    · have := ((View.Inv_none hq).mp hs.1).1
      have h1 : 1 ≤ t.mPendingRequests.count y := count_pos_of_mem (List.getElem?_mem hy)
      have h2 : t.mPendingRequests.count y ≤ (t.view y).decisions := by
        show _ ≤ t.decisions y
        simp only [Sys.decisions]
        omega
      omega
    · rw [hview _ (Shutdown_view_self env t hq)]
      have hc := hs.counts hq
      have hcnt := count_eraseIdx_of_getElem? t.mPendingRequests i y hy
      have h2 : t.mPendingRequests.count y ≤ (t.view y).decisions := by
        show _ ≤ t.decisions y
        simp only [Sys.decisions]
        omega
      refine View.Live.next (v := t.view y) (q := q) hq rfl rfl ?_ le_rfl le_rfl ?_ hs.2
      · show (t.view y).decisions + _ - _ ≤ (t.view y).decisions
        omega
      · intro _ _
        refine ⟨rfl, ?_, ?_, ?_⟩
        · show (t.view y).decisions + _ - _ = 0
          omega
        · show (t.view y).pending = 0
          omega
        · show (t.view y).watching = 0
          omega
  · rw [hview _ (Shutdown_view_ne env t hne)]
    have hle := eraseIdx_count_le t.mPendingRequests i r
    refine View.Live.of_core (v := t.view r) rfl ?_ le_rfl le_rfl hs.2
    show (t.view r).decisions + _ - _ ≤ (t.view r).decisions
    omega

theorem ClearWatch_sound (env : Env K) (s : Sys K) (aWatchId : Int) (r : Nat)
    (hs : (s.view r).Sound) : ((Geolocation.ClearWatch env s aWatchId).view r).Sound := by
  unfold Geolocation.ClearWatch
  split
  · exact hs
  · simp only
    cases hf : s.mWatchingCallbacks.find? (fun r => s.WatchId r == some aWatchId) with
    | none =>
      simp only
      split
      next i _ =>
        split
        next y hy => exact ClearWatch_second_sound env s i y r hy hs
        next => exact hs
      next => exact hs
    | some x =>
      simp only
      have h0 := ClearWatch_first_sound env s x r (List.mem_of_find?_eq_some hf) hs
      split
      next i _ =>
        split
        next y hy => exact ClearWatch_second_sound env _ i y r hy h0
        next => exact h0
      next => exact h0

theorem LocationUpdatePending_sound (s : Sys K) (r : Nat) (hs : (s.view r).Sound) :
    ((nsGeolocationService.LocationUpdatePending s).view r).Sound := by
  refine ⟨((LocationUpdatePending_keeps s r).2 hs.1).1, ?_⟩
  unfold nsGeolocationService.LocationUpdatePending
  split
  · unfold Geolocation.LocationUpdatePending
    refine forUp_induct _ _ (fun t => (t.view r).Live) ?_ _ _ _ hs.2
    intro t r' ht hmem
    unfold nsGeolocationRequest.LocationUpdatePending
    cases hq : t.requests[r']? with
    | none => exact (SameViews.crashed t).live ht
    | some q =>
      simp only
      split
      · by_cases hne : r' = r
        · subst hne
          obtain ⟨tm, htm⟩ := SetTimeoutTimer_view_self t hq
          rw [htm]
          have h1 : 1 ≤ (t.view r').watching := count_pos_of_mem hmem
          have hlive := View.Live.live_of_watching (ht q hq) h1
          refine View.Live.next (v := t.view r') (q := q) hq rfl rfl le_rfl le_rfl le_rfl ?_ ht
          intro _ hsh
          have : q.mShutdown = true := hsh
          rw [hlive] at this; cases this
        · rw [SetTimeoutTimer_view_ne t hne]; exact ht
      · exact ht
  · exact hs.2

end LiveWatchSteps

/-! ## What the request operations never write -/

section Statics
variable {K : Type} [LinearOrderedField K] [FloorRing K]

theorem Sys.SameStatics.statics_refl (s : Sys K) : Sys.SameStatics s s :=
  ⟨rfl, rfl, rfl, rfl, rfl, rfl, rfl, rfl⟩

theorem Sys.SameStatics.statics_trans {s t u : Sys K} (h1 : Sys.SameStatics s t)
    (h2 : Sys.SameStatics t u) : Sys.SameStatics s u := by
  obtain ⟨a1, a2, a3, a4, a5, a6, a7, a8⟩ := h1
  obtain ⟨b1, b2, b3, b4, b5, b6, b7, b8⟩ := h2
  exact ⟨b1.trans a1, b2.trans a2, b3.trans a3, b4.trans a4, b5.trans a5, b6.trans a6,
    b7.trans a7, b8.trans a8⟩

theorem crashed_statics (s : Sys K) : Sys.SameStatics s { s with crashed := true } :=
  ⟨rfl, rfl, rfl, rfl, rfl, rfl, rfl, rfl⟩

theorem effect_statics (s : Sys K) (e : ServiceEffect) : Sys.SameStatics s (s.effect e) :=
  ⟨rfl, rfl, rfl, rfl, rfl, rfl, rfl, rfl⟩

theorem UpdateAccuracy_statics (env : Env K) (s : Sys K) (v : Bool) :
    Sys.SameStatics s (nsGeolocationService.UpdateAccuracy env s v) := by
  have h := UpdateAccuracy_frame s env v
  simp only [Sys.SameStatics]
  simp [h]

theorem RequestShutdown_statics (env : Env K) (s : Sys K) (r : Nat) :
    Sys.SameStatics s (nsGeolocationRequest.Shutdown env s r) := by
  have h := RequestShutdown_frame s env r
  simp only [Sys.SameStatics]
  simp [h]

theorem RemoveRequest_statics (s : Sys K) (r : Nat) :
    Sys.SameStatics s (Geolocation.RemoveRequest s r) :=
  ⟨rfl, rfl, rfl, rfl, rfl, rfl, rfl, rfl⟩

theorem RequestNotifyError_statics (s : Sys K) (r code : Nat) :
    Sys.SameStatics s (nsGeolocationRequest.NotifyError s r code) :=
  ⟨rfl, rfl, rfl, rfl, rfl, rfl, rfl, rfl⟩

theorem Dispatch_statics (s : Sys K) (ev : Runnable K) :
    Sys.SameStatics s (NS_DispatchToMainThread s ev) :=
  ⟨rfl, rfl, rfl, rfl, rfl, rfl, rfl, rfl⟩

theorem StopTimeoutTimer_statics (s : Sys K) (r : Nat) :
    Sys.SameStatics s (nsGeolocationRequest.StopTimeoutTimer s r) := by
  have h := StopTimeoutTimer_frame s r
  simp only [Sys.SameStatics]
  simp [h]

theorem SetTimeoutTimer_statics (s : Sys K) (r : Nat) :
    Sys.SameStatics s (nsGeolocationRequest.SetTimeoutTimer s r) := by
  have h := SetTimeoutTimer_frame s r
  simp only [Sys.SameStatics]
  simp [h]

theorem NotifyAllowedRequest_statics (s : Sys K) (r : Nat) :
    Sys.SameStatics s (Geolocation.NotifyAllowedRequest s r) := by
  have h := NotifyAllowedRequest_frame s r
  simp only [Sys.SameStatics]
  simp [h]

theorem NotifyErrorAndShutdown_statics (env : Env K) (s : Sys K) (r code : Nat) :
    Sys.SameStatics s (nsGeolocationRequest.NotifyErrorAndShutdown env s r code) := by
  unfold nsGeolocationRequest.NotifyErrorAndShutdown
  split
  · exact crashed_statics s
  · simp only
    refine Sys.SameStatics.statics_trans ?_ (RequestNotifyError_statics _ r code)
    split
    · exact (RequestShutdown_statics env s r).statics_trans (RemoveRequest_statics _ r)
    · exact Sys.SameStatics.statics_refl s

theorem forDown_statics (arr : Sys K → List Nat) (body : Sys K → Nat → Sys K)
    (hbody : ∀ s r', Sys.SameStatics s (body s r')) (n : Nat) (s : Sys K) :
    Sys.SameStatics s (forDown arr body n s) :=
  forDown_induct arr body (fun t => Sys.SameStatics s t)
    (fun t ht => ht.statics_trans (crashed_statics t))
    (fun t r' ht _ => ht.statics_trans (hbody t r')) n s (Sys.SameStatics.statics_refl s)

theorem forUp_statics (arr : Sys K → List Nat) (body : Sys K → Nat → Sys K)
    (hbody : ∀ s r', Sys.SameStatics s (body s r')) (fuel i : Nat) (s : Sys K) :
    Sys.SameStatics s (forUp arr body fuel i s) :=
  forUp_induct arr body (fun t => Sys.SameStatics s t)
    (fun t r' ht _ => ht.statics_trans (hbody t r')) fuel i s (Sys.SameStatics.statics_refl s)

theorem GeolocationShutdown_statics (env : Env K) (s : Sys K) :
    Sys.SameStatics s (Geolocation.Shutdown env s) := by
  have h := GeolocationShutdown_frame s env
  simp only [Sys.SameStatics]
  simp [h]

theorem GeolocationNotifyError_statics (env : Env K) (s : Sys K) (code : Nat) :
    Sys.SameStatics s (Geolocation.NotifyError env s code) := by
  unfold Geolocation.NotifyError
  split
  · exact GeolocationShutdown_statics env s
  · simp only
    exact (forDown_statics _ _ (fun t r' => NotifyErrorAndShutdown_statics env t r' code) _
      s).statics_trans
      (forUp_statics _ _ (fun t r' => NotifyErrorAndShutdown_statics env t r' code) _ _ _)

theorem GeolocationUpdate_statics (env : Env K) (s : Sys K) (p : Option (nsGeoPosition K)) :
    Sys.SameStatics s (Geolocation.Update env s p) := by
  unfold Geolocation.Update
  split
  · exact GeolocationShutdown_statics env s
  · simp only
    refine Sys.SameStatics.statics_trans (forDown_statics _ _ ?_ _ s) (forUp_statics _ _ ?_ _ _ _)
    · intro t r'; exact ⟨rfl, rfl, rfl, rfl, rfl, rfl, rfl, rfl⟩
    · intro t r'; exact ⟨rfl, rfl, rfl, rfl, rfl, rfl, rfl, rfl⟩

theorem serviceNotifyError_statics (env : Env K) (s : Sys K) (code : Nat) :
    Sys.SameStatics s (nsGeolocationService.NotifyError env s code) := by
  unfold nsGeolocationService.NotifyError
  split
  · exact GeolocationNotifyError_statics env s code
  · exact Sys.SameStatics.statics_refl s

theorem serviceUpdate_statics (env : Env K) (s : Sys K) (p : Option (nsGeoPosition K)) :
    Sys.SameStatics s (nsGeolocationService.Update env s p) := by
  unfold nsGeolocationService.Update
  simp only
  split
  · exact Sys.SameStatics.statics_trans ⟨rfl, rfl, rfl, rfl, rfl, rfl, rfl, rfl⟩
      (GeolocationUpdate_statics env _ p)
  · exact ⟨rfl, rfl, rfl, rfl, rfl, rfl, rfl, rfl⟩

theorem StopDevice_statics (env : Env K) (s : Sys K) :
    Sys.SameStatics s (nsGeolocationService.StopDevice env s) := by
  have h := StopDevice_frame s env
  simp only [Sys.SameStatics]
  simp [h]

theorem StartDevice_statics (env : Env K) (s : Sys K) :
    Sys.SameStatics s (nsGeolocationService.StartDevice env s).1 := by
  unfold nsGeolocationService.StartDevice
  split
  · exact Sys.SameStatics.statics_refl s
  · simp only
    split
    · exact ⟨rfl, rfl, rfl, rfl, rfl, rfl, rfl, rfl⟩
    · split
      · exact ⟨rfl, rfl, rfl, rfl, rfl, rfl, rfl, rfl⟩
      · split
        · exact ⟨rfl, rfl, rfl, rfl, rfl, rfl, rfl, rfl⟩
        · split
          · exact Sys.SameStatics.statics_trans ⟨rfl, rfl, rfl, rfl, rfl, rfl, rfl, rfl⟩
              (serviceNotifyError_statics env _ _)
          · split
            · exact Sys.SameStatics.statics_trans ⟨rfl, rfl, rfl, rfl, rfl, rfl, rfl, rfl⟩
                (serviceNotifyError_statics env _ _)
            · exact ⟨rfl, rfl, rfl, rfl, rfl, rfl, rfl, rfl⟩

theorem Allow_statics (env : Env K) (s : Sys K) (r : Nat) :
    Sys.SameStatics s (nsGeolocationRequest.Allow env s r) := by
  unfold nsGeolocationRequest.Allow
  split
  · exact crashed_statics s
  · simp only
    have h1 := StartDevice_statics env s
    rcases hsd : nsGeolocationService.StartDevice env s with ⟨s2, rv⟩
    rw [hsd] at h1
    simp only at h1 ⊢
    split
    · exact h1.statics_trans (RequestNotifyError_statics _ _ _)
    · refine h1.statics_trans ?_
      refine Sys.SameStatics.statics_trans ?_ (SetTimeoutTimer_statics _ r)
      have h3 := UpdateAccuracy_statics env s2 (s2.WantsHighAccuracy r)
      have h4 : ∀ t : Sys K, Sys.SameStatics s2 t → ∀ (c : Bool) (pos : Option (nsGeoPosition K)),
          Sys.SameStatics s2 (if c = true then nsGeolocationRequest.Update t r pos else t) := by
        intro t ht c pos
        split
        · exact ht.statics_trans (Dispatch_statics _ _)
        · exact ht
      split
      · exact (h4 _ h3 _ _).statics_trans (NotifyAllowedRequest_statics _ r)
      · exact h4 _ h3 _ _

theorem SendLocation_statics (env : Env K) (s : Sys K) (r : Nat)
    (p : Option (nsGeoPosition K)) :
    Sys.SameStatics s (nsGeolocationRequest.SendLocation env s r p) := by
  unfold nsGeolocationRequest.SendLocation
  split
  · exact crashed_statics s
  · split
    · exact Sys.SameStatics.statics_refl s
    · simp only
      split
      · exact crashed_statics s
      · exact Sys.SameStatics.statics_refl s
      · split
        · exact RequestNotifyError_statics s r _
        · refine Sys.SameStatics.statics_trans ?_ (StopTimeoutTimer_statics _ r)
          refine Sys.SameStatics.statics_trans ?_ ⟨rfl, rfl, rfl, rfl, rfl, rfl, rfl, rfl⟩
          split
          · exact RequestShutdown_statics env s r
          · exact Sys.SameStatics.statics_refl s

theorem Notify_statics (env : Env K) (s : Sys K) (r : Nat) :
    Sys.SameStatics s (nsGeolocationRequest.Notify env s r) := by
  unfold nsGeolocationRequest.Notify
  exact (StopTimeoutTimer_statics s r).statics_trans (NotifyErrorAndShutdown_statics env _ r _)

theorem LocationUpdatePending_statics (s : Sys K) :
    Sys.SameStatics s (nsGeolocationService.LocationUpdatePending s) := by
  unfold nsGeolocationService.LocationUpdatePending
  split
  · unfold Geolocation.LocationUpdatePending
    refine forUp_statics _ _ ?_ _ _ _
    intro t r'
    unfold nsGeolocationRequest.LocationUpdatePending
    split
    · exact crashed_statics t
    · split
      · exact SetTimeoutTimer_statics t r'
      · exact Sys.SameStatics.statics_refl t
  · exact Sys.SameStatics.statics_refl s

end Statics

section LiveSettingsSteps
variable {K : Type} [LinearOrderedField K] [FloorRing K]

theorem WatchPositionReady_statics (env : Env K) (s : Sys K) (r : Nat) :
    Sys.SameStatics s (Geolocation.WatchPositionReady env s r).1 := by
  unfold Geolocation.WatchPositionReady
  split
  · unfold Geolocation.RegisterRequestWithPrompt
    split <;> exact Dispatch_statics _ _
  · split
    · exact Sys.SameStatics.statics_refl s
    · exact Allow_statics env s r

theorem eraseDeferred_sound (t : Sys K) (i r : Nat) (hs : (t.view r).Sound) :
    (({ t with mPendingRequests := t.mPendingRequests.eraseIdx i } : Sys K).view r).Sound := by
  have hle := eraseDeferred_le t i r
  exact View.Sound.of_keeps_core hle.le_keeps rfl hle.2.1 hle.2.2.2.1 hle.2.2.2.2.1 hs

/-- One turn of the loop of `ServiceReady` on a deferred one-shot request. -/
theorem ServiceReady_oneShot_le (env : Env K) (s : Sys K) (r' r : Nat) (tl : List Nat)
    (hpr : s.mPendingRequests = r' :: tl) :
    (s.view r).Le
      (({ (Geolocation.GetCurrentPositionReady env s r').1 with
          mPendingRequests :=
            (Geolocation.GetCurrentPositionReady env s r').1.mPendingRequests.eraseIdx 0 }
        : Sys K).view r) := by
  obtain ⟨a, b, c, d, e, f, g, _, h, _⟩ := GetCurrentPositionReady_fields env s r' r
  refine Le_of_fields s _ r a b c d f ?_
  show (List.eraseIdx (Geolocation.GetCurrentPositionReady env s r').1.mPendingRequests
      0).count r
    + (Geolocation.GetCurrentPositionReady env s r').1.prompting.count r
    + List.countP (Runnable.isDecisionFor r)
        (Geolocation.GetCurrentPositionReady env s r').1.queue ≤ s.decisions r
  rw [e, hpr, List.eraseIdx_cons_zero]
  by_cases hne : r' = r
  · subst hne
    have h1 : (Geolocation.GetCurrentPositionReady env s r').1.decisions r'
        = (r' :: tl).count r' + (Geolocation.GetCurrentPositionReady env s r').1.prompting.count r'
          + List.countP (Runnable.isDecisionFor r')
              (Geolocation.GetCurrentPositionReady env s r').1.queue := by
      simp only [Sys.decisions, e, hpr]
    rw [List.count_cons_self] at h1
    omega
  · have h1 := h hne
    have h2 : (Geolocation.GetCurrentPositionReady env s r').1.decisions r
        = (r' :: tl).count r + (Geolocation.GetCurrentPositionReady env s r').1.prompting.count r
          + List.countP (Runnable.isDecisionFor r)
              (Geolocation.GetCurrentPositionReady env s r').1.queue := by
      simp only [Sys.decisions, e, hpr]
    rw [List.count_cons_of_ne (Ne.symm hne)] at h2
    omega

theorem ServiceReady_loop_sound (env : Env K) (r : Nat) :
    ∀ n (s : Sys K), (s.view r).Sound → ((Geolocation.ServiceReady.loop env n s).view r).Sound := by
  intro n
  induction n with
  | zero => intro s hs; exact hs
  | succ n ih =>
    intro s hs
    unfold Geolocation.ServiceReady.loop
    split
    next => exact (SameViews.crashed s).sound hs
    next r' tl hpr =>
      simp only
      refine ih _ ?_
      cases hw : s.IsWatch r' with
      | true =>
        simp only [if_true]
        have hq : ∃ q, s.requests[r']? = some q ∧ q.mIsWatchPositionRequest = true := by
          unfold Sys.IsWatch at hw
          cases hq : s.requests[r']? with
          | none => rw [hq] at hw; cases hw
          | some q => rw [hq] at hw; exact ⟨q, rfl, hw⟩
        by_cases hne : r' = r
        · subst hne
          obtain ⟨q, hq1, hk⟩ := hq
          have hkeeps := Sys.Keeps.sys_trans (WatchPositionReady_keeps env s r' r'
            (Or.inr ⟨q, hq1, hk⟩))
            (eraseDeferred_le (Geolocation.WatchPositionReady env s r').1 0 r').le_keeps
          refine ⟨(hkeeps.2 hs.1).1, ?_⟩
          have hc := hs.counts (v := s.view r') hq1
          have hdec1 : 1 ≤ (s.view r').decisions := by
            show 1 ≤ s.decisions r'
            simp only [Sys.decisions, hpr, List.count_cons_self]
            omega
          have hlive := View.Live.live_of_decision (hs.2 q hq1) hdec1
          have hst := WatchPositionReady_statics env s r'
          refine WatchPositionReady_live_self env s _ r' q hq1 hlive (by omega) (by omega) hk
            rfl ?_ rfl rfl
          show (List.eraseIdx (Geolocation.WatchPositionReady env s r').1.mPendingRequests
              0).count r'
            + (Geolocation.WatchPositionReady env s r').1.prompting.count r'
            + List.countP (Runnable.isDecisionFor r')
                (Geolocation.WatchPositionReady env s r').1.queue + (s.view r').decisions
            = (Geolocation.WatchPositionReady env s r').1.mPendingRequests.count r'
            + (Geolocation.WatchPositionReady env s r').1.prompting.count r'
            + List.countP (Runnable.isDecisionFor r')
                (Geolocation.WatchPositionReady env s r').1.queue
          rw [hst.1, hpr, List.eraseIdx_cons_zero, List.count_cons_self]
          omega
        · exact eraseDeferred_sound _ 0 r (WatchPositionReady_sound_of_other env s r' r hne hs)
      | false =>
        simp only [Bool.false_eq_true, if_false]
        have hle := ServiceReady_oneShot_le env s r' r tl hpr
        obtain ⟨a, _⟩ := GetCurrentPositionReady_fields env s r' r
        refine View.Sound.of_keeps_core hle.le_keeps ?_ hle.2.1 hle.2.2.2.1 hle.2.2.2.2.1 hs
        show (Geolocation.GetCurrentPositionReady env s r').1.requests[r]? = s.requests[r]?
        rw [a]

theorem ServiceReady_sound (env : Env K) (s : Sys K) (r : Nat) (hs : (s.view r).Sound) :
    ((Geolocation.ServiceReady env s).view r).Sound :=
  ServiceReady_loop_sound env r _ s hs

theorem HandleMozsettingValue_ready_sound (env : Env K) (t : Sys K) (r : Nat)
    (hs : (t.view r).Sound) :
    ((if t.sGeoInitPending = true then
        if ({ t with sGeoInitPending := false } : Sys K).mService = true then
          Geolocation.ServiceReady env { t with sGeoInitPending := false }
        else { t with sGeoInitPending := false }
      else t).view r).Sound := by
  have h0 : (({ t with sGeoInitPending := false } : Sys K).view r).Sound := hs
  split
  · split
    · exact ServiceReady_sound env _ r h0
    · exact h0
  · exact hs

theorem HandleMozsettingValue_sound (env : Env K) (s : Sys K) (aValue : Bool) (r : Nat)
    (hs : (s.view r).Sound) :
    ((nsGeolocationService.HandleMozsettingValue env s aValue).view r).Sound := by
  unfold nsGeolocationService.HandleMozsettingValue
  simp only
  refine HandleMozsettingValue_ready_sound env _ r ?_
  split
  · have h1 := serviceUpdate_sound env _ none r ((SameViews.StopDevice env s).sound hs)
    exact h1
  · exact hs

theorem ObserveTimerCallback_sound (env : Env K) (s : Sys K) (r : Nat) (hs : (s.view r).Sound) :
    ((nsGeolocationService.ObserveTimerCallback env s).view r).Sound := by
  unfold nsGeolocationService.ObserveTimerCallback
  split
  · exact (SameViews.SetDisconnectTimer s).sound hs
  · exact serviceUpdate_sound env _ none r ((SameViews.StopDevice env s).sound hs)

theorem ObserveQuitApplication_sound (env : Env K) (s : Sys K) (r : Nat)
    (hs : (s.view r).Sound) :
    ((nsGeolocationService.ObserveQuitApplication env s).view r).Sound := by
  unfold nsGeolocationService.ObserveQuitApplication
  simp only
  refine (SameViews.StopDevice env _).sound ?_
  split
  · exact GeolocationShutdown_sound env s r hs
  · exact hs

/-- Every step keeps both invariants of every request index. -/
theorem step_sound (env : Env K) (s : Sys K) (a : Action K) (r : Nat) (hs : (s.view r).Sound) :
    ((step env s a).view r).Sound := by
  unfold step
  split
  · exact hs
  · cases a with
    | GetCurrentPosition options => exact GetCurrentPosition_sound env s options r hs
    | WatchPosition options => exact WatchPosition_sound env s options r hs
    | ClearWatch aWatchId => exact ClearWatch_sound env s aWatchId r hs
    | RunNextRunnable =>
      simp only
      cases hqueue : s.queue with
      | nil => exact hs
      | cons ev rest => exact Run_sound env s ev rest r hqueue hs
    | PromptAllow r' =>
      simp only
      split
      · rename_i h; exact PromptAllow_sound env s r' r h hs
      · exact hs
    | PromptCancel r' =>
      simp only
      split
      · rename_i h; exact PromptCancel_sound s r' r h hs
      · exact hs
    | TimeoutTimerFires r' =>
      simp only
      cases hq : s.requests[r']? with
      | none => exact hs
      | some q =>
        simp only
        split
        · rename_i h
          refine Notify_sound env s r' r ?_ hs
          intro q0 hq0 hnone
          rw [hq] at hq0; cases hq0
          rw [hnone] at h; cases h
        · exact hs
    | ProviderUpdate position => exact serviceUpdate_sound env s position r hs
    | ProviderLocationUpdatePending => exact LocationUpdatePending_sound s r hs
    | ProviderNotifyError aErrorCode => exact serviceNotifyError_sound env s aErrorCode r hs
    | MozsettingEnabled aValue => exact HandleMozsettingValue_sound env s aValue r hs
    | MozsettingPolicy blur => exact hs
    | DisconnectTimerFires =>
      simp only
      split
      · exact ObserveTimerCallback_sound env _ r hs
      · exact hs
    | SessionShutdown =>
      simp only
      split
      · exact GeolocationShutdown_sound env s r hs
      · exact hs
    | QuitApplication => exact ObserveQuitApplication_sound env s r hs

theorem step_sys_sound (env : Env K) (s : Sys K) (a : Action K) (hs : s.Sound) :
    (step env s a).Sound := fun r => step_sound env s a r (hs r)

theorem run_sound : ∀ (acts : List (Env K × Action K)) (s : Sys K), s.Sound →
    (run s acts).Sound := by
  intro acts
  induction acts with
  | nil => intro s hs; exact hs
  | cons ea rest ih =>
    intro s hs
    obtain ⟨env, a⟩ := ea
    exact ih _ (step_sys_sound env s a hs)

theorem init_sound (blur : BlurStatics K) (url : nsString) (o sv en ip : Bool) :
    (Sys.init blur url o sv en ip).Sound := by
  intro r
  refine ⟨init_inv blur url o sv en ip r, View.Live_none ?_⟩
  simp [Sys.view, Sys.init]

/-- Every state reached from a fresh session satisfies both invariants at
every request index. -/
theorem Sys.Reachable.reach_sound {s : Sys K} (h : s.Reachable) : s.Sound := by
  obtain ⟨blur, url, o, sv, en, ip, acts, rfl⟩ := h
  exact run_sound acts _ (init_sound blur url o sv en ip)

end LiveSettingsSteps

/-! ## Requests in the arrays are not shut down -/

section LiveRequests
variable {K : Type} [LinearOrderedField K] [FloorRing K]

theorem Sys.Sound.notShutdown_of_count {s : Sys K} (hs : s.Sound) (r : Nat)
    (h : 1 ≤ (s.view r).decisions + (s.view r).pending + (s.view r).watching) :
    s.NotShutdown r := by
  rcases (s.view r).req_cases with hq | ⟨q, hq⟩
  · obtain ⟨a, _, c, d, _⟩ := (View.Inv_none hq).mp (hs r).1
    omega
  · refine ⟨q, hq, ?_⟩
    cases hsh : q.mShutdown with
    | false => rfl
    | true =>
      obtain ⟨_, b, c, d⟩ := ((hs r).2 q hq).shut hsh
      omega

theorem Sys.Sound.notShutdown_of_pending {s : Sys K} (hs : s.Sound) (r : Nat)
    (h : r ∈ s.mPendingCallbacks) : s.NotShutdown r := by
  refine hs.notShutdown_of_count r ?_
  have : 1 ≤ (s.view r).pending := count_pos_of_mem h
  omega

theorem Sys.Sound.notShutdown_of_watching {s : Sys K} (hs : s.Sound) (r : Nat)
    (h : r ∈ s.mWatchingCallbacks) : s.NotShutdown r := by
  refine hs.notShutdown_of_count r ?_
  have : 1 ≤ (s.view r).watching := count_pos_of_mem h
  omega

theorem Sys.Sound.notShutdown_of_deferred {s : Sys K} (hs : s.Sound) (r : Nat)
    (h : r ∈ s.mPendingRequests) : s.NotShutdown r := by
  refine hs.notShutdown_of_count r ?_
  have h1 : 1 ≤ s.mPendingRequests.count r := count_pos_of_mem h
  have h2 : s.mPendingRequests.count r ≤ (s.view r).decisions := by
    show _ ≤ s.decisions r
    simp only [Sys.decisions]
    omega
  omega

theorem Sys.Sound.notShutdown_of_timer {s : Sys K} (hs : s.Sound) (r : Nat)
    (q : nsGeolocationRequest) (hq : s.requests[r]? = some q) (ht : q.mTimeoutTimer ≠ none) :
    q.mShutdown = false :=
  View.Live.live_of_timer ((hs r).2 q hq) ht

/-- Every turn of a downward loop starts in a state that satisfies what the
body keeps, on an entry of the array. -/
theorem forDown_calls_induct (arr : Sys K → List Nat) (body : Sys K → Nat → Sys K)
    (P : Sys K → Prop) (hbody : ∀ s r', P s → r' ∈ arr s → P (body s r')) :
    ∀ n s, P s → ∀ c ∈ forDown.calls arr body n s, P c.1 ∧ c.2 ∈ arr c.1 := by
  intro n
  induction n with
  | zero => intro s _ c hc; simp [forDown.calls] at hc
  | succ i ih =>
    intro s hs c hc
    unfold forDown.calls at hc
    cases h : (arr s)[i]? with
    | none => rw [h] at hc; simp at hc
    | some r' =>
      rw [h] at hc
      simp only [List.mem_cons] at hc
      rcases hc with hc | hc
      · rw [hc]; exact ⟨hs, List.getElem?_mem h⟩
      · exact ih _ (hbody s r' hs (List.getElem?_mem h)) c hc

/-- Every turn of an upward loop starts in a state that satisfies what the
body keeps, on an entry of the array. -/
theorem forUp_calls_induct (arr : Sys K → List Nat) (body : Sys K → Nat → Sys K)
    (P : Sys K → Prop) (hbody : ∀ s r', P s → r' ∈ arr s → P (body s r')) :
    ∀ fuel i s, P s → ∀ c ∈ forUp.calls arr body fuel i s, P c.1 ∧ c.2 ∈ arr c.1 := by
  intro fuel
  induction fuel with
  | zero => intro i s _ c hc; simp [forUp.calls] at hc
  | succ n ih =>
    intro i s hs c hc
    unfold forUp.calls at hc
    cases h : (arr s)[i]? with
    | none => rw [h] at hc; simp at hc
    | some r' =>
      rw [h] at hc
      simp only [List.mem_cons] at hc
      rcases hc with hc | hc
      · rw [hc]; exact ⟨hs, List.getElem?_mem h⟩
      · exact ih _ _ (hbody s r' hs (List.getElem?_mem h)) c hc

theorem NotifyErrorAndShutdown_pending_sound (env : Env K) (code : Nat) (t : Sys K) (r' : Nat)
    (ht : t.Sound) (hmem : r' ∈ t.mPendingCallbacks) :
    (nsGeolocationRequest.NotifyErrorAndShutdown env t r' code).Sound := by
  intro r
  refine NotifyErrorAndShutdown_sound env t r' r code ?_ (ht r)
  intro hne q _ I _
  subst hne
  exact View.pending_facts I (count_pos_of_mem hmem)

theorem NotifyErrorAndShutdown_watching_sound (env : Env K) (code : Nat) (t : Sys K) (r' : Nat)
    (ht : t.Sound) (hmem : r' ∈ t.mWatchingCallbacks) :
    (nsGeolocationRequest.NotifyErrorAndShutdown env t r' code).Sound := by
  intro r
  refine NotifyErrorAndShutdown_sound env t r' r code ?_ (ht r)
  intro hne q _ I _
  subst hne
  have h0 := I.notWatching
  have h1 : 1 ≤ (t.view r').watching := count_pos_of_mem hmem
  omega

theorem StopTimeoutTimer_notShutdown (s : Sys K) (r : Nat) (q : nsGeolocationRequest)
    (hq : s.requests[r]? = some q) (hlive : q.mShutdown = false) :
    (nsGeolocationRequest.StopTimeoutTimer s r).NotShutdown r := by
  refine ⟨{ q with mTimeoutTimer := none }, ?_, hlive⟩
  have := congrArg View.req (StopTimeoutTimer_view_self s hq)
  exact this

/-- C27: in every state reached from a fresh session by any sequence of
steps (consumer calls, permission decisions, position updates, error
fan-outs, timer firings, `ClearWatch`, settings changes, teardown), every
request in the pending or the watching array of the session exists and is not
shut down, and so does every request deferred until the service is ready.
Consequently the condition `!mShutdown` asserted on entry of
`NotifyErrorAndShutdown` and of `Shutdown` holds wherever such a request is
reached: when the timeout timer of a request fires (a request with an armed
timer is not shut down), at every turn of the two loops of
`Geolocation::NotifyError`, and in `ClearWatch`, both for the entry found in
the watching array and for the entry then found among the deferred requests. -/
theorem sets_hold_live_requests (s : Sys K) (hreach : s.Reachable) :
    (∀ r, r ∈ s.mPendingCallbacks ∨ r ∈ s.mWatchingCallbacks ∨ r ∈ s.mPendingRequests →
        s.NotShutdown r) ∧
      (∀ r q, s.requests[r]? = some q → q.mTimeoutTimer ≠ none →
        q.mShutdown = false ∧ (nsGeolocationRequest.StopTimeoutTimer s r).NotShutdown r) ∧
      (∀ (env : Env K) (code : Nat),
        (∀ c ∈ forDown.calls (fun s => s.mPendingCallbacks)
            (fun s r => nsGeolocationRequest.NotifyErrorAndShutdown env s r code)
            s.mPendingCallbacks.length s, c.1.NotShutdown c.2) ∧
        (∀ c ∈ forUp.calls (fun s => s.mWatchingCallbacks)
            (fun s r => nsGeolocationRequest.NotifyErrorAndShutdown env s r code)
            (forDown (fun s => s.mPendingCallbacks)
              (fun s r => nsGeolocationRequest.NotifyErrorAndShutdown env s r code)
              s.mPendingCallbacks.length s).mWatchingCallbacks.length 0
            (forDown (fun s => s.mPendingCallbacks)
              (fun s r => nsGeolocationRequest.NotifyErrorAndShutdown env s r code)
              s.mPendingCallbacks.length s), c.1.NotShutdown c.2)) ∧
      (∀ (env : Env K) (x y : Nat), x ∈ s.mWatchingCallbacks →
        y ∈ (Geolocation.RemoveRequest (nsGeolocationRequest.Shutdown env s x)
          x).mPendingRequests →
        (Geolocation.RemoveRequest (nsGeolocationRequest.Shutdown env s x) x).NotShutdown y) := by
  have hs := hreach.reach_sound
  refine ⟨?_, ?_, ?_, ?_⟩
  · rintro r (h | h | h)
    · exact hs.notShutdown_of_pending r h
    · exact hs.notShutdown_of_watching r h
    · exact hs.notShutdown_of_deferred r h
  · intro r q hq ht
    have hlive := hs.notShutdown_of_timer r q hq ht
    exact ⟨hlive, StopTimeoutTimer_notShutdown s r q hq hlive⟩
  · intro env code
    have hdown : (forDown (fun s => s.mPendingCallbacks)
        (fun s r => nsGeolocationRequest.NotifyErrorAndShutdown env s r code)
        s.mPendingCallbacks.length s).Sound :=
      forDown_induct _ _ (fun t => t.Sound)
        (fun t ht r => (SameViews.crashed t).sound (ht r))
        (fun t r' ht hmem => NotifyErrorAndShutdown_pending_sound env code t r' ht hmem) _ s hs
    constructor
    · intro c hc
      obtain ⟨h1, h2⟩ := forDown_calls_induct _ _ (fun t => t.Sound)
        (fun t r' ht hmem => NotifyErrorAndShutdown_pending_sound env code t r' ht hmem)
        _ s hs c hc
      exact h1.notShutdown_of_pending c.2 h2
    · intro c hc
      obtain ⟨h1, h2⟩ := forUp_calls_induct _ _ (fun t => t.Sound)
        (fun t r' ht hmem => NotifyErrorAndShutdown_watching_sound env code t r' ht hmem)
        _ _ _ hdown c hc
      exact h1.notShutdown_of_watching c.2 h2
  · intro env x y hx hy
    have h1 : (Geolocation.RemoveRequest (nsGeolocationRequest.Shutdown env s x) x).Sound :=
      fun r => ClearWatch_first_sound env s x r hx (hs r)
    exact h1.notShutdown_of_deferred y hy

end LiveRequests

theorem armedPending_reachable : (run exampleInit armedPending).Reachable :=
  ⟨allowlistedStatics, "app://a".toList, true, true, true, false, armedPending, rfl⟩

theorem sets_hold_live_requests_witness :
    (run exampleInit armedPending).Reachable ∧
      (run exampleInit armedPending).mPendingCallbacks = [0] ∧
      (run exampleInit armedPending).requests[0]? =
        some { mIsWatchPositionRequest := false, mTimeoutTimer := some 1000,
               mOptions := some { mEnableHighAccuracy := false, mTimeout := 1000,
                                  mMaximumAge := 0 },
               mWatchId := 0, mShutdown := false } ∧
      (run exampleInit armedPending).NotShutdown 0 :=
  ⟨armedPending_reachable, by decide, by decide,
    (sets_hold_live_requests _ armedPending_reachable).1 0 (Or.inl (by decide))⟩

/-! ## Requests that only their own runnables can reach -/

section ApartBasics
variable {K : Type} [LinearOrderedField K] [FloorRing K]

theorem Sys.Apart.apart_refl (r : Nat) (s : Sys K) : Sys.Apart r s s := ⟨rfl, rfl, rfl, rfl⟩

theorem Sys.Apart.apart_trans {r : Nat} {s t u : Sys K} (h1 : Sys.Apart r s t)
    (h2 : Sys.Apart r t u) : Sys.Apart r s u :=
  ⟨h2.1.trans h1.1, h2.2.1.trans h1.2.1, h2.2.2.1.trans h1.2.2.1, h2.2.2.2.trans h1.2.2.2⟩

/-- The view changes in nothing, and neither do the deferred requests, the
prompt and the queue. -/
theorem Sys.Apart.apart_of_same {r : Nat} {s t : Sys K} (hv : t.view r = s.view r)
    (hst : Sys.SameStatics s t) (hq : t.queue = s.queue) : Sys.Apart r s t :=
  ⟨hv, by rw [hst.1], by rw [hst.2.1], by simp [Sys.runnablesOf, hq]⟩

theorem Sys.Apart.of_sameViews {r : Nat} {s t : Sys K} (hv : SameViews s t)
    (hst : Sys.SameStatics s t) : Sys.Apart r s t :=
  Sys.Apart.apart_of_same (hv.view_eq r) hst hv.2.2.2.2.2.1

theorem Sys.not_mem_of_count {l : List Nat} {r : Nat} (h : l.count r = 0) : r ∉ l :=
  fun hm => by have := count_pos_of_mem hm; omega

theorem Sys.Isolated.view_facts {s : Sys K} {r : Nat} (h : s.Isolated r) :
    (s.view r).pending = 0 ∧ (s.view r).watching = 0 ∧ s.mPendingRequests.count r = 0 ∧
      s.prompting.count r = 0 :=
  ⟨List.count_eq_zero_of_not_mem h.2.1, List.count_eq_zero_of_not_mem h.2.2.1,
    List.count_eq_zero_of_not_mem h.2.2.2.1, List.count_eq_zero_of_not_mem h.2.2.2.2⟩

theorem Sys.Apart.isolated {r : Nat} {s t : Sys K} (h : Sys.Apart r s t) (hi : s.Isolated r) :
    t.Isolated r := by
  obtain ⟨hp, hw, hd, hpr⟩ := hi.view_facts
  obtain ⟨q, hq, htm⟩ := hi.1
  have hreq : t.requests[r]? = s.requests[r]? := congrArg View.req h.1
  have hp' : t.mPendingCallbacks.count r = 0 := (congrArg View.pending h.1).trans hp
  have hw' : t.mWatchingCallbacks.count r = 0 := (congrArg View.watching h.1).trans hw
  exact ⟨⟨q, hreq.trans hq, htm⟩, Sys.not_mem_of_count hp', Sys.not_mem_of_count hw',
    Sys.not_mem_of_count (h.2.1.trans hd), Sys.not_mem_of_count (h.2.2.1.trans hpr)⟩

theorem runnablesOf_dispatch (s : Sys K) (ev : Runnable K) (r : Nat) (h : ev.request ≠ r) :
    (NS_DispatchToMainThread s ev).runnablesOf r = s.runnablesOf r := by
  have hb : (ev.request == r) = false := by simpa using h
  simp [Sys.runnablesOf, NS_DispatchToMainThread, List.filter_append, hb]

theorem isDecisionFor_request {ev : Runnable K} {r : Nat} (h : ev.isDecisionFor r = true) :
    ev.request = r := by
  cases ev <;> simp_all [Runnable.isDecisionFor, Runnable.request]

theorem isSendFor_request {ev : Runnable K} {r : Nat} (h : ev.isSendFor r = true) :
    ev.request = r := by
  cases ev <;> simp_all [Runnable.isSendFor, Runnable.request]

theorem Dispatch_apart (s : Sys K) (ev : Runnable K) (r : Nat) (h : ev.request ≠ r) :
    Sys.Apart r s (NS_DispatchToMainThread s ev) := by
  refine ⟨?_, rfl, rfl, runnablesOf_dispatch s ev r h⟩
  rw [Dispatch_view]
  have h1 : ev.isDecisionFor r = false := by
    cases hd : ev.isDecisionFor r with
    | false => rfl
    | true => exact absurd (isDecisionFor_request hd) h
  have h2 : ev.isSendFor r = false := by
    cases hd : ev.isSendFor r with
    | false => rfl
    | true => exact absurd (isSendFor_request hd) h
  simp [h1, h2]

theorem crashed_apart (s : Sys K) (r : Nat) : Sys.Apart r s { s with crashed := true } :=
  ⟨(SameViews.crashed s).view_eq r, rfl, rfl, rfl⟩

/-! ### Queue frames -/

theorem UpdateAccuracy_queue (env : Env K) (s : Sys K) (v : Bool) :
    (nsGeolocationService.UpdateAccuracy env s v).queue = s.queue :=
  (SameViews.UpdateAccuracy env s v).2.2.2.2.2.1

theorem RequestShutdown_queue (env : Env K) (s : Sys K) (r : Nat) :
    (nsGeolocationRequest.Shutdown env s r).queue = s.queue := by
  have h := RequestShutdown_frame s env r
  simp [h]

theorem NotifyErrorAndShutdown_queue (env : Env K) (s : Sys K) (r code : Nat) :
    (nsGeolocationRequest.NotifyErrorAndShutdown env s r code).queue = s.queue := by
  unfold nsGeolocationRequest.NotifyErrorAndShutdown
  split
  · rfl
  · simp only
    split
    · show (nsGeolocationRequest.Shutdown env s r).queue = s.queue
      exact RequestShutdown_queue env s r
    · rfl

theorem forDown_queue (arr : Sys K → List Nat) (body : Sys K → Nat → Sys K)
    (hbody : ∀ s r', (body s r').queue = s.queue) (n : Nat) (s : Sys K) :
    (forDown arr body n s).queue = s.queue :=
  forDown_induct arr body (fun t => t.queue = s.queue) (fun _ ht => ht)
    (fun t r' ht _ => (hbody t r').trans ht) n s rfl

theorem forUp_queue (arr : Sys K → List Nat) (body : Sys K → Nat → Sys K)
    (hbody : ∀ s r', (body s r').queue = s.queue) (fuel i : Nat) (s : Sys K) :
    (forUp arr body fuel i s).queue = s.queue :=
  forUp_induct arr body (fun t => t.queue = s.queue)
    (fun t r' ht _ => (hbody t r').trans ht) fuel i s rfl

theorem GeolocationShutdown_queue (env : Env K) (s : Sys K) :
    (Geolocation.Shutdown env s).queue = s.queue := by
  have h := GeolocationShutdown_frame s env
  simp [h]

theorem GeolocationNotifyError_queue (env : Env K) (s : Sys K) (code : Nat) :
    (Geolocation.NotifyError env s code).queue = s.queue := by
  unfold Geolocation.NotifyError
  split
  · exact GeolocationShutdown_queue env s
  · simp only
    rw [forUp_queue _ _ (fun t r' => NotifyErrorAndShutdown_queue env t r' code),
      forDown_queue _ _ (fun t r' => NotifyErrorAndShutdown_queue env t r' code)]

theorem serviceNotifyError_queue (env : Env K) (s : Sys K) (code : Nat) :
    (nsGeolocationService.NotifyError env s code).queue = s.queue := by
  unfold nsGeolocationService.NotifyError
  split
  · exact GeolocationNotifyError_queue env s code
  · rfl

theorem StartDevice_queue (env : Env K) (s : Sys K) :
    (nsGeolocationService.StartDevice env s).1.queue = s.queue := by
  rcases StartDevice_cases env s with h | ⟨t, ht, heq, _⟩
  · exact h.2.2.2.2.2.1
  · rw [heq, serviceNotifyError_queue]
    exact ht.2.2.2.2.2.1

theorem StopDevice_queue (env : Env K) (s : Sys K) :
    (nsGeolocationService.StopDevice env s).queue = s.queue :=
  (SameViews.StopDevice env s).2.2.2.2.2.1

end ApartBasics

section ApartSteps
variable {K : Type} [LinearOrderedField K] [FloorRing K]

theorem StopTimeoutTimer_apart (s : Sys K) (r' r : Nat) (hne : r' ≠ r) :
    Sys.Apart r s (nsGeolocationRequest.StopTimeoutTimer s r') :=
  Sys.Apart.apart_of_same (StopTimeoutTimer_view_ne s hne) (StopTimeoutTimer_statics s r')
    (by have h := StopTimeoutTimer_frame s r'; simp [h])

theorem SetTimeoutTimer_apart (s : Sys K) (r' r : Nat) (hne : r' ≠ r) :
    Sys.Apart r s (nsGeolocationRequest.SetTimeoutTimer s r') :=
  Sys.Apart.apart_of_same (SetTimeoutTimer_view_ne s hne) (SetTimeoutTimer_statics s r')
    (by have h := SetTimeoutTimer_frame s r'; simp [h])

theorem RequestNotifyError_apart (s : Sys K) (r' r code : Nat) (hne : r' ≠ r) :
    Sys.Apart r s (nsGeolocationRequest.NotifyError s r' code) :=
  Sys.Apart.apart_of_same (NotifyError_view_ne s code hne) (RequestNotifyError_statics s r' code) rfl

theorem RequestShutdown_apart (env : Env K) (s : Sys K) (r' r : Nat) (hne : r' ≠ r) :
    Sys.Apart r s (nsGeolocationRequest.Shutdown env s r') :=
  Sys.Apart.apart_of_same (Shutdown_view_ne env s hne) (RequestShutdown_statics env s r')
    (RequestShutdown_queue env s r')

theorem RemoveRequest_apart (s : Sys K) (r' r : Nat) (hne : r' ≠ r) :
    Sys.Apart r s (Geolocation.RemoveRequest s r') := by
  refine Sys.Apart.apart_of_same ?_ (RemoveRequest_statics s r') rfl
  rw [RemoveRequest_view]
  simp [hne]

theorem UpdateAccuracy_apart (env : Env K) (s : Sys K) (v : Bool) (r : Nat) :
    Sys.Apart r s (nsGeolocationService.UpdateAccuracy env s v) :=
  Sys.Apart.of_sameViews (SameViews.UpdateAccuracy env s v) (UpdateAccuracy_statics env s v)

theorem NotifyAllowedRequest_apart (s : Sys K) (r' r : Nat) (hne : r' ≠ r) :
    Sys.Apart r s (Geolocation.NotifyAllowedRequest s r') := by
  refine Sys.Apart.apart_of_same ?_ (NotifyAllowedRequest_statics s r')
    (by have h := NotifyAllowedRequest_frame s r'; simp [h])
  rw [NotifyAllowedRequest_view]
  cases s.requests[r']? with
  | none => rfl
  | some q => cases q.mIsWatchPositionRequest <;> simp [hne]

theorem RequestUpdate_apart (s : Sys K) (r' r : Nat) (p : Option (nsGeoPosition K))
    (hne : r' ≠ r) : Sys.Apart r s (nsGeolocationRequest.Update s r' p) :=
  Dispatch_apart s _ r hne

theorem NotifyErrorAndShutdown_apart (env : Env K) (s : Sys K) (r' r code : Nat) (hne : r' ≠ r) :
    Sys.Apart r s (nsGeolocationRequest.NotifyErrorAndShutdown env s r' code) :=
  Sys.Apart.apart_of_same (NotifyErrorAndShutdown_view_ne env s code hne)
    (NotifyErrorAndShutdown_statics env s r' code) (NotifyErrorAndShutdown_queue env s r' code)

theorem Notify_apart (env : Env K) (s : Sys K) (r' r : Nat) (hne : r' ≠ r) :
    Sys.Apart r s (nsGeolocationRequest.Notify env s r') := by
  unfold nsGeolocationRequest.Notify
  exact (StopTimeoutTimer_apart s r' r hne).apart_trans
    (NotifyErrorAndShutdown_apart env _ r' r TIMEOUT hne)

theorem Sys.Apart.not_pending {r : Nat} {s t : Sys K} (h : Sys.Apart r s t)
    (hp : r ∉ s.mPendingCallbacks) : r ∉ t.mPendingCallbacks := by
  have h1 : t.mPendingCallbacks.count r = s.mPendingCallbacks.count r :=
    congrArg View.pending h.1
  exact Sys.not_mem_of_count (h1.trans (List.count_eq_zero_of_not_mem hp))

theorem Sys.Apart.not_watching {r : Nat} {s t : Sys K} (h : Sys.Apart r s t)
    (hp : r ∉ s.mWatchingCallbacks) : r ∉ t.mWatchingCallbacks := by
  have h1 : t.mWatchingCallbacks.count r = s.mWatchingCallbacks.count r :=
    congrArg View.watching h.1
  exact Sys.not_mem_of_count (h1.trans (List.count_eq_zero_of_not_mem hp))

theorem Sys.Apart.not_deferred {r : Nat} {s t : Sys K} (h : Sys.Apart r s t)
    (hp : r ∉ s.mPendingRequests) : r ∉ t.mPendingRequests :=
  Sys.not_mem_of_count (h.2.1.trans (List.count_eq_zero_of_not_mem hp))

/-- A loop over the pending array whose body leaves alone every request other
than the entry it is called on. -/
theorem forDown_pending_apart (body : Sys K → Nat → Sys K) (r : Nat)
    (hbody : ∀ t r', r' ≠ r → Sys.Apart r t (body t r')) (n : Nat) (s : Sys K)
    (hp : r ∉ s.mPendingCallbacks) :
    Sys.Apart r s (forDown (fun s => s.mPendingCallbacks) body n s) :=
  forDown_induct _ body (fun t => Sys.Apart r s t)
    (fun t ht => ht.apart_trans (crashed_apart t r))
    (fun t r' ht hmem => ht.apart_trans
      (hbody t r' (fun heq => ht.not_pending hp (heq ▸ hmem)))) n s (Sys.Apart.apart_refl r s)

/-- A loop over the watching array whose body leaves alone every request
other than the entry it is called on. -/
theorem forUp_watching_apart (body : Sys K → Nat → Sys K) (r : Nat)
    (hbody : ∀ t r', r' ≠ r → Sys.Apart r t (body t r')) (fuel i : Nat) (s : Sys K)
    (hw : r ∉ s.mWatchingCallbacks) :
    Sys.Apart r s (forUp (fun s => s.mWatchingCallbacks) body fuel i s) :=
  forUp_induct _ body (fun t => Sys.Apart r s t)
    (fun t r' ht hmem => ht.apart_trans
      (hbody t r' (fun heq => ht.not_watching hw (heq ▸ hmem)))) fuel i s
    (Sys.Apart.apart_refl r s)

theorem GeolocationShutdown_apart (env : Env K) (s : Sys K) (r : Nat)
    (hp : r ∉ s.mPendingCallbacks) (hw : r ∉ s.mWatchingCallbacks) :
    Sys.Apart r s (Geolocation.Shutdown env s) := by
  refine Sys.Apart.apart_of_same ?_ (GeolocationShutdown_statics env s)
    (GeolocationShutdown_queue env s)
  rw [GeolocationShutdown_view]
  have h1 : (s.view r).pending = 0 := List.count_eq_zero_of_not_mem hp
  have h2 : (s.view r).watching = 0 := List.count_eq_zero_of_not_mem hw
  generalize s.view r = v at h1 h2 ⊢
  cases v
  simp only at h1 h2
  subst h1
  subst h2
  rfl

theorem GeolocationNotifyError_apart (env : Env K) (s : Sys K) (code r : Nat)
    (hp : r ∉ s.mPendingCallbacks) (hw : r ∉ s.mWatchingCallbacks) :
    Sys.Apart r s (Geolocation.NotifyError env s code) :=
  Sys.Apart.apart_of_same
    (GeolocationNotifyError_view_eq env s code r (List.count_eq_zero_of_not_mem hp)
      (List.count_eq_zero_of_not_mem hw))
    (GeolocationNotifyError_statics env s code) (GeolocationNotifyError_queue env s code)

theorem GeolocationUpdate_apart (env : Env K) (s : Sys K) (p : Option (nsGeoPosition K))
    (r : Nat) (hp : r ∉ s.mPendingCallbacks) (hw : r ∉ s.mWatchingCallbacks) :
    Sys.Apart r s (Geolocation.Update env s p) := by
  unfold Geolocation.Update
  split
  · exact GeolocationShutdown_apart env s r hp hw
  · simp only
    have h1 := forDown_pending_apart
      (fun s r => Geolocation.RemoveRequest (nsGeolocationRequest.Update s r p) r) r
      (fun t r' hne => (RequestUpdate_apart t r' r p hne).apart_trans
        (RemoveRequest_apart _ r' r hne)) s.mPendingCallbacks.length s hp
    exact h1.apart_trans (forUp_watching_apart _ r
      (fun t r' hne => RequestUpdate_apart t r' r p hne) _ _ _ (h1.not_watching hw))

theorem serviceNotifyError_apart (env : Env K) (s : Sys K) (code r : Nat)
    (hp : r ∉ s.mPendingCallbacks) (hw : r ∉ s.mWatchingCallbacks) :
    Sys.Apart r s (nsGeolocationService.NotifyError env s code) := by
  unfold nsGeolocationService.NotifyError
  split
  · exact GeolocationNotifyError_apart env s code r hp hw
  · exact Sys.Apart.apart_refl r s

theorem SetCachedPosition_apart (s : Sys K) (p : Option (nsGeoPosition K)) (r : Nat) :
    Sys.Apart r s (nsGeolocationService.SetCachedPosition s p) :=
  ⟨(SameViews.SetCachedPosition s p).view_eq r, rfl, rfl, rfl⟩

theorem serviceUpdate_apart (env : Env K) (s : Sys K) (p : Option (nsGeoPosition K)) (r : Nat)
    (hp : r ∉ s.mPendingCallbacks) (hw : r ∉ s.mWatchingCallbacks) :
    Sys.Apart r s (nsGeolocationService.Update env s p) := by
  unfold nsGeolocationService.Update
  simp only
  refine (SetCachedPosition_apart s p r).apart_trans ?_
  split
  · exact GeolocationUpdate_apart env _ p r hp hw
  · exact Sys.Apart.apart_refl r _

theorem StartDevice_apart (env : Env K) (s : Sys K) (r : Nat)
    (hp : r ∉ s.mPendingCallbacks) (hw : r ∉ s.mWatchingCallbacks) :
    Sys.Apart r s (nsGeolocationService.StartDevice env s).1 :=
  Sys.Apart.apart_of_same
    (StartDevice_view_eq env s r (List.count_eq_zero_of_not_mem hp)
      (List.count_eq_zero_of_not_mem hw))
    (StartDevice_statics env s) (StartDevice_queue env s)

theorem StopDevice_apart (env : Env K) (s : Sys K) (r : Nat) :
    Sys.Apart r s (nsGeolocationService.StopDevice env s) :=
  Sys.Apart.of_sameViews (SameViews.StopDevice env s) (StopDevice_statics env s)

theorem Allow_apart (env : Env K) (s : Sys K) (r' r : Nat) (hne : r' ≠ r)
    (hp : r ∉ s.mPendingCallbacks) (hw : r ∉ s.mWatchingCallbacks) :
    Sys.Apart r s (nsGeolocationRequest.Allow env s r') := by
  unfold nsGeolocationRequest.Allow
  split
  · exact crashed_apart s r
  · simp only
    have h1 := StartDevice_apart env s r hp hw
    rcases hsd : nsGeolocationService.StartDevice env s with ⟨s2, rv⟩
    rw [hsd] at h1
    simp only at h1 ⊢
    split
    · exact h1.apart_trans (RequestNotifyError_apart _ r' r _ hne)
    · refine h1.apart_trans ?_
      refine Sys.Apart.apart_trans ?_ (SetTimeoutTimer_apart _ r' r hne)
      have h3 := UpdateAccuracy_apart env s2 (s2.WantsHighAccuracy r') r
      have h4 : ∀ t : Sys K, Sys.Apart r s2 t → ∀ (c : Bool) (pos : Option (nsGeoPosition K)),
          Sys.Apart r s2 (if c = true then nsGeolocationRequest.Update t r' pos else t) := by
        intro t ht c pos
        split
        · exact ht.apart_trans (RequestUpdate_apart _ r' r pos hne)
        · exact ht
      split
      · exact (h4 _ h3 _ _).apart_trans (NotifyAllowedRequest_apart _ r' r hne)
      · exact h4 _ h3 _ _

theorem Cancel_apart (s : Sys K) (r' r : Nat) (hne : r' ≠ r) :
    Sys.Apart r s (nsGeolocationRequest.Cancel s r') :=
  RequestNotifyError_apart s r' r _ hne

theorem StopTimeoutTimer_queue (s : Sys K) (r : Nat) :
    (nsGeolocationRequest.StopTimeoutTimer s r).queue = s.queue := by
  have h := StopTimeoutTimer_frame s r
  simp [h]

theorem SendLocation_queue (env : Env K) (s : Sys K) (r : Nat)
    (p : Option (nsGeoPosition K)) :
    (nsGeolocationRequest.SendLocation env s r p).queue = s.queue := by
  unfold nsGeolocationRequest.SendLocation
  split
  · rfl
  · split
    · rfl
    · simp only
      split
      · rfl
      · rfl
      · split
        · rfl
        · refine (StopTimeoutTimer_queue _ r).trans ?_
          show (if _ then nsGeolocationRequest.Shutdown env s r else s).queue = s.queue
          split
          · exact RequestShutdown_queue env s r
          · rfl

theorem SendLocation_apart (env : Env K) (s : Sys K) (r' r : Nat)
    (p : Option (nsGeoPosition K)) (hne : r' ≠ r) :
    Sys.Apart r s (nsGeolocationRequest.SendLocation env s r' p) :=
  Sys.Apart.apart_of_same (SendLocation_view_ne env s p hne) (SendLocation_statics env s r' p)
    (SendLocation_queue env s r' p)

theorem LocationUpdatePending_apart (s : Sys K) (r : Nat) (hw : r ∉ s.mWatchingCallbacks) :
    Sys.Apart r s (nsGeolocationService.LocationUpdatePending s) := by
  unfold nsGeolocationService.LocationUpdatePending
  split
  · unfold Geolocation.LocationUpdatePending
    refine forUp_watching_apart _ r ?_ _ _ s hw
    intro t r' hne
    unfold nsGeolocationRequest.LocationUpdatePending
    split
    · exact crashed_apart t r
    · split
      · exact SetTimeoutTimer_apart t r' r hne
      · exact Sys.Apart.apart_refl r t
  · exact Sys.Apart.apart_refl r s

theorem RegisterRequestWithPrompt_apart (env : Env K) (s : Sys K) (r' r : Nat) (hne : r' ≠ r) :
    Sys.Apart r s (Geolocation.RegisterRequestWithPrompt env s r') := by
  unfold Geolocation.RegisterRequestWithPrompt
  split <;> exact Dispatch_apart s _ r hne

theorem GetCurrentPositionReady_apart (env : Env K) (s : Sys K) (r' r : Nat) (hne : r' ≠ r) :
    Sys.Apart r s (Geolocation.GetCurrentPositionReady env s r').1 := by
  unfold Geolocation.GetCurrentPositionReady
  split
  · exact RegisterRequestWithPrompt_apart env s r' r hne
  · split
    · exact Sys.Apart.apart_refl r s
    · exact Dispatch_apart s _ r hne

theorem WatchPositionReady_apart (env : Env K) (s : Sys K) (r' r : Nat) (hne : r' ≠ r)
    (hp : r ∉ s.mPendingCallbacks) (hw : r ∉ s.mWatchingCallbacks) :
    Sys.Apart r s (Geolocation.WatchPositionReady env s r').1 := by
  unfold Geolocation.WatchPositionReady
  split
  · exact RegisterRequestWithPrompt_apart env s r' r hne
  · split
    · exact Sys.Apart.apart_refl r s
    · exact Allow_apart env s r' r hne hp hw

end ApartSteps

section ApartTop
variable {K : Type} [LinearOrderedField K] [FloorRing K]

theorem Sys.Apart.of_views {r : Nat} {s t : Sys K} (hv : SameViews s t) : Sys.Apart r s t :=
  ⟨hv.view_eq r, by rw [hv.2.2.2.1], by rw [hv.2.2.2.2.1], by simp [Sys.runnablesOf, hv.2.2.2.2.2.1]⟩

theorem Sys.Isolated.index_lt {s : Sys K} {r : Nat} (h : s.Isolated r) :
    r < s.requests.length := by
  obtain ⟨q, hq, _⟩ := h.1
  by_contra hlt
  rw [List.getElem?_eq_none (by omega)] at hq
  cases hq

theorem create_apart (s : Sys K) (a : nsGeolocationRequest) (w : Int) (r : Nat)
    (hr : r < s.requests.length) :
    Sys.Apart r s { s with mLastWatchId := w, requests := s.requests ++ [a] } := by
  refine ⟨?_, rfl, rfl, rfl⟩
  have h : ({ s with mLastWatchId := w, requests := s.requests ++ [a] } : Sys K).view r =
      ({ s with requests := s.requests ++ [a] } : Sys K).view r := rfl
  rw [h, create_view, if_neg (by omega)]

theorem defer_apart (s : Sys K) (r' r : Nat) (hne : r' ≠ r) :
    Sys.Apart r s { s with mPendingRequests := s.mPendingRequests ++ [r'] } := by
  have hc : (s.mPendingRequests ++ [r']).count r = s.mPendingRequests.count r := by
    simp [List.count_append, List.count_cons, hne]
  refine ⟨?_, hc, rfl, rfl⟩
  simp only [Sys.view, Sys.decisions, Sys.sends, Sys.callbacksOf, hc]

theorem prompt_apart (s : Sys K) (r' r : Nat) (hne : r' ≠ r) :
    Sys.Apart r s { s with prompting := s.prompting ++ [r'] } := by
  have hc : (s.prompting ++ [r']).count r = s.prompting.count r := by
    simp [List.count_append, List.count_cons, hne]
  refine ⟨?_, rfl, hc, rfl⟩
  simp only [Sys.view, Sys.decisions, Sys.sends, Sys.callbacksOf, hc]

theorem unprompt_apart (s : Sys K) (r' r : Nat) (hne : r' ≠ r) :
    Sys.Apart r s { s with prompting := s.prompting.erase r' } := by
  have hc : (s.prompting.erase r').count r = s.prompting.count r :=
    List.count_erase_of_ne (Ne.symm hne) _
  refine ⟨?_, rfl, hc, rfl⟩
  simp only [Sys.view, Sys.decisions, Sys.sends, Sys.callbacksOf, hc]

theorem eraseDeferred_apart (s : Sys K) (i r : Nat) (h : r ∉ s.mPendingRequests) :
    Sys.Apart r s { s with mPendingRequests := s.mPendingRequests.eraseIdx i } := by
  have h0 : s.mPendingRequests.count r = 0 := List.count_eq_zero_of_not_mem h
  have hc : (s.mPendingRequests.eraseIdx i).count r = s.mPendingRequests.count r := by
    rw [h0]
    exact List.count_eq_zero_of_not_mem
      (fun hm => h ((List.eraseIdx_sublist _ _).subset hm))
  refine ⟨?_, hc, rfl, rfl⟩
  simp only [Sys.view, Sys.decisions, Sys.sends, Sys.callbacksOf, hc]

theorem pop_apart (s : Sys K) (ev : Runnable K) (rest : List (Runnable K)) (r : Nat)
    (h : s.queue = ev :: rest) (hne : ev.request ≠ r) :
    Sys.Apart r s { s with queue := rest } := by
  have h1 : ev.isDecisionFor r = false := by
    cases hd : ev.isDecisionFor r with
    | false => rfl
    | true => exact absurd (isDecisionFor_request hd) hne
  have h2 : ev.isSendFor r = false := by
    cases hd : ev.isSendFor r with
    | false => rfl
    | true => exact absurd (isSendFor_request hd) hne
  have hb : (ev.request == r) = false := by simpa using hne
  refine ⟨?_, rfl, rfl, ?_⟩
  · rw [(pop_view s ev rest r h).1]
    simp [h1, h2]
  · simp [Sys.runnablesOf, h, List.filter_cons, hb]

theorem Run_apart (env : Env K) (s : Sys K) (ev : Runnable K) (r : Nat) (hne : ev.request ≠ r)
    (hp : r ∉ s.mPendingCallbacks) (hw : r ∉ s.mWatchingCallbacks) :
    Sys.Apart r s (Runnable.Run env s ev) := by
  cases ev with
  | RequestPromptEvent r' => exact prompt_apart s r' r hne
  | RequestAllowEvent allow r' =>
    cases allow with
    | true => exact Allow_apart env s r' r hne hp hw
    | false => exact Cancel_apart s r' r hne
  | RequestSendLocationEvent p r' => exact SendLocation_apart env s r' r p hne

theorem GetCurrentPosition_apart (env : Env K) (s : Sys K) (options : Option PositionOptions)
    (r : Nat) (hr : r < s.requests.length) :
    Sys.Apart r s (Geolocation.GetCurrentPosition env s options).1 := by
  have hne : s.requests.length ≠ r := by omega
  unfold Geolocation.GetCurrentPosition
  split
  · exact Sys.Apart.apart_refl r s
  · simp only
    have h0 := create_apart s
      { mIsWatchPositionRequest := false, mTimeoutTimer := none, mOptions := options,
        mWatchId := 0, mShutdown := false } s.mLastWatchId r hr
    split
    · exact h0.apart_trans (Dispatch_apart _ _ r hne)
    · split
      · exact h0
      · split
        · exact h0.apart_trans (defer_apart _ _ r hne)
        · exact h0.apart_trans (GetCurrentPositionReady_apart env _ _ r hne)

theorem WatchPosition_apart (env : Env K) (s : Sys K) (options : Option PositionOptions)
    (r : Nat) (hr : r < s.requests.length)
    (hp : r ∉ s.mPendingCallbacks) (hw : r ∉ s.mWatchingCallbacks) :
    Sys.Apart r s (Geolocation.WatchPosition env s options).1 := by
  have hne : s.requests.length ≠ r := by omega
  unfold Geolocation.WatchPosition
  split
  · exact Sys.Apart.apart_refl r s
  · simp only
    have h0 := create_apart s
      { mIsWatchPositionRequest := true, mTimeoutTimer := none, mOptions := options,
        mWatchId := s.mLastWatchId, mShutdown := false } (s.mLastWatchId + 1) r hr
    split
    · exact h0.apart_trans (Dispatch_apart _ _ r hne)
    · split
      · exact h0
      · split
        · exact h0.apart_trans (defer_apart _ _ r hne)
        · exact h0.apart_trans (WatchPositionReady_apart env _ _ r hne hp hw)

theorem ClearWatch_apart (env : Env K) (s : Sys K) (aWatchId : Int) (r : Nat)
    (hw : r ∉ s.mWatchingCallbacks) (hd : r ∉ s.mPendingRequests) :
    Sys.Apart r s (Geolocation.ClearWatch env s aWatchId) := by
  have hsecond : ∀ t : Sys K, Sys.Apart r s t → Sys.Apart r s
      (match t.mPendingRequests.findIdx? (fun r => t.IsWatch r && t.WatchId r == some aWatchId) with
      | some i =>
        match t.mPendingRequests[i]? with
        | some r =>
          let s := nsGeolocationRequest.Shutdown env t r
          { s with mPendingRequests := s.mPendingRequests.eraseIdx i }
        | none => t
      | none => t) := by
    intro t ht
    split
    next i _ =>
      split
      next y hy =>
        have hmem : y ∈ t.mPendingRequests := List.getElem?_mem hy
        have hne : y ≠ r := fun heq => ht.not_deferred hd (heq ▸ hmem)
        have h1 := ht.apart_trans (RequestShutdown_apart env t y r hne)
        exact h1.apart_trans (eraseDeferred_apart _ i r (h1.not_deferred hd))
      next => exact ht
    next => exact ht
  unfold Geolocation.ClearWatch
  split
  · exact Sys.Apart.apart_refl r s
  · simp only
    cases hf : s.mWatchingCallbacks.find? (fun r => s.WatchId r == some aWatchId) with
    | none => exact hsecond s (Sys.Apart.apart_refl r s)
    | some x =>
      have hne : x ≠ r := fun heq => hw (heq ▸ List.mem_of_find?_eq_some hf)
      exact hsecond _ ((RequestShutdown_apart env s x r hne).apart_trans
        (RemoveRequest_apart _ x r hne))

theorem ServiceReady_loop_apart (env : Env K) (r : Nat) :
    ∀ n (s : Sys K), r ∉ s.mPendingCallbacks → r ∉ s.mWatchingCallbacks →
      r ∉ s.mPendingRequests → Sys.Apart r s (Geolocation.ServiceReady.loop env n s) := by
  intro n
  induction n with
  | zero => intro s _ _ _; exact Sys.Apart.apart_refl r s
  | succ n ih =>
    intro s hp hw hd
    unfold Geolocation.ServiceReady.loop
    split
    next => exact crashed_apart s r
    next r' tl hpr =>
      simp only
      have hne : r' ≠ r := fun heq => hd (by rw [hpr, heq]; exact List.mem_cons_self _ _)
      have h1 : Sys.Apart r s (if s.IsWatch r' = true then (Geolocation.WatchPositionReady env s r').1
          else (Geolocation.GetCurrentPositionReady env s r').1) := by
        split
        · exact WatchPositionReady_apart env s r' r hne hp hw
        · exact GetCurrentPositionReady_apart env s r' r hne
      have h2 := h1.apart_trans (eraseDeferred_apart _ 0 r (h1.not_deferred hd))
      exact h2.apart_trans (ih _ (h2.not_pending hp) (h2.not_watching hw) (h2.not_deferred hd))

theorem ServiceReady_apart (env : Env K) (s : Sys K) (r : Nat) (hp : r ∉ s.mPendingCallbacks)
    (hw : r ∉ s.mWatchingCallbacks) (hd : r ∉ s.mPendingRequests) :
    Sys.Apart r s (Geolocation.ServiceReady env s) :=
  ServiceReady_loop_apart env r _ s hp hw hd

theorem HandleMozsettingValue_apart (env : Env K) (s : Sys K) (aValue : Bool) (r : Nat)
    (hp : r ∉ s.mPendingCallbacks) (hw : r ∉ s.mWatchingCallbacks)
    (hd : r ∉ s.mPendingRequests) :
    Sys.Apart r s (nsGeolocationService.HandleMozsettingValue env s aValue) := by
  have hready : ∀ t : Sys K, Sys.Apart r s t → Sys.Apart r s
      (if t.sGeoInitPending = true then
        if t.mService = true then Geolocation.ServiceReady env { t with sGeoInitPending := false }
        else { t with sGeoInitPending := false }
      else t) := by
    intro t ht
    have h1 : Sys.Apart r s ({ t with sGeoInitPending := false } : Sys K) :=
      ht.apart_trans ⟨rfl, rfl, rfl, rfl⟩
    split
    · split
      · exact h1.apart_trans (ServiceReady_apart env _ r (h1.not_pending hp)
          (h1.not_watching hw) (h1.not_deferred hd))
      · exact h1
    · exact ht
  unfold nsGeolocationService.HandleMozsettingValue
  simp only
  cases aValue with
  | true => exact hready _ ⟨rfl, rfl, rfl, rfl⟩
  | false =>
    have h1 := StopDevice_apart env s r
    have h2 := h1.apart_trans (serviceUpdate_apart env _ none r (h1.not_pending hp)
      (h1.not_watching hw))
    exact hready _ (h2.apart_trans ⟨rfl, rfl, rfl, rfl⟩)

theorem ObserveTimerCallback_apart (env : Env K) (s : Sys K) (r : Nat)
    (hp : r ∉ s.mPendingCallbacks) (hw : r ∉ s.mWatchingCallbacks) :
    Sys.Apart r s (nsGeolocationService.ObserveTimerCallback env s) := by
  unfold nsGeolocationService.ObserveTimerCallback
  split
  · exact Sys.Apart.of_views (SameViews.SetDisconnectTimer s)
  · simp only
    have h1 := StopDevice_apart env s r
    exact h1.apart_trans (serviceUpdate_apart env _ none r (h1.not_pending hp)
      (h1.not_watching hw))

theorem ObserveQuitApplication_apart (env : Env K) (s : Sys K) (r : Nat)
    (hp : r ∉ s.mPendingCallbacks) (hw : r ∉ s.mWatchingCallbacks) :
    Sys.Apart r s (nsGeolocationService.ObserveQuitApplication env s) := by
  unfold nsGeolocationService.ObserveQuitApplication
  simp only
  refine Sys.Apart.apart_trans ?_ (StopDevice_apart env _ r)
  split
  · exact GeolocationShutdown_apart env s r hp hw
  · exact Sys.Apart.apart_refl r s

/-- A step leaves an isolated request alone, unless it runs a runnable that
is for the request. -/
theorem step_apart (env : Env K) (s : Sys K) (a : Action K) (r : Nat) (hi : s.Isolated r)
    (hhead : a = Action.RunNextRunnable → ∀ ev rest, s.queue = ev :: rest → ev.request ≠ r) :
    Sys.Apart r s (step env s a) := by
  obtain ⟨⟨q, hq, htm⟩, hp, hw, hd, hpr⟩ := hi
  have hr : r < s.requests.length := Sys.Isolated.index_lt ⟨⟨q, hq, htm⟩, hp, hw, hd, hpr⟩
  unfold step
  split
  · exact Sys.Apart.apart_refl r s
  · cases a with
    | GetCurrentPosition options => exact GetCurrentPosition_apart env s options r hr
    | WatchPosition options => exact WatchPosition_apart env s options r hr hp hw
    | ClearWatch aWatchId => exact ClearWatch_apart env s aWatchId r hw hd
    | RunNextRunnable =>
      simp only
      cases hqu : s.queue with
      | nil => exact Sys.Apart.apart_refl r s
      | cons ev rest =>
        simp only
        have hne := hhead rfl ev rest hqu
        have h1 := pop_apart s ev rest r hqu hne
        exact h1.apart_trans (Run_apart env _ ev r hne hp hw)
    | PromptAllow r' =>
      simp only
      split
      next hmem =>
        have hne : r' ≠ r := fun heq => hpr (heq ▸ hmem)
        exact (unprompt_apart s r' r hne).apart_trans (Allow_apart env _ r' r hne hp hw)
      next => exact Sys.Apart.apart_refl r s
    | PromptCancel r' =>
      simp only
      split
      next hmem =>
        have hne : r' ≠ r := fun heq => hpr (heq ▸ hmem)
        exact (unprompt_apart s r' r hne).apart_trans (Cancel_apart _ r' r hne)
      next => exact Sys.Apart.apart_refl r s
    | TimeoutTimerFires r' =>
      simp only
      cases hq' : s.requests[r']? with
      | none => exact Sys.Apart.apart_refl r s
      | some q' =>
        simp only
        split
        next hsome =>
          have hne : r' ≠ r := by
            intro heq
            subst heq
            rw [hq] at hq'
            cases hq'
            rw [htm] at hsome
            cases hsome
          exact Notify_apart env s r' r hne
        next => exact Sys.Apart.apart_refl r s
    | ProviderUpdate position => exact serviceUpdate_apart env s position r hp hw
    | ProviderLocationUpdatePending => exact LocationUpdatePending_apart s r hw
    | ProviderNotifyError aErrorCode => exact serviceNotifyError_apart env s aErrorCode r hp hw
    | MozsettingEnabled aValue => exact HandleMozsettingValue_apart env s aValue r hp hw hd
    | MozsettingPolicy blur => exact ⟨rfl, rfl, rfl, rfl⟩
    | DisconnectTimerFires =>
      simp only
      split
      · exact Sys.Apart.apart_trans ⟨rfl, rfl, rfl, rfl⟩
          (ObserveTimerCallback_apart env _ r hp hw)
      · exact Sys.Apart.apart_refl r s
    | SessionShutdown =>
      simp only
      split
      · exact GeolocationShutdown_apart env s r hp hw
      · exact Sys.Apart.apart_refl r s
    | QuitApplication => exact ObserveQuitApplication_apart env s r hp hw

end ApartTop

section ApartStable
variable {K : Type} [LinearOrderedField K] [FloorRing K]

theorem step_of_crashed (env : Env K) (s : Sys K) (a : Action K) (h : s.crashed = true) :
    step env s a = s := by
  unfold step
  simp [h]

theorem Sys.Apart.gone {r : Nat} {s t : Sys K} (h : Sys.Apart r s t) (hg : s.Gone r) :
    t.Gone r ∧ t.callbacksOf r = s.callbacksOf r := by
  obtain ⟨hi, hd, hsh⟩ := hg
  have hreq : t.requests[r]? = s.requests[r]? := congrArg View.req h.1
  refine ⟨⟨h.isolated hi, ?_, ?_⟩, congrArg View.callbacks h.1⟩
  · rw [h.1]; exact hd
  · rw [h.1, hreq]; exact hsh

/-- A request that is out of reach stays so at every step, and no callback
of it is invoked. -/
theorem step_gone (env : Env K) (s : Sys K) (a : Action K) (r : Nat) (hg : s.Gone r) :
    (step env s a).Gone r ∧ (step env s a).callbacksOf r = s.callbacksOf r := by
  by_cases hhead : a = Action.RunNextRunnable →
      ∀ ev rest, s.queue = ev :: rest → ev.request ≠ r
  · exact (step_apart env s a r hg.1 hhead).gone hg
  · push_neg at hhead
    obtain ⟨ha, ev, rest, hqu, hev⟩ := hhead
    subst ha
    cases hc : s.crashed with
    | true => rw [step_of_crashed env s _ hc]; exact ⟨hg, rfl⟩
    | false =>
      rw [step_run_next env s ev rest hc hqu]
      obtain ⟨hpop, hdec, hsend⟩ := pop_view s ev rest r hqu
      obtain ⟨hi, hd, hsh⟩ := hg
      cases ev with
      | RequestPromptEvent r' =>
        have := hdec (by simpa [Runnable.isDecisionFor, Runnable.request] using hev)
        omega
      | RequestAllowEvent allow r' =>
        have := hdec (by simpa [Runnable.isDecisionFor, Runnable.request] using hev)
        omega
      | RequestSendLocationEvent p r' =>
        have hr : r' = r := hev
        subst hr
        have h1 := hsend (by simp [Runnable.isSendFor])
        rcases hsh with ⟨q, hq, hshut⟩ | h0
        · have hrun : Runnable.Run env ({ s with queue := rest } : Sys K)
              (Runnable.RequestSendLocationEvent p r') = { s with queue := rest } := by
            show nsGeolocationRequest.SendLocation env ({ s with queue := rest } : Sys K) r' p = _
            unfold nsGeolocationRequest.SendLocation
            have hq' : ({ s with queue := rest } : Sys K).requests[r']? = some q := hq
            simp only [hq', hshut, if_true]
          rw [hrun]
          refine ⟨⟨hi, ?_, Or.inl ⟨q, hq, hshut⟩⟩, rfl⟩
          rw [hpop]
          show (s.view r').decisions - _ = 0
          omega
        · omega

theorem run_gone (r : Nat) : ∀ (l : List (Env K × Action K)) (s : Sys K), s.Gone r →
    (run s l).Gone r ∧ (run s l).callbacksOf r = s.callbacksOf r := by
  intro l
  induction l with
  | nil => intro s hg; exact ⟨hg, rfl⟩
  | cons x l ih =>
    intro s hg
    obtain ⟨env, a⟩ := x
    have h1 := step_gone env s a r hg
    have h2 := ih _ h1.1
    exact ⟨h2.1, h2.2.trans h1.2⟩

/-- A request that is isolated and has no runnable dispatched stays so at
every step, and no callback of it is invoked. -/
theorem step_quiet (env : Env K) (s : Sys K) (a : Action K) (r : Nat) (hi : s.Isolated r)
    (hq : s.runnablesOf r = []) :
    (step env s a).Isolated r ∧ (step env s a).runnablesOf r = [] ∧
      (step env s a).callbacksOf r = s.callbacksOf r := by
  have hhead : a = Action.RunNextRunnable →
      ∀ ev rest, s.queue = ev :: rest → ev.request ≠ r := by
    intro _ ev rest hqu hev
    have hmem : ev ∈ s.runnablesOf r := by
      simp [Sys.runnablesOf, hqu, hev]
    rw [hq] at hmem
    cases hmem
  have h := step_apart env s a r hi hhead
  exact ⟨h.isolated hi, h.2.2.2.trans hq, congrArg View.callbacks h.1⟩

theorem run_quiet (r : Nat) : ∀ (l : List (Env K × Action K)) (s : Sys K), s.Isolated r →
    s.runnablesOf r = [] →
    (run s l).Isolated r ∧ (run s l).runnablesOf r = [] ∧
      (run s l).callbacksOf r = s.callbacksOf r := by
  intro l
  induction l with
  | nil => intro s hi hq; exact ⟨hi, hq, rfl⟩
  | cons x l ih =>
    intro s hi hq
    obtain ⟨env, a⟩ := x
    have h1 := step_quiet env s a r hi hq
    have h2 := ih _ h1.1 h1.2.1
    exact ⟨h2.1, h2.2.1, h2.2.2.trans h1.2.2⟩

/-- Running the denial of a request whose only runnable it is: the error
callback is invoked with `PERMISSION_DENIED`, and nothing else about the
request changes. -/
theorem step_runs_denial (env : Env K) (s : Sys K) (r : Nat) (rest : List (Runnable K))
    (hd : s.Denied r) (hc : s.crashed = false)
    (hqu : s.queue = Runnable.RequestAllowEvent false r :: rest) :
    (step env s Action.RunNextRunnable).Isolated r ∧
      (step env s Action.RunNextRunnable).runnablesOf r = [] ∧
      (step env s Action.RunNextRunnable).callbacksOf r =
        [CallbackEvent.error r PERMISSION_DENIED] := by
  obtain ⟨hi, hrun, hcb⟩ := hd
  rw [step_run_next env s _ rest hc hqu]
  have hrest : rest.filter (fun ev => ev.request == r) = [] := by
    have := hrun
    simp only [Sys.runnablesOf, hqu, List.filter_cons, Runnable.request, beq_self_eq_true,
      if_true] at this
    exact (List.cons.inj this).2
  refine ⟨hi, hrest, ?_⟩
  show (s.callbacks ++ [CallbackEvent.error r PERMISSION_DENIED]).filter
    (fun e : CallbackEvent K => e.request == r) = _
  rw [List.filter_append]
  have : s.callbacks.filter (fun e : CallbackEvent K => e.request == r) = [] := hcb
  rw [this]
  simp [CallbackEvent.request]

/-- A denied request at a step: its denial is still dispatched and it has
had no callback, or the denial has run and `PERMISSION_DENIED` is its one
callback. -/
theorem step_denied (env : Env K) (s : Sys K) (a : Action K) (r : Nat) (hd : s.Denied r) :
    (step env s a).Denied r ∨
      ((step env s a).Isolated r ∧ (step env s a).runnablesOf r = [] ∧
        (step env s a).callbacksOf r = [CallbackEvent.error r PERMISSION_DENIED]) := by
  by_cases hhead : a = Action.RunNextRunnable →
      ∀ ev rest, s.queue = ev :: rest → ev.request ≠ r
  · have h := step_apart env s a r hd.1 hhead
    exact Or.inl ⟨h.isolated hd.1, h.2.2.2.trans hd.2.1,
      (congrArg View.callbacks h.1).trans hd.2.2⟩
  · push_neg at hhead
    obtain ⟨ha, ev, rest, hqu, hev⟩ := hhead
    subst ha
    cases hc : s.crashed with
    | true => rw [step_of_crashed env s _ hc]; exact Or.inl hd
    | false =>
      have hrun := hd.2.1
      have hb : (ev.request == r) = true := by simpa using hev
      simp only [Sys.runnablesOf, hqu, List.filter_cons, hb, if_true] at hrun
      have hev' : ev = Runnable.RequestAllowEvent false r := (List.cons.inj hrun).1
      subst hev'
      exact Or.inr (step_runs_denial env s r rest hd hc hqu)

theorem run_denied (r : Nat) : ∀ (l : List (Env K × Action K)) (s : Sys K), s.Denied r →
    (run s l).Denied r ∨
      ((run s l).Isolated r ∧ (run s l).runnablesOf r = [] ∧
        (run s l).callbacksOf r = [CallbackEvent.error r PERMISSION_DENIED]) := by
  intro l
  induction l with
  | nil => intro s hd; exact Or.inl hd
  | cons x l ih =>
    intro s hd
    obtain ⟨env, a⟩ := x
    rcases step_denied env s a r hd with h | ⟨h1, h2, h3⟩
    · exact ih _ h
    · have := run_quiet r l _ h1 h2
      exact Or.inr ⟨this.1, this.2.1, this.2.2.trans h3⟩

end ApartStable

/-! ## Error callbacks of one-shot requests -/

section ErrorTermination
variable {K : Type} [LinearOrderedField K] [FloorRing K]

theorem List.take_erase_of_nodup : ∀ (l : List Nat) (n x : Nat), l.Nodup → l[n]? = some x →
    (l.erase x).take n = l.take n := by
  intro l
  induction l with
  | nil => intro n x _ h; simp at h
  | cons a l ih =>
    intro n x hnd hx
    cases n with
    | zero => simp
    | succ k =>
      have hx' : l[k]? = some x := by simpa using hx
      have hmem : x ∈ l := List.getElem?_mem hx'
      obtain ⟨ha, hl⟩ := List.nodup_cons.mp hnd
      have hne : a ≠ x := fun h => ha (h ▸ hmem)
      rw [List.erase_cons_tail (by simpa using hne)]
      simp [ih k x hl hx']

theorem List.mem_take_of_succ {l : List Nat} {n r x : Nat} (hr : r ∈ l.take (n + 1))
    (hx : l[n]? = some x) (hne : r ≠ x) : r ∈ l.take n := by
  rw [List.take_succ, hx] at hr
  rcases List.mem_append.mp hr with h | h
  · exact h
  · simp at h
    exact absurd h hne

theorem Sys.Sound.pending_nodup {s : Sys K} (hs : s.Sound) : s.mPendingCallbacks.Nodup := by
  rw [List.nodup_iff_count_le_one]
  intro a
  show (s.view a).pending ≤ 1
  rcases (s.view a).req_cases with hq | ⟨q, hq⟩
  · obtain ⟨_, _, c, _⟩ := (View.Inv_none hq).mp (hs a).1
    omega
  · have := View.Sound.counts hq (hs a)
    omega

theorem Sys.isolated_of_view {s : Sys K} {r : Nat} {q : nsGeolocationRequest}
    (hq : s.requests[r]? = some q) (ht : q.mTimeoutTimer = none)
    (hd : (s.view r).decisions = 0) (hp : (s.view r).pending = 0)
    (hw : (s.view r).watching = 0) : s.Isolated r := by
  have hd' : s.mPendingRequests.count r + s.prompting.count r +
      s.queue.countP (Runnable.isDecisionFor r) = 0 := hd
  exact ⟨⟨q, hq, ht⟩, Sys.not_mem_of_count hp, Sys.not_mem_of_count hw,
    Sys.not_mem_of_count (by omega), Sys.not_mem_of_count (by omega)⟩

theorem NotifyErrorAndShutdown_view_oneShot (env : Env K) (s : Sys K) (r : Nat)
    (q : nsGeolocationRequest) (code : Nat) (hq : s.requests[r]? = some q)
    (hone : q.mIsWatchPositionRequest = false) :
    (nsGeolocationRequest.NotifyErrorAndShutdown env s r code).view r =
      { s.view r with
        req := some { q with mShutdown := true, mTimeoutTimer := none }
        pending := (s.view r).pending - 1
        watching := (s.view r).watching - 1
        callbacks := (s.view r).callbacks ++ [CallbackEvent.error r code] } := by
  unfold nsGeolocationRequest.NotifyErrorAndShutdown
  rw [hq]
  simp only [hone, Bool.not_false, if_true]
  rw [NotifyError_view, RemoveRequest_view, Shutdown_view_self env s hq]
  simp [hone]

theorem NotifyErrorAndShutdown_pending (env : Env K) (s : Sys K) (x code : Nat) :
    (nsGeolocationRequest.NotifyErrorAndShutdown env s x code).mPendingCallbacks =
        s.mPendingCallbacks ∨
      (nsGeolocationRequest.NotifyErrorAndShutdown env s x code).mPendingCallbacks =
        s.mPendingCallbacks.erase x := by
  unfold nsGeolocationRequest.NotifyErrorAndShutdown
  split
  · exact Or.inl rfl
  · simp only
    split
    · refine Or.inr ?_
      show (nsGeolocationRequest.Shutdown env s x).mPendingCallbacks.erase x = _
      have h := RequestShutdown_frame s env x
      rw [h.1]
    · exact Or.inl rfl

/-- The call `NotifyErrorAndShutdown` on a one-shot request for which no
decision is outstanding puts it out of reach. -/
theorem NotifyErrorAndShutdown_gone (env : Env K) (s : Sys K) (r : Nat)
    (q : nsGeolocationRequest) (code : Nat) (hv : (s.view r).Sound)
    (hq : s.requests[r]? = some q) (hone : q.mIsWatchPositionRequest = false)
    (hd : (s.view r).decisions = 0) :
    (nsGeolocationRequest.NotifyErrorAndShutdown env s r code).Gone r ∧
      (nsGeolocationRequest.NotifyErrorAndShutdown env s r code).requests[r]? =
        some { q with mShutdown := true, mTimeoutTimer := none } ∧
      (nsGeolocationRequest.NotifyErrorAndShutdown env s r code).callbacksOf r =
        s.callbacksOf r ++ [CallbackEvent.error r code] := by
  have hview := NotifyErrorAndShutdown_view_oneShot env s r q code hq hone
  have I := (View.Inv_some (v := s.view r) hq).mp hv.1 hone
  have h1 := I.decided
  have h2 := I.notWatching
  have hreq : (nsGeolocationRequest.NotifyErrorAndShutdown env s r code).requests[r]? =
      some { q with mShutdown := true, mTimeoutTimer := none } := by
    have := congrArg View.req hview
    exact this
  have hdec : ((nsGeolocationRequest.NotifyErrorAndShutdown env s r code).view r).decisions = 0 := by
    rw [hview]; exact hd
  have hpen : ((nsGeolocationRequest.NotifyErrorAndShutdown env s r code).view r).pending = 0 := by
    rw [hview]; show (s.view r).pending - 1 = 0; omega
  have hwat : ((nsGeolocationRequest.NotifyErrorAndShutdown env s r code).view r).watching = 0 := by
    rw [hview]; show (s.view r).watching - 1 = 0; omega
  refine ⟨⟨Sys.isolated_of_view hreq rfl hdec hpen hwat, hdec, Or.inl ⟨_, hreq, rfl⟩⟩, hreq, ?_⟩
  have := congrArg View.callbacks hview
  exact this

theorem Sys.ErrorTerminates.of_gone {s t : Sys K} {r code : Nat} {q : nsGeolocationRequest}
    (hg : t.Gone r) (hq : t.requests[r]? = some q) (hsh : q.mShutdown = true)
    (hcb : t.callbacksOf r = s.callbacksOf r ++ [CallbackEvent.error r code]) :
    s.ErrorTerminates t r code := by
  obtain ⟨q', hq', ht'⟩ := hg.1.1
  rw [hq] at hq'
  cases hq'
  exact ⟨⟨q, hq, hsh, ht'⟩, hg.1.2.1, hg.1.2.2.1, hcb, fun acts => (run_gone r acts t hg).2⟩

/-- The pending loop of `Geolocation::NotifyError` reaches every entry among
the first `n` of a duplicate-free pending array, and terminates the one-shot
request it finds there. -/
theorem fanout_pending_loop (env : Env K) (code r : Nat) (q : nsGeolocationRequest)
    (hone : q.mIsWatchPositionRequest = false) :
    ∀ (n : Nat) (s : Sys K), s.mPendingCallbacks.Nodup → n ≤ s.mPendingCallbacks.length →
      r ∈ s.mPendingCallbacks.take n → (s.view r).Sound → s.requests[r]? = some q →
      (forDown (fun s => s.mPendingCallbacks)
          (fun s x => nsGeolocationRequest.NotifyErrorAndShutdown env s x code) n s).Gone r ∧
        (forDown (fun s => s.mPendingCallbacks)
          (fun s x => nsGeolocationRequest.NotifyErrorAndShutdown env s x code)
          n s).requests[r]? = some { q with mShutdown := true, mTimeoutTimer := none } ∧
        (forDown (fun s => s.mPendingCallbacks)
          (fun s x => nsGeolocationRequest.NotifyErrorAndShutdown env s x code)
          n s).callbacksOf r = s.callbacksOf r ++ [CallbackEvent.error r code] := by
  intro n
  induction n with
  | zero => intro s _ _ hr; simp at hr
  | succ n ih =>
    intro s hnd hlen hr hv hq
    have hx : s.mPendingCallbacks[n]? = some (s.mPendingCallbacks[n]) :=
      List.getElem?_eq_getElem (by omega)
    generalize s.mPendingCallbacks[n] = x at hx
    have hmemx : x ∈ s.mPendingCallbacks := List.getElem?_mem hx
    have hunf : forDown (fun s => s.mPendingCallbacks)
        (fun s x => nsGeolocationRequest.NotifyErrorAndShutdown env s x code) (n + 1) s =
        forDown (fun s => s.mPendingCallbacks)
          (fun s x => nsGeolocationRequest.NotifyErrorAndShutdown env s x code) n
          (nsGeolocationRequest.NotifyErrorAndShutdown env s x code) := by
      rw [forDown]
      simp only [hx]
    rw [hunf]
    by_cases hxr : x = r
    · subst hxr
      have I := (View.Inv_some (v := s.view x) hq).mp hv.1 hone
      have hd : (s.view x).decisions = 0 := by
        have h1 := I.decided
        have h2 : 1 ≤ (s.view x).pending := count_pos_of_mem hmemx
        omega
      obtain ⟨hg, hreq, hcb⟩ := NotifyErrorAndShutdown_gone env s x q code hv hq hone hd
      have hap := forDown_pending_apart
        (fun s x => nsGeolocationRequest.NotifyErrorAndShutdown env s x code) x
        (fun t r' hne => NotifyErrorAndShutdown_apart env t r' x code hne) n _ hg.1.2.1
      have hg' := hap.gone hg
      refine ⟨hg'.1, ?_, hg'.2.trans hcb⟩
      have := congrArg View.req hap.1
      exact this.trans hreq
    · have hap := NotifyErrorAndShutdown_apart env s x r code hxr
      have hr' : r ∈ s.mPendingCallbacks.take n := List.mem_take_of_succ hr hx (Ne.symm hxr)
      have hv' : ((nsGeolocationRequest.NotifyErrorAndShutdown env s x code).view r).Sound := by
        rw [hap.1]; exact hv
      have hq' : (nsGeolocationRequest.NotifyErrorAndShutdown env s x code).requests[r]? =
          some q := (congrArg View.req hap.1).trans hq
      have hcb' : (nsGeolocationRequest.NotifyErrorAndShutdown env s x code).callbacksOf r =
          s.callbacksOf r := congrArg View.callbacks hap.1
      have hres : ∀ t : Sys K, t.mPendingCallbacks.Nodup → n ≤ t.mPendingCallbacks.length →
          r ∈ t.mPendingCallbacks.take n → (t.view r).Sound → t.requests[r]? = some q →
          t.callbacksOf r = s.callbacksOf r →
          (forDown (fun s => s.mPendingCallbacks)
              (fun s x => nsGeolocationRequest.NotifyErrorAndShutdown env s x code) n t).Gone r ∧
            (forDown (fun s => s.mPendingCallbacks)
              (fun s x => nsGeolocationRequest.NotifyErrorAndShutdown env s x code)
              n t).requests[r]? = some { q with mShutdown := true, mTimeoutTimer := none } ∧
            (forDown (fun s => s.mPendingCallbacks)
              (fun s x => nsGeolocationRequest.NotifyErrorAndShutdown env s x code)
              n t).callbacksOf r = s.callbacksOf r ++ [CallbackEvent.error r code] := by
        intro t a b c d e f
        have := ih t a b c d e
        rw [f] at this
        exact this
      rcases NotifyErrorAndShutdown_pending env s x code with hp | hp
      · exact hres _ (by rw [hp]; exact hnd) (by rw [hp]; omega) (by rw [hp]; exact hr')
          hv' hq' hcb'
      · refine hres _ (by rw [hp]; exact hnd.erase x) ?_ ?_ hv' hq' hcb'
        · rw [hp, List.length_erase_of_mem hmemx]; omega
        · rw [hp, List.take_erase_of_nodup _ n x hnd hx]; exact hr'

/-- The call `Geolocation::NotifyError` of a session whose consumer is still
valid terminates every one-shot request of the pending array. -/
theorem GeolocationNotifyError_terminates (env : Env K) (s : Sys K) (code r : Nat)
    (q : nsGeolocationRequest) (hs : s.Sound)
    (hwin : Geolocation.WindowOwnerStillExists env s = true)
    (hq : s.requests[r]? = some q) (hone : q.mIsWatchPositionRequest = false)
    (hr : r ∈ s.mPendingCallbacks) :
    s.ErrorTerminates (Geolocation.NotifyError env s code) r code := by
  obtain ⟨hg, hreq, hcb⟩ := fanout_pending_loop env code r q hone s.mPendingCallbacks.length s
    hs.pending_nodup le_rfl (by rw [List.take_length]; exact hr) (hs r) hq
  have hap := forUp_watching_apart
    (fun s x => nsGeolocationRequest.NotifyErrorAndShutdown env s x code) r
    (fun t r' hne => NotifyErrorAndShutdown_apart env t r' r code hne)
    (forDown (fun s => s.mPendingCallbacks)
      (fun s x => nsGeolocationRequest.NotifyErrorAndShutdown env s x code)
      s.mPendingCallbacks.length s).mWatchingCallbacks.length 0 _ hg.1.2.2.1
  have hg' := hap.gone hg
  have hfin : Geolocation.NotifyError env s code =
      forUp (fun s => s.mWatchingCallbacks)
        (fun s x => nsGeolocationRequest.NotifyErrorAndShutdown env s x code)
        (forDown (fun s => s.mPendingCallbacks)
          (fun s x => nsGeolocationRequest.NotifyErrorAndShutdown env s x code)
          s.mPendingCallbacks.length s).mWatchingCallbacks.length 0
        (forDown (fun s => s.mPendingCallbacks)
          (fun s x => nsGeolocationRequest.NotifyErrorAndShutdown env s x code)
          s.mPendingCallbacks.length s) := by
    unfold Geolocation.NotifyError
    simp [hwin]
  rw [hfin]
  exact Sys.ErrorTerminates.of_gone hg'.1 ((congrArg View.req hap.1).trans hreq) rfl
    (hg'.2.trans hcb)

/-- The timer callback terminates a one-shot request whose timer is armed. -/
theorem Notify_terminates (env : Env K) (s : Sys K) (r : Nat) (q : nsGeolocationRequest)
    (hv : (s.view r).Sound) (hq : s.requests[r]? = some q)
    (hone : q.mIsWatchPositionRequest = false) (harmed : q.mTimeoutTimer.isSome = true) :
    s.ErrorTerminates (nsGeolocationRequest.Notify env s r) r TIMEOUT := by
  have I := (View.Inv_some (v := s.view r) hq).mp hv.1 hone
  have hd : (s.view r).decisions = 0 := by
    have h1 := I.decided
    by_contra hne
    have h2 : (s.view r).decisions = 1 := by omega
    have h3 := (I.undecided h2).1
    rw [h3] at harmed
    cases harmed
  have hview := StopTimeoutTimer_view_self s hq
  have hq1 : (nsGeolocationRequest.StopTimeoutTimer s r).requests[r]? =
      some { q with mTimeoutTimer := none } := congrArg View.req hview
  have hd1 : ((nsGeolocationRequest.StopTimeoutTimer s r).view r).decisions = 0 := by
    rw [hview]; exact hd
  obtain ⟨hg, hreq, hcb⟩ := NotifyErrorAndShutdown_gone env _ r _ TIMEOUT
    (StopTimeoutTimer_sound s r r hv) hq1 hone hd1
  unfold nsGeolocationRequest.Notify
  refine Sys.ErrorTerminates.of_gone hg hreq rfl (hcb.trans ?_)
  have : (nsGeolocationRequest.StopTimeoutTimer s r).callbacksOf r = s.callbacksOf r :=
    congrArg View.callbacks hview
  rw [this]

theorem step_timeout (env : Env K) (s : Sys K) (r : Nat) (q : nsGeolocationRequest)
    (hcrash : s.crashed = false) (hq : s.requests[r]? = some q)
    (harmed : q.mTimeoutTimer.isSome = true) :
    step env s (Action.TimeoutTimerFires r) = nsGeolocationRequest.Notify env s r := by
  unfold step
  simp [hcrash, hq, harmed]

theorem step_provider_error (env : Env K) (s : Sys K) (code : Nat)
    (hcrash : s.crashed = false) (hsvc : s.mService = true) :
    step env s (Action.ProviderNotifyError code) = Geolocation.NotifyError env s code := by
  unfold step
  simp [hcrash, nsGeolocationService.NotifyError, hsvc]

end ErrorTermination

section OneShotErrors
variable {K : Type} [LinearOrderedField K] [FloorRing K]

/-- C22 (the code on its error paths): in a reachable state, for a one-shot
request `r` that is not shut down.  When its armed timeout timer fires, and
when the service fans out a provider error while `r` is in the pending array
of a session whose consumer is still valid, the error callback of `r` is
invoked and `r` is terminated: it is marked shut down, its timer is
cancelled, it is in neither array, and no run whatsoever invokes another
callback of it.  The third error path does not do so: the delivery of a
position for which the policy transform yields nothing changes nothing except
that the error callback is invoked with `POSITION_UNAVAILABLE`; `r` is not
terminated, it is still not shut down with its timer as it was, and when that
timer is armed and fires, a second callback, `TIMEOUT`, follows. -/
theorem oneShot_error_terminates (env : Env K) (s : Sys K) (r : Nat) (q : nsGeolocationRequest)
    (hreach : s.Reachable) (hcrash : s.crashed = false) (hq : s.requests[r]? = some q)
    (hone : q.mIsWatchPositionRequest = false) (hlive : q.mShutdown = false) :
    (q.mTimeoutTimer.isSome = true →
        s.ErrorTerminates (step env s (Action.TimeoutTimerFires r)) r TIMEOUT) ∧
      (∀ code, s.mService = true → Geolocation.WindowOwnerStillExists env s = true →
        r ∈ s.mPendingCallbacks →
        s.ErrorTerminates (step env s (Action.ProviderNotifyError code)) r code) ∧
      (∀ p : nsGeoPosition K,
        (∀ o, q.mOptions = some o → 0 < o.mMaximumAge →
          DOMTimeStamp (env.PR_Now.tdiv PR_USEC_PER_MSEC - o.mMaximumAge) ≤ p.timestamp) →
        ChangeLocation env.XRE_GetProcessType env.cos s.blur s.mManifestURL (some p) = none →
        nsGeolocationRequest.SendLocation env s r (some p) =
            { s with callbacks := s.callbacks ++ [CallbackEvent.error r POSITION_UNAVAILABLE] } ∧
          ¬ s.ErrorTerminates (nsGeolocationRequest.SendLocation env s r (some p)) r
            POSITION_UNAVAILABLE ∧
          (q.mTimeoutTimer.isSome = true → ∀ env' : Env K,
            (step env' (nsGeolocationRequest.SendLocation env s r (some p))
              (Action.TimeoutTimerFires r)).callbacksOf r =
              s.callbacksOf r ++ [CallbackEvent.error r POSITION_UNAVAILABLE,
                CallbackEvent.error r TIMEOUT])) := by
  have hs := hreach.reach_sound
  refine ⟨?_, ?_, ?_⟩
  · intro harmed
    rw [step_timeout env s r q hcrash hq harmed]
    exact Notify_terminates env s r q (hs r) hq hone harmed
  · intro code hsvc hwin hr
    rw [step_provider_error env s code hcrash hsvc]
    exact GeolocationNotifyError_terminates env s code r q hs hwin hq hone hr
  · intro p hage hchange
    have heq := SendLocation_unavailable env s r q p hq hlive hage hchange
    rw [heq]
    refine ⟨rfl, ?_, ?_⟩
    · rintro ⟨⟨q', hq', hsh, _⟩, _⟩
      have hq2 : s.requests[r]? = some q' := hq'
      rw [hq] at hq2
      cases hq2
      rw [hlive] at hsh
      cases hsh
    · intro harmed env'
      have ht : ({ s with callbacks := s.callbacks ++
          [CallbackEvent.error r POSITION_UNAVAILABLE] } : Sys K) =
          nsGeolocationRequest.NotifyError s r POSITION_UNAVAILABLE := rfl
      rw [ht, step_timeout env' (nsGeolocationRequest.NotifyError s r POSITION_UNAVAILABLE) r q
        hcrash hq harmed]
      unfold nsGeolocationRequest.Notify
      have hq0 : (nsGeolocationRequest.NotifyError s r POSITION_UNAVAILABLE).requests[r]? =
          some q := hq
      have hview := StopTimeoutTimer_view_self
        (nsGeolocationRequest.NotifyError s r POSITION_UNAVAILABLE) hq0
      have hq1 : (nsGeolocationRequest.StopTimeoutTimer
          (nsGeolocationRequest.NotifyError s r POSITION_UNAVAILABLE) r).requests[r]? =
          some { q with mTimeoutTimer := none } := congrArg View.req hview
      have h1 := congrArg View.callbacks
        (NotifyErrorAndShutdown_view_oneShot env' _ r _ TIMEOUT hq1 hone)
      have h2 := congrArg View.callbacks hview
      have h3 := congrArg View.callbacks (NotifyError_view s r r POSITION_UNAVAILABLE)
      simp only [Sys.view, if_true] at h1 h2 h3
      rw [h1, h2, h3]
      simp

end OneShotErrors

theorem blockedPending_reachable : (run exampleInit blockedPending).Reachable :=
  ⟨allowlistedStatics, "app://a".toList, true, true, true, false, blockedPending, rfl⟩

/-- C22 (the failing run): a one-shot request whose delivery is refused by the
policy gets `POSITION_UNAVAILABLE`, stays live with its timer armed, and gets
`TIMEOUT` when the timer fires. -/
theorem oneShot_error_counterexample :
    (run exampleInit unavailableDelivery).callbacks =
        [CallbackEvent.error 0 POSITION_UNAVAILABLE] ∧
      (run exampleInit unavailableDelivery).requests[0]? = some armedOneShot ∧
      armedOneShot.mIsWatchPositionRequest = false ∧ armedOneShot.mShutdown = false ∧
      (run exampleInit unavailableThenTimeout).callbacks =
        [CallbackEvent.error 0 POSITION_UNAVAILABLE, CallbackEvent.error 0 TIMEOUT] := by
  decide

theorem oneShot_error_terminates_witness :
    (run exampleInit blockedPending).Reachable ∧
      (run exampleInit blockedPending).crashed = false ∧
      (run exampleInit blockedPending).requests[0]? = some armedOneShot ∧
      (run exampleInit blockedPending).mPendingCallbacks = [0] ∧
      ChangeLocation exampleEnv.XRE_GetProcessType exampleEnv.cos
        (run exampleInit blockedPending).blur (run exampleInit blockedPending).mManifestURL
        (some examplePosition) = none ∧
      (run exampleInit blockedPending).ErrorTerminates
        (step exampleEnv (run exampleInit blockedPending) (Action.TimeoutTimerFires 0)) 0
        TIMEOUT ∧
      (run exampleInit blockedPending).ErrorTerminates
        (step exampleEnv (run exampleInit blockedPending)
          (Action.ProviderNotifyError POSITION_UNAVAILABLE)) 0 POSITION_UNAVAILABLE ∧
      ¬ (run exampleInit blockedPending).ErrorTerminates
        (nsGeolocationRequest.SendLocation exampleEnv (run exampleInit blockedPending) 0
          (some examplePosition)) 0 POSITION_UNAVAILABLE :=
  have h := oneShot_error_terminates exampleEnv (run exampleInit blockedPending) 0 armedOneShot
    blockedPending_reachable (by decide) (by decide) rfl rfl
  have hchange : ChangeLocation exampleEnv.XRE_GetProcessType exampleEnv.cos
      (run exampleInit blockedPending).blur (run exampleInit blockedPending).mManifestURL
      (some examplePosition) = none := by decide
  ⟨blockedPending_reachable, by decide, by decide, by decide, hchange,
    h.1 rfl, h.2.1 POSITION_UNAVAILABLE (by decide) (by decide) (by decide),
    (h.2.2 examplePosition (fun o ho hpos => by cases ho; exact absurd hpos (by decide))
      hchange).2.1⟩

/-! ## Requests while the service is disabled -/

section DisabledService
variable {K : Type} [LinearOrderedField K] [FloorRing K]

theorem runnablesOf_nil_of_counts {s : Sys K} {r : Nat}
    (hd : s.queue.countP (Runnable.isDecisionFor r) = 0)
    (hsend : s.queue.countP (Runnable.isSendFor r) = 0) : s.runnablesOf r = [] := by
  unfold Sys.runnablesOf
  rw [List.filter_eq_nil_iff]
  intro ev hev hreq
  have h1 := List.countP_eq_zero.mp hd ev hev
  have h2 := List.countP_eq_zero.mp hsend ev hev
  cases ev <;> simp_all [Runnable.isDecisionFor, Runnable.isSendFor, Runnable.request]

/-- Nothing in a sound state mentions the index of the request that is
created next. -/
theorem Sys.Sound.fresh {s : Sys K} (hs : s.Sound) :
    s.requests.length ∉ s.mPendingCallbacks ∧ s.requests.length ∉ s.mWatchingCallbacks ∧
      s.requests.length ∉ s.mPendingRequests ∧ s.requests.length ∉ s.prompting ∧
      s.runnablesOf s.requests.length = [] ∧ s.callbacksOf s.requests.length = [] := by
  obtain ⟨hd, hsend, hp, hw, hcb⟩ :=
    (View.Inv_none (view_req_length s)).mp (hs s.requests.length).1
  have hd' : s.mPendingRequests.count s.requests.length + s.prompting.count s.requests.length +
      s.queue.countP (Runnable.isDecisionFor s.requests.length) = 0 := hd
  exact ⟨Sys.not_mem_of_count hp, Sys.not_mem_of_count hw, Sys.not_mem_of_count (by omega),
    Sys.not_mem_of_count (by omega), runnablesOf_nil_of_counts (by omega) hsend, hcb⟩

/-- A request is created and its denial dispatched. -/
theorem create_denied (s : Sys K) (hs : s.Sound) (a : nsGeolocationRequest) (w : Int)
    (ha : a.mTimeoutTimer = none) :
    (NS_DispatchToMainThread ({ s with mLastWatchId := w, requests := s.requests ++ [a] } : Sys K)
      (Runnable.RequestAllowEvent false s.requests.length)).Denied s.requests.length := by
  obtain ⟨hp, hw, hd, hpr, hrun, hcb⟩ := hs.fresh
  refine ⟨⟨⟨a, ?_, ha⟩, hp, hw, hd, hpr⟩, ?_, hcb⟩
  · show (s.requests ++ [a])[s.requests.length]? = some a
    simp
  · show (s.queue ++ [Runnable.RequestAllowEvent false s.requests.length]).filter
      (fun ev : Runnable K => ev.request == s.requests.length) = _
    have : s.queue.filter (fun ev : Runnable K => ev.request == s.requests.length) = [] := hrun
    rw [List.filter_append, this]
    simp [Runnable.request]

theorem GetCurrentPosition_denied (env : Env K) (s : Sys K) (options : Option PositionOptions)
    (hs : s.Sound) (hen : s.sGeoEnabled = false)
    (hlen : s.mPendingCallbacks.length ≤ MAX_GEO_REQUESTS_PER_WINDOW) :
    (Geolocation.GetCurrentPosition env s options).1.Denied s.requests.length := by
  unfold Geolocation.GetCurrentPosition
  rw [if_neg (by omega)]
  simp only [hen, Bool.not_false, if_true]
  exact create_denied s hs _ s.mLastWatchId rfl

theorem WatchPosition_denied (env : Env K) (s : Sys K) (options : Option PositionOptions)
    (hs : s.Sound) (hen : s.sGeoEnabled = false)
    (hlen : s.mWatchingCallbacks.length ≤ MAX_GEO_REQUESTS_PER_WINDOW) :
    (Geolocation.WatchPosition env s options).1.Denied s.requests.length := by
  unfold Geolocation.WatchPosition
  rw [if_neg (by omega)]
  simp only [hen, Bool.not_false, if_true]
  exact create_denied s hs _ (s.mLastWatchId + 1) rfl

theorem step_GetCurrentPosition (env : Env K) (s : Sys K) (options : Option PositionOptions)
    (hcrash : s.crashed = false) :
    step env s (Action.GetCurrentPosition options) =
      (Geolocation.GetCurrentPosition env s options).1 := by
  unfold step
  simp [hcrash]

theorem step_WatchPosition (env : Env K) (s : Sys K) (options : Option PositionOptions)
    (hcrash : s.crashed = false) :
    step env s (Action.WatchPosition options) =
      (Geolocation.WatchPosition env s options).1 := by
  unfold step
  simp [hcrash]

/-- What every run makes of a denied request. -/
theorem denied_forever (t : Sys K) (r : Nat) (hd : t.Denied r)
    (acts : List (Env K × Action K)) :
    r ∉ (run t acts).mPendingCallbacks ∧ r ∉ (run t acts).mWatchingCallbacks ∧
      r ∉ (run t acts).mPendingRequests ∧ r ∉ (run t acts).prompting ∧
      (((run t acts).runnablesOf r = [Runnable.RequestAllowEvent false r] ∧
          (run t acts).callbacksOf r = []) ∨
        ((run t acts).runnablesOf r = [] ∧
          (run t acts).callbacksOf r = [CallbackEvent.error r PERMISSION_DENIED])) ∧
      ∀ (env : Env K) (rest : List (Runnable K)), (run t acts).crashed = false →
        (run t acts).queue = Runnable.RequestAllowEvent false r :: rest →
        (step env (run t acts) Action.RunNextRunnable).callbacksOf r =
          [CallbackEvent.error r PERMISSION_DENIED] := by
  rcases run_denied r acts t hd with h | ⟨h1, h2, h3⟩
  · refine ⟨h.1.2.1, h.1.2.2.1, h.1.2.2.2.1, h.1.2.2.2.2, Or.inl ⟨h.2.1, h.2.2⟩, ?_⟩
    intro env rest hc hqu
    exact (step_runs_denial env _ r rest h hc hqu).2.2
  · refine ⟨h1.2.1, h1.2.2.1, h1.2.2.2.1, h1.2.2.2.2, Or.inr ⟨h2, h3⟩, ?_⟩
    intro env rest _ hqu
    have hmem : Runnable.RequestAllowEvent false r ∈ (run t acts).runnablesOf r := by
      simp [Sys.runnablesOf, hqu, Runnable.request]
    rw [h2] at hmem
    cases hmem

/-! ### Requests in flight when the service is disabled -/

theorem pending_loop_queue (p : Option (nsGeoPosition K)) (ev : Runnable K) (n : Nat)
    (s : Sys K) (h : ev ∈ s.queue) :
    ev ∈ (forDown (fun s => s.mPendingCallbacks)
      (fun s x => Geolocation.RemoveRequest (nsGeolocationRequest.Update s x p) x) n s).queue :=
  forDown_induct (fun s => s.mPendingCallbacks)
    (fun s x => Geolocation.RemoveRequest (nsGeolocationRequest.Update s x p) x)
    (fun t => ev ∈ t.queue) (fun _ ht => ht)
    (fun t x ht _ => by
      show ev ∈ t.queue ++ [Runnable.RequestSendLocationEvent p x]
      exact List.mem_append_left _ ht) n s h

theorem pending_loop_fields (p : Option (nsGeoPosition K)) (n : Nat) (s : Sys K) :
    (forDown (fun s => s.mPendingCallbacks)
      (fun s x => Geolocation.RemoveRequest (nsGeolocationRequest.Update s x p) x)
      n s).requests = s.requests ∧
    (forDown (fun s => s.mPendingCallbacks)
      (fun s x => Geolocation.RemoveRequest (nsGeolocationRequest.Update s x p) x)
      n s).callbacks = s.callbacks ∧
    (forDown (fun s => s.mPendingCallbacks)
      (fun s x => Geolocation.RemoveRequest (nsGeolocationRequest.Update s x p) x)
      n s).sGeoInitPending = s.sGeoInitPending :=
  forDown_induct (fun s => s.mPendingCallbacks)
    (fun s x => Geolocation.RemoveRequest (nsGeolocationRequest.Update s x p) x)
    (fun t => t.requests = s.requests ∧ t.callbacks = s.callbacks ∧
      t.sGeoInitPending = s.sGeoInitPending) (fun _ ht => ht)
    (fun _ _ ht _ => ht) n s ⟨rfl, rfl, rfl⟩

/-- The pending loop of `Geolocation::Update` dispatches a delivery to every
entry among the first `n` of a duplicate-free pending array. -/
theorem pending_loop_sends (p : Option (nsGeoPosition K)) (r : Nat) :
    ∀ (n : Nat) (s : Sys K), s.mPendingCallbacks.Nodup → n ≤ s.mPendingCallbacks.length →
      r ∈ s.mPendingCallbacks.take n →
      Runnable.RequestSendLocationEvent p r ∈
        (forDown (fun s => s.mPendingCallbacks)
          (fun s x => Geolocation.RemoveRequest (nsGeolocationRequest.Update s x p) x)
          n s).queue := by
  intro n
  induction n with
  | zero => intro s _ _ hr; simp at hr
  | succ n ih =>
    intro s hnd hlen hr
    have hx : s.mPendingCallbacks[n]? = some (s.mPendingCallbacks[n]) :=
      List.getElem?_eq_getElem (by omega)
    generalize s.mPendingCallbacks[n] = x at hx
    have hmemx : x ∈ s.mPendingCallbacks := List.getElem?_mem hx
    have hunf : forDown (fun s => s.mPendingCallbacks)
        (fun s x => Geolocation.RemoveRequest (nsGeolocationRequest.Update s x p) x) (n + 1) s =
        forDown (fun s => s.mPendingCallbacks)
          (fun s x => Geolocation.RemoveRequest (nsGeolocationRequest.Update s x p) x) n
          (Geolocation.RemoveRequest (nsGeolocationRequest.Update s x p) x) := by
      rw [forDown]
      simp only [hx]
    rw [hunf]
    have hp : (Geolocation.RemoveRequest (nsGeolocationRequest.Update s x p) x).mPendingCallbacks =
        s.mPendingCallbacks.erase x := rfl
    by_cases hxr : x = r
    · subst hxr
      refine pending_loop_queue p _ n _ ?_
      show Runnable.RequestSendLocationEvent p x ∈
        s.queue ++ [Runnable.RequestSendLocationEvent p x]
      simp
    · refine ih _ (by rw [hp]; exact hnd.erase x) ?_ ?_
      · rw [hp, List.length_erase_of_mem hmemx]; omega
      · rw [hp, List.take_erase_of_nodup _ n x hnd hx]
        exact List.mem_take_of_succ hr hx (Ne.symm hxr)

/-- The call `Geolocation::Update` of a session whose consumer is still valid
dispatches a delivery to every request of its arrays, and invokes no
callback. -/
theorem GeolocationUpdate_sends (env : Env K) (s : Sys K) (p : Option (nsGeoPosition K))
    (r : Nat) (hwin : Geolocation.WindowOwnerStillExists env s = true)
    (hnd : s.mPendingCallbacks.Nodup)
    (hr : r ∈ s.mPendingCallbacks ∨ r ∈ s.mWatchingCallbacks) :
    Runnable.RequestSendLocationEvent p r ∈ (Geolocation.Update env s p).queue ∧
      (Geolocation.Update env s p).requests = s.requests ∧
      (Geolocation.Update env s p).callbacks = s.callbacks ∧
      (Geolocation.Update env s p).sGeoInitPending = s.sGeoInitPending := by
  have hf := pending_loop_fields p s.mPendingCallbacks.length s
  unfold Geolocation.Update
  simp only [hwin, Bool.not_true, Bool.false_eq_true, if_false]
  rw [forUp_dispatch]
  refine ⟨?_, hf.1, hf.2.1, hf.2.2⟩
  by_cases hp : r ∈ s.mPendingCallbacks
  · exact List.mem_append_left _ (pending_loop_sends p r s.mPendingCallbacks.length s hnd
      le_rfl (by rw [List.take_length]; exact hp))
  · have h1 := (GeolocationUpdate_pending_loop s r p s.mPendingCallbacks.length
      (hr.resolve_left hp) hp).1
    simp only [List.drop_zero, List.take_length]
    exact List.mem_append_right _ (List.mem_map.mpr ⟨r, h1, rfl⟩)

/-- Disabling an initialised service: the device is stopped, an absent
position is fanned out, the cache is cleared and the flag is cleared. -/
theorem HandleMozsettingValue_disable (env : Env K) (s : Sys K)
    (hinit : s.sGeoInitPending = false) (hsvc : s.mService = true)
    (hwin : Geolocation.WindowOwnerStillExists env s = true) :
    nsGeolocationService.HandleMozsettingValue env s false =
      { Geolocation.Update env
          (nsGeolocationService.SetCachedPosition (nsGeolocationService.StopDevice env s) none)
          none with
        mLastPosition :=
          { (Geolocation.Update env
              (nsGeolocationService.SetCachedPosition (nsGeolocationService.StopDevice env s)
                none) none).mLastPosition with position := none }
        sGeoEnabled := false } := by
  have hst := StopDevice_frame s env
  have hsc := SetCachedPosition_frame (nsGeolocationService.StopDevice env s) none
  have hwin' : Geolocation.WindowOwnerStillExists env
      (nsGeolocationService.SetCachedPosition (nsGeolocationService.StopDevice env s) none) =
      true := by
    unfold Geolocation.WindowOwnerStillExists at hwin ⊢
    rw [hsc.2.2.2.2.2.2.1, hst.2.2.2.2.2.2.1]
    exact hwin
  have hsvc' : (nsGeolocationService.SetCachedPosition (nsGeolocationService.StopDevice env s)
      none).mService = true := by
    rw [hsc.2.2.2.2.2.2.2.1, hst.2.2.2.2.2.2.2.1]
    exact hsvc
  have hip : (Geolocation.Update env
      (nsGeolocationService.SetCachedPosition (nsGeolocationService.StopDevice env s) none)
      none).sGeoInitPending = false := by
    have := (GeolocationUpdate_statics env
      (nsGeolocationService.SetCachedPosition (nsGeolocationService.StopDevice env s) none)
      none).2.2.2.1
    rw [this, hsc.2.2.2.2.2.2.2.2.2.2.2.1, hst.2.2.2.2.2.2.2.2.2.2.1]
    exact hinit
  unfold nsGeolocationService.HandleMozsettingValue nsGeolocationService.Update
  simp only [Bool.not_false, if_true, hsvc', hip, Bool.false_eq_true, if_false]

end DisabledService

section DisabledRequests
variable {K : Type} [LinearOrderedField K] [FloorRing K]

theorem step_MozsettingEnabled (env : Env K) (s : Sys K) (aValue : Bool)
    (hcrash : s.crashed = false) :
    step env s (Action.MozsettingEnabled aValue) =
      nsGeolocationService.HandleMozsettingValue env s aValue := by
  unfold step
  simp [hcrash]

/-- C21 (as the code has it): in a reachable state.  While the service is
disabled, a request made with `GetCurrentPosition` or `WatchPosition` (below
the limit of the session) is denied: only its denial is dispatched, and in
every run that follows it is never in an array of the session, never
deferred and never with the prompt, it has had no callback while the denial
is still dispatched, and once the denial has run its one and only callback is
the error `PERMISSION_DENIED`.  But a request that is in the pending or
watching array at the moment the service is disabled is not denied:
`HandleMozsettingValue(false)` of an initialised service, for a session
whose consumer is still valid, clears the flag, invokes no callback, leaves
the request not shut down and dispatches to it the delivery of an absent
position, which for a request without `maximumAge` invokes the error callback
with `POSITION_UNAVAILABLE`. -/
theorem disabled_requests (env : Env K) (s : Sys K) (hreach : s.Reachable)
    (hcrash : s.crashed = false) :
    (s.sGeoEnabled = false → ∀ a : Action K,
      ((∃ o, a = Action.GetCurrentPosition o) ∧
          s.mPendingCallbacks.length ≤ MAX_GEO_REQUESTS_PER_WINDOW ∨
        (∃ o, a = Action.WatchPosition o) ∧
          s.mWatchingCallbacks.length ≤ MAX_GEO_REQUESTS_PER_WINDOW) →
      (step env s a).Denied s.requests.length ∧
        ∀ acts : List (Env K × Action K),
          s.requests.length ∉ (run (step env s a) acts).mPendingCallbacks ∧
          s.requests.length ∉ (run (step env s a) acts).mWatchingCallbacks ∧
          s.requests.length ∉ (run (step env s a) acts).mPendingRequests ∧
          s.requests.length ∉ (run (step env s a) acts).prompting ∧
          (((run (step env s a) acts).runnablesOf s.requests.length =
                [Runnable.RequestAllowEvent false s.requests.length] ∧
              (run (step env s a) acts).callbacksOf s.requests.length = []) ∨
            ((run (step env s a) acts).runnablesOf s.requests.length = [] ∧
              (run (step env s a) acts).callbacksOf s.requests.length =
                [CallbackEvent.error s.requests.length PERMISSION_DENIED])) ∧
          ∀ (env' : Env K) (rest : List (Runnable K)),
            (run (step env s a) acts).crashed = false →
            (run (step env s a) acts).queue =
              Runnable.RequestAllowEvent false s.requests.length :: rest →
            (step env' (run (step env s a) acts) Action.RunNextRunnable).callbacksOf
                s.requests.length =
              [CallbackEvent.error s.requests.length PERMISSION_DENIED]) ∧
      (s.sGeoInitPending = false → s.mService = true →
        Geolocation.WindowOwnerStillExists env s = true →
        (step env s (Action.MozsettingEnabled false)).sGeoEnabled = false ∧
          (step env s (Action.MozsettingEnabled false)).callbacks = s.callbacks ∧
          ∀ r, r ∈ s.mPendingCallbacks ∨ r ∈ s.mWatchingCallbacks →
            Runnable.RequestSendLocationEvent none r ∈
                (step env s (Action.MozsettingEnabled false)).queue ∧
              ∃ q, (step env s (Action.MozsettingEnabled false)).requests[r]? = some q ∧
                q.mShutdown = false ∧
                ((q.mOptions = none ∨ ∃ o, q.mOptions = some o ∧ o.mMaximumAge = 0) →
                  ∀ env' : Env K,
                    nsGeolocationRequest.SendLocation env'
                        (step env s (Action.MozsettingEnabled false)) r none =
                      { step env s (Action.MozsettingEnabled false) with
                        callbacks := (step env s (Action.MozsettingEnabled false)).callbacks ++
                          [CallbackEvent.error r POSITION_UNAVAILABLE] })) := by
  have hs := hreach.reach_sound
  constructor
  · intro hen a ha
    have hden : (step env s a).Denied s.requests.length := by
      rcases ha with ⟨⟨o, rfl⟩, hlen⟩ | ⟨⟨o, rfl⟩, hlen⟩
      · rw [step_GetCurrentPosition env s o hcrash]
        exact GetCurrentPosition_denied env s o hs hen hlen
      · rw [step_WatchPosition env s o hcrash]
        exact WatchPosition_denied env s o hs hen hlen
    exact ⟨hden, fun acts => denied_forever _ _ hden acts⟩
  · intro hinit hsvc hwin
    rw [step_MozsettingEnabled env s false hcrash,
      HandleMozsettingValue_disable env s hinit hsvc hwin]
    have hst := StopDevice_frame s env
    have hsc := SetCachedPosition_frame (nsGeolocationService.StopDevice env s) none
    have hwin' : Geolocation.WindowOwnerStillExists env
        (nsGeolocationService.SetCachedPosition (nsGeolocationService.StopDevice env s) none) =
        true := by
      unfold Geolocation.WindowOwnerStillExists at hwin ⊢
      rw [hsc.2.2.2.2.2.2.1, hst.2.2.2.2.2.2.1]
      exact hwin
    have hpc : (nsGeolocationService.SetCachedPosition (nsGeolocationService.StopDevice env s)
        none).mPendingCallbacks = s.mPendingCallbacks := by rw [hsc.2.1, hst.2.1]
    have hwc : (nsGeolocationService.SetCachedPosition (nsGeolocationService.StopDevice env s)
        none).mWatchingCallbacks = s.mWatchingCallbacks := by rw [hsc.2.2.1, hst.2.2.1]
    have hrq : (nsGeolocationService.SetCachedPosition (nsGeolocationService.StopDevice env s)
        none).requests = s.requests := by rw [hsc.1, hst.1]
    have hcb : (nsGeolocationService.SetCachedPosition (nsGeolocationService.StopDevice env s)
        none).callbacks = s.callbacks := by
      rw [hsc.2.2.2.2.2.2.2.2.2.2.2.2.2.2.2.1, hst.2.2.2.2.2.2.2.2.2.2.2.2.2.2.1]
    have hupd := fun r hr => GeolocationUpdate_sends env
      (nsGeolocationService.SetCachedPosition (nsGeolocationService.StopDevice env s) none)
      none r hwin' (by rw [hpc]; exact hs.pending_nodup) hr
    refine ⟨rfl, ?_, ?_⟩
    · show (Geolocation.Update env _ none).callbacks = s.callbacks
      have hfields := pending_loop_fields (K := K) none
      have h2 : (Geolocation.Update env
          (nsGeolocationService.SetCachedPosition (nsGeolocationService.StopDevice env s) none)
          none).callbacks = (nsGeolocationService.SetCachedPosition
            (nsGeolocationService.StopDevice env s) none).callbacks := by
        unfold Geolocation.Update
        simp only [hwin', Bool.not_true, Bool.false_eq_true, if_false]
        rw [forUp_dispatch]
        exact (hfields _ _).2.1
      rw [h2, hcb]
    · intro r hr
      obtain ⟨h1, h2, _, _⟩ := hupd r (by rw [hpc, hwc]; exact hr)
      obtain ⟨q, hq, hlive⟩ : s.NotShutdown r := by
        rcases hr with hr | hr
        · exact hs.notShutdown_of_pending r hr
        · exact hs.notShutdown_of_watching r hr
      have hq' : (Geolocation.Update env
          (nsGeolocationService.SetCachedPosition (nsGeolocationService.StopDevice env s) none)
          none).requests[r]? = some q := by rw [h2, hrq]; exact hq
      refine ⟨h1, q, hq', hlive, ?_⟩
      rintro (ho | ⟨o, ho, hage⟩) env'
      · unfold nsGeolocationRequest.SendLocation
        simp [hq', hlive, ho, nsGeolocationRequest.NotifyError]
      · unfold nsGeolocationRequest.SendLocation
        simp [hq', hlive, ho, hage, nsGeolocationRequest.NotifyError]

end DisabledRequests

theorem disabledOnly_reachable : (run exampleInit disabledOnly).Reachable :=
  ⟨allowlistedStatics, "app://a".toList, true, true, true, false, disabledOnly, rfl⟩

/-- C21 (counterexample): a one-shot request that is pending when the service
is disabled gets `POSITION_UNAVAILABLE`, not `PERMISSION_DENIED`. -/
theorem disabled_requests_counterexample :
    (run exampleInit armedPending).mPendingCallbacks = [0] ∧
      (run exampleInit armedPending).callbacks = [] ∧
      (run exampleInit disabledInFlight).callbacks =
        [CallbackEvent.error 0 POSITION_UNAVAILABLE] ∧
      POSITION_UNAVAILABLE ≠ PERMISSION_DENIED := by
  decide

theorem disabled_requests_witness :
    (run exampleInit disabledOnly).Reachable ∧
      (run exampleInit disabledOnly).crashed = false ∧
      (run exampleInit disabledOnly).sGeoEnabled = false ∧
      (run exampleInit disabledOnly).requests.length = 0 ∧
      (step exampleEnv (run exampleInit disabledOnly) (Action.GetCurrentPosition none)).Denied 0 ∧
      (run exampleInit disabledThenNew).callbacks =
        [CallbackEvent.error 0 PERMISSION_DENIED] ∧
      (run exampleInit armedPending).Reachable ∧
      (run exampleInit armedPending).crashed = false ∧
      (run exampleInit armedPending).mPendingCallbacks = [0] ∧
      Runnable.RequestSendLocationEvent none 0 ∈
        (step exampleEnv (run exampleInit armedPending) (Action.MozsettingEnabled false)).queue :=
  ⟨disabledOnly_reachable, by decide, by decide, by decide,
    ((disabled_requests exampleEnv (run exampleInit disabledOnly) disabledOnly_reachable
      (by decide)).1 (by decide) (Action.GetCurrentPosition none)
      (Or.inl ⟨⟨none, rfl⟩, by decide⟩)).1,
    by decide, armedPending_reachable, by decide, by decide,
    (((disabled_requests exampleEnv (run exampleInit armedPending) armedPending_reachable
      (by decide)).2 (by decide) (by decide) (by decide)).2.2 0 (Or.inl (by decide))).1⟩

/-! ## Binary64 rounding -/

theorem Binary64.roundEven_intCast (n : Int) : Binary64.roundEven (n : ℚ) = n := by
  simp [Binary64.roundEven]

theorem Binary64.roundEven_sub_le (m : ℚ) : |(Binary64.roundEven m : ℚ) - m| ≤ 1 / 2 := by
  have h1 : ((⌊m⌋ : Int) : ℚ) ≤ m := Int.floor_le m
  have h2 : m < ((⌊m⌋ : Int) : ℚ) + 1 := Int.lt_floor_add_one m
  unfold Binary64.roundEven
  split
  · rw [abs_le]; constructor <;> linarith
  · split
    · push_cast; rw [abs_le]; constructor <;> linarith
    · split
      · rw [abs_le]; constructor <;> linarith
      · push_cast; rw [abs_le]; constructor <;> linarith

theorem Binary64.roundEven_mono {m n : ℚ} (h : m ≤ n) :
    Binary64.roundEven m ≤ Binary64.roundEven n := by
  rcases eq_or_lt_of_le h with h | h
  · rw [h]
  · have h1 := abs_le.mp (Binary64.roundEven_sub_le m)
    have h2 := abs_le.mp (Binary64.roundEven_sub_le n)
    have h3 : (Binary64.roundEven m : ℚ) - Binary64.roundEven n < 1 := by linarith
    have h4 : Binary64.roundEven m - Binary64.roundEven n < 1 := by exact_mod_cast h3
    omega

theorem Binary64.roundEven_neg (m : ℚ) : Binary64.roundEven (-m) = -Binary64.roundEven m := by
  by_cases hint : ((⌊m⌋ : Int) : ℚ) = m
  · rw [← hint, ← Int.cast_neg, Binary64.roundEven_intCast, Binary64.roundEven_intCast]
  · have h1 : ((⌊m⌋ : Int) : ℚ) < m := lt_of_le_of_ne (Int.floor_le m) hint
    have h2 : m < ((⌊m⌋ : Int) : ℚ) + 1 := Int.lt_floor_add_one m
    have hfl : ⌊-m⌋ = -⌊m⌋ - 1 := by
      rw [Int.floor_eq_iff]
      push_cast
      constructor <;> linarith
    unfold Binary64.roundEven
    rw [hfl]
    push_cast
    by_cases c1 : m - ((⌊m⌋ : Int) : ℚ) < 1 / 2
    · have c2 : ¬ (-m - (-((⌊m⌋ : Int) : ℚ) - 1) < 1 / 2) := by linarith
      have c3 : 1 / 2 < -m - (-((⌊m⌋ : Int) : ℚ) - 1) := by linarith
      simp only [c1, c2, c3, if_true, if_false]
      omega
    · by_cases c2 : 1 / 2 < m - ((⌊m⌋ : Int) : ℚ)
      · have c3 : -m - (-((⌊m⌋ : Int) : ℚ) - 1) < 1 / 2 := by linarith
        simp only [c1, c2, c3, if_true, if_false]
        omega
      · have c3 : ¬ (-m - (-((⌊m⌋ : Int) : ℚ) - 1) < 1 / 2) := by linarith
        have c4 : ¬ (1 / 2 < -m - (-((⌊m⌋ : Int) : ℚ) - 1)) := by linarith
        simp only [c1, c2, c3, c4, if_false]
        by_cases hpar : ⌊m⌋ % 2 = 0
        · have hpar2 : ¬ ((-⌊m⌋ - 1) % 2 = 0) := by omega
          simp only [hpar, hpar2, if_true, if_false]
          omega
        · have hpar2 : (-⌊m⌋ - 1) % 2 = 0 := by omega
          simp only [hpar, hpar2, if_true, if_false]
          omega

theorem Binary64.ulp_pos (x : ℚ) : 0 < Binary64.ulp x := by
  unfold Binary64.ulp
  positivity

theorem Binary64.ulp_neg (x : ℚ) : Binary64.ulp (-x) = Binary64.ulp x := by
  unfold Binary64.ulp
  rw [abs_neg]

theorem Binary64.rnd_neg (x : ℚ) : Binary64.rnd (-x) = -Binary64.rnd x := by
  unfold Binary64.rnd
  rw [Binary64.ulp_neg, neg_div, Binary64.roundEven_neg]
  push_cast
  ring

theorem Binary64.rnd_zero : Binary64.rnd 0 = 0 := by
  unfold Binary64.rnd
  rw [zero_div]
  have := Binary64.roundEven_intCast 0
  simp only [Int.cast_zero] at this
  rw [this]
  simp

theorem Binary64.rnd_nonneg {x : ℚ} (h : 0 ≤ x) : 0 ≤ Binary64.rnd x := by
  unfold Binary64.rnd
  have hu := Binary64.ulp_pos x
  have h0 : Binary64.roundEven 0 ≤ Binary64.roundEven (x / Binary64.ulp x) :=
    Binary64.roundEven_mono (div_nonneg h hu.le)
  have := Binary64.roundEven_intCast 0
  simp only [Int.cast_zero] at this
  rw [this] at h0
  have h1 : (0 : ℚ) ≤ (Binary64.roundEven (x / Binary64.ulp x) : ℚ) := by exact_mod_cast h0
  positivity

theorem Binary64.two_cast : ((2 : Nat) : ℚ) = 2 := by norm_num

/-- The exponent of the spacing at `x`. -/
theorem Binary64.ulp_eq (x : ℚ) :
    Binary64.ulp x = (2 : ℚ) ^ max (Int.log 2 |x| - 52) (-1074) := rfl

theorem Binary64.lt_ulp_top (x : ℚ) : |x| < (2 : ℚ) ^ (max (Int.log 2 |x| - 52) (-1074) + 53) := by
  have h1 : |x| < ((2 : Nat) : ℚ) ^ (Int.log 2 |x| + 1) :=
    Int.lt_zpow_succ_log_self (by norm_num) |x|
  rw [Binary64.two_cast] at h1
  refine lt_of_lt_of_le h1 ?_
  apply zpow_le_zpow_right₀ (by norm_num)
  have := le_max_left (Int.log 2 |x| - 52) (-1074)
  omega

theorem Binary64.rnd_abs_le_top (x : ℚ) :
    |Binary64.rnd x| ≤ (2 : ℚ) ^ (max (Int.log 2 |x| - 52) (-1074) + 53) := by
  have hu := Binary64.ulp_pos x
  have h1 := Binary64.lt_ulp_top x
  have h2 := abs_le.mp (Binary64.roundEven_sub_le (x / Binary64.ulp x))
  have hx : |x / Binary64.ulp x| < (2 : ℚ) ^ (53 : Int) := by
    rw [abs_div, abs_of_pos hu, div_lt_iff₀ hu, Binary64.ulp_eq, ← zpow_add₀ (by norm_num)]
    rw [add_comm]
    exact h1
  have hx' := abs_lt.mp hx
  have h53 : ((2 : ℚ) ^ (53 : Int)) = (((2 : Int) ^ (53 : Nat) : Int) : ℚ) := by norm_num
  have hle : (Binary64.roundEven (x / Binary64.ulp x) : ℚ) ≤ (2 : ℚ) ^ (53 : Int) := by
    have : (Binary64.roundEven (x / Binary64.ulp x) : ℚ) < (2 : ℚ) ^ (53 : Int) + 1 := by linarith
    rw [h53] at this ⊢
    have h' : Binary64.roundEven (x / Binary64.ulp x) < (2 : Int) ^ (53 : Nat) + 1 := by
      exact_mod_cast this
    exact_mod_cast Int.lt_add_one_iff.mp h'
  have hge : -(2 : ℚ) ^ (53 : Int) ≤ (Binary64.roundEven (x / Binary64.ulp x) : ℚ) := by
    have : -(2 : ℚ) ^ (53 : Int) - 1 < (Binary64.roundEven (x / Binary64.ulp x) : ℚ) := by linarith
    rw [h53] at this ⊢
    have h' : -(2 : Int) ^ (53 : Nat) - 1 < Binary64.roundEven (x / Binary64.ulp x) := by
      exact_mod_cast this
    have h'' : -(2 : Int) ^ (53 : Nat) ≤ Binary64.roundEven (x / Binary64.ulp x) := by omega
    exact_mod_cast h''
  unfold Binary64.rnd
  rw [abs_mul, abs_of_pos hu, zpow_add₀ (by norm_num), mul_comm ((2 : ℚ) ^ _) _, ← Binary64.ulp_eq]
  exact mul_le_mul_of_nonneg_right (abs_le.mpr ⟨hge, hle⟩) hu.le

/-- A value in the normal range rounds to at least the bottom of its binade. -/
theorem Binary64.bottom_le_rnd {x : ℚ} (hx : 0 < x) (hn : -1074 ≤ Int.log 2 |x| - 52) :
    (2 : ℚ) ^ (Int.log 2 |x| - 52 + 52) ≤ Binary64.rnd x := by
  have hu := Binary64.ulp_pos x
  have hue : Binary64.ulp x = (2 : ℚ) ^ (Int.log 2 |x| - 52) := by
    rw [Binary64.ulp_eq, max_eq_left hn]
  have h1 : ((2 : Nat) : ℚ) ^ Int.log 2 |x| ≤ |x| :=
    Int.zpow_log_le_self (by norm_num) (abs_pos.mpr hx.ne')
  rw [Binary64.two_cast, abs_of_pos hx] at h1
  have hm : (2 : ℚ) ^ (52 : Int) ≤ x / Binary64.ulp x := by
    rw [le_div_iff₀ hu, hue, ← zpow_add₀ (by norm_num)]
    have : (52 : Int) + (Int.log 2 |x| - 52) = Int.log 2 x := by
      rw [abs_of_pos hx]; ring
    rw [this]
    exact h1
  have h52 : ((2 : ℚ) ^ (52 : Int)) = (((2 : Int) ^ (52 : Nat) : Int) : ℚ) := by norm_num
  have hre : (2 : ℚ) ^ (52 : Int) ≤ (Binary64.roundEven (x / Binary64.ulp x) : ℚ) := by
    have := Binary64.roundEven_mono hm
    rw [h52, Binary64.roundEven_intCast] at this
    rw [h52]
    exact_mod_cast this
  unfold Binary64.rnd
  rw [zpow_add₀ (by norm_num), mul_comm ((2 : ℚ) ^ _) _, ← hue]
  exact mul_le_mul_of_nonneg_right hre hu.le

theorem Binary64.log_mono {x y : ℚ} (hx : 0 < x) (h : x ≤ y) :
    Int.log 2 |x| ≤ Int.log 2 |y| := by
  rw [abs_of_pos hx, abs_of_pos (lt_of_lt_of_le hx h)]
  exact Int.log_mono_right hx h

theorem Binary64.rnd_mono_nonneg {x y : ℚ} (hx : 0 ≤ x) (h : x ≤ y) :
    Binary64.rnd x ≤ Binary64.rnd y := by
  rcases eq_or_lt_of_le hx with h0 | hpos
  · rw [← h0, Binary64.rnd_zero]
    exact Binary64.rnd_nonneg (hx.trans h)
  have hypos : 0 < y := lt_of_lt_of_le hpos h
  have hlog := Binary64.log_mono hpos h
  rcases eq_or_lt_of_le (max_le_max (sub_le_sub_right hlog 52) (le_refl (-1074 : Int)))
    with heq | hlt
  · have hu : Binary64.ulp x = Binary64.ulp y := by rw [Binary64.ulp_eq, Binary64.ulp_eq, heq]
    unfold Binary64.rnd
    rw [hu]
    have hup := Binary64.ulp_pos y
    have := Binary64.roundEven_mono (div_le_div_of_nonneg_right h hup.le)
    have h' : (Binary64.roundEven (x / Binary64.ulp y) : ℚ) ≤
        (Binary64.roundEven (y / Binary64.ulp y) : ℚ) := by exact_mod_cast this
    exact mul_le_mul_of_nonneg_right h' hup.le
  · have h1 := (le_abs_self _).trans (Binary64.rnd_abs_le_top x)
    have hn : -1074 ≤ Int.log 2 |y| - 52 := by
      by_contra hcon
      rw [max_eq_right (by omega : Int.log 2 |y| - 52 ≤ -1074)] at hlt
      have := le_max_right (Int.log 2 |x| - 52) (-1074)
      omega
    have h2 := Binary64.bottom_le_rnd hypos hn
    rw [max_eq_left hn] at hlt
    refine h1.trans (le_trans ?_ h2)
    apply zpow_le_zpow_right₀ (by norm_num)
    omega

theorem Binary64.rnd_mono {x y : ℚ} (h : x ≤ y) : Binary64.rnd x ≤ Binary64.rnd y := by
  rcases le_total 0 x with hx | hx
  · exact Binary64.rnd_mono_nonneg hx h
  · rcases le_total 0 y with hy | hy
    · have h1 : Binary64.rnd x ≤ 0 := by
        have := Binary64.rnd_nonneg (neg_nonneg.mpr hx)
        rw [Binary64.rnd_neg] at this
        linarith
      exact h1.trans (Binary64.rnd_nonneg hy)
    · have := Binary64.rnd_mono_nonneg (neg_nonneg.mpr hy) (neg_le_neg h)
      rw [Binary64.rnd_neg, Binary64.rnd_neg] at this
      linarith

/-- Powers of two from `2^(-1074)` on are binary64 values. -/
theorem Binary64.rnd_two_zpow (k : Int) (hk : -1074 ≤ k) :
    Binary64.rnd ((2 : ℚ) ^ k) = (2 : ℚ) ^ k := by
  have hlog : Int.log 2 |(2 : ℚ) ^ k| = k := by
    rw [abs_of_pos (by positivity)]
    have := Int.log_zpow (R := ℚ) (b := 2) (by norm_num) k
    rw [Binary64.two_cast] at this
    exact this
  have hj : max (k - 52) (-1074) ≤ k := max_le (by omega) hk
  obtain ⟨n, hn⟩ := Int.eq_ofNat_of_zero_le (sub_nonneg.mpr hj)
  have hdiv : (2 : ℚ) ^ k / Binary64.ulp ((2 : ℚ) ^ k) = (((2 : Int) ^ n : Int) : ℚ) := by
    rw [Binary64.ulp_eq, hlog, ← zpow_sub₀ (by norm_num), hn]
    push_cast
    rw [zpow_natCast]
  unfold Binary64.rnd
  rw [hdiv, Binary64.roundEven_intCast, ← hdiv]
  exact div_mul_cancel₀ _ (Binary64.ulp_pos _).ne'

theorem Binary64.rnd_le_two_zpow {x : ℚ} (k : Int) (hk : -1074 ≤ k) (h : x ≤ (2 : ℚ) ^ k) :
    Binary64.rnd x ≤ (2 : ℚ) ^ k := by
  have := Binary64.rnd_mono h
  rwa [Binary64.rnd_two_zpow k hk] at this

theorem Binary64.two_zpow_le_rnd {x : ℚ} (k : Int) (hk : -1074 ≤ k) (h : (2 : ℚ) ^ k ≤ x) :
    (2 : ℚ) ^ k ≤ Binary64.rnd x := by
  have := Binary64.rnd_mono h
  rwa [Binary64.rnd_two_zpow k hk] at this

theorem Binary64.rnd_abs_le_two_zpow {x : ℚ} (k : Int) (hk : -1074 ≤ k)
    (h : |x| ≤ (2 : ℚ) ^ k) : |Binary64.rnd x| ≤ (2 : ℚ) ^ k := by
  have h' := abs_le.mp h
  rw [abs_le]
  constructor
  · have := Binary64.rnd_le_two_zpow k hk (by linarith : -x ≤ (2 : ℚ) ^ k)
    rw [Binary64.rnd_neg] at this
    linarith
  · exact Binary64.rnd_le_two_zpow k hk h'.2

/-- Rounding a value of at least 1 adds at most the fraction `2^(-53)` of it. -/
theorem Binary64.rnd_le_rel {x : ℚ} (hx : 1 ≤ x) :
    Binary64.rnd x ≤ x * (1 + (2 : ℚ) ^ (-53 : Int)) := by
  have hpos : 0 < x := by linarith
  have hu := Binary64.ulp_pos x
  have hlog : 0 ≤ Int.log 2 |x| := by
    rw [abs_of_pos hpos]
    rw [Int.log_of_one_le_right _ hx]
    exact Int.natCast_nonneg _
  have hue : Binary64.ulp x = (2 : ℚ) ^ (Int.log 2 |x| - 52) := by
    rw [Binary64.ulp_eq, max_eq_left (by omega)]
  have h1 : ((2 : Nat) : ℚ) ^ Int.log 2 |x| ≤ |x| :=
    Int.zpow_log_le_self (by norm_num) (abs_pos.mpr hpos.ne')
  rw [Binary64.two_cast, abs_of_pos hpos] at h1
  have h2 := (abs_le.mp (Binary64.roundEven_sub_le (x / Binary64.ulp x))).2
  have h3 : Binary64.rnd x ≤ x + Binary64.ulp x / 2 := by
    unfold Binary64.rnd
    have : (Binary64.roundEven (x / Binary64.ulp x) : ℚ) ≤ x / Binary64.ulp x + 1 / 2 := by
      linarith
    calc (Binary64.roundEven (x / Binary64.ulp x) : ℚ) * Binary64.ulp x
        ≤ (x / Binary64.ulp x + 1 / 2) * Binary64.ulp x :=
          mul_le_mul_of_nonneg_right this hu.le
      _ = x + Binary64.ulp x / 2 := by field_simp; ring
  have h4 : Binary64.ulp x / 2 ≤ x * (2 : ℚ) ^ (-53 : Int) := by
    rw [hue]
    have : (2 : ℚ) ^ (Int.log 2 |x| - 52) / 2 =
        (2 : ℚ) ^ (Int.log 2 x) * (2 : ℚ) ^ (-53 : Int) := by
      rw [abs_of_pos hpos, ← zpow_add₀ (by norm_num), div_eq_mul_inv, ← zpow_neg_one,
        ← zpow_add₀ (by norm_num)]
      congr 1
      ring
    rw [this]
    exact mul_le_mul_of_nonneg_right h1 (by positivity)
  have h5 : x * (1 + (2 : ℚ) ^ (-53 : Int)) = x + x * (2 : ℚ) ^ (-53 : Int) := by ring
  rw [h5]
  exact h3.trans (add_le_add_left h4 x)

/-- Natural numbers below `2^53` are binary64 values. -/
theorem Binary64.rnd_natCast (n : Nat) (hn : n < 2 ^ 53) : Binary64.rnd (n : ℚ) = n := by
  rcases Nat.eq_zero_or_pos n with h0 | hpos
  · rw [h0]; simpa using Binary64.rnd_zero
  have hq : (0 : ℚ) < n := by exact_mod_cast hpos
  have hlt : (n : ℚ) < ((2 : Nat) : ℚ) ^ (53 : Int) := by
    rw [Binary64.two_cast, show (53 : Int) = ((53 : Nat) : Int) from rfl, zpow_natCast]
    exact_mod_cast hn
  have hlog : Int.log 2 |(n : ℚ)| < 53 := by
    rw [abs_of_pos hq]
    exact (Int.lt_zpow_iff_log_lt (by norm_num) hq).mp hlt
  have hj : max (Int.log 2 |(n : ℚ)| - 52) (-1074) ≤ 0 := max_le (by omega) (by norm_num)
  obtain ⟨m, hm⟩ := Int.eq_ofNat_of_zero_le (neg_nonneg.mpr hj)
  have hdiv : (n : ℚ) / Binary64.ulp (n : ℚ) = (((n : Int) * (2 : Int) ^ m : Int) : ℚ) := by
    rw [Binary64.ulp_eq, div_eq_mul_inv, ← zpow_neg, hm]
    push_cast
    rw [zpow_natCast]
  unfold Binary64.rnd
  rw [hdiv, Binary64.roundEven_intCast, ← hdiv]
  exact div_mul_cancel₀ _ (Binary64.ulp_pos _).ne'

theorem Binary64.round_some {x : ℚ} (k : Int) (hk : -1074 ≤ k) (hk2 : k ≤ 1023)
    (h : |x| ≤ (2 : ℚ) ^ k) : Binary64.round x = some (Binary64.rnd x) := by
  unfold Binary64.round
  rw [if_pos]
  refine lt_of_le_of_lt (Binary64.rnd_abs_le_two_zpow k hk h) ?_
  have : (2 : ℚ) ^ (1024 : Nat) = (2 : ℚ) ^ (1024 : Int) := by norm_num
  rw [this]
  exact zpow_lt_zpow_right₀ (by norm_num) (by omega)

/-! ### The constants of `CalcLonByGridAlgorithm` -/

theorem Binary64.c314_bounds :
    3 ≤ Binary64.rnd 3.14 ∧ Binary64.rnd 3.14 ≤ 4 ∧
      Binary64.rnd 3.14 ≤ 3.14 * (1 + (2 : ℚ) ^ (-53 : Int)) := by
  refine ⟨?_, ?_, Binary64.rnd_le_rel (by norm_num)⟩
  · have := Binary64.rnd_mono (show ((3 : Nat) : ℚ) ≤ 3.14 by norm_num)
    rw [Binary64.rnd_natCast 3 (by norm_num)] at this
    exact_mod_cast this
  · have := Binary64.rnd_le_two_zpow (x := 3.14) 2 (by norm_num) (by norm_num)
    norm_num at this ⊢
    exact this

theorem Binary64.c111_bounds : 64 ≤ Binary64.rnd 111.27 ∧ Binary64.rnd 111.27 ≤ 128 := by
  constructor
  · have := Binary64.two_zpow_le_rnd (x := 111.27) 6 (by norm_num) (by norm_num)
    norm_num at this ⊢
    exact this
  · have := Binary64.rnd_le_two_zpow (x := 111.27) 7 (by norm_num) (by norm_num)
    norm_num at this ⊢
    exact this

theorem Binary64.round_c314 : Binary64.round 3.14 = some (Binary64.rnd 3.14) :=
  Binary64.round_some 2 (by norm_num) (by norm_num) (by rw [abs_of_pos] <;> norm_num)

theorem Binary64.round_c111 : Binary64.round 111.27 = some (Binary64.rnd 111.27) :=
  Binary64.round_some 7 (by norm_num) (by norm_num) (by rw [abs_of_pos] <;> norm_num)

/-! ### The chain of operations -/

/-- The value of `fi` for a latitude of magnitude at most 90. -/
theorem Binary64.fi_eq (L : ℚ) (hL : |L| ≤ 90) :
    Binary64.fi (some L) =
        some (Binary64.rnd (Binary64.rnd (L * Binary64.rnd 3.14) / 180)) ∧
      |Binary64.rnd (L * Binary64.rnd 3.14)| ≤ (2 : ℚ) ^ (9 : Int) := by
  obtain ⟨h3, h4, _⟩ := Binary64.c314_bounds
  have hp : |L * Binary64.rnd 3.14| ≤ (2 : ℚ) ^ (9 : Int) := by
    rw [abs_mul, abs_of_pos (by linarith : (0 : ℚ) < Binary64.rnd 3.14)]
    have : |L| * Binary64.rnd 3.14 ≤ 90 * 4 :=
      mul_le_mul hL h4 (by linarith) (by norm_num)
    norm_num at this ⊢
    linarith
  have hP := Binary64.rnd_abs_le_two_zpow 9 (by norm_num) hp
  have hq : |Binary64.rnd (L * Binary64.rnd 3.14) / 180| ≤ (2 : ℚ) ^ (2 : Int) := by
    rw [abs_div, abs_of_pos (by norm_num : (0 : ℚ) < 180), div_le_iff₀ (by norm_num)]
    norm_num at hP ⊢
    linarith
  refine ⟨?_, hP⟩
  unfold Binary64.fi Binary64.mul Binary64.div
  rw [Binary64.round_c314]
  simp only [Double.mul, Option.bind_eq_bind, Option.some_bind]
  rw [Binary64.round_some 9 (by norm_num) (by norm_num) hp]
  simp only [Double.div, show (180 : ℚ) ≠ 0 by norm_num, if_false, Option.some_bind]
  rw [Binary64.round_some 2 (by norm_num) (by norm_num) hq]

theorem Binary64.fi_mono {a b : ℚ} (h : a ≤ b) :
    Binary64.rnd (Binary64.rnd (a * Binary64.rnd 3.14) / 180) ≤
      Binary64.rnd (Binary64.rnd (b * Binary64.rnd 3.14) / 180) := by
  obtain ⟨h3, _, _⟩ := Binary64.c314_bounds
  apply Binary64.rnd_mono
  apply div_le_div_of_nonneg_right _ (by norm_num)
  apply Binary64.rnd_mono
  exact mul_le_mul_of_nonneg_right h (by linarith)

/-- For a latitude in `[0, 90]` the value of `fi` is in `[0, 1.5701]`. -/
theorem Binary64.fi_range (L : ℚ) (h0 : 0 ≤ L) (hL : L ≤ 90) :
    0 ≤ Binary64.rnd (Binary64.rnd (L * Binary64.rnd 3.14) / 180) ∧
      Binary64.rnd (Binary64.rnd (L * Binary64.rnd 3.14) / 180) ≤ 15701 / 10000 := by
  obtain ⟨h3, h4, hrel⟩ := Binary64.c314_bounds
  constructor
  · apply Binary64.rnd_nonneg
    apply div_nonneg _ (by norm_num)
    apply Binary64.rnd_nonneg
    exact mul_nonneg h0 (by linarith)
  · refine (Binary64.fi_mono hL).trans ?_
    have e : (0 : ℚ) < (2 : ℚ) ^ (-53 : Int) := by positivity
    have e' : (2 : ℚ) ^ (-53 : Int) ≤ 1 / 1000000 := by
      rw [zpow_neg, ← one_div]
      apply one_div_le_one_div_of_le (by norm_num)
      norm_num
    have hp1 : (1 : ℚ) ≤ 90 * Binary64.rnd 3.14 := by linarith
    have hP := Binary64.rnd_le_rel hp1
    have hPlow : (256 : ℚ) ≤ Binary64.rnd (90 * Binary64.rnd 3.14) := by
      have h256 : (2 : ℚ) ^ (8 : Int) = 256 := by norm_num
      have := Binary64.two_zpow_le_rnd (x := 90 * Binary64.rnd 3.14) 8 (by norm_num)
        (by rw [h256]; linarith)
      rw [h256] at this
      exact this
    have hq1 : (1 : ℚ) ≤ Binary64.rnd (90 * Binary64.rnd 3.14) / 180 := by
      rw [le_div_iff₀ (by norm_num)]
      linarith
    have hQ := Binary64.rnd_le_rel hq1
    refine hQ.trans ?_
    set ε := (2 : ℚ) ^ (-53 : Int)
    have hP' : Binary64.rnd (90 * Binary64.rnd 3.14) ≤ 90 * (3.14 * (1 + ε)) * (1 + ε) :=
      hP.trans (mul_le_mul_of_nonneg_right (by linarith) (by linarith))
    have h1e : (1 : ℚ) + ε ≤ 1 + 1 / 1000000 := by linarith
    have h1p : (0 : ℚ) ≤ 1 + ε := by linarith
    have hcube : (1 + ε) * (1 + ε) * (1 + ε) ≤
        (1 + 1 / 1000000) * (1 + 1 / 1000000) * (1 + 1 / 1000000) :=
      mul_le_mul (mul_le_mul h1e h1e h1p (by norm_num)) h1e h1p (by norm_num)
    have : Binary64.rnd (90 * Binary64.rnd 3.14) / 180 * (1 + ε) ≤
        (157 / 100) * ((1 + ε) * (1 + ε) * (1 + ε)) := by
      have := mul_le_mul_of_nonneg_right
        (div_le_div_of_nonneg_right hP' (by norm_num : (0 : ℚ) ≤ 180)) h1p
      refine this.trans (le_of_eq ?_)
      ring
    refine this.trans ?_
    have := mul_le_mul_of_nonneg_left hcube (by norm_num : (0 : ℚ) ≤ 157 / 100)
    refine this.trans ?_
    norm_num

theorem Binary64.kmSize_eq (c : ℚ) (hc1 : (2 : ℚ) ^ (-11 : Int) ≤ c) (hc2 : c ≤ 1) :
    Binary64.div (some 3600) (Binary64.mul (some c) (Binary64.round 111.27)) =
        some (Binary64.rnd (3600 / Binary64.rnd (c * Binary64.rnd 111.27))) ∧
      (2 : ℚ) ^ (-5 : Int) ≤ Binary64.rnd (c * Binary64.rnd 111.27) ∧
      0 ≤ Binary64.rnd (3600 / Binary64.rnd (c * Binary64.rnd 111.27)) ∧
      Binary64.rnd (3600 / Binary64.rnd (c * Binary64.rnd 111.27)) ≤ (2 : ℚ) ^ (17 : Int) := by
  obtain ⟨h64, h128⟩ := Binary64.c111_bounds
  have hc0 : (0 : ℚ) < c := lt_of_lt_of_le (by positivity) hc1
  have hlo : (2 : ℚ) ^ (-5 : Int) ≤ c * Binary64.rnd 111.27 := by
    have : (2 : ℚ) ^ (-11 : Int) * 64 ≤ c * Binary64.rnd 111.27 :=
      mul_le_mul hc1 h64 (by norm_num) hc0.le
    refine le_trans (le_of_eq ?_) this
    norm_num
  have hhi : c * Binary64.rnd 111.27 ≤ (2 : ℚ) ^ (7 : Int) := by
    have : c * Binary64.rnd 111.27 ≤ 1 * 128 := mul_le_mul hc2 h128 (by linarith) (by norm_num)
    refine this.trans (le_of_eq ?_)
    norm_num
  have hT1 := Binary64.two_zpow_le_rnd (-5) (by norm_num) hlo
  have hT2 := Binary64.rnd_le_two_zpow 7 (by norm_num) hhi
  have hTpos : (0 : ℚ) < Binary64.rnd (c * Binary64.rnd 111.27) :=
    lt_of_lt_of_le (by positivity) hT1
  have hq0 : (0 : ℚ) ≤ 3600 / Binary64.rnd (c * Binary64.rnd 111.27) :=
    div_nonneg (by norm_num) hTpos.le
  have hq : 3600 / Binary64.rnd (c * Binary64.rnd 111.27) ≤ (2 : ℚ) ^ (17 : Int) := by
    rw [div_le_iff₀ hTpos]
    have : (2 : ℚ) ^ (17 : Int) * (2 : ℚ) ^ (-5 : Int) ≤
        (2 : ℚ) ^ (17 : Int) * Binary64.rnd (c * Binary64.rnd 111.27) :=
      mul_le_mul_of_nonneg_left hT1 (by positivity)
    refine le_trans ?_ this
    norm_num
  refine ⟨?_, hT1, Binary64.rnd_nonneg hq0, Binary64.rnd_le_two_zpow 17 (by norm_num) hq⟩
  unfold Binary64.mul Binary64.div
  rw [Binary64.round_c111]
  simp only [Double.mul, Option.bind_eq_bind, Option.some_bind]
  rw [Binary64.round_some 7 (by norm_num) (by norm_num)
    (by rw [abs_of_pos (by positivity)]; exact hhi)]
  simp only [Double.div, hTpos.ne', if_false, Option.some_bind]
  rw [Binary64.round_some 17 (by norm_num) (by norm_num) (by rw [abs_of_nonneg hq0]; exact hq)]

theorem Binary64.gridSize_eq (aRadius : Int) (k : ℚ) (hk0 : 0 ≤ k)
    (hk : k ≤ (2 : ℚ) ^ (17 : Int)) (hr : 0 < aRadius) (hr32 : aRadius < 2 ^ 31) :
    Binary64.gridSize aRadius (some k) =
      some (Binary64.rnd (Binary64.rnd (k * aRadius) / 3600)) := by
  have hR0 : (0 : ℚ) < (aRadius : ℚ) := by exact_mod_cast hr
  have hR : (aRadius : ℚ) ≤ (2 : ℚ) ^ (31 : Int) := by
    have : (aRadius : ℚ) < ((2 ^ 31 : Int) : ℚ) := by exact_mod_cast hr32
    norm_num at this ⊢
    exact this.le
  have hm0 : (0 : ℚ) ≤ k * aRadius := mul_nonneg hk0 hR0.le
  have hm : k * aRadius ≤ (2 : ℚ) ^ (48 : Int) := by
    have : k * aRadius ≤ (2 : ℚ) ^ (17 : Int) * (2 : ℚ) ^ (31 : Int) :=
      mul_le_mul hk hR hR0.le (by positivity)
    refine this.trans (le_of_eq ?_)
    rw [← zpow_add₀ (by norm_num)]
    norm_num
  have hM0 := Binary64.rnd_nonneg hm0
  have hM := Binary64.rnd_le_two_zpow 48 (by norm_num) hm
  have hq0 : (0 : ℚ) ≤ Binary64.rnd (k * aRadius) / 3600 := div_nonneg hM0 (by norm_num)
  have hq : Binary64.rnd (k * aRadius) / 3600 ≤ (2 : ℚ) ^ (48 : Int) := by
    rw [div_le_iff₀ (by norm_num)]
    have : (0 : ℚ) ≤ (2 : ℚ) ^ (48 : Int) := by positivity
    linarith
  unfold Binary64.gridSize Binary64.mul Binary64.div
  simp only [Double.mul, Double.ofInt, Option.bind_eq_bind, Option.some_bind]
  rw [Binary64.round_some 48 (by norm_num) (by norm_num) (by rw [abs_of_nonneg hm0]; exact hm)]
  simp only [Double.div, show (3600 : ℚ) ≠ 0 by norm_num, if_false, Option.some_bind]
  rw [Binary64.round_some 48 (by norm_num) (by norm_num) (by rw [abs_of_nonneg hq0]; exact hq)]

/-- The facts about the C library cosine that the grid size relies on: it is
even; on `[0, 1.5701]` it does not increase and stays between `2^(-11)` and
1. -/
theorem Binary64.cos_range (cos : ℚ → ℚ)
    (hanti : ∀ x y, 0 ≤ x → x ≤ y → y ≤ 15701 / 10000 → cos y ≤ cos x)
    (hlow : ∀ x, 0 ≤ x → x ≤ 15701 / 10000 → (2 : ℚ) ^ (-11 : Int) ≤ cos x)
    (hone : cos 0 ≤ 1) (L : ℚ) (h0 : 0 ≤ L) (hL : L ≤ 90) :
    (2 : ℚ) ^ (-11 : Int) ≤
        cos (Binary64.rnd (Binary64.rnd (L * Binary64.rnd 3.14) / 180)) ∧
      cos (Binary64.rnd (Binary64.rnd (L * Binary64.rnd 3.14) / 180)) ≤ 1 := by
  obtain ⟨hf0, hf1⟩ := Binary64.fi_range L h0 hL
  exact ⟨hlow _ hf0 hf1, (hanti 0 _ le_rfl hf0 hf1).trans hone⟩

theorem Binary64.lonWidth_eq (cos : ℚ → ℚ) (aRadius : Int)
    (hanti : ∀ x y, 0 ≤ x → x ≤ y → y ≤ 15701 / 10000 → cos y ≤ cos x)
    (hlow : ∀ x, 0 ≤ x → x ≤ 15701 / 10000 → (2 : ℚ) ^ (-11 : Int) ≤ cos x)
    (hone : cos 0 ≤ 1) (hr : 0 < aRadius) (hr32 : aRadius < 2 ^ 31)
    (L : ℚ) (h0 : 0 ≤ L) (hL : L ≤ 90) :
    Binary64.gridSize aRadius (Binary64.CalcLonKmSize cos (some L)) =
      some (Binary64.lonWidth cos aRadius L) := by
  obtain ⟨hc1, hc2⟩ := Binary64.cos_range cos hanti hlow hone L h0 hL
  obtain ⟨hkm, _, hk0, hk⟩ := Binary64.kmSize_eq _ hc1 hc2
  unfold Binary64.CalcLonKmSize
  simp only
  rw [(Binary64.fi_eq L (by rw [abs_of_nonneg h0]; exact hL)).1, Option.map_some', hkm,
    Binary64.gridSize_eq aRadius _ hk0 hk hr hr32]
  rfl

theorem Binary64.lonWidth_mono (cos : ℚ → ℚ) (aRadius : Int)
    (hanti : ∀ x y, 0 ≤ x → x ≤ y → y ≤ 15701 / 10000 → cos y ≤ cos x)
    (hlow : ∀ x, 0 ≤ x → x ≤ 15701 / 10000 → (2 : ℚ) ^ (-11 : Int) ≤ cos x)
    (hone : cos 0 ≤ 1) (hr : 0 < aRadius)
    (a b : ℚ) (h0 : 0 ≤ a) (hab : a ≤ b) (hb : b ≤ 90) :
    Binary64.lonWidth cos aRadius a ≤ Binary64.lonWidth cos aRadius b := by
  have hb0 : 0 ≤ b := h0.trans hab
  obtain ⟨hfa0, _⟩ := Binary64.fi_range a h0 (hab.trans hb)
  obtain ⟨_, hfb1⟩ := Binary64.fi_range b hb0 hb
  have hcos := hanti _ _ hfa0 (Binary64.fi_mono hab) hfb1
  obtain ⟨hcb1, hcb2⟩ := Binary64.cos_range cos hanti hlow hone b hb0 hb
  obtain ⟨_, hTb, _, _⟩ := Binary64.kmSize_eq _ hcb1 hcb2
  obtain ⟨h64, _⟩ := Binary64.c111_bounds
  have hT : Binary64.rnd (cos (Binary64.rnd (Binary64.rnd (b * Binary64.rnd 3.14) / 180)) *
      Binary64.rnd 111.27) ≤
      Binary64.rnd (cos (Binary64.rnd (Binary64.rnd (a * Binary64.rnd 3.14) / 180)) *
        Binary64.rnd 111.27) :=
    Binary64.rnd_mono (mul_le_mul_of_nonneg_right hcos (by linarith))
  have hTbpos : (0 : ℚ) < Binary64.rnd
      (cos (Binary64.rnd (Binary64.rnd (b * Binary64.rnd 3.14) / 180)) * Binary64.rnd 111.27) :=
    lt_of_lt_of_le (by positivity) hTb
  have hR0 : (0 : ℚ) ≤ (aRadius : ℚ) := by exact_mod_cast hr.le
  unfold Binary64.lonWidth
  apply Binary64.rnd_mono
  apply div_le_div_of_nonneg_right _ (by norm_num)
  apply Binary64.rnd_mono
  apply mul_le_mul_of_nonneg_right _ hR0
  apply Binary64.rnd_mono
  exact div_le_div_of_nonneg_left (by norm_num) hTbpos hT

theorem Binary64.CalcLonKmSize_abs (cos : ℚ → ℚ) (heven : ∀ x, cos (-x) = cos x) (L : ℚ)
    (hL : |L| ≤ 90) :
    Binary64.CalcLonKmSize cos (some L) = Binary64.CalcLonKmSize cos (some |L|) := by
  rcases le_total 0 L with h | h
  · rw [abs_of_nonneg h]
  · rw [abs_of_nonpos h]
    unfold Binary64.CalcLonKmSize
    simp only
    rw [(Binary64.fi_eq L hL).1, (Binary64.fi_eq (-L) (by rw [abs_neg]; exact hL)).1,
      Option.map_some', Option.map_some', neg_mul, Binary64.rnd_neg, neg_div, Binary64.rnd_neg,
      heven]

/-- C6 (as the code has it): in binary64 arithmetic, for a radius above zero
and two latitudes `a`, `b` with `|a| ≤ |b| < 90`, the longitude grid cell
width that `CalcLonByGridAlgorithm` hands to `GridAlgorithm`
(`kmSize * radius / 3600`, `kmSize` derived from the latitude) is finite at
both latitudes and not larger at `a` than at `b`, for every C library cosine
that is even and, on `[0, 1.5701]`, does not increase and stays between
`2^(-11)` and 1. -/
theorem lonGridSize64_mono (cos : ℚ → ℚ) (aRadius : Int) (a b : ℚ)
    (heven : ∀ x, cos (-x) = cos x)
    (hanti : ∀ x y, 0 ≤ x → x ≤ y → y ≤ 15701 / 10000 → cos y ≤ cos x)
    (hlow : ∀ x, 0 ≤ x → x ≤ 15701 / 10000 → (2 : ℚ) ^ (-11 : Int) ≤ cos x)
    (hone : cos 0 ≤ 1) (hr : 0 < aRadius) (hr32 : aRadius < 2 ^ 31)
    (hab : |a| ≤ |b|) (hb : |b| < 90) :
    ∃ wa wb : ℚ,
      Binary64.gridSize aRadius (Binary64.CalcLonKmSize cos (some a)) = some wa ∧
      Binary64.gridSize aRadius (Binary64.CalcLonKmSize cos (some b)) = some wb ∧
      wa ≤ wb := by
  have ha : |a| ≤ 90 := hab.trans hb.le
  refine ⟨Binary64.lonWidth cos aRadius |a|, Binary64.lonWidth cos aRadius |b|, ?_, ?_, ?_⟩
  · rw [Binary64.CalcLonKmSize_abs cos heven a ha]
    exact Binary64.lonWidth_eq cos aRadius hanti hlow hone hr hr32 |a| (abs_nonneg a) ha
  · rw [Binary64.CalcLonKmSize_abs cos heven b hb.le]
    exact Binary64.lonWidth_eq cos aRadius hanti hlow hone hr hr32 |b| (abs_nonneg b) hb.le
  · exact Binary64.lonWidth_mono cos aRadius hanti hlow hone hr |a| |b| (abs_nonneg a) hab hb.le

theorem Binary64.cosNearZero_even (x : ℚ) :
    Binary64.cosNearZero (-x) = Binary64.cosNearZero x := by
  unfold Binary64.cosNearZero
  rw [abs_neg]

theorem Binary64.cosNearZero_anti (x y : ℚ) (hx : 0 ≤ x) (hxy : x ≤ y) :
    Binary64.cosNearZero y ≤ Binary64.cosNearZero x := by
  unfold Binary64.cosNearZero
  rw [abs_of_nonneg hx, abs_of_nonneg (hx.trans hxy)]
  by_cases hy : y ≤ (2 : ℚ) ^ (-27 : Int)
  · rw [if_pos hy, if_pos (hxy.trans hy)]
  · rw [if_neg hy]
    split <;> norm_num

theorem Binary64.cosNearZero_low (x : ℚ) : (2 : ℚ) ^ (-11 : Int) ≤ Binary64.cosNearZero x := by
  unfold Binary64.cosNearZero
  split <;> norm_num

theorem Binary64.cosNearZero_zero : Binary64.cosNearZero 0 = 1 := by
  unfold Binary64.cosNearZero
  rw [if_pos]
  rw [abs_zero]
  positivity

/-- The real cosine of an argument of magnitude at most `2^(-27)` is within
`2^(-55)` of 1, a quarter of the distance from 1 to the binary64 value below
it. -/
theorem Binary64.cos_near_one (x : ℝ) (hx : |x| ≤ (2 : ℝ) ^ (-27 : Int)) :
    1 - (2 : ℝ) ^ (-55 : Int) ≤ Real.cos x ∧ Real.cos x ≤ 1 := by
  refine ⟨?_, Real.cos_le_one x⟩
  have h1 := Real.one_sub_sq_div_two_le_cos (x := x)
  have h2 : x ^ 2 ≤ ((2 : ℝ) ^ (-27 : Int)) ^ 2 := by
    rw [← sq_abs x]
    exact pow_le_pow_left₀ (abs_nonneg x) hx 2
  have h3 : ((2 : ℝ) ^ (-27 : Int)) ^ 2 / 2 = (2 : ℝ) ^ (-55 : Int) := by norm_num
  have h4 : x ^ 2 / 2 ≤ (2 : ℝ) ^ (-55 : Int) := by
    rw [← h3]
    exact div_le_div_of_nonneg_right h2 (by norm_num)
  exact (sub_le_sub_left h4 1).trans h1

/-- Every rational within `2^(-55)` below 1 rounds to the binary64 value 1. -/
theorem Binary64.rnd_near_one (q : ℚ) (h1 : 1 - (2 : ℚ) ^ (-55 : Int) ≤ q) (h2 : q ≤ 1) :
    Binary64.rnd q = 1 := by
  have hone : Binary64.rnd 1 = 1 := by
    have := Binary64.rnd_two_zpow 0 (by norm_num)
    simpa using this
  refine le_antisymm (hone ▸ Binary64.rnd_mono h2) ?_
  refine le_trans ?_ (Binary64.rnd_mono h1)
  have hx0 : (0 : ℚ) < 1 - (2 : ℚ) ^ (-55 : Int) := by norm_num
  have hlog : Int.log 2 |1 - (2 : ℚ) ^ (-55 : Int)| = -1 := by
    rw [abs_of_pos hx0]
    apply le_antisymm
    · have : Int.log 2 (1 - (2 : ℚ) ^ (-55 : Int)) < 0 := by
        apply (Int.lt_zpow_iff_log_lt (by norm_num) hx0).mp
        norm_num
      omega
    · apply (Int.zpow_le_iff_le_log (by norm_num) hx0).mp
      norm_num
  have hu : Binary64.ulp (1 - (2 : ℚ) ^ (-55 : Int)) = (2 : ℚ) ^ (-53 : Int) := by
    rw [Binary64.ulp_eq, hlog]
    norm_num
  have hre := abs_le.mp (Binary64.roundEven_sub_le
    ((1 - (2 : ℚ) ^ (-55 : Int)) / (2 : ℚ) ^ (-53 : Int)))
  have hm : (1 - (2 : ℚ) ^ (-55 : Int)) / (2 : ℚ) ^ (-53 : Int) =
      (((2 : Int) ^ 53 : Int) : ℚ) - 1 / 4 := by norm_num
  rw [hm] at hre
  have hge : (2 : Int) ^ 53 ≤
      Binary64.roundEven ((((2 : Int) ^ 53 : Int) : ℚ) - 1 / 4) := by
    have : ((((2 : Int) ^ 53 : Int) : ℚ)) - 1 <
        (Binary64.roundEven ((((2 : Int) ^ 53 : Int) : ℚ) - 1 / 4) : ℚ) := by linarith [hre.1]
    have h' : (2 : Int) ^ 53 - 1 <
        Binary64.roundEven ((((2 : Int) ^ 53 : Int) : ℚ) - 1 / 4) := by exact_mod_cast this
    omega
  unfold Binary64.rnd
  rw [hu, hm]
  have hq : ((((2 : Int) ^ 53 : Int) : ℚ)) ≤
      (Binary64.roundEven ((((2 : Int) ^ 53 : Int) : ℚ) - 1 / 4) : ℚ) := by exact_mod_cast hge
  have : (1 : ℚ) = (((2 : Int) ^ 53 : Int) : ℚ) * (2 : ℚ) ^ (-53 : Int) := by norm_num
  exact (le_of_eq this).trans (mul_le_mul_of_nonneg_right hq (by positivity))

/-- C6 (counterexample): the latitudes 0 and `2^(-24)` are binary64 values of
different magnitude below 90; `fi` is 0 for the first and at most `2^(-27)`
for the second, where the real cosine is within `2^(-55)` of 1 and every such
value rounds to 1; so the binary64 longitude grid width for radius 1 is the
same finite value at both: it is not strictly smaller at the first. -/
theorem lonGridSize64_counterexample :
    |(0 : ℚ)| < |(2 : ℚ) ^ (-24 : Int)| ∧ |(2 : ℚ) ^ (-24 : Int)| < 90 ∧
      Binary64.rnd 0 = 0 ∧ Binary64.rnd ((2 : ℚ) ^ (-24 : Int)) = (2 : ℚ) ^ (-24 : Int) ∧
      Binary64.fi (some 0) = some 0 ∧
      (∃ f : ℚ, Binary64.fi (some ((2 : ℚ) ^ (-24 : Int))) = some f ∧
        |f| ≤ (2 : ℚ) ^ (-27 : Int)) ∧
      (∃ w : ℚ,
        Binary64.gridSize 1 (Binary64.CalcLonKmSize Binary64.cosNearZero (some 0)) = some w ∧
        Binary64.gridSize 1 (Binary64.CalcLonKmSize Binary64.cosNearZero
          (some ((2 : ℚ) ^ (-24 : Int)))) = some w) ∧
      (∀ x : ℝ, |x| ≤ (2 : ℝ) ^ (-27 : Int) →
        1 - (2 : ℝ) ^ (-55 : Int) ≤ Real.cos x ∧ Real.cos x ≤ 1) ∧
      ∀ q : ℚ, 1 - (2 : ℚ) ^ (-55 : Int) ≤ q → q ≤ 1 → Binary64.rnd q = 1 := by
  obtain ⟨h3, h4, _⟩ := Binary64.c314_bounds
  have hfi0 : Binary64.fi (some 0) = some 0 := by
    rw [(Binary64.fi_eq 0 (by norm_num)).1]
    simp [Binary64.rnd_zero]
  have hb90 : |(2 : ℚ) ^ (-24 : Int)| ≤ 90 := by
    rw [abs_of_pos (by positivity)]
    norm_num
  have hfib := (Binary64.fi_eq ((2 : ℚ) ^ (-24 : Int)) hb90).1
  have hf0 : 0 ≤ Binary64.rnd (Binary64.rnd ((2 : ℚ) ^ (-24 : Int) * Binary64.rnd 3.14) / 180) :=
    (Binary64.fi_range _ (by positivity) (by norm_num)).1
  have hf1 : Binary64.rnd (Binary64.rnd ((2 : ℚ) ^ (-24 : Int) * Binary64.rnd 3.14) / 180) ≤
      (2 : ℚ) ^ (-27 : Int) := by
    apply Binary64.rnd_le_two_zpow (-27) (by norm_num)
    have hp : Binary64.rnd ((2 : ℚ) ^ (-24 : Int) * Binary64.rnd 3.14) ≤ (2 : ℚ) ^ (-22 : Int) := by
      apply Binary64.rnd_le_two_zpow (-22) (by norm_num)
      have : (2 : ℚ) ^ (-24 : Int) * Binary64.rnd 3.14 ≤ (2 : ℚ) ^ (-24 : Int) * 4 :=
        mul_le_mul_of_nonneg_left h4 (by positivity)
      refine this.trans (le_of_eq ?_)
      norm_num
    rw [div_le_iff₀ (by norm_num)]
    refine hp.trans ?_
    norm_num
  have hcosb : Binary64.cosNearZero
      (Binary64.rnd (Binary64.rnd ((2 : ℚ) ^ (-24 : Int) * Binary64.rnd 3.14) / 180)) = 1 := by
    unfold Binary64.cosNearZero
    rw [if_pos]
    rw [abs_of_nonneg hf0]
    exact hf1
  obtain ⟨hkm, _, hk0, hk⟩ := Binary64.kmSize_eq 1 (by norm_num) le_rfl
  have hw := Binary64.gridSize_eq 1 _ hk0 hk (by norm_num) (by norm_num)
  have hkm0 : Binary64.CalcLonKmSize Binary64.cosNearZero (some 0) =
      some (Binary64.rnd (3600 / Binary64.rnd (1 * Binary64.rnd 111.27))) := by
    unfold Binary64.CalcLonKmSize
    simp only
    rw [hfi0, Option.map_some', Binary64.cosNearZero_zero, hkm]
  have hkmb : Binary64.CalcLonKmSize Binary64.cosNearZero (some ((2 : ℚ) ^ (-24 : Int))) =
      some (Binary64.rnd (3600 / Binary64.rnd (1 * Binary64.rnd 111.27))) := by
    unfold Binary64.CalcLonKmSize
    simp only
    rw [hfib, Option.map_some', hcosb, hkm]
  refine ⟨?_, ?_, Binary64.rnd_zero, Binary64.rnd_two_zpow (-24) (by norm_num), hfi0,
    ⟨_, hfib, by rw [abs_of_nonneg hf0]; exact hf1⟩, ⟨_, by rw [hkm0]; exact hw,
      by rw [hkmb]; exact hw⟩, Binary64.cos_near_one, Binary64.rnd_near_one⟩
  · rw [abs_zero, abs_of_pos (by positivity)]
    positivity
  · rw [abs_of_pos (by positivity)]
    norm_num

theorem lonGridSize64_mono_witness :
    (∀ x, Binary64.cosNearZero (-x) = Binary64.cosNearZero x) ∧
      Binary64.cosNearZero 0 ≤ 1 ∧ (0 : Int) < 7 ∧ (7 : Int) < 2 ^ 31 ∧
      |(-30 : ℚ)| ≤ |(60 : ℚ)| ∧ |(60 : ℚ)| < 90 ∧
      ∃ wa wb : ℚ,
        Binary64.gridSize 7 (Binary64.CalcLonKmSize Binary64.cosNearZero (some (-30))) =
          some wa ∧
        Binary64.gridSize 7 (Binary64.CalcLonKmSize Binary64.cosNearZero (some 60)) = some wb ∧
        wa ≤ wb :=
  ⟨Binary64.cosNearZero_even, Binary64.cosNearZero_zero.le, by norm_num, by norm_num,
    by norm_num [abs_of_pos], by norm_num [abs_of_pos],
    lonGridSize64_mono Binary64.cosNearZero 7 (-30) 60 Binary64.cosNearZero_even
      (fun x y hx hxy _ => Binary64.cosNearZero_anti x y hx hxy)
      (fun x _ _ => Binary64.cosNearZero_low x) Binary64.cosNearZero_zero.le
      (by norm_num) (by norm_num) (by norm_num [abs_of_pos]) (by norm_num [abs_of_pos])⟩

/-- The real cosine has the properties that the binary64 comparison of the
longitude grid widths asks of the C library cosine: it is even, and on `[0, 1.5701]` it does not increase and
stays between `2^(-11)` and 1. -/
theorem Binary64.real_cos_facts :
    (∀ x : ℝ, Real.cos (-x) = Real.cos x) ∧
      (∀ x y : ℝ, 0 ≤ x → x ≤ y → y ≤ 15701 / 10000 → Real.cos y ≤ Real.cos x) ∧
      (∀ x : ℝ, 0 ≤ x → x ≤ 15701 / 10000 → (2 : ℝ) ^ (-11 : Int) ≤ Real.cos x) ∧
      Real.cos 0 ≤ 1 := by
  have hpi : (3.1415 : ℝ) < Real.pi := Real.pi_gt_d4
  refine ⟨Real.cos_neg, ?_, ?_, by simp⟩
  · intro x y hx hxy hy
    exact Real.cos_le_cos_of_nonneg_of_le_pi hx (by linarith) hxy
  · intro x hx0 hx
    rw [← Real.sin_pi_div_two_sub]
    have hy1 : (65 / 100000 : ℝ) ≤ Real.pi / 2 - x := by linarith
    have hy2 : Real.pi / 2 - x ≤ Real.pi / 2 := by linarith
    have h1 : Real.sin (65 / 100000) ≤ Real.sin (Real.pi / 2 - x) :=
      Real.sin_le_sin_of_le_of_le_pi_div_two (by linarith) hy2 hy1
    have h2 := Real.sin_gt_sub_cube (x := (65 / 100000 : ℝ)) (by norm_num) (by norm_num)
    have h3 : (2 : ℝ) ^ (-11 : Int) ≤ 65 / 100000 - (65 / 100000) ^ 3 / 4 := by norm_num
    linarith

end Gecko
